import Mathlib

/-!
SyncDir: event aggregation, transmission schedule, file transfer and hash index.

A shallow embedding of the parts of the SyncDir client and server that the
specification talks about, followed by theorems about them.

Conventions of the embedding:

* C strings are `String`s, one `Char` standing for one byte; `strlen` is `String.length`.
* `DWORD` values are natural numbers reduced modulo `2 ^ 32` where the code can overflow.
* pointers to watch nodes are addresses (`Nat`) into an explicit heap of allocated nodes;
  `none` is the `NULL` pointer and an address that is not in the heap is a dangling pointer.
* a `std::unordered_map` is the list of its key/value pairs in iteration order;
  the theorems about the drain hold for every such order, and a new key enters at the end.
* system calls (socket, file system, inotify) are oracle functions passed as arguments.
-/

namespace SyncDir

/-! ## Essential types (`syncdir_essential_def_types.h`) -/

/-- The three-level status `SDSTATUS` (`STATUS_FAIL = -1`, `STATUS_SUCCESS = 0`, `STATUS_WARNING = 1`). -/
inductive SDSTATUS where
  | STATUS_FAIL
  | STATUS_SUCCESS
  | STATUS_WARNING
  deriving DecidableEq, Repr

open SDSTATUS

/-- The macro `SUCCESS(x)`, that is `0 <= x`. -/
def SUCCESS : SDSTATUS → Bool
  | STATUS_FAIL => false
  | STATUS_SUCCESS => true
  | STATUS_WARNING => true

/-- The macro `SUCCESS_KEEP_WARNING(x)`, that is `SUCCESS(x) ? x : STATUS_SUCCESS`. -/
def SUCCESS_KEEP_WARNING (x : SDSTATUS) : SDSTATUS :=
  if SUCCESS x then x else STATUS_SUCCESS

/-- The enumeration `OP_TYPE`. -/
inductive OP_TYPE where
  | opDIRCREATE | opFILCREATE | opCREATE
  | opDIRDELETE | opFILDELETE | opDELETE
  | opDIRMOVEDFROM | opFILMOVEDFROM | opMOVEDFROM
  | opDIRMOVEDTO | opFILMOVEDTO | opMOVEDTO
  | opDIRMOVE | opFILMOVE | opMOVE
  | opMODIFY
  | opUNKNOWN
  deriving DecidableEq, Repr

open OP_TYPE

/-- The enumeration `FILE_TYPE`. -/
inductive FILE_TYPE where
  | ftREGULAR | ftDIRECTORY | ftSYMLINK | ftHARDLINK | ftNONDIR | ftUNKNOWN
  deriving DecidableEq, Repr

open FILE_TYPE

/-- `SD_PACKET_DATA_SIZE`. -/
def SD_PACKET_DATA_SIZE : Nat := 1024

/-- The operation packet `PACKET_OP`; the three lengths are `WORD`s. -/
structure PACKET_OP where
  OperationType : OP_TYPE
  FileType : FILE_TYPE
  RelativePathLength : Nat
  RealRelativePathLength : Nat
  OldRelativePathLength : Nat
  deriving DecidableEq, Repr

/-- The file chunk packet `PACKET_FILE`. -/
structure PACKET_FILE where
  IsEOF : Bool
  ChunkSize : Nat
  FileChunk : List Nat
  deriving DecidableEq, Repr

/-! ## Client types (`syncdir_clt_def_types.h`) -/

/-- The watch node `DIR_WATCH_NODE`; `Parent` and `Subdirs` hold node addresses. -/
structure DIR_WATCH_NODE where
  DirWatchIndex : Nat
  Parent : Option Nat
  Depth : Nat
  DirName : String
  Subdirs : List Nat
  deriving DecidableEq, Repr

/-- The heap of allocated watch nodes, by address. -/
abbrev NodeHeap := List (Nat × DIR_WATCH_NODE)

/-- The directory watch `DIR_WATCH`; `TreeNode` is a node address. -/
structure DIR_WATCH where
  HWatch : Int
  DirRelativePath : String
  DirFullPath : String
  TreeNode : Option Nat
  deriving DecidableEq, Repr

/-- The aggregation record `FILE_INFO`. -/
structure FILE_INFO where
  FileType : FILE_TYPE
  FileExistedBeforeEvents : Bool
  WatchNodeOfParent : Option Nat
  FileName : String
  RelativePath : String
  RealRelativePath : String
  MD5Hash : String
  Inode : Nat
  FileSize : Nat
  WasCreated : Bool
  WasDeleted : Bool
  WasModified : Bool
  WasMovedFromOnly : Bool
  WasMovedToOnly : Bool
  WasMovedFromAndTo : Bool
  MovementCookie : Nat
  OldWatchNodeOfParent : Option Nat
  OldFileName : String
  OldRelativePath : String
  deriving DecidableEq, Repr

/-- The map `std::unordered_map<std::string, FILE_INFO>`, in iteration order. -/
abbrev FileInfoMap := List (String × FILE_INFO)

/-- Reads the node stored at a pointer; `none` for `NULL` and for a dangling pointer. -/
def nodeAt (heap : NodeHeap) : Option Nat → Option DIR_WATCH_NODE
  | none => none
  | some a => (heap.find? (fun e => e.1 == a)).map Prod.snd

/-- The expression `1 + fileInfo->WatchNodeOfParent->Depth` as a `DWORD`
(reading through a pointer that is not live is undefined in C; the model reads depth 0 there). -/
def depthOfFileInfo (heap : NodeHeap) (fi : FILE_INFO) : Nat :=
  (1 + (match nodeAt heap fi.WatchNodeOfParent with
        | some n => n.Depth
        | none => 0)) % 2 ^ 32

/-! ## Transmission (`syncdir_clt_data_transfer.cpp`) -/

/-- One call of a `Send...ToServer` routine that reached the socket, with its arguments. -/
inductive SendCall where
  | Delete (op : PACKET_OP) (FileRelativePath : String)
  | Modify (op : PACKET_OP) (FileRelativePath FileFullPath : String) (FileSize : Nat)
  | Move (op : PACKET_OP) (FileNewRelativePath FileOldRelativePath : String)
  | Create (op : PACKET_OP) (FileRelativePath FileRealRelativePath : String)
  deriving DecidableEq, Repr

/-- The operation tag carried by a send call. -/
def SendCall.opType : SendCall → OP_TYPE
  | .Delete op _ => op.OperationType
  | .Modify op _ _ _ => op.OperationType
  | .Move op _ _ => op.OperationType
  | .Create op _ _ => op.OperationType

/-- The current relative path carried by a send call. -/
def SendCall.path : SendCall → String
  | .Delete _ p => p
  | .Modify _ p _ _ => p
  | .Move _ p _ => p
  | .Create _ p _ => p

/-- `SendDeleteToServer`: parameter validation, then the socket part (`sock`). -/
def SendDeleteToServer (sock : SendCall → SDSTATUS) (op : PACKET_OP) (FileRelativePath : String) :
    SDSTATUS :=
  if FileRelativePath = "" then STATUS_FAIL
  else sock (.Delete op FileRelativePath)

/-- `SendModifyToServer`: parameter validation, then the socket part (`sock`), which stands for
the digest, the exchange with the server and the file transfer. -/
def SendModifyToServer (sock : SendCall → SDSTATUS) (op : PACKET_OP)
    (FileRelativePath FileFullPath : String) (FileSize : Nat) : SDSTATUS :=
  if FileRelativePath = "" then STATUS_FAIL
  else if FileFullPath = "" then STATUS_FAIL
  else sock (.Modify op FileRelativePath FileFullPath FileSize)

/-- `SendMoveToServer`: parameter validation, then the socket part (`sock`). -/
def SendMoveToServer (sock : SendCall → SDSTATUS) (op : PACKET_OP)
    (FileNewRelativePath FileOldRelativePath : String) : SDSTATUS :=
  if FileNewRelativePath = "" then STATUS_FAIL
  else if FileOldRelativePath = "" then STATUS_FAIL
  else sock (.Move op FileNewRelativePath FileOldRelativePath)

/-- `SendCreateToServer`: parameter validation, then the socket part (`sock`). -/
def SendCreateToServer (sock : SendCall → SDSTATUS) (op : PACKET_OP)
    (FileRelativePath FileRealRelativePath : String) : SDSTATUS :=
  if FileRelativePath = "" then STATUS_FAIL
  else if op.RealRelativePathLength ≠ 0 ∧ FileRealRelativePath = "" then STATUS_FAIL
  else sock (.Create op FileRelativePath FileRealRelativePath)

/-- Ordered insertion into a `std::set<DWORD>` (ascending, no duplicates). -/
def setInsert (x : Nat) : List Nat → List Nat
  | [] => [x]
  | y :: ys => if x < y then x :: y :: ys else if x = y then y :: ys else y :: setInsert x ys

/-- The collecting loop of `PreprocessEventFileInfosBeforeSending`. -/
def collectDepths (heap : NodeHeap) : FileInfoMap → List Nat → List Nat
  | [], s => s
  | kv :: rest, s =>
    collectDepths heap rest
      (if kv.2.FileType = ftDIRECTORY then setInsert (depthOfFileInfo heap kv.2) s else s)

/-- `PreprocessEventFileInfosBeforeSending`: the set of depths of the directory records. -/
def PreprocessEventFileInfosBeforeSending (heap : NodeHeap) (FileInfoHMap : FileInfoMap)
    (SetOfDepths : List Nat) : SDSTATUS × List Nat :=
  if FileInfoHMap.length ≤ 0 then (STATUS_FAIL, SetOfDepths)
  else if 0 ≠ SetOfDepths.length then (STATUS_FAIL, SetOfDepths)
  else (STATUS_SUCCESS, collectDepths heap FileInfoHMap SetOfDepths)

/-- The packet built for a record before the event checks (lines 1406-1429):
file type and the three path lengths, the operation tag still `opUNKNOWN`. -/
def buildPacket (fi : FILE_INFO) : PACKET_OP :=
  { OperationType := opUNKNOWN
    FileType := fi.FileType
    RelativePathLength := fi.RelativePath.length % 2 ^ 16
    RealRelativePathLength :=
      if fi.FileType = ftSYMLINK then fi.RealRelativePath.length % 2 ^ 16 else 0
    OldRelativePathLength :=
      if fi.WasMovedFromAndTo = true then fi.OldRelativePath.length % 2 ^ 16 else 0 }

/-- The event checks 1 to 6 of the drain loop body for one record taken out of the map:
the status (`STATUS_FAIL` stands for the thrown exception) and the send calls that succeeded. -/
def sendFileInfoEvent (sock : SendCall → SDSTATUS) (crtFileFullPath : String) (crtFileSize : Nat)
    (fi : FILE_INFO) : SDSTATUS × List SendCall :=
  let opToSend := buildPacket fi
  if fi.WasDeleted = true then
    if fi.FileExistedBeforeEvents = true then
      let op := { opToSend with OperationType := opDELETE }
      if SUCCESS (SendDeleteToServer sock op fi.RelativePath) then
        (STATUS_SUCCESS, [.Delete op fi.RelativePath])
      else (STATUS_FAIL, [])
    else (STATUS_SUCCESS, [])
  else if fi.WasMovedFromOnly = true then
    if fi.FileExistedBeforeEvents = true then
      let op := { opToSend with OperationType := opMOVEDFROM }
      if SUCCESS (SendDeleteToServer sock op fi.RelativePath) then
        (STATUS_SUCCESS, [.Delete op fi.RelativePath])
      else (STATUS_FAIL, [])
    else (STATUS_SUCCESS, [])
  else if fi.WasMovedToOnly = true ∧ fi.WasMovedFromAndTo = false then
    if fi.FileType ≠ ftDIRECTORY then
      let op := { opToSend with OperationType := opFILMOVEDTO }
      if SUCCESS (SendModifyToServer sock op fi.RelativePath crtFileFullPath crtFileSize) then
        (STATUS_SUCCESS, [.Modify op fi.RelativePath crtFileFullPath crtFileSize])
      else (STATUS_FAIL, [])
    else (STATUS_SUCCESS, [])
  else if fi.WasMovedFromAndTo = true then
    if fi.WasModified = true then
      let op1 := { opToSend with OperationType := opFILMOVE }
      if SUCCESS (SendMoveToServer sock op1 fi.RelativePath fi.OldRelativePath) then
        let op2 := { opToSend with OperationType := opMODIFY }
        if SUCCESS (SendModifyToServer sock op2 fi.RelativePath crtFileFullPath crtFileSize) then
          (STATUS_SUCCESS, [.Move op1 fi.RelativePath fi.OldRelativePath,
                            .Modify op2 fi.RelativePath crtFileFullPath crtFileSize])
        else (STATUS_FAIL, [.Move op1 fi.RelativePath fi.OldRelativePath])
      else (STATUS_FAIL, [])
    else
      let op := { opToSend with OperationType := opMOVE }
      if SUCCESS (SendMoveToServer sock op fi.RelativePath fi.OldRelativePath) then
        (STATUS_SUCCESS, [.Move op fi.RelativePath fi.OldRelativePath])
      else (STATUS_FAIL, [])
  else if fi.WasModified = true then
    let op := { opToSend with OperationType := opMODIFY }
    if SUCCESS (SendModifyToServer sock op fi.RelativePath crtFileFullPath crtFileSize) then
      (STATUS_SUCCESS, [.Modify op fi.RelativePath crtFileFullPath crtFileSize])
    else (STATUS_FAIL, [])
  else if fi.WasCreated = true then
    let op := { opToSend with OperationType := opCREATE }
    if SUCCESS (SendCreateToServer sock op fi.RelativePath fi.RealRelativePath) then
      (STATUS_SUCCESS, [.Create op fi.RelativePath fi.RealRelativePath])
    else (STATUS_FAIL, [])
  else (STATUS_SUCCESS, [])

/-- The body of the drain loop for a record taken out of the map (lines 1384-1664): the full
path of the file (the main directory, `/`, the relative path without its first two
characters), its size by `lstat` (0 when `lstat` fails), then the event checks. -/
def drainCalls (sock : SendCall → SDSTATUS) (lstatSize : String → Option Nat)
    (MainDirFullPath : String) (fi : FILE_INFO) : SDSTATUS × List SendCall :=
  let crtFileFullPath := MainDirFullPath ++ "/" ++ fi.RelativePath.drop 2
  let crtFileSize := ((lstatSize crtFileFullPath).getD 0) % 2 ^ 32
  sendFileInfoEvent sock crtFileFullPath crtFileSize fi

/-- What the drain produced: the status, the map it leaves, the records it took out of the
map (in order) and the send calls that succeeded (in order). -/
structure DrainOut where
  status : SDSTATUS
  map : FileInfoMap
  taken : List FILE_INFO
  sent : List SendCall
  deriving DecidableEq, Repr

/-- The head of the `for` loop of `SendAllFileInfoEventsToServer` (lines 1325-1341).
The iterator `it` is the split of the map into the pairs already passed and the pairs from
`it` on; `crtDepth` is the rest of the sorted set of depths (empty at `end()`).
`none`: the map is empty and the loop is left. Otherwise the pairs before `it`, the pair at
`it`, the pairs after it and `crtDepth`, after the restart `it = begin()`, `crtDepth ++`
that happens when `it` is at `end()`. -/
def drainCursor (passed rest : FileInfoMap) (crtDepth : List Nat) :
    Option (FileInfoMap × (String × FILE_INFO) × FileInfoMap × List Nat) :=
  match rest, passed with
  | [], [] => none
  | [], kv :: more => some ([], kv, more, crtDepth.tail)
  | kv :: more, _ => some (passed, kv, more, crtDepth)

/-- The test of lines 1344-1360: the record at `it` is passed over for the moment. -/
def drainSkips (heap : NodeHeap) (crtDepth : List Nat) (fi : FILE_INFO) : Bool :=
  match crtDepth with
  | [] => false
  | d :: _ => fi.FileType ≠ ftDIRECTORY || d ≠ depthOfFileInfo heap fi

/-- The `for` loop of `SendAllFileInfoEventsToServer` (lines 1325-1667), with fuel:
one unit per evaluation of the loop condition. -/
def drainLoop (sock : SendCall → SDSTATUS) (lstatSize : String → Option Nat)
    (MainDirFullPath : String) (heap : NodeHeap) :
    Nat → FileInfoMap → FileInfoMap → List Nat → Option DrainOut
  | 0, _, _, _ => none
  | fuel + 1, passed, rest, crtDepth =>
    match drainCursor passed rest crtDepth with
    | none => some ⟨STATUS_SUCCESS, [], [], []⟩
    | some (passed1, kv, more, crtDepth1) =>
      if drainSkips heap crtDepth1 kv.2 then
        drainLoop sock lstatSize MainDirFullPath heap fuel (passed1 ++ [kv]) more crtDepth1
      else
        let fi := kv.2
        let r := drainCalls sock lstatSize MainDirFullPath fi
        if SUCCESS r.1 then
          (drainLoop sock lstatSize MainDirFullPath heap fuel passed1 more crtDepth1).map
            (fun o => { o with taken := fi :: o.taken, sent := r.2 ++ o.sent })
        else some ⟨STATUS_FAIL, passed1 ++ more, [fi], r.2⟩

/-- `SendAllFileInfoEventsToServer`, with fuel for its loop. -/
def SendAllFileInfoEventsToServer (sock : SendCall → SDSTATUS) (lstatSize : String → Option Nat)
    (MainDirFullPath : String) (heap : NodeHeap) (fuel : Nat) (FileInfoHMap : FileInfoMap) :
    Option DrainOut :=
  if MainDirFullPath = "" then some ⟨STATUS_FAIL, FileInfoHMap, [], []⟩
  else if FileInfoHMap.length ≤ 0 then some ⟨STATUS_SUCCESS, FileInfoHMap, [], []⟩
  else
    let pre := PreprocessEventFileInfosBeforeSending heap FileInfoHMap []
    if SUCCESS pre.1 then
      drainLoop sock lstatSize MainDirFullPath heap fuel [] FileInfoHMap pre.2
    else some ⟨STATUS_FAIL, FileInfoHMap, [], []⟩

/-- Fuel that is enough for the drain of a map: one pass over the map per depth, one more
for the other records, and the final test of the loop condition. -/
def drainFuel (FileInfoHMap : FileInfoMap) : Nat :=
  2 * (FileInfoHMap.length + 1) * (FileInfoHMap.length + 1)

/-- The priority rule of the specification, in its words: the operation tags chosen for a
record, `DELETE > MOVED_FROM > MOVED_TO-only > MOVE (+MODIFY) > MODIFY > CREATE`, where
`DELETE` and `MOVED_FROM` are sent only when the file existed before the events. -/
def specPriorityOps (fi : FILE_INFO) : List OP_TYPE :=
  if fi.WasDeleted then
    (if fi.FileExistedBeforeEvents then [opDELETE] else [])
  else if fi.WasMovedFromOnly then
    (if fi.FileExistedBeforeEvents then [opMOVEDFROM] else [])
  else if fi.WasMovedToOnly && !fi.WasMovedFromAndTo then
    (if fi.FileType = ftDIRECTORY then [] else [opFILMOVEDTO])
  else if fi.WasMovedFromAndTo then
    (if fi.WasModified then [opFILMOVE, opMODIFY] else [opMOVE])
  else if fi.WasModified then [opMODIFY]
  else if fi.WasCreated then [opCREATE]
  else []

/-- A record for the examples: a regular file `./f` that existed and was modified. -/
def exampleModifiedFile : FILE_INFO :=
  { FileType := ftNONDIR, FileExistedBeforeEvents := true, WatchNodeOfParent := some 0,
    FileName := "f", RelativePath := "./f", RealRelativePath := "", MD5Hash := "",
    Inode := 0, FileSize := 0, WasCreated := false, WasDeleted := false, WasModified := true,
    WasMovedFromOnly := false, WasMovedToOnly := false, WasMovedFromAndTo := false,
    MovementCookie := 0, OldWatchNodeOfParent := none, OldFileName := "",
    OldRelativePath := "" }

/-- The order the drain keeps between a record `a` taken out before a record `b`: when the
later one is a directory, the earlier one is a directory too, of at most that depth. -/
def drainBefore (heap : NodeHeap) (a b : FILE_INFO) : Prop :=
  b.FileType = ftDIRECTORY →
    a.FileType = ftDIRECTORY ∧ depthOfFileInfo heap a ≤ depthOfFileInfo heap b

/-- A bound on the number of loop-condition evaluations left in a state of the drain loop. -/
def drainMeasure (passed rest : FileInfoMap) (crtDepth : List Nat) : Nat :=
  match crtDepth with
  | [] => rest.length + 2 * passed.length + 1
  | _ :: _ => rest.length + 1 + crtDepth.length * (2 * (passed.length + rest.length) + 2)

/-! ## Watch registry (`syncdir_clt_watch_manager.c`) -/

/-- `SD_INITIAL_NR_OF_WATCHES`. -/
def SD_INITIAL_NR_OF_WATCHES : Nat := 50

/-- What `lstat` tells about a file: `S_ISDIR`, `S_ISLNK`, or neither. -/
inductive StatKind where
  | dir | link | other
  deriving DecidableEq, Repr

/-- The system calls the client makes, as oracles: `lstat` (`none`: the call fails),
`opendir` with the `readdir` sequence (`none`: `opendir` fails), `realpath`,
`inotify_add_watch` on the inotify instance (negative: failure) and `inotify_rm_watch`. -/
structure SysEnv where
  lstat : String → Option StatKind
  readdir : String → Option (List String)
  realpath : String → Option String
  inotify_add_watch : String → Int
  inotify_rm_watch : Int → Int

/-- The data the client loop owns: the array of directory watches (the slots written so
far; a slot never written holds the values of `InitDirWatchArray`), the number of watches,
the capacity of the array, the heap of watch nodes with the next free address, and the
File-Info map. -/
structure ClientState where
  Watches : List DIR_WATCH
  NumberOfWatches : Nat
  gWatchesArrayCapacity : Nat
  heap : NodeHeap
  nextAddr : Nat
  FileInfoHMap : FileInfoMap
  deriving DecidableEq, Repr

/-- The values `InitDirWatchArray` gives to a slot. -/
def neutralDirWatch : DIR_WATCH :=
  { HWatch := -1, DirRelativePath := "", DirFullPath := "", TreeNode := none }

/-- The slot `Watches[i]`. -/
def watchAt (ws : List DIR_WATCH) (i : Nat) : DIR_WATCH := ws.getD i neutralDirWatch

/-- The assignment `Watches[i] = w`. -/
def setWatch (ws : List DIR_WATCH) (i : Nat) (w : DIR_WATCH) : List DIR_WATCH :=
  if i < ws.length then ws.set i w
  else ws ++ List.replicate (i - ws.length) neutralDirWatch ++ [w]

/-- Stores a node at a live address. -/
def heapSet (heap : NodeHeap) (a : Nat) (n : DIR_WATCH_NODE) : NodeHeap :=
  heap.map (fun e => if e.1 == a then (a, n) else e)

/-- Frees the node at an address (`free`, `delete`). -/
def heapFree (heap : NodeHeap) (a : Nat) : NodeHeap :=
  heap.filter (fun e => !(e.1 == a))

/-- `DeleteDirWatchByIndex` (lines 50-117): the slot `DelIndex` takes the descriptor and
the two paths of the last slot, the last slot is reset in these three fields, the number
of watches decreases, the inotify watch is removed. The field `TreeNode` is not copied. -/
def DeleteDirWatchByIndex (env : SysEnv) (DelIndex : Nat) (s : ClientState) :
    SDSTATUS × ClientState :=
  if s.gWatchesArrayCapacity < s.NumberOfWatches then (STATUS_FAIL, s)
  else if s.NumberOfWatches ≤ DelIndex then (STATUS_FAIL, s)
  else
    let hWatchToRemove := (watchAt s.Watches DelIndex).HWatch
    let last := watchAt s.Watches (s.NumberOfWatches - 1)
    let ws1 := setWatch s.Watches DelIndex
      { watchAt s.Watches DelIndex with
        HWatch := last.HWatch, DirFullPath := last.DirFullPath,
        DirRelativePath := last.DirRelativePath }
    let ws2 := setWatch ws1 (s.NumberOfWatches - 1)
      { watchAt ws1 (s.NumberOfWatches - 1) with
        HWatch := -1, DirFullPath := "", DirRelativePath := "" }
    let s1 := { s with Watches := ws2, NumberOfWatches := s.NumberOfWatches - 1 }
    if env.inotify_rm_watch hWatchToRemove < 0 then (STATUS_WARNING, s1)
    else (STATUS_SUCCESS, s1)

/-- `ResizeDirWatchArray`: a new array of `SD_INITIAL_NR_OF_WATCHES` more slots, all reset,
into which the first `NumberOfWatches` slots are copied (allocation failure is not modelled). -/
def ResizeDirWatchArray (s : ClientState) : SDSTATUS × ClientState :=
  if s.gWatchesArrayCapacity < s.NumberOfWatches then (STATUS_FAIL, s)
  else (STATUS_SUCCESS,
    { s with Watches := s.Watches.take s.NumberOfWatches,
             gWatchesArrayCapacity := s.gWatchesArrayCapacity + SD_INITIAL_NR_OF_WATCHES })

/-- `CreateDirWatchForDirectory`: a new inotify watch, stored in the slot `NumberOfWatches`. -/
def CreateDirWatchForDirectory (env : SysEnv) (DirRelativePath DirFullPath : String)
    (WatchNodeOfDir : Option Nat) (s : ClientState) : SDSTATUS × ClientState :=
  if DirFullPath = "" then (STATUS_FAIL, s)
  else if DirRelativePath = "" then (STATUS_FAIL, s)
  else if s.gWatchesArrayCapacity < s.NumberOfWatches then (STATUS_FAIL, s)
  else
    let r := if s.gWatchesArrayCapacity = s.NumberOfWatches then ResizeDirWatchArray s
             else (STATUS_SUCCESS, s)
    if !SUCCESS r.1 then (STATUS_FAIL, r.2)
    else
      let s1 := r.2
      let newHWatch := env.inotify_add_watch DirFullPath
      if newHWatch < 0 then (STATUS_FAIL, s1)
      else (STATUS_SUCCESS,
        { s1 with
          Watches := setWatch s1.Watches s1.NumberOfWatches
            { HWatch := newHWatch, DirRelativePath := DirRelativePath,
              DirFullPath := DirFullPath, TreeNode := WatchNodeOfDir }
          NumberOfWatches := s1.NumberOfWatches + 1 })

/-- `GetDirWatchIndexByHandle` (lines 293-325): the scan of the first `NumberOfWatches`
slots for the descriptor, compared as unsigned 32-bit values. `out` is the value the caller
has in `*WatchIndexFound` before the call; it is left as it is when no slot matches, and the
routine returns `STATUS_SUCCESS` in both cases. -/
def GetDirWatchIndexByHandle (HWatchToFind : Int) (s : ClientState) (out : Nat) :
    SDSTATUS × Nat :=
  if s.gWatchesArrayCapacity < s.NumberOfWatches then (STATUS_FAIL, out)
  else
    (STATUS_SUCCESS,
      match (List.range s.NumberOfWatches).find?
          (fun i => (watchAt s.Watches i).HWatch % 2 ^ 32 == HWatchToFind % 2 ^ 32) with
      | some i => i
      | none => out)

/-! ## Watch tree (`syncdir_clt_watch_tree.cpp`)

Where the C code would read or write through a pointer that is `NULL` or not live, the
model ends the routine with `STATUS_FAIL`. -/

/-- `GetChildWatchNodeByDirName`: the first child of `ParentNode` whose name is `DirName`,
or `NULL`. -/
def GetChildWatchNodeByDirName (heap : NodeHeap) (ParentNode : Option Nat) (DirName : String) :
    SDSTATUS × Option Nat :=
  match ParentNode with
  | none => (STATUS_FAIL, none)
  | some p =>
    if DirName = "" then (STATUS_FAIL, none)
    else
      match nodeAt heap (some p) with
      | none => (STATUS_FAIL, none)
      | some n =>
        (STATUS_SUCCESS,
          n.Subdirs.find? (fun a =>
            match nodeAt heap (some a) with
            | some c => c.DirName == DirName
            | none => false))

/-- `DeleteWatchAndNodeOfDir` (lines 214-311): removes the directory watch of the node by its
index, erases the node from the children of its parent, frees the node (also on failure). -/
def DeleteWatchAndNodeOfDir (env : SysEnv) (DirWatchNode : Option Nat) (s : ClientState) :
    SDSTATUS × ClientState :=
  match DirWatchNode with
  | none => (STATUS_FAIL, s)
  | some a =>
    match nodeAt s.heap (some a) with
    | none => (STATUS_FAIL, s)
    | some n =>
      let r := DeleteDirWatchByIndex env n.DirWatchIndex s
      if !SUCCESS r.1 then (STATUS_FAIL, { r.2 with heap := heapFree r.2.heap a })
      else
        match n.Parent with
        | none => (STATUS_FAIL, { r.2 with heap := heapFree r.2.heap a })
        | some p =>
          match nodeAt r.2.heap (some p) with
          | none => (STATUS_FAIL, { r.2 with heap := heapFree r.2.heap a })
          | some pn =>
            if a ∈ pn.Subdirs then
              (STATUS_SUCCESS,
                { r.2 with
                  heap := heapFree
                    (heapSet r.2.heap p { pn with Subdirs := pn.Subdirs.erase a }) a })
            else (STATUS_FAIL, { r.2 with heap := heapFree r.2.heap a })

/-- The loop of `DeleteWatchesAndNodesOfSubdirs` (lines 386-410) over its stack (top first),
with fuel: one unit per pop. -/
def deleteSubdirsLoop (env : SysEnv) :
    Nat → List Nat → ClientState → Option (SDSTATUS × ClientState)
  | 0, _, _ => none
  | _ + 1, [], s => some (STATUS_SUCCESS, s)
  | fuel + 1, nodeToExplore :: stack, s =>
    match nodeAt s.heap (some nodeToExplore) with
    | none => some (STATUS_FAIL, s)
    | some n =>
      if n.Subdirs.length = 0 then
        let r := DeleteWatchAndNodeOfDir env (some nodeToExplore) s
        if !SUCCESS r.1 then some (STATUS_FAIL, r.2)
        else deleteSubdirsLoop env fuel stack r.2
      else
        deleteSubdirsLoop env fuel (n.Subdirs.reverse ++ nodeToExplore :: stack) s

/-- `DeleteWatchesAndNodesOfSubdirs`: destroys the subtree of `StartNode` in postorder. -/
def DeleteWatchesAndNodesOfSubdirs (env : SysEnv) (fuel : Nat) (StartNode : Option Nat)
    (s : ClientState) : Option (SDSTATUS × ClientState) :=
  match StartNode with
  | none => some (STATUS_FAIL, s)
  | some a => deleteSubdirsLoop env fuel [a] s

/-- `InitWatchNode`. -/
def InitWatchNode : DIR_WATCH_NODE :=
  { DirWatchIndex := 0, Parent := none, Depth := 0, DirName := "<NO_EXISTENT_DIR>",
    Subdirs := [] }

/-- `AddChildWatchNodeToTree` (lines 556-612). -/
def AddChildWatchNodeToTree (IsRootNode : Bool) (ChildWatchIndex ParentWatchIndex : Nat)
    (DirName : String) (s : ClientState) : SDSTATUS × ClientState :=
  if IsRootNode = false ∧ (s.gWatchesArrayCapacity < ChildWatchIndex ∨
      s.gWatchesArrayCapacity < ParentWatchIndex) then (STATUS_FAIL, s)
  else if DirName = "" then (STATUS_FAIL, s)
  else
    match (watchAt s.Watches ChildWatchIndex).TreeNode with
    | none => (STATUS_FAIL, s)
    | some c =>
      if IsRootNode = false then
        match (watchAt s.Watches ParentWatchIndex).TreeNode with
        | none => (STATUS_FAIL, s)
        | some p =>
          match nodeAt s.heap (some p) with
          | none => (STATUS_FAIL, s)
          | some pn =>
            let heap1 := heapSet s.heap p { pn with Subdirs := pn.Subdirs ++ [c] }
            match nodeAt heap1 (some c) with
            | none => (STATUS_FAIL, { s with heap := heap1 })
            | some cn =>
              (STATUS_SUCCESS,
                { s with
                  heap := heapSet heap1 c
                    { cn with
                      Parent := some p, Depth := (pn.Depth + 1) % 2 ^ 32,
                      DirWatchIndex := ChildWatchIndex, DirName := DirName } })
      else
        match nodeAt s.heap (some c) with
        | none => (STATUS_FAIL, s)
        | some cn =>
          (STATUS_SUCCESS,
            { s with
              heap := heapSet s.heap c
                { cn with
                  Parent := none, Depth := 0,
                  DirWatchIndex := ChildWatchIndex, DirName := DirName } })

/-- `CreateWatchNode`: allocates a node with the values of `InitWatchNode` and stores its
address in `Watches[CrtWatchIndex].TreeNode`. -/
def CreateWatchNode (CrtWatchIndex : Nat) (s : ClientState) : SDSTATUS × ClientState :=
  if s.gWatchesArrayCapacity < CrtWatchIndex then (STATUS_FAIL, s)
  else
    (STATUS_SUCCESS,
      { s with
        heap := s.heap ++ [(s.nextAddr, InitWatchNode)]
        nextAddr := s.nextAddr + 1
        Watches := setWatch s.Watches CrtWatchIndex
          { watchAt s.Watches CrtWatchIndex with TreeNode := some s.nextAddr } })

/-- The loop of `UpdatePathsForSubTreeWatches` (lines 810-829) over its queue, with fuel:
one unit per pop. -/
def updatePathsLoop : Nat → List Nat → ClientState → Option (SDSTATUS × ClientState)
  | 0, _, _ => none
  | _ + 1, [], s => some (STATUS_SUCCESS, s)
  | fuel + 1, nodeToExplore :: queue, s =>
    match nodeAt s.heap (some nodeToExplore) with
    | none => some (STATUS_FAIL, s)
    | some n =>
      match nodeAt s.heap n.Parent with
      | none => some (STATUS_FAIL, s)
      | some pn =>
        let parentWatch := watchAt s.Watches pn.DirWatchIndex
        let ws1 := setWatch s.Watches n.DirWatchIndex
          { watchAt s.Watches n.DirWatchIndex with
            DirRelativePath := parentWatch.DirRelativePath ++ "/" ++ n.DirName }
        let parentWatch1 := watchAt ws1 pn.DirWatchIndex
        let ws2 := setWatch ws1 n.DirWatchIndex
          { watchAt ws1 n.DirWatchIndex with
            DirFullPath := parentWatch1.DirFullPath ++ "/" ++ n.DirName }
        updatePathsLoop fuel (queue ++ n.Subdirs)
          { s with
            Watches := ws2
            heap := heapSet s.heap nodeToExplore { n with Depth := (pn.Depth + 1) % 2 ^ 32 } }

/-- `UpdatePathsForSubTreeWatches`. -/
def UpdatePathsForSubTreeWatches (fuel : Nat) (StartNode : Option Nat) (s : ClientState) :
    Option (SDSTATUS × ClientState) :=
  match StartNode with
  | none => some (STATUS_FAIL, s)
  | some a => updatePathsLoop fuel [a] s

/-- `CheckWatchNodeExistenceForCleanup` (lines 903-993): when the parent has a child named
`DirName`, that child is destroyed by `DeleteWatchAndNodeOfDir`. -/
def CheckWatchNodeExistenceForCleanup (env : SysEnv) (DirName : String)
    (WatchNodeOfParentDir : Option Nat) (s : ClientState) : SDSTATUS × ClientState :=
  if DirName = "" then (STATUS_FAIL, s)
  else if WatchNodeOfParentDir = none then (STATUS_FAIL, s)
  else if s.gWatchesArrayCapacity < s.NumberOfWatches then (STATUS_FAIL, s)
  else
    let g := GetChildWatchNodeByDirName s.heap WatchNodeOfParentDir DirName
    if !SUCCESS g.1 then (STATUS_FAIL, s)
    else
      match g.2 with
      | none => (STATUS_SUCCESS, s)
      | some c =>
        let r := DeleteWatchAndNodeOfDir env (some c) s
        if !SUCCESS r.1 then (STATUS_FAIL, r.2) else (STATUS_SUCCESS, r.2)

/-! ## File-Info records (`syncdir_clt_file_info_proc.cpp`, not among the sources) -/

/-- The lookup `FileInfoHMap.find(key)`. -/
def mapFind (m : FileInfoMap) (key : String) : Option FILE_INFO :=
  (m.find? (fun kv => kv.1 == key)).map Prod.snd

/-- An assignment through a pointer to the record stored under `key`. -/
def mapModify (m : FileInfoMap) (key : String) (f : FILE_INFO → FILE_INFO) : FileInfoMap :=
  m.map (fun kv => if kv.1 == key then (kv.1, f kv.2) else kv)

/-- The removal `FileInfoHMap.erase(key)`. -/
def mapErase (m : FileInfoMap) (key : String) : FileInfoMap :=
  m.filter (fun kv => !(kv.1 == key))

/-- A path lies under a directory: it is the directory path, a `/`, and a remainder. -/
def pathUnder (dir path : String) : Bool :=
  (dir ++ "/").toList.isPrefixOf path.toList

/-- Modelled from the spec: `InitFileInfo` of the missing `syncdir_clt_file_info_proc.cpp`.
A record with neutral values: kind unknown, no flag set, movement cookie 0 (none), no
paths, no parent. -/
def InitFileInfo : FILE_INFO :=
  { FileType := ftUNKNOWN, FileExistedBeforeEvents := false, WatchNodeOfParent := none,
    FileName := "", RelativePath := "", RealRelativePath := "", MD5Hash := "",
    Inode := 0, FileSize := 0, WasCreated := false, WasDeleted := false,
    WasModified := false, WasMovedFromOnly := false, WasMovedToOnly := false,
    WasMovedFromAndTo := false, MovementCookie := 0, OldWatchNodeOfParent := none,
    OldFileName := "", OldRelativePath := "" }

/-- Modelled from the spec: `InsertNewFileInfo` of the missing
`syncdir_clt_file_info_proc.cpp`. The record enters the map under its current relative path
(the map key equals the current relative path); a key already present is a failure. -/
def InsertNewFileInfo (newFileInfo : FILE_INFO) (m : FileInfoMap) : SDSTATUS × FileInfoMap :=
  if (mapFind m newFileInfo.RelativePath).isSome then (STATUS_FAIL, m)
  else (STATUS_SUCCESS, m ++ [(newFileInfo.RelativePath, newFileInfo)])

/-- Modelled from the spec: `FindFileInfoByMovementCookie` of the missing
`syncdir_clt_file_info_proc.cpp`. The search by cookie is a linear scan of the entries; the
result is the key of the first record that carries the cookie. The cookie 0 means none and
matches nothing. -/
def FindFileInfoByMovementCookie (cookie : Nat) (m : FileInfoMap) : SDSTATUS × Option String :=
  if cookie = 0 then (STATUS_SUCCESS, none)
  else (STATUS_SUCCESS, (m.find? (fun kv => kv.2.MovementCookie == cookie)).map Prod.fst)

/-- Modelled from the spec: `UpdateFileInfoPath` of the missing
`syncdir_clt_file_info_proc.cpp`. The record stored under `key` has its path, name and parent
rewritten to the new location, its old parent, old short name and old relative path
populated with the previous ones, and it is re-keyed in the map under the new path. -/
def UpdateFileInfoPath (key : String) (NewWatchNodeOfParent : Option Nat)
    (NewFileName NewRelativePath : String) (m : FileInfoMap) : SDSTATUS × FileInfoMap :=
  match mapFind m key with
  | none => (STATUS_FAIL, m)
  | some fi =>
    let moved : FILE_INFO :=
      { fi with
        OldWatchNodeOfParent := fi.WatchNodeOfParent
        OldFileName := fi.FileName
        OldRelativePath := fi.RelativePath
        WatchNodeOfParent := NewWatchNodeOfParent
        FileName := NewFileName
        RelativePath := NewRelativePath }
    (STATUS_SUCCESS, mapErase (mapErase m key) NewRelativePath ++ [(NewRelativePath, moved)])

/-- Modelled from the spec: `DeleteAllFileInfosForDir` of the missing
`syncdir_clt_file_info_proc.cpp`. Cascade-deletes all File-Infos whose path is under the
deleted directory; the record of the directory itself stays. -/
def DeleteAllFileInfosForDir (DirRelativePath : String) (m : FileInfoMap) :
    SDSTATUS × FileInfoMap :=
  (STATUS_SUCCESS, m.filter (fun kv => !pathUnder DirRelativePath kv.1))

/-- Modelled from the spec: `SetMovementCookiesForDirMovedFrom` of the missing
`syncdir_clt_file_info_proc.cpp`. Stamps the cookie into every File-Info whose path lies
under the moved directory. -/
def SetMovementCookiesForDirMovedFrom (cookie : Nat) (DirRelativePath : String)
    (m : FileInfoMap) : SDSTATUS × FileInfoMap :=
  (STATUS_SUCCESS,
    m.map (fun kv =>
      if pathUnder DirRelativePath kv.1 then (kv.1, { kv.2 with MovementCookie := cookie })
      else kv))

/-! ## Symbolic links (`syncdir_utile.c`) -/

/-- `IsSymbolicLinkValid` (lines 47-125): the status, the value written to `*IsSymLinkValid`
(`none`: not written) and the string written to `FileRealRelativePath` (`none`: not
written). The link is valid when the first `strlen(MainDirFullPath)` characters of the real
path are `MainDirFullPath`. -/
def IsSymbolicLinkValid (env : SysEnv) (FileFullPath MainDirFullPath : String) :
    SDSTATUS × Option Bool × Option String :=
  if FileFullPath = "" then (STATUS_FAIL, none, none)
  else if MainDirFullPath = "" then (STATUS_FAIL, none, none)
  else
    match env.realpath FileFullPath with
    | none => (STATUS_FAIL, none, some "")
    | some fileRealFullPath =>
      if MainDirFullPath.toList.isPrefixOf fileRealFullPath.toList then
        (STATUS_SUCCESS, some true,
          some ("." ++ fileRealFullPath.drop MainDirFullPath.length))
      else (STATUS_SUCCESS, some false, some fileRealFullPath)

/-! ## Watch structures for a directory tree (`syncdir_clt_watch_manager.c`) -/

mutual

/-- `CreateWatchStructuresForAllSubdirectories` (lines 568-771), with fuel: one unit per
call and per directory entry. -/
def CreateWatchStructuresForAllSubdirectories (env : SysEnv) :
    Nat → Nat → ClientState → Option (SDSTATUS × ClientState)
  | 0, _, _ => none
  | fuel + 1, RootDirWatchIndex, s =>
    if s.gWatchesArrayCapacity < s.NumberOfWatches then some (STATUS_FAIL, s)
    else if s.NumberOfWatches < RootDirWatchIndex then some (STATUS_FAIL, s)
    else
      match env.readdir (watchAt s.Watches RootDirWatchIndex).DirFullPath with
      | none => some (STATUS_WARNING, s)
      | some entries => createWatchStructuresLoop env fuel RootDirWatchIndex entries s

/-- The `while` loop of `CreateWatchStructuresForAllSubdirectories` over the entries that
`readdir` still has to return. -/
def createWatchStructuresLoop (env : SysEnv) :
    Nat → Nat → List String → ClientState → Option (SDSTATUS × ClientState)
  | 0, _, _, _ => none
  | _ + 1, _, [], s => some (STATUS_SUCCESS, s)
  | fuel + 1, RootDirWatchIndex, name :: rest, s =>
    if name = "." ∨ name = ".." then
      createWatchStructuresLoop env fuel RootDirWatchIndex rest s
    else
      let root := watchAt s.Watches RootDirWatchIndex
      match env.lstat (root.DirFullPath ++ "/" ++ name) with
      | some StatKind.dir =>
        let crtWatchIndex := s.NumberOfWatches
        let subdirFullPath := root.DirFullPath ++ "/" ++ name
        let subdirRelativePath := root.DirRelativePath ++ "/" ++ name
        let r1 := CreateDirWatchForDirectory env subdirRelativePath subdirFullPath none s
        if !SUCCESS r1.1 then some (STATUS_FAIL, r1.2)
        else
          let r2 := CreateWatchNode crtWatchIndex r1.2
          if !SUCCESS r2.1 then some (STATUS_FAIL, r2.2)
          else
            let r3 := AddChildWatchNodeToTree false crtWatchIndex RootDirWatchIndex name r2.2
            if !SUCCESS r3.1 then some (STATUS_FAIL, r3.2)
            else
              match CreateWatchStructuresForAllSubdirectories env fuel crtWatchIndex r3.2 with
              | none => none
              | some r4 => createWatchStructuresLoop env fuel RootDirWatchIndex rest r4.2
      | _ => createWatchStructuresLoop env fuel RootDirWatchIndex rest s

end

/-! ## Event aggregation (`syncdir_clt_events.cpp`) -/

/-- The bits of an inotify event mask. -/
def IN_MODIFY : Nat := 0x2
/-- The bit `IN_MOVED_FROM`. -/
def IN_MOVED_FROM : Nat := 0x40
/-- The bit `IN_MOVED_TO`. -/
def IN_MOVED_TO : Nat := 0x80
/-- The bit `IN_CREATE`. -/
def IN_CREATE : Nat := 0x100
/-- The bit `IN_DELETE`. -/
def IN_DELETE : Nat := 0x200
/-- The bit `IN_ISDIR`. -/
def IN_ISDIR : Nat := 0x40000000

/-- The kernel event `struct inotify_event`. -/
structure InotifyEvent where
  wd : Int
  mask : Nat
  cookie : Nat
  len : Nat
  name : String
  deriving DecidableEq, Repr

/-- The event data `EVENT_DATA`. -/
structure EVENT_DATA where
  OperationType : OP_TYPE
  RelativePath : String
  FullPath : String
  FileName : String
  WatchIndex : Nat
  Cookie : Nat
  IsDirectory : Bool
  FileExistedBeforeEvents : Bool
  deriving DecidableEq, Repr

/-- `InitEventData`. `FileExistedBeforeEvents` is not set by the routine; the one caller sets
it before use, and the model starts it at `false`. -/
def InitEventData : EVENT_DATA :=
  { OperationType := opUNKNOWN, RelativePath := "", FullPath := "", FileName := "",
    WatchIndex := 0, Cookie := 0, IsDirectory := false, FileExistedBeforeEvents := false }

/-- The local variables of `ProcessOperationAndAggregate` after its initialisation part.
`fileInfoToAggregate` is the pointer to the record found in the map, held as its key. -/
structure EventContext where
  status : SDSTATUS
  eventWatchIndex : Nat
  eventCookie : Nat
  eventIsForDirectory : Bool
  eventRelativePath : String
  eventFullPath : String
  eventFileName : String
  eventWatchNode : Option Nat
  fileInfoToAggregate : Option String
  newFileInfo : FILE_INFO
  deriving DecidableEq, Repr

/-- How the initialisation part ends: by a thrown exception with a status, or by going on
to the `switch`. -/
inductive InitResult where
  | ended (status : SDSTATUS) (s : ClientState)
  | go (ctx : EventContext) (s : ClientState)

/-- Init I of `ProcessOperationAndAggregate` (lines 1008-1040): watch index, directory bit,
cookie, relative path, full path and file name of the event; `none` when
`GetDirWatchIndexByHandle` fails. -/
def eventFields (Event : Option InotifyEvent) (DataOfEvent : Option EVENT_DATA)
    (s : ClientState) : Option (Nat × Bool × Nat × String × String × String) :=
  match DataOfEvent, Event with
  | some d, _ =>
    some (d.WatchIndex, d.IsDirectory, d.Cookie, d.RelativePath, d.FullPath, d.FileName)
  | none, some e =>
    let g := GetDirWatchIndexByHandle e.wd s 0
    if !SUCCESS g.1 then none
    else
      let w := watchAt s.Watches g.2
      some (g.2, decide (IN_ISDIR &&& e.mask ≠ 0), e.cookie,
        w.DirRelativePath ++ "/" ++ e.name, w.DirFullPath ++ "/" ++ e.name, e.name)
  | none, none => none

/-- Init VI (lines 1132-1158) finds the event file to be a symbolic link whose real path is
not inside the main directory: the event is skipped with a warning. -/
def symLinkEscapes (env : SysEnv) (MainDirFullPath eventFullPath : String) : Bool :=
  env.lstat eventFullPath == some StatKind.link &&
    (IsSymbolicLinkValid env eventFullPath MainDirFullPath).1 == STATUS_SUCCESS &&
    (IsSymbolicLinkValid env eventFullPath MainDirFullPath).2.1 == some false

/-- The initialisation part of `ProcessOperationAndAggregate` (lines 1008-1158). -/
def processInit (env : SysEnv) (Event : Option InotifyEvent) (DataOfEvent : Option EVENT_DATA)
    (s : ClientState) : InitResult :=
  match eventFields Event DataOfEvent s with
  | none => .ended STATUS_FAIL s
  | some (eventWatchIndex, eventIsForDirectory, eventCookie, eventRelativePath,
      eventFullPath, eventFileName) =>
    let eventWatchNode := (watchAt s.Watches eventWatchIndex).TreeNode
    let fileInfoToAggregate :=
      if (mapFind s.FileInfoHMap eventRelativePath).isSome then some eventRelativePath
      else none
    let newFileInfo : FILE_INFO :=
      { InitFileInfo with
        RelativePath := eventRelativePath
        FileName := eventFileName
        WatchNodeOfParent := eventWatchNode
        FileType := if eventIsForDirectory then ftDIRECTORY else ftNONDIR }
    let ctx : EventContext :=
      { status := STATUS_SUCCESS, eventWatchIndex := eventWatchIndex,
        eventCookie := eventCookie, eventIsForDirectory := eventIsForDirectory,
        eventRelativePath := eventRelativePath, eventFullPath := eventFullPath,
        eventFileName := eventFileName, eventWatchNode := eventWatchNode,
        fileInfoToAggregate := fileInfoToAggregate, newFileInfo := newFileInfo }
    if env.lstat eventFullPath = some StatKind.link then
      let r := IsSymbolicLinkValid env eventFullPath (watchAt s.Watches 0).DirFullPath
      let status := if !SUCCESS r.1 then STATUS_WARNING else r.1
      let isSymLinkValid := r.2.1.getD false
      let newFileInfo1 :=
        { newFileInfo with RealRelativePath := r.2.2.getD newFileInfo.RealRelativePath }
      if isSymLinkValid = true ∧ status = STATUS_SUCCESS then
        .go { ctx with status := status,
                       newFileInfo := { newFileInfo1 with FileType := ftSYMLINK } }
          (match fileInfoToAggregate with
           | some key =>
             { s with FileInfoHMap := mapModify s.FileInfoHMap key (fun fi =>
                 { fi with FileType := ftSYMLINK,
                           RealRelativePath := newFileInfo1.RealRelativePath }) }
           | none => s)
      else if status = STATUS_SUCCESS then .ended STATUS_WARNING s
      else .go { ctx with status := status, newFileInfo := newFileInfo1 } s
    else .go ctx s

/-- The loop of `UpdatePathsByCookieForDirMovedFromAndTo` over the File-Info map (lines
772-854). `done` are the pairs already visited, the second list the pairs still to visit,
`appended` the re-keyed pairs inserted meanwhile (their cookie is 0, a later visit leaves
them as they are). -/
def cookieLoop (env : SysEnv) (s : ClientState) (MatchingCookie : Nat) :
    FileInfoMap → FileInfoMap → FileInfoMap → SDSTATUS × FileInfoMap
  | done, [], appended => (STATUS_SUCCESS, done ++ appended)
  | done, kv :: rest, appended =>
    if MatchingCookie = kv.2.MovementCookie then
      match nodeAt s.heap kv.2.WatchNodeOfParent with
      | none => (STATUS_FAIL, done ++ kv :: rest ++ appended)
      | some pn =>
        let w := watchAt s.Watches pn.DirWatchIndex
        let fi1 := { kv.2 with RelativePath := w.DirRelativePath ++ "/" ++ kv.2.FileName }
        let r := if fi1.FileType = ftSYMLINK then
            IsSymbolicLinkValid env (w.DirFullPath ++ "/" ++ fi1.FileName)
              (watchAt s.Watches 0).DirFullPath
          else (STATUS_SUCCESS, none, none)
        let fi2 := { fi1 with RealRelativePath := r.2.2.getD fi1.RealRelativePath }
        if !SUCCESS r.1 then (STATUS_FAIL, done ++ (kv.1, fi2) :: rest ++ appended)
        else
          let fi3 := { fi2 with MovementCookie := 0 }
          if kv.2.RelativePath ≠ fi3.RelativePath then
            if (mapFind (done ++ kv :: rest ++ appended) fi3.RelativePath).isSome then
              (STATUS_FAIL, done ++ (kv.1, fi3) :: rest ++ appended)
            else cookieLoop env s MatchingCookie done rest (appended ++ [(fi3.RelativePath, fi3)])
          else cookieLoop env s MatchingCookie (done ++ [(kv.1, fi3)]) rest appended
    else cookieLoop env s MatchingCookie (done ++ [kv]) rest appended

/-- The cut and paste of the moved node in the watch tree and its new name, parent and depth
(lines 709-736). -/
def reparentWatchNode (moved : Nat) (oldParent NewWatchNodeOfParentDir : Option Nat)
    (NewDirName : String) (s : ClientState) : SDSTATUS × ClientState :=
  match NewWatchNodeOfParentDir, nodeAt s.heap NewWatchNodeOfParentDir with
  | some np, some npn =>
    let r : SDSTATUS × NodeHeap :=
      if NewWatchNodeOfParentDir ≠ oldParent then
        let heap1 := heapSet s.heap np { npn with Subdirs := npn.Subdirs ++ [moved] }
        match oldParent, nodeAt heap1 oldParent with
        | some op, some opn =>
          if moved ∈ opn.Subdirs then
            (STATUS_SUCCESS, heapSet heap1 op { opn with Subdirs := opn.Subdirs.erase moved })
          else (STATUS_FAIL, heap1)
        | _, _ => (STATUS_FAIL, heap1)
      else (STATUS_SUCCESS, s.heap)
    if !SUCCESS r.1 then (STATUS_FAIL, { s with heap := r.2 })
    else
      match nodeAt r.2 (some moved), nodeAt r.2 NewWatchNodeOfParentDir with
      | some mn, some npn2 =>
        (STATUS_SUCCESS,
          { s with
            heap := heapSet r.2 moved
              { mn with DirName := NewDirName, Parent := NewWatchNodeOfParentDir,
                        Depth := (npn2.Depth + 1) % 2 ^ 32 } })
      | _, _ => (STATUS_FAIL, { s with heap := r.2 })
  | _, _ => (STATUS_FAIL, s)

/-- `UpdatePathsByCookieForDirMovedFromAndTo` (lines 620-889). `FileInfoOfDirMoved` is the
pointer to the record of the moved directory, held as its key in the map. -/
def UpdatePathsByCookieForDirMovedFromAndTo (env : SysEnv) (fuel : Nat) (MatchingCookie : Nat)
    (FileInfoOfDirMoved : String) (NewDirRelativePath NewDirName : String)
    (NewWatchNodeOfParentDir : Option Nat) (s : ClientState) :
    Option (SDSTATUS × ClientState) :=
  if MatchingCookie = 0 then some (STATUS_FAIL, s)
  else if NewDirRelativePath = "" then some (STATUS_FAIL, s)
  else if NewDirName = "" then some (STATUS_FAIL, s)
  else if NewWatchNodeOfParentDir = none then some (STATUS_FAIL, s)
  else if s.gWatchesArrayCapacity < s.NumberOfWatches then some (STATUS_FAIL, s)
  else
    match mapFind s.FileInfoHMap FileInfoOfDirMoved with
    | none => some (STATUS_FAIL, s)
    | some fi =>
      let oldWatchNodeOfParentDir := fi.WatchNodeOfParent
      let oldDirName := fi.FileName
      let c := if NewWatchNodeOfParentDir ≠ oldWatchNodeOfParentDir then
          CheckWatchNodeExistenceForCleanup env NewDirName NewWatchNodeOfParentDir s
        else (STATUS_SUCCESS, s)
      if !SUCCESS c.1 then some (STATUS_FAIL, c.2)
      else
        let g := GetChildWatchNodeByDirName c.2.heap oldWatchNodeOfParentDir oldDirName
        if !SUCCESS g.1 then some (STATUS_FAIL, c.2)
        else
          match g.2 with
          | none => some (STATUS_FAIL, c.2)
          | some watchNodeOfMovedDir =>
            let p := reparentWatchNode watchNodeOfMovedDir oldWatchNodeOfParentDir
              NewWatchNodeOfParentDir NewDirName c.2
            if !SUCCESS p.1 then some (STATUS_FAIL, p.2)
            else
              match UpdatePathsForSubTreeWatches fuel (some watchNodeOfMovedDir) p.2 with
              | none => none
              | some u =>
                if !SUCCESS u.1 then some (STATUS_FAIL, u.2)
                else
                  let f := UpdateFileInfoPath FileInfoOfDirMoved NewWatchNodeOfParentDir
                    NewDirName NewDirRelativePath u.2.FileInfoHMap
                  if !SUCCESS f.1 then some (STATUS_FAIL, { u.2 with FileInfoHMap := f.2 })
                  else
                    let l := cookieLoop env u.2 MatchingCookie [] f.2 []
                    some (l.1, { u.2 with FileInfoHMap := l.2 })

/-- The `DELETE` case before its directory part (lines 1213-1234). -/
def aggregateDelete (ctx : EventContext) (s : ClientState) : SDSTATUS × ClientState :=
  match ctx.fileInfoToAggregate with
  | none =>
    let r := InsertNewFileInfo
      { ctx.newFileInfo with FileExistedBeforeEvents := true, WasDeleted := true }
      s.FileInfoHMap
    (r.1, { s with FileInfoHMap := r.2 })
  | some key =>
    (ctx.status,
      { s with FileInfoHMap := mapModify s.FileInfoHMap key (fun fi =>
          { fi with WasDeleted := true }) })

/-- The `MOVED_FROM` case (lines 1289-1333). -/
def aggregateMovedFrom (ctx : EventContext) (s : ClientState) : SDSTATUS × ClientState :=
  let r : SDSTATUS × ClientState :=
    match ctx.fileInfoToAggregate with
    | none =>
      let i := InsertNewFileInfo
        { ctx.newFileInfo with
          FileExistedBeforeEvents := true, WasMovedFromOnly := true, WasDeleted := false,
          WasMovedFromAndTo := false, MovementCookie := ctx.eventCookie }
        s.FileInfoHMap
      (i.1, { s with FileInfoHMap := i.2 })
    | some key =>
      (ctx.status,
        { s with FileInfoHMap := mapModify s.FileInfoHMap key (fun fi =>
            { fi with WasMovedFromOnly := true, WasDeleted := false,
                      WasMovedFromAndTo := false, MovementCookie := ctx.eventCookie }) })
  if !SUCCESS r.1 then (STATUS_FAIL, r.2)
  else if ctx.eventIsForDirectory = true then
    let c := SetMovementCookiesForDirMovedFrom ctx.eventCookie ctx.eventRelativePath
      r.2.FileInfoHMap
    if !SUCCESS c.1 then (STATUS_FAIL, { r.2 with FileInfoHMap := c.2 })
    else (SUCCESS_KEEP_WARNING c.1, { r.2 with FileInfoHMap := c.2 })
  else (SUCCESS_KEEP_WARNING r.1, r.2)

/-- The `MODIFY` case (lines 1512-1542), also the target of the jump from `FIL_MOVED_TO`. -/
def aggregateModify (DataOfEvent : Option EVENT_DATA) (ctx : EventContext) (s : ClientState) :
    SDSTATUS × ClientState :=
  match ctx.fileInfoToAggregate with
  | none =>
    let i := InsertNewFileInfo
      { ctx.newFileInfo with
        FileExistedBeforeEvents :=
          (match DataOfEvent with
           | some d => d.FileExistedBeforeEvents
           | none => true)
        WasModified := true, WasDeleted := false, WasMovedFromOnly := false,
        WasMovedFromAndTo := false }
      s.FileInfoHMap
    if !SUCCESS i.1 then (STATUS_FAIL, { s with FileInfoHMap := i.2 })
    else (SUCCESS_KEEP_WARNING i.1, { s with FileInfoHMap := i.2 })
  | some key =>
    (SUCCESS_KEEP_WARNING ctx.status,
      { s with FileInfoHMap := mapModify s.FileInfoHMap key (fun fi =>
          { fi with WasModified := true, WasDeleted := false, WasMovedFromOnly := false }) })

/-- The `CREATE` case before its directory part (lines 1565-1596), also the target of the
jump from `DIR_MOVED_TO`. -/
def aggregateCreate (OperationType : OP_TYPE) (ctx : EventContext) (s : ClientState) :
    SDSTATUS × ClientState :=
  match ctx.fileInfoToAggregate with
  | none =>
    let i := InsertNewFileInfo
      { ctx.newFileInfo with
        FileExistedBeforeEvents := decide (OperationType = opDIRMOVEDTO)
        WasCreated := true, WasDeleted := false, WasMovedFromOnly := false,
        WasMovedFromAndTo := false, WasModified := false }
      s.FileInfoHMap
    (i.1, { s with FileInfoHMap := i.2 })
  | some key =>
    (ctx.status,
      { s with FileInfoHMap := mapModify s.FileInfoHMap key (fun fi =>
          { fi with WasCreated := true, WasDeleted := false, WasMovedFromOnly := false,
                    WasMovedFromAndTo := false, WasModified := false }) })

/-- The `FIL_MOVE` part of the `FIL_MOVED_TO` case (lines 1464-1484), for the record found by
its cookie. -/
def aggregateFileMove (key : String) (ctx : EventContext) (s : ClientState) :
    SDSTATUS × ClientState :=
  let m1 := mapModify s.FileInfoHMap key (fun fi =>
    { fi with WasMovedFromAndTo := true, WasDeleted := false, WasMovedFromOnly := false })
  let u := UpdateFileInfoPath key ctx.eventWatchNode ctx.eventFileName ctx.eventRelativePath m1
  if !SUCCESS u.1 then (STATUS_FAIL, { s with FileInfoHMap := u.2 })
  else (SUCCESS_KEEP_WARNING u.1, { s with FileInfoHMap := u.2 })

mutual

/-- `ProcessOperationAndAggregate` (lines 966-1661), with fuel: one unit per call of a
routine of this recursive group and per directory entry scanned. -/
def ProcessOperationAndAggregate (env : SysEnv) :
    Nat → OP_TYPE → Option InotifyEvent → Option EVENT_DATA → ClientState →
      Option (SDSTATUS × ClientState)
  | 0, _, _, _, _ => none
  | fuel + 1, OperationType, Event, DataOfEvent, s =>
    if OperationType = opUNKNOWN then some (STATUS_FAIL, s)
    else if Event = none ∧ DataOfEvent = none then some (STATUS_FAIL, s)
    else if s.gWatchesArrayCapacity < s.NumberOfWatches then some (STATUS_FAIL, s)
    else
      match processInit env Event DataOfEvent s with
      | .ended status s1 => some (status, s1)
      | .go ctx s1 =>
        match OperationType with
        | opDIRDELETE | opFILDELETE | opDELETE =>
          let a := aggregateDelete ctx s1
          if !SUCCESS a.1 then some (STATUS_FAIL, a.2)
          else if ctx.eventIsForDirectory = true then
            let d := DeleteAllFileInfosForDir ctx.eventRelativePath a.2.FileInfoHMap
            let s2 := { a.2 with FileInfoHMap := d.2 }
            if !SUCCESS d.1 then some (STATUS_FAIL, s2)
            else
              let g := GetChildWatchNodeByDirName s2.heap ctx.eventWatchNode ctx.eventFileName
              if !SUCCESS g.1 then some (STATUS_FAIL, s2)
              else
                match DeleteWatchesAndNodesOfSubdirs env fuel g.2 s2 with
                | none => none
                | some w =>
                  if !SUCCESS w.1 then some (STATUS_FAIL, w.2)
                  else some (SUCCESS_KEEP_WARNING w.1, w.2)
          else some (SUCCESS_KEEP_WARNING a.1, a.2)
        | opDIRMOVEDFROM | opFILMOVEDFROM | opMOVEDFROM =>
          some (aggregateMovedFrom ctx s1)
        | opDIRMOVEDTO =>
          let f := FindFileInfoByMovementCookie ctx.eventCookie s1.FileInfoHMap
          if !SUCCESS f.1 then some (STATUS_FAIL, s1)
          else
            match f.2 with
            | none =>
              match CreateStructuresAndEventsForDirMovedToOnly env fuel ctx.eventRelativePath
                  ctx.eventFullPath ctx.eventFileName ctx.eventWatchIndex s1 with
              | none => none
              | some c =>
                if !SUCCESS c.1 then some (STATUS_FAIL, c.2)
                else
                  let a := aggregateCreate OperationType
                    { ctx with status := c.1 } c.2
                  if !SUCCESS a.1 then some (STATUS_FAIL, a.2)
                  else some (SUCCESS_KEEP_WARNING a.1, a.2)
            | some key =>
              let s2 := { s1 with FileInfoHMap := mapModify s1.FileInfoHMap key (fun fi =>
                { fi with WasMovedFromAndTo := true, WasDeleted := false,
                          WasMovedFromOnly := false }) }
              match UpdatePathsByCookieForDirMovedFromAndTo env fuel ctx.eventCookie key
                  ctx.eventRelativePath ctx.eventFileName ctx.eventWatchNode s2 with
              | none => none
              | some u =>
                if !SUCCESS u.1 then some (STATUS_FAIL, u.2)
                else some (SUCCESS_KEEP_WARNING u.1, u.2)
        | opFILMOVEDTO =>
          let f := FindFileInfoByMovementCookie ctx.eventCookie s1.FileInfoHMap
          if !SUCCESS f.1 then some (STATUS_FAIL, s1)
          else
            match f.2 with
            | none => some (aggregateModify DataOfEvent { ctx with status := f.1 } s1)
            | some key => some (aggregateFileMove key ctx s1)
        | opMODIFY => some (aggregateModify DataOfEvent ctx s1)
        | opDIRCREATE | opFILCREATE | opCREATE =>
          let a := aggregateCreate OperationType ctx s1
          if !SUCCESS a.1 then some (STATUS_FAIL, a.2)
          else if ctx.eventIsForDirectory = true then
            match CreateStructuresAndEventsForDirMovedToOnly env fuel ctx.eventRelativePath
                ctx.eventFullPath ctx.eventFileName ctx.eventWatchIndex a.2 with
            | none => none
            | some c =>
              if !SUCCESS c.1 then some (STATUS_FAIL, c.2)
              else some (SUCCESS_KEEP_WARNING c.1, c.2)
          else some (SUCCESS_KEEP_WARNING a.1, a.2)
        | _ => some (STATUS_FAIL, s1)

/-- `CreateStructuresAndEventsForDirMovedToOnly` (lines 406-553). -/
def CreateStructuresAndEventsForDirMovedToOnly (env : SysEnv) :
    Nat → String → String → String → Nat → ClientState → Option (SDSTATUS × ClientState)
  | 0, _, _, _, _, _ => none
  | fuel + 1, DirRelativePath, DirFullPath, DirName, EventWatchIndex, s =>
    if DirRelativePath = "" then some (STATUS_FAIL, s)
    else if DirFullPath = "" then some (STATUS_FAIL, s)
    else if DirName = "" then some (STATUS_FAIL, s)
    else if s.gWatchesArrayCapacity < s.NumberOfWatches then some (STATUS_FAIL, s)
    else if s.NumberOfWatches ≤ EventWatchIndex then some (STATUS_FAIL, s)
    else
      let c := CheckWatchNodeExistenceForCleanup env DirName
        (watchAt s.Watches EventWatchIndex).TreeNode s
      if !SUCCESS c.1 then some (STATUS_FAIL, c.2)
      else
        let r1 := CreateDirWatchForDirectory env DirRelativePath DirFullPath none c.2
        if !SUCCESS r1.1 then some (STATUS_FAIL, r1.2)
        else
          let indexOfNewDirWatch := (r1.2.NumberOfWatches + 2 ^ 32 - 1) % 2 ^ 32
          let r2 := CreateWatchNode indexOfNewDirWatch r1.2
          if !SUCCESS r2.1 then some (STATUS_FAIL, r2.2)
          else
            let r3 := AddChildWatchNodeToTree false indexOfNewDirWatch EventWatchIndex
              DirName r2.2
            if !SUCCESS r3.1 then some (STATUS_FAIL, r3.2)
            else
              match CreateWatchStructuresForAllSubdirectories env fuel indexOfNewDirWatch
                  r3.2 with
              | none => none
              | some r4 =>
                if !SUCCESS r4.1 then some (STATUS_FAIL, r4.2)
                else
                  match BuildEventsForAllSubdirFiles env fuel indexOfNewDirWatch r4.2 with
                  | none => none
                  | some r5 =>
                    if !SUCCESS r5.1 then some (STATUS_FAIL, r5.2)
                    else some (STATUS_SUCCESS, r5.2)

/-- `BuildEventsForAllSubdirFiles` (lines 149-355). -/
def BuildEventsForAllSubdirFiles (env : SysEnv) :
    Nat → Nat → ClientState → Option (SDSTATUS × ClientState)
  | 0, _, _ => none
  | fuel + 1, DirWatchIndex, s =>
    if s.gWatchesArrayCapacity < s.NumberOfWatches then some (STATUS_FAIL, s)
    else if s.NumberOfWatches ≤ DirWatchIndex then some (STATUS_FAIL, s)
    else
      match env.readdir (watchAt s.Watches DirWatchIndex).DirFullPath with
      | none => some (STATUS_WARNING, s)
      | some entries => buildEventsLoop env fuel DirWatchIndex entries s

/-- The `while` loop of `BuildEventsForAllSubdirFiles` (lines 200-311) over the entries that
`readdir` still has to return. -/
def buildEventsLoop (env : SysEnv) :
    Nat → Nat → List String → ClientState → Option (SDSTATUS × ClientState)
  | 0, _, _, _ => none
  | _ + 1, _, [], s => some (STATUS_SUCCESS, s)
  | fuel + 1, DirWatchIndex, name :: rest, s =>
    let w := watchAt s.Watches DirWatchIndex
    match env.lstat (w.DirFullPath ++ "/" ++ name) with
    | none => buildEventsLoop env fuel DirWatchIndex rest s
    | some kind =>
      if name = "." ∨ name = ".." then buildEventsLoop env fuel DirWatchIndex rest s
      else
        let DataOfEvent : EVENT_DATA :=
          { InitEventData with
            RelativePath := w.DirRelativePath ++ "/" ++ name
            FullPath := w.DirFullPath ++ "/" ++ name
            FileName := name
            WatchIndex := DirWatchIndex
            Cookie := 0
            FileExistedBeforeEvents := false }
        if kind = StatKind.dir then
          match ProcessOperationAndAggregate env fuel opDIRCREATE none
              (some { DataOfEvent with IsDirectory := true, OperationType := opDIRCREATE })
              s with
          | none => none
          | some p =>
            if !SUCCESS p.1 then some (STATUS_FAIL, p.2)
            else
              let indexOfNewDirWatch := (p.2.NumberOfWatches + 2 ^ 32 - 1) % 2 ^ 32
              match BuildEventsForAllSubdirFiles env fuel indexOfNewDirWatch p.2 with
              | none => none
              | some b => buildEventsLoop env fuel DirWatchIndex rest b.2
        else
          match ProcessOperationAndAggregate env fuel opMODIFY none
              (some { DataOfEvent with IsDirectory := false, OperationType := opMODIFY })
              s with
          | none => none
          | some p =>
            if !SUCCESS p.1 then some (STATUS_FAIL, p.2)
            else buildEventsLoop env fuel DirWatchIndex rest p.2

end

/-- The operation that `ReadEventsAndIdentifyOperations` identifies from the mask of an
event (lines 1783-1844); the later tests override the earlier ones. -/
def identifyOperation (mask : Nat) : OP_TYPE :=
  let isdir := decide (IN_ISDIR &&& mask ≠ 0)
  let op0 := opUNKNOWN
  let op1 := if IN_CREATE &&& mask ≠ 0 then (if isdir then opDIRCREATE else opFILCREATE) else op0
  let op2 := if IN_DELETE &&& mask ≠ 0 then (if isdir then opDIRDELETE else opFILDELETE) else op1
  let op3 := if IN_MOVED_FROM &&& mask ≠ 0 then
    (if isdir then opDIRMOVEDFROM else opFILMOVEDFROM) else op2
  let op4 := if IN_MOVED_TO &&& mask ≠ 0 then
    (if isdir then opDIRMOVEDTO else opFILMOVEDTO) else op3
  if IN_MODIFY &&& mask ≠ 0 then opMODIFY else op4

/-- `ReadEventsAndIdentifyOperations` (lines 1745-1888) on the events that its reads return,
each with the state of the system calls at the time it is processed; `fuel` is the fuel of
each call of `ProcessOperationAndAggregate`. The first failure ends the routine. -/
def ReadEventsAndIdentifyOperations (fuel : Nat) :
    List (SysEnv × InotifyEvent) → ClientState → Option (SDSTATUS × ClientState)
  | [], s => some (STATUS_SUCCESS, s)
  | (env, event) :: rest, s =>
    if 0 < event.len then
      let operationType := identifyOperation event.mask
      if operationType = opUNKNOWN then some (STATUS_FAIL, s)
      else
        match ProcessOperationAndAggregate env fuel operationType (some event) none s with
        | none => none
        | some p =>
          if !SUCCESS p.1 then some (STATUS_FAIL, p.2)
          else ReadEventsAndIdentifyOperations fuel rest p.2
    else ReadEventsAndIdentifyOperations fuel rest s

/-- The call of `SendAllFileInfoEventsToServer` on the map of the client, with the fuel
`drainFuel`: the status, the state with the map the drain leaves, and the calls sent. -/
def drainState (sock : SendCall → SDSTATUS) (lstatSize : String → Option Nat)
    (MainDirFullPath : String) (s : ClientState) :
    Option (SDSTATUS × ClientState × List SendCall) :=
  (SendAllFileInfoEventsToServer sock lstatSize MainDirFullPath s.heap
      (drainFuel s.FileInfoHMap) s.FileInfoHMap).map
    (fun o => (o.status, { s with FileInfoHMap := o.map }, o.sent))

/-- The inner loop III of `WaitForEventsAndProcessChanges` (lines 2100-2174) on the batches
of events that the successive calls of `ReadEventsAndIdentifyOperations` read before the
queue is found empty, followed by the update of the server. -/
def processRound (sock : SendCall → SDSTATUS) (lstatSize : String → Option Nat)
    (MainDirFullPath : String) (fuel : Nat) :
    List (List (SysEnv × InotifyEvent)) → ClientState →
      Option (SDSTATUS × ClientState × List SendCall)
  | [], s =>
    match drainState sock lstatSize MainDirFullPath s with
    | none => none
    | some d => if !SUCCESS d.1 then some (STATUS_FAIL, d.2.1, d.2.2) else some d
  | batch :: more, s =>
    match ReadEventsAndIdentifyOperations fuel batch s with
    | none => none
    | some r =>
      if !SUCCESS r.1 then some (STATUS_FAIL, r.2, [])
      else processRound sock lstatSize MainDirFullPath fuel more r.2

/-- The monitoring loop of `WaitForEventsAndProcessChanges` (lines 2058-2192): one round per
wake-up of `select`, until the time limit is reached (no round is left). A failure in a
round ends the routine. -/
def monitorLoop (sock : SendCall → SDSTATUS) (lstatSize : String → Option Nat)
    (MainDirFullPath : String) (fuel : Nat) :
    List (List (List (SysEnv × InotifyEvent))) → ClientState →
      Option (SDSTATUS × ClientState × List SendCall)
  | [], s => some (STATUS_SUCCESS, s, [])
  | round :: rest, s =>
    match processRound sock lstatSize MainDirFullPath fuel round s with
    | none => none
    | some r =>
      if !SUCCESS r.1 then some (STATUS_FAIL, r.2.1, r.2.2)
      else
        (monitorLoop sock lstatSize MainDirFullPath fuel rest r.2.1).map
          (fun o => (o.1, o.2.1, r.2.2 ++ o.2.2))

/-- `WaitForEventsAndProcessChanges` (lines 1968-2227): the events for the present content
of the main directory, their transmission, then the monitoring loop. `env0` is the state of
the system calls during the initial scan. -/
def WaitForEventsAndProcessChanges (sock : SendCall → SDSTATUS)
    (lstatSize : String → Option Nat) (MainDirFullPath : String) (env0 : SysEnv) (fuel : Nat)
    (rounds : List (List (List (SysEnv × InotifyEvent)))) (s : ClientState) :
    Option (SDSTATUS × ClientState × List SendCall) :=
  if s.gWatchesArrayCapacity < s.NumberOfWatches then some (STATUS_FAIL, s, [])
  else
    match BuildEventsForAllSubdirFiles env0 fuel 0 { s with FileInfoHMap := [] } with
    | none => none
    | some b =>
      if !SUCCESS b.1 then some (STATUS_FAIL, b.2, [])
      else
        match drainState sock lstatSize MainDirFullPath b.2 with
        | none => none
        | some d =>
          if !SUCCESS d.1 then some (STATUS_FAIL, d.2.1, d.2.2)
          else
            (monitorLoop sock lstatSize MainDirFullPath fuel rounds d.2.1).map
              (fun o => (o.1, o.2.1, d.2.2 ++ o.2.2))

/-- The watch structures that `CltMonitorPartition` builds for the main directory before it
scans the subdirectories (lines 899-934): the watch 0 with descriptor `hMainDirWatch`, the
relative path `.`, and the root node. -/
def initialClientState (hMainDirWatch : Int) (MainDirFullPath : String) : ClientState :=
  let s0 : ClientState :=
    { Watches := [{ HWatch := hMainDirWatch, DirRelativePath := ".",
                    DirFullPath := MainDirFullPath, TreeNode := none }]
      NumberOfWatches := 1
      gWatchesArrayCapacity := SD_INITIAL_NR_OF_WATCHES
      heap := []
      nextAddr := 0
      FileInfoHMap := [] }
  (AddChildWatchNodeToTree true 0 (2 ^ 32 - 1) "." (CreateWatchNode 0 s0).2).2

/-- The `/`-joined directory names on the path from the tree root to a node, following the
parent links (at most `fuel` of them); `none` when a link of the path is not live. -/
def pathOfNode (heap : NodeHeap) : Nat → Option Nat → Option String
  | 0, _ => none
  | fuel + 1, node =>
    match nodeAt heap node with
    | none => none
    | some n =>
      match n.Parent with
      | none => some n.DirName
      | some p => (pathOfNode heap fuel (some p)).map (fun q => q ++ "/" ++ n.DirName)

/-- Path and node consistency of the live registry entries: the relative path of every
entry below `NumberOfWatches` is the `/`-joined names from the root to the node the entry
links to. -/
def watchPathsConsistent (s : ClientState) : Bool :=
  (List.range s.NumberOfWatches).all (fun i =>
    pathOfNode s.heap (s.heap.length + 1) (watchAt s.Watches i).TreeNode
      == some (watchAt s.Watches i).DirRelativePath)

/-- The watch index that Init I finds for a kernel event. -/
def eventWatchIndexOf (s : ClientState) (e : InotifyEvent) : Nat :=
  (GetDirWatchIndexByHandle e.wd s 0).2

/-- The relative path that Init I forms for a kernel event. -/
def eventRelativePathOf (s : ClientState) (e : InotifyEvent) : String :=
  (watchAt s.Watches (eventWatchIndexOf s e)).DirRelativePath ++ "/" ++ e.name

/-- The full path that Init I forms for a kernel event. -/
def eventFullPathOf (s : ClientState) (e : InotifyEvent) : String :=
  (watchAt s.Watches (eventWatchIndexOf s e)).DirFullPath ++ "/" ++ e.name

/-- The full path of the main directory, `Watches[0].DirFullPath`. -/
def mainDirOf (s : ClientState) : String := (watchAt s.Watches 0).DirFullPath

/-- A kernel event passes the symbolic link check of Init VI in a state. -/
def passesLinkCheck (env : SysEnv) (s : ClientState) (e : InotifyEvent) : Prop :=
  symLinkEscapes env (mainDirOf s) (eventFullPathOf s e) = false

/-- The local variables of `ProcessOperationAndAggregate` after its initialisation part for
a kernel event: the fields of the event, the record found in the map (if any) and the new
record, whose kind `ft` and real path `rr` come out of Init II and Init VI. -/
def kernelContext (s : ClientState) (e : InotifyEvent) (status : SDSTATUS) (ft : FILE_TYPE)
    (rr : String) : EventContext :=
  { status := status
    eventWatchIndex := eventWatchIndexOf s e
    eventCookie := e.cookie
    eventIsForDirectory := decide (IN_ISDIR &&& e.mask ≠ 0)
    eventRelativePath := eventRelativePathOf s e
    eventFullPath := eventFullPathOf s e
    eventFileName := e.name
    eventWatchNode := (watchAt s.Watches (eventWatchIndexOf s e)).TreeNode
    fileInfoToAggregate :=
      if (mapFind s.FileInfoHMap (eventRelativePathOf s e)).isSome
      then some (eventRelativePathOf s e) else none
    newFileInfo :=
      { InitFileInfo with
        RelativePath := eventRelativePathOf s e
        FileName := e.name
        WatchNodeOfParent := (watchAt s.Watches (eventWatchIndexOf s e)).TreeNode
        FileType := ft
        RealRelativePath := rr } }

/-- System calls for the examples: no path exists any more on disk, and the kernel accepts
every watch. -/
def exampleEnv : SysEnv :=
  { lstat := fun _ => none, readdir := fun _ => none, realpath := fun _ => none,
    inotify_add_watch := fun _ => 2, inotify_rm_watch := fun _ => 0 }

/-- The client state for the examples: the main directory `/m` watched with descriptor 1,
an empty File-Info map. -/
def exampleState : ClientState := initialClientState 1 "/m"

/-- A kernel event for the examples: the file `name` of the main directory, with a mask and
a cookie. -/
def exampleEvent (mask cookie : Nat) (name : String) : InotifyEvent :=
  { wd := 1, mask := mask, cookie := cookie, len := 16, name := name }

/-! ## File transfer (`SendFileToServer`, `RecvFileFromClient`) -/

/-- The four bytes of a `DWORD` in reverse order. -/
def bswap32 (x : Nat) : Nat :=
  (x % 256) * 2 ^ 24 + (x / 2 ^ 8 % 256) * 2 ^ 16 + (x / 2 ^ 16 % 256) * 2 ^ 8
    + (x / 2 ^ 24 % 256)

/-- The library routine `htonl` on a host of the given byte order: the bytes reversed on a
little-endian host, the value itself on a big-endian host. -/
def htonl (littleEndian : Bool) (x : Nat) : Nat :=
  if littleEndian then bswap32 (x % 2 ^ 32) else x % 2 ^ 32

/-- The library routine `ntohl`, the same conversion as `htonl`. -/
def ntohl (littleEndian : Bool) (x : Nat) : Nat := htonl littleEndian x

/-- The bytes of a `DWORD` in the memory of a host, in address order. -/
def memBytes (littleEndian : Bool) (v : Nat) : List Nat :=
  if littleEndian then [v % 256, v / 2 ^ 8 % 256, v / 2 ^ 16 % 256, v / 2 ^ 24 % 256]
  else [v / 2 ^ 24 % 256, v / 2 ^ 16 % 256, v / 2 ^ 8 % 256, v % 256]

/-- The `DWORD` that four bytes in the memory of a host stand for. -/
def memValue (littleEndian : Bool) : List Nat → Nat
  | [a, b, c, d] =>
    if littleEndian then a % 256 + b % 256 * 2 ^ 8 + c % 256 * 2 ^ 16 + d % 256 * 2 ^ 24
    else d % 256 + c % 256 * 2 ^ 8 + b % 256 * 2 ^ 16 + a % 256 * 2 ^ 24
  | _ => 0

/-- The cast `(__int32) x` of a `DWORD`. -/
def toInt32 (x : Nat) : Int :=
  if x % 2 ^ 32 < 2 ^ 31 then ((x % 2 ^ 32 : Nat) : Int) else ((x % 2 ^ 32 : Nat) : Int) - 2 ^ 32

/-- The difference of two `__int32` values, as a two's complement `__int32`. -/
def subInt32 (a b : Int) : Int :=
  ((a - b + 2 ^ 31) % 2 ^ 32) - 2 ^ 31

/-- The first byte of the packet buffer is set to 0 (`packet.FileChunk[0] = 0`); `buf` is
the content the buffer has before. -/
def clearFirst (buf : List Nat) : List Nat := 0 :: buf.drop 1

/-- The `while (1)` loop of `SendFileToServer` (lines 283-328), with fuel: one unit per
chunk. `FileSize` is the variable of this name at the loop, `stream` the bytes of the file
not read yet, `buf` the content of `packet.FileChunk`. The result is the list of the packets
passed to `send`, which takes each of them whole. -/
def sendChunks (FileSize : Nat) : Nat → List Nat → Nat → List Nat → Option (List PACKET_FILE)
  | 0, _, _, _ => none
  | fuel + 1, stream, totalSentBytes, buf =>
    let chunk := stream.take SD_PACKET_DATA_SIZE
    let readBytes := chunk.length
    let FileChunk := (chunk ++ buf.drop readBytes).take SD_PACKET_DATA_SIZE
    let ChunkSize := readBytes % 2 ^ 32
    let totalSentBytes1 := (totalSentBytes + ChunkSize) % 2 ^ 32
    let IsEOF : Bool :=
      decide (0 = ChunkSize) || decide (ChunkSize < SD_PACKET_DATA_SIZE) ||
        decide (subInt32 (toInt32 FileSize) (toInt32 totalSentBytes1) ≤ 0)
    let packet : PACKET_FILE := { IsEOF := IsEOF, ChunkSize := ChunkSize, FileChunk := FileChunk }
    if IsEOF then some [packet]
    else
      (sendChunks FileSize fuel (stream.drop SD_PACKET_DATA_SIZE) totalSentBytes1 FileChunk).map
        (fun more => packet :: more)

/-- `SendFileToServer` (lines 169-374) on a host of the given byte order. `file` is the
content that `fopen` and `fread` find at `FileFullPath` (`none`: the file cannot be opened),
`buf` the content of the local packet buffer at entry. The result is the status, the four
bytes sent for the file size and the packets sent; every `send` takes its bytes whole. -/
def SendFileToServer (littleEndian : Bool) (FileSize : Nat) (FileFullPath : String)
    (file : Option (List Nat)) (buf : List Nat) (fuel : Nat) :
    Option (SDSTATUS × List Nat × List PACKET_FILE) :=
  if FileFullPath = "" then some (STATUS_FAIL, [], [])
  else
    let FileSize1 := htonl littleEndian FileSize
    let sizeBytes := memBytes littleEndian FileSize1
    match file with
    | none =>
      some (STATUS_WARNING, sizeBytes,
        [{ IsEOF := true, ChunkSize := 0, FileChunk := clearFirst (clearFirst buf) }])
    | some content =>
      (sendChunks FileSize1 fuel content 0 (clearFirst buf)).map
        (fun packets => (STATUS_SUCCESS, sizeBytes, packets))

/-- The `while (1)` loop of `RecvFileFromClient` (lines 415-460) on the packets that arrive:
the status, the bytes written to the file and the value stored at `*FileSize`. When no
packet is left `recv` does not return a whole packet and the routine fails. -/
def recvChunks (FileSize : Nat) : List PACKET_FILE → List Nat → Nat → SDSTATUS × List Nat × Nat
  | [], written, _ => (STATUS_FAIL, written, FileSize)
  | packet :: rest, written, totalRecvBytes =>
    let bytes := packet.FileChunk.take packet.ChunkSize
    if packet.ChunkSize ≠ bytes.length then (STATUS_FAIL, written ++ bytes, FileSize)
    else if packet.IsEOF = true then
      (STATUS_SUCCESS, written ++ bytes, (totalRecvBytes + packet.ChunkSize) % 2 ^ 32)
    else recvChunks FileSize rest (written ++ bytes) ((totalRecvBytes + packet.ChunkSize) % 2 ^ 32)

/-- `RecvFileFromClient` (lines 308-509) on a host of the given byte order. `canOpen` tells
whether `fopen` creates the file, `sizeBytes` and `packets` are what arrives on the socket.
The result is the status, the content of the file at `FileFullPath` (`none`: not created)
and the value at `*FileSize` (`none`: not written). -/
def RecvFileFromClient (littleEndian : Bool) (FileFullPath : String) (canOpen : Bool)
    (sizeBytes : List Nat) (packets : List PACKET_FILE) :
    SDSTATUS × Option (List Nat) × Option Nat :=
  if FileFullPath = "" then (STATUS_FAIL, none, none)
  else if canOpen = false then (STATUS_FAIL, none, none)
  else if sizeBytes.length ≠ 4 then (STATUS_FAIL, some [], none)
  else
    let FileSize := ntohl littleEndian (memValue littleEndian sizeBytes)
    let r := recvChunks FileSize packets [] 0
    (r.1, some r.2.1, some r.2.2)

/-! ## Server hash index (`syncdir_srv_hash_info_proc.cpp`) -/

/-- The record `HASH_INFO`. -/
structure HASH_INFO where
  HashCode : String
  FileRelativePath : String
  FileSize : Nat
  deriving DecidableEq, Repr

/-- The map `std::unordered_map<std::string, HASH_INFO>`, keyed by paths and by hash codes
alike, as the list of its pairs. -/
abbrev HashInfoMap := List (String × HASH_INFO)

/-- The lookup `HashInfoHMap.find(key)`. -/
def hashFind (m : HashInfoMap) (key : String) : Option HASH_INFO :=
  (m.find? (fun kv => kv.1 == key)).map Prod.snd

/-- The removal `HashInfoHMap.erase(key)`. -/
def hashErase (m : HashInfoMap) (key : String) : HashInfoMap :=
  m.filter (fun kv => !(kv.1 == key))

/-- The insertion `HashInfoHMap.insert({key, value})` followed, when the key is there
already, by the assignment `HashInfoHMap[key] = value`. -/
def hashAssign (m : HashInfoMap) (key : String) (value : HASH_INFO) : HashInfoMap :=
  if (hashFind m key).isSome then m.map (fun kv => if kv.1 == key then (kv.1, value) else kv)
  else m ++ [(key, value)]

/-- `InsertHashInfoOfFile` (lines 636-787): the record enters under its path and under its
hash code, replacing what is there. -/
def InsertHashInfoOfFile (FileRelativePath HashCode : String) (FileSize : Nat)
    (HashInfoHMap : HashInfoMap) : SDSTATUS × HashInfoMap :=
  if FileRelativePath = "" then (STATUS_FAIL, HashInfoHMap)
  else
    let newHashInfo : HASH_INFO :=
      { FileRelativePath := FileRelativePath, HashCode := HashCode, FileSize := FileSize }
    let m1 := hashAssign HashInfoHMap newHashInfo.FileRelativePath newHashInfo
    let m2 := hashAssign m1 newHashInfo.HashCode newHashInfo
    (SUCCESS_KEEP_WARNING STATUS_SUCCESS, m2)

/-- `DeleteHashInfoOfFile` (lines 482-627): the record under the hash code goes only when
it is there and is of the same path; then the record under the path goes. -/
def DeleteHashInfoOfFile (FileRelativePath : String) (HashInfoHMap : HashInfoMap) :
    SDSTATUS × HashInfoMap :=
  if FileRelativePath = "" then (STATUS_FAIL, HashInfoHMap)
  else if HashInfoHMap.length = 0 then (STATUS_FAIL, HashInfoHMap)
  else
    match hashFind HashInfoHMap FileRelativePath with
    | none => (STATUS_FAIL, HashInfoHMap)
    | some it =>
      if FileRelativePath ≠ it.FileRelativePath then (STATUS_FAIL, HashInfoHMap)
      else
        let m1 :=
          match hashFind HashInfoHMap it.HashCode with
          | none => HashInfoHMap
          | some atHash =>
            if FileRelativePath ≠ atHash.FileRelativePath then HashInfoHMap
            else hashErase HashInfoHMap it.HashCode
        if (hashFind m1 it.FileRelativePath).isNone then (STATUS_FAIL, m1)
        else (SUCCESS_KEEP_WARNING STATUS_SUCCESS, hashErase m1 it.FileRelativePath)

/-- `UpdateHashInfoOfNondirFile` (lines 340-473): insert under the new path, delete the
old. `oldHashInfo` points to the record under the old path, which is read again after the
insertion. -/
def UpdateHashInfoOfNondirFile (FileRelativePath NewFileRelativePath : String)
    (HashInfoHMap : HashInfoMap) : SDSTATUS × HashInfoMap :=
  if FileRelativePath = "" then (STATUS_FAIL, HashInfoHMap)
  else if NewFileRelativePath = "" then (STATUS_FAIL, HashInfoHMap)
  else if HashInfoHMap.length = 0 then (STATUS_FAIL, HashInfoHMap)
  else
    match hashFind HashInfoHMap FileRelativePath with
    | none => (STATUS_FAIL, HashInfoHMap)
    | some oldHashInfo =>
      if FileRelativePath ≠ oldHashInfo.FileRelativePath then (STATUS_FAIL, HashInfoHMap)
      else
        let i := InsertHashInfoOfFile NewFileRelativePath oldHashInfo.HashCode
          oldHashInfo.FileSize HashInfoHMap
        if !SUCCESS i.1 then (STATUS_FAIL, i.2)
        else
          let oldPath :=
            match hashFind i.2 FileRelativePath with
            | some again => again.FileRelativePath
            | none => ""
          let d := DeleteHashInfoOfFile oldPath i.2
          let status := if !SUCCESS d.1 then STATUS_WARNING else d.1
          (SUCCESS_KEEP_WARNING status, d.2)

/-! ## Server applier (`RecvAndExecuteOperationFromClient`) -/

/-- What the server routine receives for one operation after the operation packet: the
path of the file and, by the operation, its hash code, its real path or its old path. -/
structure ReceivedOperation where
  opReceived : PACKET_OP
  fileRelativePath : String
  fileHashCode : String
  fileRealRelativePath : String
  fileOldRelativePath : String
  deriving DecidableEq, Repr

/-- The routines of the server that act on the file system or the socket, and the routine
`UpdateOrDeleteHashInfosForDirPath`, which walks a directory on disk. -/
structure ServerSys where
  RecvFileFromClient : String → SDSTATUS × Option Nat
  IsFileValid : String → Bool
  ExecuteShellCommand : String → SDSTATUS
  UpdateOrDeleteHashInfosForDirPath :
    String → String → Option String → String → HashInfoMap → SDSTATUS × HashInfoMap

/-- What one call of the server routine did: its status, the map, the answer sent to the
client for a `MODIFY`, the full path for which a file body was received, and the shell
command formed. -/
structure ServerOut where
  status : SDSTATUS
  map : HashInfoMap
  answer : Option String
  received : Option String
  shellCommand : String
  deriving DecidableEq, Repr

/-- A path between double quotes, as in the shell commands. -/
def quoted (path : String) : String :=
  String.singleton (Char.ofNat 34) ++ path ++ String.singleton (Char.ofNat 34)

/-- Part III of `RecvAndExecuteOperationFromClient` (lines 993-1012): the shell command is
executed when there is one. -/
def executeOperation (sys : ServerSys) (o : ServerOut) : ServerOut :=
  if o.shellCommand.length ≠ 0 then
    let status := sys.ExecuteShellCommand o.shellCommand
    if !SUCCESS status then { o with status := STATUS_FAIL }
    else { o with status := SUCCESS_KEEP_WARNING status }
  else { o with status := SUCCESS_KEEP_WARNING o.status }

/-- `RecvAndExecuteOperationFromClient` (lines 518-1032) from the point where the operation
packet and the path have been received, every `recv` and `send` passing its bytes whole. -/
def RecvAndExecuteOperationFromClient (MainDirFullPath : String) (sys : ServerSys)
    (r : ReceivedOperation) (HashInfoHMap : HashInfoMap) : ServerOut :=
  if MainDirFullPath = "" then ⟨STATUS_FAIL, HashInfoHMap, none, none, ""⟩
  else
    let fileFullPath := MainDirFullPath ++ "/" ++ r.fileRelativePath.drop 2
    match r.opReceived.OperationType with
    | opDELETE | opMOVEDFROM =>
      if r.opReceived.FileType = ftDIRECTORY then
        let u := sys.UpdateOrDeleteHashInfosForDirPath fileFullPath r.fileRelativePath none
          "DELETE" HashInfoHMap
        let status := if !SUCCESS u.1 then STATUS_WARNING else u.1
        executeOperation sys ⟨status, u.2, none, none, "rm -r " ++ quoted fileFullPath ++ " "⟩
      else
        let d := DeleteHashInfoOfFile r.fileRelativePath HashInfoHMap
        let status := if !SUCCESS d.1 then STATUS_WARNING else d.1
        executeOperation sys ⟨status, d.2, none, none, "rm " ++ quoted fileFullPath ++ " "⟩
    | opMODIFY | opFILMOVEDTO =>
      match hashFind HashInfoHMap r.fileHashCode with
      | some found =>
        let fileToCopyFullPath := MainDirFullPath ++ "/" ++ found.FileRelativePath.drop 2
        let command :=
          "yes | /bin/cp " ++ quoted fileToCopyFullPath ++ " " ++ quoted fileFullPath ++ " "
        let i := InsertHashInfoOfFile r.fileRelativePath r.fileHashCode 0 HashInfoHMap
        if !SUCCESS i.1 then ⟨STATUS_FAIL, i.2, some "File On Server", none, command⟩
        else executeOperation sys ⟨i.1, i.2, some "File On Server", none, command⟩
      | none =>
        let f := sys.RecvFileFromClient fileFullPath
        let fileSize := f.2.getD 0
        let i := InsertHashInfoOfFile r.fileRelativePath r.fileHashCode fileSize HashInfoHMap
        if !SUCCESS i.1 then
          ⟨STATUS_FAIL, i.2, some "File Not On Server", some fileFullPath, ""⟩
        else
          executeOperation sys ⟨i.1, i.2, some "File Not On Server", some fileFullPath, ""⟩
    | opCREATE =>
      let command :=
        if r.opReceived.FileType = ftSYMLINK then
          "rm " ++ quoted fileFullPath ++ " ; ln -s "
            ++ quoted (MainDirFullPath ++ "/" ++ r.fileRealRelativePath.drop 2) ++ " "
            ++ quoted fileFullPath ++ " "
        else if r.opReceived.FileType = ftDIRECTORY then
          "rm -r " ++ quoted fileFullPath ++ " ; mkdir " ++ quoted fileFullPath ++ " "
        else "rm " ++ quoted fileFullPath ++ " ; touch " ++ quoted fileFullPath ++ " "
      executeOperation sys ⟨STATUS_SUCCESS, HashInfoHMap, none, none, command⟩
    | opMOVE | opFILMOVE =>
      let fileOldFullPath := MainDirFullPath ++ "/" ++ r.fileOldRelativePath.drop 2
      if sys.IsFileValid fileOldFullPath = false then
        let command :=
          if r.opReceived.FileType ≠ ftDIRECTORY then
            "rm " ++ quoted fileFullPath ++ " ; touch " ++ quoted fileFullPath ++ " "
          else "rm -r " ++ quoted fileFullPath ++ " ; mkdir " ++ quoted fileFullPath ++ " "
        executeOperation sys ⟨STATUS_SUCCESS, HashInfoHMap, none, none, command⟩
      else
        let command := "mv -T " ++ quoted fileOldFullPath ++ " " ++ quoted fileFullPath ++ " "
        if r.opReceived.FileType ≠ ftDIRECTORY then
          let u := UpdateHashInfoOfNondirFile r.fileOldRelativePath r.fileRelativePath
            HashInfoHMap
          if !SUCCESS u.1 then ⟨STATUS_FAIL, u.2, none, none, command⟩
          else executeOperation sys ⟨u.1, u.2, none, none, command⟩
        else
          let u := sys.UpdateOrDeleteHashInfosForDirPath fileOldFullPath r.fileOldRelativePath
            (some r.fileRelativePath) "UPDATE" HashInfoHMap
          if !SUCCESS u.1 then ⟨STATUS_FAIL, u.2, none, none, command⟩
          else executeOperation sys ⟨u.1, u.2, none, none, command⟩
    | _ => ⟨STATUS_FAIL, HashInfoHMap, none, none, ""⟩

/-- Server system routines for the examples: a file body of 5 bytes arrives whole, every
old path exists, every shell command succeeds, and no directory is walked. -/
def exampleServerSys : ServerSys :=
  { RecvFileFromClient := fun _ => (STATUS_SUCCESS, some 5)
    IsFileValid := fun _ => true
    ExecuteShellCommand := fun _ => STATUS_SUCCESS
    UpdateOrDeleteHashInfosForDirPath := fun _ _ _ _ m => (STATUS_SUCCESS, m) }

/-- What the server receives for a `MODIFY` of a regular file, for the examples. -/
def exampleModify (path hash : String) : ReceivedOperation :=
  { opReceived :=
      { OperationType := opMODIFY, FileType := ftNONDIR,
        RelativePathLength := path.length % 2 ^ 16, RealRelativePathLength := 0,
        OldRelativePathLength := 0 }
    fileRelativePath := path, fileHashCode := hash, fileRealRelativePath := "",
    fileOldRelativePath := "" }

/-- System calls for the examples with directories: the directories listed in `present`
exist and are empty, and the kernel gives the descriptor 2 for `/m/a`, 3 for `/m/b`. -/
def exampleDirEnv (present : List String) : SysEnv :=
  { lstat := fun p => if p ∈ present then some StatKind.dir else none
    readdir := fun p => if p ∈ present then some [] else none
    realpath := fun _ => none
    inotify_add_watch := fun p => if p = "/m/a" then 2 else if p = "/m/b" then 3 else 4
    inotify_rm_watch := fun _ => 0 }

/-- System calls for the examples, for a directory that is gone again when its event is
handled: no path exists and the kernel refuses the watch (`inotify_add_watch` gives -1). -/
def exampleGoneEnv : SysEnv :=
  { lstat := fun _ => none, readdir := fun _ => none, realpath := fun _ => none,
    inotify_add_watch := fun _ => -1, inotify_rm_watch := fun _ => 0 }

/-- The reaction of `SendModifyToServer` to the answer of the server (lines 883-910 of
`syncdir_clt_data_transfer.cpp`): `SendFileToServer` is called exactly when the answer is
`File Not On Server`. -/
def sendsFileOnAnswer (bufferIn : String) : Bool :=
  decide (bufferIn = "File Not On Server")

/-- The notion of the specification, in its words: the real path `R` is the main directory
`M` itself or lies under it (`M`, a `/`, and a remainder). -/
def specInsideMainDir (M R : String) : Bool :=
  R == M || pathUnder M R

/-- System calls for the examples with a symbolic link: the main directory `/m` holds the one
entry `l`, a symbolic link whose real path is `target`. -/
def exampleLinkEnv (target : String) : SysEnv :=
  { lstat := fun p => if p = "/m/l" then some StatKind.link else none
    readdir := fun p => if p = "/m" then some ["l"] else none
    realpath := fun p => if p = "/m/l" then some target else none
    inotify_add_watch := fun _ => 2
    inotify_rm_watch := fun _ => 0 }

/-! ## The operation on the wire (`SendPacketOpAndFilePathToServer`,
`RecvPacketOpAndFilePathFromClient`)

The client passes the structure `PACKET_OP` to `send` as it lies in memory and the server
receives it into a structure of the same type, so both programs are taken to run on hosts
of the same byte order and structure layout: the two enumerations as 32-bit integers, the
three `WORD`s, and two bytes of padding (`sizeof(PACKET_OP)` is 16). -/

/-- The value of an enumerator of `OP_TYPE`. -/
def opTypeValue : OP_TYPE → Nat
  | opDIRCREATE => 0 | opFILCREATE => 1 | opCREATE => 2
  | opDIRDELETE => 3 | opFILDELETE => 4 | opDELETE => 5
  | opDIRMOVEDFROM => 6 | opFILMOVEDFROM => 7 | opMOVEDFROM => 8
  | opDIRMOVEDTO => 9 | opFILMOVEDTO => 10 | opMOVEDTO => 11
  | opDIRMOVE => 12 | opFILMOVE => 13 | opMOVE => 14
  | opMODIFY => 15
  | opUNKNOWN => 16

/-- The enumerator of `OP_TYPE` with a value; a value of no enumerator is held as
`opUNKNOWN`, which every `switch` of the code sends to its `default` as well. -/
def opTypeOfValue : Nat → OP_TYPE
  | 0 => opDIRCREATE | 1 => opFILCREATE | 2 => opCREATE
  | 3 => opDIRDELETE | 4 => opFILDELETE | 5 => opDELETE
  | 6 => opDIRMOVEDFROM | 7 => opFILMOVEDFROM | 8 => opMOVEDFROM
  | 9 => opDIRMOVEDTO | 10 => opFILMOVEDTO | 11 => opMOVEDTO
  | 12 => opDIRMOVE | 13 => opFILMOVE | 14 => opMOVE
  | 15 => opMODIFY
  | _ => opUNKNOWN

/-- The value of an enumerator of `FILE_TYPE`. -/
def fileTypeValue : FILE_TYPE → Nat
  | ftREGULAR => 0 | ftDIRECTORY => 1 | ftSYMLINK => 2 | ftHARDLINK => 3 | ftNONDIR => 4
  | ftUNKNOWN => 5

/-- The enumerator of `FILE_TYPE` with a value; a value of no enumerator is held as
`ftUNKNOWN`, which the code treats as it treats every kind but directory and symbolic
link. -/
def fileTypeOfValue : Nat → FILE_TYPE
  | 0 => ftREGULAR | 1 => ftDIRECTORY | 2 => ftSYMLINK | 3 => ftHARDLINK | 4 => ftNONDIR
  | _ => ftUNKNOWN

/-- The two bytes of a `WORD` in the memory of a host, in address order. -/
def wordBytes (littleEndian : Bool) (v : Nat) : List Nat :=
  if littleEndian then [v % 256, v / 2 ^ 8 % 256] else [v / 2 ^ 8 % 256, v % 256]

/-- The `WORD` that two bytes in the memory of a host stand for. -/
def wordValue (littleEndian : Bool) : List Nat → Nat
  | [a, b] => if littleEndian then a % 256 + b % 256 * 2 ^ 8 else b % 256 + a % 256 * 2 ^ 8
  | _ => 0

/-- `sizeof(PACKET_OP)`. -/
def SIZEOF_PACKET_OP : Nat := 16

/-- The bytes of a `PACKET_OP` in the memory of a host, in address order. The code does not
set the two bytes of padding and the receiver does not read them; they are held as 0. -/
def packetOpBytes (littleEndian : Bool) (op : PACKET_OP) : List Nat :=
  memBytes littleEndian (opTypeValue op.OperationType)
    ++ memBytes littleEndian (fileTypeValue op.FileType)
    ++ wordBytes littleEndian op.RelativePathLength
    ++ wordBytes littleEndian op.RealRelativePathLength
    ++ wordBytes littleEndian op.OldRelativePathLength ++ [0, 0]

/-- The `PACKET_OP` that 16 bytes in the memory of a host stand for. -/
def packetOpOfBytes (littleEndian : Bool) (b : List Nat) : PACKET_OP :=
  { OperationType := opTypeOfValue (memValue littleEndian (b.take 4))
    FileType := fileTypeOfValue (memValue littleEndian ((b.drop 4).take 4))
    RelativePathLength := wordValue littleEndian ((b.drop 8).take 2)
    RealRelativePathLength := wordValue littleEndian ((b.drop 10).take 2)
    OldRelativePathLength := wordValue littleEndian ((b.drop 12).take 2) }

/-- The first `n` bytes at the address of a C string: its characters, the terminator, and
then bytes that the code does not determine, held as 0. -/
def cBytes (s : String) (n : Nat) : List Nat :=
  (s.toList.map Char.toNat ++ List.replicate n 0).take n

/-- The C string that a buffer holds: the bytes before the first 0. -/
def cString (b : List Nat) : String :=
  String.mk ((b.takeWhile (fun x => x != 0)).map Char.ofNat)

/-- A string is a C string: none of its characters is the terminator. -/
def isCString (s : String) : Bool :=
  s.toList.all (fun c => c.toNat != 0)

/-- `SD_MAX_PATH_LENGTH`. -/
def SD_MAX_PATH_LENGTH : Nat := 4096

/-- `SD_HASH_CODE_LENGTH`. -/
def SD_HASH_CODE_LENGTH : Nat := 32

/-- The operation packet of a send call. -/
def SendCall.packet : SendCall → PACKET_OP
  | .Delete op _ => op
  | .Modify op _ _ _ => op
  | .Move op _ _ => op
  | .Create op _ _ => op

/-- The bytes that `SendPacketOpAndFilePathToServer` passes to `send` (lines 439 and 459):
the packet, then `RelativePathLength + 1` bytes at the path. -/
def sentPacketOpAndFilePath (littleEndian : Bool) (op : PACKET_OP) (FileRelativePath : String) :
    List Nat :=
  packetOpBytes littleEndian op ++ cBytes FileRelativePath (op.RelativePathLength + 1)

/-- The bytes that the socket part of a send routine passes to `send`, every `send` taking
its bytes whole: `SendDeleteToServer` the packet and the path; `SendModifyToServer` after
them the `SD_HASH_CODE_LENGTH + 1` bytes of the digest `md5Hash` (line 865; the file body
follows the answer of the server and is not part of this); `SendMoveToServer` after them
`OldRelativePathLength + 1` bytes at the old path (line 715); `SendCreateToServer` after
them, for a symbolic link only, `RealRelativePathLength + 1` bytes at the real path
(lines 586-588). -/
def SendCall.wire (littleEndian : Bool) (md5Hash : String) : SendCall → List Nat
  | .Delete op p => sentPacketOpAndFilePath littleEndian op p
  | .Modify op p _ _ =>
    sentPacketOpAndFilePath littleEndian op p ++ cBytes md5Hash (SD_HASH_CODE_LENGTH + 1)
  | .Move op p old =>
    sentPacketOpAndFilePath littleEndian op p ++ cBytes old (op.OldRelativePathLength + 1)
  | .Create op p real =>
    sentPacketOpAndFilePath littleEndian op p ++
      (if op.FileType = ftSYMLINK then cBytes real (op.RealRelativePathLength + 1) else [])

/-- One call `recv(SockConnID, buffer, n, 0)` whose result is compared with `n`, on the
bytes that arrive, for a buffer of `capacity` bytes: the bytes received and the bytes that
remain; `none` when fewer than `n` bytes arrive (the routine fails) or when `n` bytes do
not fit in the buffer. -/
def recvExact (capacity n : Nat) (stream : List Nat) : Option (List Nat × List Nat) :=
  if capacity < n then none
  else if stream.length < n then none
  else some (stream.take n, stream.drop n)

/-- `RecvPacketOpAndFilePathFromClient` (lines 223-261): the packet, the path and the bytes
that remain. -/
def RecvPacketOpAndFilePathFromClient (littleEndian : Bool) (stream : List Nat) :
    Option (PACKET_OP × String × List Nat) :=
  match recvExact SIZEOF_PACKET_OP SIZEOF_PACKET_OP stream with
  | none => none
  | some (b, rest) =>
    let OpReceived := packetOpOfBytes littleEndian b
    match recvExact SD_MAX_PATH_LENGTH (OpReceived.RelativePathLength + 1) rest with
    | none => none
    | some (p, rest1) => some (OpReceived, cString p, rest1)

/-- Part I of `RecvAndExecuteOperationFromClient` with the reads of part II (lines 600, 685,
834 and 886): what the routine holds after its last `recv` for the operation and before the
answer to a `MODIFY`, and the bytes that remain. An operation of another tag is left to
the `default` of the `switch` with nothing more read. -/
def recvOperation (littleEndian : Bool) (stream : List Nat) :
    Option (ReceivedOperation × List Nat) :=
  match RecvPacketOpAndFilePathFromClient littleEndian stream with
  | none => none
  | some (opReceived, fileRelativePath, rest) =>
    let r : ReceivedOperation :=
      { opReceived := opReceived, fileRelativePath := fileRelativePath, fileHashCode := "",
        fileRealRelativePath := "", fileOldRelativePath := "" }
    match opReceived.OperationType with
    | opMODIFY | opFILMOVEDTO =>
      (recvExact (SD_HASH_CODE_LENGTH + 1) (SD_HASH_CODE_LENGTH + 1) rest).map
        (fun x => ({ r with fileHashCode := cString x.1 }, x.2))
    | opCREATE =>
      if opReceived.FileType = ftSYMLINK then
        (recvExact SD_MAX_PATH_LENGTH (opReceived.RealRelativePathLength + 1) rest).map
          (fun x => ({ r with fileRealRelativePath := cString x.1 }, x.2))
      else some (r, rest)
    | opMOVE | opFILMOVE =>
      (recvExact SD_MAX_PATH_LENGTH (opReceived.OldRelativePathLength + 1) rest).map
        (fun x => ({ r with fileOldRelativePath := cString x.1 }, x.2))
    | _ => some (r, rest)

/-- What the server has to recover from a send call, in the words of the specification: the
same operation tag and file kind (the packet), the current path, the old path of a `MOVE`
or `FIL_MOVE`, the resolved target of a `CREATE` of a symbolic link, and the digest of a
`MODIFY`. -/
def specReceived (md5Hash : String) : SendCall → ReceivedOperation
  | .Delete op p =>
    { opReceived := op, fileRelativePath := p, fileHashCode := "",
      fileRealRelativePath := "", fileOldRelativePath := "" }
  | .Modify op p _ _ =>
    { opReceived := op, fileRelativePath := p, fileHashCode := md5Hash,
      fileRealRelativePath := "", fileOldRelativePath := "" }
  | .Move op p old =>
    { opReceived := op, fileRelativePath := p, fileHashCode := "",
      fileRealRelativePath := "", fileOldRelativePath := old }
  | .Create op p real =>
    { opReceived := op, fileRelativePath := p, fileHashCode := "",
      fileRealRelativePath := if op.FileType = ftSYMLINK then real else "",
      fileOldRelativePath := "" }

/-- A File-Info record for the examples: the symbolic link `./l` with the real path `./t`,
created. -/
def exampleCreatedLink : FILE_INFO :=
  { FileType := ftSYMLINK, FileExistedBeforeEvents := false, WatchNodeOfParent := none,
    FileName := "l", RelativePath := "./l", RealRelativePath := "./t", MD5Hash := "",
    Inode := 0, FileSize := 0, WasCreated := true, WasDeleted := false, WasModified := false,
    WasMovedFromOnly := false, WasMovedToOnly := false, WasMovedFromAndTo := false,
    MovementCookie := 0, OldWatchNodeOfParent := none, OldFileName := "",
    OldRelativePath := "" }

/-- Kernel events for the examples, each with the state of the file system when it is
handled: the directory `a` is created in the main directory `/m`, renamed to `b`
(`IN_MOVED_FROM` and `IN_MOVED_TO` with the cookie 7) and removed, and then a regular file
is moved from outside the main directory to the name `b` (`IN_MOVED_TO` with the cookie 9
that no `IN_MOVED_FROM` carried). -/
def exampleDirReplacedByFile : List (SysEnv × InotifyEvent) :=
  [(exampleDirEnv ["/m/a"], exampleEvent (IN_CREATE ||| IN_ISDIR) 0 "a"),
   (exampleDirEnv [], exampleEvent (IN_MOVED_FROM ||| IN_ISDIR) 7 "a"),
   (exampleDirEnv ["/m/b"], exampleEvent (IN_MOVED_TO ||| IN_ISDIR) 7 "b"),
   (exampleDirEnv [], exampleEvent (IN_DELETE ||| IN_ISDIR) 0 "b"),
   (exampleEnv, exampleEvent IN_MOVED_TO 9 "b")]

/-- A record for the examples: the directory `./a` renamed to `./b`. -/
def exampleMovedDir : FILE_INFO :=
  { FileType := ftDIRECTORY, FileExistedBeforeEvents := true, WatchNodeOfParent := some 0,
    FileName := "b", RelativePath := "./b", RealRelativePath := "", MD5Hash := "",
    Inode := 0, FileSize := 0, WasCreated := false, WasDeleted := false, WasModified := false,
    WasMovedFromOnly := false, WasMovedToOnly := false, WasMovedFromAndTo := true,
    MovementCookie := 0, OldWatchNodeOfParent := some 0, OldFileName := "a",
    OldRelativePath := "./a" }

/-- A record for the examples: of kind directory, renamed from `./a` to `./b`, with
`WasModified` set as well. -/
def exampleModifiedMovedDir : FILE_INFO :=
  { FileType := ftDIRECTORY, FileExistedBeforeEvents := false, WatchNodeOfParent := some 0,
    FileName := "b", RelativePath := "./b", RealRelativePath := "", MD5Hash := "",
    Inode := 0, FileSize := 0, WasCreated := true, WasDeleted := false, WasModified := true,
    WasMovedFromOnly := false, WasMovedToOnly := false, WasMovedFromAndTo := true,
    MovementCookie := 0, OldWatchNodeOfParent := some 0, OldFileName := "a",
    OldRelativePath := "./a" }

/-- System calls for the examples with a directory tree: the directory `/m/a` holds the
empty directory `c` and the regular file `f`; the kernel gives the descriptor 2 for `/m/a`
and 3 for `/m/a/c`. -/
def exampleTreeEnv : SysEnv :=
  { lstat := fun p =>
      if p = "/m/a" ∨ p = "/m/a/c" then some StatKind.dir
      else if p = "/m/a/f" then some StatKind.other else none
    readdir := fun p =>
      if p = "/m/a" then some ["c", "f"] else if p = "/m/a/c" then some [] else none
    realpath := fun _ => none
    inotify_add_watch := fun p => if p = "/m/a" then 2 else if p = "/m/a/c" then 3 else 4
    inotify_rm_watch := fun _ => 0 }

/-- Kernel events for the examples: the directory `a` with its content appears in the main
directory, and then a directory `a` arrives by a move from outside (`IN_MOVED_TO` with a
cookie that no `IN_MOVED_FROM` carried) while the watch node of the first `a` is still in
the tree; the directory that arrived is empty. -/
def exampleDirArrivesTwice : List (SysEnv × InotifyEvent) :=
  [(exampleTreeEnv, exampleEvent (IN_CREATE ||| IN_ISDIR) 0 "a"),
   (exampleDirEnv ["/m/a"], exampleEvent (IN_MOVED_TO ||| IN_ISDIR) 5 "a")]

/-- A record for the examples with every flag clear but the two given ones. -/
def exampleRecord (FileType : FILE_TYPE) (parent : Nat) (name path : String)
    (created modified : Bool) : FILE_INFO :=
  { FileType := FileType, FileExistedBeforeEvents := false, WatchNodeOfParent := some parent,
    FileName := name, RelativePath := path, RealRelativePath := "", MD5Hash := "",
    Inode := 0, FileSize := 0, WasCreated := created, WasDeleted := false,
    WasModified := modified, WasMovedFromOnly := false, WasMovedToOnly := false,
    WasMovedFromAndTo := false, MovementCookie := 0, OldWatchNodeOfParent := none,
    OldFileName := "", OldRelativePath := "" }

/-- The client state for the examples with a directory tree: watches and nodes for the main
directory (address 0), `./a` (address 1) and `./a/c` (address 3), records for `./a`, `./a/c`
and `./a/f`. -/
def exampleTreeState : ClientState :=
  { Watches :=
      [{ HWatch := 1, DirRelativePath := ".", DirFullPath := "/m", TreeNode := some 0 },
       { HWatch := 2, DirRelativePath := "./a", DirFullPath := "/m/a", TreeNode := some 1 },
       { HWatch := 3, DirRelativePath := "./a/c", DirFullPath := "/m/a/c", TreeNode := some 3 }]
    NumberOfWatches := 3
    gWatchesArrayCapacity := 50
    heap :=
      [(0, { DirWatchIndex := 0, Parent := none, Depth := 0, DirName := ".", Subdirs := [1] }),
       (1, { DirWatchIndex := 1, Parent := some 0, Depth := 1, DirName := "a", Subdirs := [3] }),
       (3, { DirWatchIndex := 2, Parent := some 1, Depth := 2, DirName := "c", Subdirs := [] })]
    nextAddr := 4
    FileInfoHMap :=
      [("./a", exampleRecord ftDIRECTORY 0 "a" "./a" true false),
       ("./a/c", exampleRecord ftDIRECTORY 1 "c" "./a/c" true false),
       ("./a/f", exampleRecord ftNONDIR 1 "f" "./a/f" false true)] }

/-- System calls for the examples with a regular file: the main directory `/m` holds the one
entry `f`, a regular file. -/
def exampleFileEnv : SysEnv :=
  { lstat := fun p => if p = "/m/f" then some StatKind.other else none
    readdir := fun p => if p = "/m" then some ["f"] else none
    realpath := fun _ => none
    inotify_add_watch := fun _ => 2
    inotify_rm_watch := fun _ => 0 }

/-- The watch nodes of the subtrees of the nodes in `queue`, listed breadth first by the
`Subdirs` vectors, with fuel: one unit per node listed. `none`: a node of the listing is not
live, or the fuel does not reach the end of the listing. -/
def subtreeNodes (heap : NodeHeap) : Nat → List Nat → Option (List Nat)
  | 0, _ => none
  | _ + 1, [] => some []
  | fuel + 1, a :: queue =>
    match nodeAt heap (some a) with
    | none => none
    | some n => (subtreeNodes heap fuel (queue ++ n.Subdirs)).map (fun rest => a :: rest)

/-- The field `DirWatchIndex` read through a pointer to a watch node (0 when the pointer is
not live). -/
def nodeIndex (heap : NodeHeap) (a : Option Nat) : Nat :=
  ((nodeAt heap a).map (fun n => n.DirWatchIndex)).getD 0

/-- The field `Depth` read through a pointer to a watch node (0 when the pointer is not
live). -/
def nodeDepth (heap : NodeHeap) (a : Option Nat) : Nat :=
  ((nodeAt heap a).map (fun n => n.Depth)).getD 0

/-- The field `Parent` read through a pointer to a watch node. -/
def nodeParent (heap : NodeHeap) (a : Option Nat) : Option Nat :=
  (nodeAt heap a).bind (fun n => n.Parent)

/-- A client state for the examples after the directory `a` with its subdirectory `c` was
renamed to `b`, the node re-parented (name `b`) and the registry paths not yet rederived. -/
def exampleRenamedState : ClientState :=
  { exampleTreeState with
    heap :=
      [(0, { DirWatchIndex := 0, Parent := none, Depth := 0, DirName := ".", Subdirs := [1] }),
       (1, { DirWatchIndex := 1, Parent := some 0, Depth := 1, DirName := "b", Subdirs := [3] }),
       (3, { DirWatchIndex := 2, Parent := some 1, Depth := 2, DirName := "c", Subdirs := [] })] }

/-- The vector `Subdirs` read through a pointer to a watch node (empty when the pointer is
not live). -/
def nodeSubdirs (heap : NodeHeap) (a : Option Nat) : List Nat :=
  ((nodeAt heap a).map (fun n => n.Subdirs)).getD []

/-! ## Theorems -/

/-! ### The set of depths -/

theorem mem_setInsert (x y : Nat) (s : List Nat) : y ∈ setInsert x s ↔ y = x ∨ y ∈ s := by
  induction s with
  | nil => simp [setInsert]
  | cons z zs ih =>
    unfold setInsert
    by_cases h1 : x < z
    · simp [h1]
    · by_cases h2 : x = z
      · subst h2
        simp
      · simp [h1, h2, ih]
        tauto

theorem setInsert_pairwise (x : Nat) (s : List Nat) (h : s.Pairwise (· < ·)) :
    (setInsert x s).Pairwise (· < ·) := by
  induction s with
  | nil => simp [setInsert]
  | cons z zs ih =>
    unfold setInsert
    rw [List.pairwise_cons] at h
    by_cases h1 : x < z
    · simp only [h1, if_true]
      rw [List.pairwise_cons]
      refine ⟨?_, List.pairwise_cons.2 h⟩
      intro a ha
      rcases List.mem_cons.1 ha with rfl | ha
      · exact h1
      · exact lt_trans h1 (h.1 a ha)
    · by_cases h2 : x = z
      · subst h2
        simp only [h1, if_false, if_true]
        exact List.pairwise_cons.2 h
      · simp only [h1, h2, if_false]
        rw [List.pairwise_cons]
        refine ⟨?_, ih h.2⟩
        intro a ha
        rcases (mem_setInsert x a zs).1 ha with rfl | ha
        · omega
        · exact h.1 a ha

theorem setInsert_length_le (x : Nat) (s : List Nat) : (setInsert x s).length ≤ s.length + 1 := by
  induction s with
  | nil => simp [setInsert]
  | cons z zs ih =>
    unfold setInsert
    split
    · simp
    · split
      · simp
      · simp only [List.length_cons]
        omega

theorem mem_collectDepths (heap : NodeHeap) (m : FileInfoMap) (s : List Nat) (y : Nat) :
    y ∈ collectDepths heap m s ↔
      y ∈ s ∨ ∃ kv ∈ m, kv.2.FileType = ftDIRECTORY ∧ depthOfFileInfo heap kv.2 = y := by
  induction m generalizing s with
  | nil => simp [collectDepths]
  | cons kv rest ih =>
    unfold collectDepths
    rw [ih]
    by_cases hd : kv.2.FileType = ftDIRECTORY
    · simp only [hd, if_true, mem_setInsert, List.mem_cons]
      constructor
      · rintro ((h | h) | ⟨kv2, hmem, h1, h2⟩)
        · exact Or.inr ⟨kv, Or.inl rfl, hd, h.symm⟩
        · exact Or.inl h
        · exact Or.inr ⟨kv2, Or.inr hmem, h1, h2⟩
      · rintro (h | ⟨kv2, hmem | hmem, h1, h2⟩)
        · exact Or.inl (Or.inr h)
        · subst hmem
          exact Or.inl (Or.inl h2.symm)
        · exact Or.inr ⟨kv2, hmem, h1, h2⟩
    · simp only [hd, if_false, List.mem_cons]
      constructor
      · rintro (h | ⟨kv2, hmem, h1, h2⟩)
        · exact Or.inl h
        · exact Or.inr ⟨kv2, Or.inr hmem, h1, h2⟩
      · rintro (h | ⟨kv2, hmem | hmem, h1, h2⟩)
        · exact Or.inl h
        · subst hmem
          exact absurd h1 hd
        · exact Or.inr ⟨kv2, hmem, h1, h2⟩

theorem collectDepths_pairwise (heap : NodeHeap) (m : FileInfoMap) (s : List Nat)
    (h : s.Pairwise (· < ·)) : (collectDepths heap m s).Pairwise (· < ·) := by
  induction m generalizing s with
  | nil => simpa [collectDepths] using h
  | cons kv rest ih =>
    unfold collectDepths
    apply ih
    split
    · exact setInsert_pairwise _ _ h
    · exact h

theorem collectDepths_length_le (heap : NodeHeap) (m : FileInfoMap) (s : List Nat) :
    (collectDepths heap m s).length ≤ s.length + m.length := by
  induction m generalizing s with
  | nil => simp [collectDepths]
  | cons kv rest ih =>
    unfold collectDepths
    refine le_trans (ih _) ?_
    split
    · have := setInsert_length_le (depthOfFileInfo heap kv.2) s
      simp only [List.length_cons]
      omega
    · simp only [List.length_cons]
      omega

/-! ### The drain loop -/

/-- The invariant of the drain loop: the remaining depths are ascending, every directory
still in the map has its depth among them, and the directories already passed over in this
pass are not of the current depth. -/
theorem drainCursor_inv (heap : NodeHeap) (passed rest : FileInfoMap) (ds : List Nat)
    (passed1 more : FileInfoMap) (kv : String × FILE_INFO) (ds1 : List Nat)
    (hs : ds.Pairwise (· < ·))
    (hall : ∀ x ∈ passed ++ rest, x.2.FileType = ftDIRECTORY → depthOfFileInfo heap x.2 ∈ ds)
    (hp : ∀ x ∈ passed, x.2.FileType = ftDIRECTORY →
      ∀ d ∈ ds.head?, depthOfFileInfo heap x.2 ≠ d)
    (hc : drainCursor passed rest ds = some (passed1, kv, more, ds1)) :
    ds1.Pairwise (· < ·) ∧
    (∀ x ∈ passed1 ++ kv :: more, x.2.FileType = ftDIRECTORY →
      depthOfFileInfo heap x.2 ∈ ds1) ∧
    (∀ x ∈ passed1, x.2.FileType = ftDIRECTORY →
      ∀ d ∈ ds1.head?, depthOfFileInfo heap x.2 ≠ d) ∧
    (∀ y ∈ ds1, y ∈ ds) ∧
    (passed1 ++ kv :: more).Perm (passed ++ rest) := by
  cases rest with
  | nil =>
    cases passed with
    | nil => simp [drainCursor] at hc
    | cons p ps =>
      simp only [drainCursor, Option.some.injEq, Prod.mk.injEq] at hc
      obtain ⟨rfl, rfl, rfl, rfl⟩ := hc
      refine ⟨hs.tail, ?_, by simp, fun y hy => List.mem_of_mem_tail hy, by simp⟩
      · intro x hx hd
        have hx2 : x ∈ p :: ps := by simpa using hx
        have h1 := hall x (by simpa using hx2) hd
        have h2 := hp x hx2 hd
        cases ds with
        | nil => simp at h1
        | cons d ds2 =>
          simp only [List.tail_cons]
          rcases List.mem_cons.1 h1 with h | h
          · exact absurd h (h2 d (by simp))
          · exact h
  | cons r rs =>
    simp only [drainCursor, Option.some.injEq, Prod.mk.injEq] at hc
    obtain ⟨rfl, rfl, rfl, rfl⟩ := hc
    exact ⟨hs, hall, hp, fun y hy => hy, List.Perm.refl _⟩

theorem drainSkips_passed (heap : NodeHeap) (ds : List Nat) (fi : FILE_INFO)
    (h : drainSkips heap ds fi = true) (hd : fi.FileType = ftDIRECTORY) :
    ∀ d ∈ ds.head?, depthOfFileInfo heap fi ≠ d := by
  cases ds with
  | nil => simp
  | cons d ds2 =>
    intro e he
    simp only [List.head?_cons, Option.mem_def, Option.some.injEq] at he
    subst he
    simp [drainSkips, hd] at h
    exact fun hh => h hh.symm

theorem drainSkips_taken (heap : NodeHeap) (ds : List Nat) (fi : FILE_INFO)
    (h : drainSkips heap ds fi = false) (y : Nat) (hy : y ∈ ds) (hs : ds.Pairwise (· < ·)) :
    fi.FileType = ftDIRECTORY ∧ depthOfFileInfo heap fi ≤ y := by
  cases ds with
  | nil => simp at hy
  | cons d ds2 =>
    simp [drainSkips] at h
    refine ⟨h.1, ?_⟩
    rw [← h.2]
    rcases List.mem_cons.1 hy with rfl | hy
    · exact le_refl _
    · exact le_of_lt ((List.pairwise_cons.1 hs).1 y hy)

/-- The records the drain loop takes out are in the order `drainBefore`, and the
directories among them have their depth in the current set of depths. -/
theorem drainLoop_order (sock : SendCall → SDSTATUS) (lstatSize : String → Option Nat)
    (M : String) (heap : NodeHeap) :
    ∀ (fuel : Nat) (passed rest : FileInfoMap) (ds : List Nat) (out : DrainOut),
      ds.Pairwise (· < ·) →
      (∀ x ∈ passed ++ rest, x.2.FileType = ftDIRECTORY → depthOfFileInfo heap x.2 ∈ ds) →
      (∀ x ∈ passed, x.2.FileType = ftDIRECTORY →
        ∀ d ∈ ds.head?, depthOfFileInfo heap x.2 ≠ d) →
      drainLoop sock lstatSize M heap fuel passed rest ds = some out →
      out.taken.Pairwise (drainBefore heap) ∧
      (∀ x ∈ out.taken, x.FileType = ftDIRECTORY → depthOfFileInfo heap x ∈ ds) := by
  intro fuel
  induction fuel with
  | zero => intro passed rest ds out _ _ _ h; simp [drainLoop] at h
  | succ n ih =>
    intro passed rest ds out hs hall hp h
    rw [drainLoop] at h
    cases hc : drainCursor passed rest ds with
    | none =>
      rw [hc] at h
      simp only [Option.some.injEq] at h
      subst h
      simp
    | some q =>
      obtain ⟨passed1, kv, more, ds1⟩ := q
      rw [hc] at h
      simp only at h
      obtain ⟨hs1, hall1, hp1, hsub, _⟩ :=
        drainCursor_inv heap passed rest ds passed1 more kv ds1 hs hall hp hc
      cases hsk : drainSkips heap ds1 kv.2 with
      | true =>
        rw [hsk] at h
        simp only [if_true] at h
        have hres := ih (passed1 ++ [kv]) more ds1 out hs1
          (by intro x hx; apply hall1 x; simpa using hx)
          (by
            intro x hx hd
            rcases List.mem_append.1 hx with hx | hx
            · exact hp1 x hx hd
            · have : x = kv := by simpa using hx
              subst this
              exact drainSkips_passed heap ds1 x.2 hsk hd)
          h
        exact ⟨hres.1, fun x hx hd => hsub _ (hres.2 x hx hd)⟩
      | false =>
        rw [hsk] at h
        simp only [Bool.false_eq_true, if_false] at h
        split at h
        · rw [Option.map_eq_some'] at h
          obtain ⟨o, ho, rfl⟩ := h
          have hres := ih passed1 more ds1 o hs1
            (by
              intro x hx
              apply hall1 x
              rcases List.mem_append.1 hx with hx | hx
              · exact List.mem_append.2 (Or.inl hx)
              · exact List.mem_append.2 (Or.inr (List.mem_cons_of_mem _ hx)))
            hp1 ho
          refine ⟨List.pairwise_cons.2 ⟨?_, hres.1⟩, ?_⟩
          · intro y hy hyd
            exact drainSkips_taken heap ds1 kv.2 hsk _ (hres.2 y hy hyd) hs1
          · intro x hx hd
            rcases List.mem_cons.1 hx with rfl | hx
            · exact hsub _ (hall1 kv (by simp) hd)
            · exact hsub _ (hres.2 x hx hd)
        · simp only [Option.some.injEq] at h
          subst h
          refine ⟨List.pairwise_singleton _ _, ?_⟩
          intro x hx hd
          have : x = kv.2 := by simpa using hx
          subst this
          exact hsub _ (hall1 kv (by simp) hd)

/-- The measure of the drain loop decreases when the record at the cursor is passed over. -/
theorem drainMeasure_skip (passed rest passed1 more : FileInfoMap) (kv : String × FILE_INFO)
    (ds ds1 : List Nat) (heap : NodeHeap)
    (hc : drainCursor passed rest ds = some (passed1, kv, more, ds1))
    (hsk : drainSkips heap ds1 kv.2 = true) :
    drainMeasure (passed1 ++ [kv]) more ds1 < drainMeasure passed rest ds := by
  cases ds1 with
  | nil => simp [drainSkips] at hsk
  | cons d1 ds2 =>
    cases rest with
    | nil =>
      cases passed with
      | nil => simp [drainCursor] at hc
      | cons p ps =>
        simp only [drainCursor, Option.some.injEq, Prod.mk.injEq] at hc
        obtain ⟨rfl, rfl, rfl, hds⟩ := hc
        cases ds with
        | nil => simp at hds
        | cons d ds3 =>
          simp only [List.tail_cons] at hds
          subst hds
          simp only [drainMeasure, List.length_cons, List.length_nil, List.length_append,
            List.nil_append]
          nlinarith [Nat.zero_le ds2.length, Nat.zero_le ps.length]
    | cons r rs =>
      simp only [drainCursor, Option.some.injEq, Prod.mk.injEq] at hc
      obtain ⟨rfl, rfl, rfl, rfl⟩ := hc
      simp only [drainMeasure, List.length_cons, List.length_nil, List.length_append]
      have : passed.length + (0 + 1) + rs.length = passed.length + (rs.length + 1) := by
        omega
      rw [this]
      omega

/-- The measure of the drain loop decreases when the record at the cursor is taken out. -/
theorem drainMeasure_take (passed rest passed1 more : FileInfoMap) (kv : String × FILE_INFO)
    (ds ds1 : List Nat)
    (hc : drainCursor passed rest ds = some (passed1, kv, more, ds1)) :
    drainMeasure passed1 more ds1 < drainMeasure passed rest ds := by
  cases rest with
  | nil =>
    cases passed with
    | nil => simp [drainCursor] at hc
    | cons p ps =>
      simp only [drainCursor, Option.some.injEq, Prod.mk.injEq] at hc
      obtain ⟨rfl, rfl, rfl, hds⟩ := hc
      cases ds with
      | nil =>
        simp only [List.tail_nil] at hds
        subst hds
        simp only [drainMeasure, List.length_cons, List.length_nil]
        omega
      | cons d ds3 =>
        simp only [List.tail_cons] at hds
        subst hds
        cases ds3 with
        | nil =>
          simp only [drainMeasure, List.length_cons, List.length_nil]
          omega
        | cons e ds4 =>
          simp only [drainMeasure, List.length_cons, List.length_nil]
          nlinarith [Nat.zero_le ds4.length, Nat.zero_le ps.length]
  | cons r rs =>
    simp only [drainCursor, Option.some.injEq, Prod.mk.injEq] at hc
    obtain ⟨rfl, rfl, rfl, rfl⟩ := hc
    cases ds with
    | nil =>
      simp only [drainMeasure, List.length_cons]
      omega
    | cons d ds2 =>
      simp only [drainMeasure, List.length_cons]
      nlinarith [Nat.zero_le ds2.length, Nat.zero_le passed.length, Nat.zero_le rs.length]

/-- The drain loop returns when it is given at least `drainMeasure` units of fuel. -/
theorem drainLoop_terminates (sock : SendCall → SDSTATUS) (lstatSize : String → Option Nat)
    (M : String) (heap : NodeHeap) :
    ∀ (fuel : Nat) (passed rest : FileInfoMap) (ds : List Nat),
      drainMeasure passed rest ds ≤ fuel →
      ∃ out, drainLoop sock lstatSize M heap fuel passed rest ds = some out := by
  intro fuel
  induction fuel with
  | zero =>
    intro passed rest ds h
    cases ds <;> simp [drainMeasure] at h
  | succ n ih =>
    intro passed rest ds h
    rw [drainLoop]
    cases hc : drainCursor passed rest ds with
    | none => exact ⟨_, rfl⟩
    | some q =>
      obtain ⟨passed1, kv, more, ds1⟩ := q
      simp only
      cases hsk : drainSkips heap ds1 kv.2 with
      | true =>
        simp only [if_true]
        apply ih
        have := drainMeasure_skip passed rest passed1 more kv ds ds1 heap hc hsk
        omega
      | false =>
        simp only [Bool.false_eq_true, if_false]
        split
        · obtain ⟨o, ho⟩ := ih passed1 more ds1 (by
            have := drainMeasure_take passed rest passed1 more kv ds ds1 hc
            omega)
          rw [ho]
          exact ⟨_, rfl⟩
        · exact ⟨_, rfl⟩

/-- The records taken out together with the records left in the map are the records the
loop started from; when the loop ends with success, the map is empty. -/
theorem drainLoop_perm (sock : SendCall → SDSTATUS) (lstatSize : String → Option Nat)
    (M : String) (heap : NodeHeap) :
    ∀ (fuel : Nat) (passed rest : FileInfoMap) (ds : List Nat) (out : DrainOut),
      drainLoop sock lstatSize M heap fuel passed rest ds = some out →
      (out.taken ++ out.map.map Prod.snd).Perm ((passed ++ rest).map Prod.snd) ∧
      (SUCCESS out.status = true → out.map = []) := by
  intro fuel
  induction fuel with
  | zero => intro passed rest ds out h; simp [drainLoop] at h
  | succ n ih =>
    intro passed rest ds out h
    rw [drainLoop] at h
    cases hc : drainCursor passed rest ds with
    | none =>
      rw [hc] at h
      simp only [Option.some.injEq] at h
      subst h
      cases rest <;> cases passed <;> simp [drainCursor] at hc
      simp
    | some q =>
      obtain ⟨passed1, kv, more, ds1⟩ := q
      rw [hc] at h
      simp only at h
      have hperm : (passed1 ++ kv :: more).Perm (passed ++ rest) := by
        cases rest with
        | nil =>
          cases passed with
          | nil => simp [drainCursor] at hc
          | cons p ps =>
            simp only [drainCursor, Option.some.injEq, Prod.mk.injEq] at hc
            obtain ⟨rfl, rfl, rfl, _⟩ := hc
            simp
        | cons r rs =>
          simp only [drainCursor, Option.some.injEq, Prod.mk.injEq] at hc
          obtain ⟨rfl, rfl, rfl, _⟩ := hc
          exact List.Perm.refl _
      have hperm2 := hperm.map Prod.snd
      cases hsk : drainSkips heap ds1 kv.2 with
      | true =>
        rw [hsk] at h
        simp only [if_true] at h
        obtain ⟨h1, h2⟩ := ih _ _ _ _ h
        refine ⟨h1.trans ?_, h2⟩
        refine List.Perm.trans ?_ hperm2
        simp
      | false =>
        rw [hsk] at h
        simp only [Bool.false_eq_true, if_false] at h
        split at h
        · rw [Option.map_eq_some'] at h
          obtain ⟨o, ho, rfl⟩ := h
          obtain ⟨h1, h2⟩ := ih _ _ _ _ ho
          refine ⟨?_, h2⟩
          simp only [List.cons_append]
          refine List.Perm.trans ?_ hperm2
          simp only [List.map_append, List.map_cons]
          refine List.Perm.trans ?_ List.perm_middle.symm
          refine List.Perm.cons _ ?_
          simpa using h1
        · simp only [Option.some.injEq] at h
          subst h
          refine ⟨?_, by simp [SUCCESS]⟩
          refine List.Perm.trans ?_ hperm2
          simp only [List.map_append, List.map_cons, List.singleton_append]
          exact List.perm_middle.symm

theorem drainFuel_enough (heap : NodeHeap) (m : FileInfoMap) :
    drainMeasure [] m (collectDepths heap m []) ≤ drainFuel m := by
  have hlen := collectDepths_length_le heap m []
  simp only [List.length_nil, zero_add] at hlen
  unfold drainFuel
  cases hds : collectDepths heap m [] with
  | nil =>
    simp only [drainMeasure, List.length_nil]
    nlinarith [Nat.zero_le m.length]
  | cons d ds =>
    rw [hds] at hlen
    simp only [drainMeasure, List.length_cons, List.length_nil] at hlen ⊢
    nlinarith [Nat.zero_le m.length, Nat.zero_le ds.length]

/-- C1: for every File-Info map (in every iteration order), every heap of watch nodes and
every behaviour of the socket, `SendAllFileInfoEventsToServer` returns, and in the order in
which it takes records out of the map a directory record is preceded only by directory
records of at most its depth (so directories come in non-decreasing depth and every
non-directory record comes after all directory records); hence no record of depth `d + 1`
is taken out before a directory record of depth `d`. The records taken out and the records
left are together the records of the map, and nothing is left after a successful drain. -/
theorem C1_drain_orders_directories_by_depth (sock : SendCall → SDSTATUS)
    (lstatSize : String → Option Nat) (MainDirFullPath : String) (heap : NodeHeap)
    (FileInfoHMap : FileInfoMap) :
    ∃ out, SendAllFileInfoEventsToServer sock lstatSize MainDirFullPath heap
        (drainFuel FileInfoHMap) FileInfoHMap = some out ∧
      out.taken.Pairwise (fun a b => b.FileType = ftDIRECTORY →
        a.FileType = ftDIRECTORY ∧ depthOfFileInfo heap a ≤ depthOfFileInfo heap b) ∧
      out.taken.Pairwise (fun a b =>
        ¬ (b.FileType = ftDIRECTORY ∧ depthOfFileInfo heap a = depthOfFileInfo heap b + 1)) ∧
      (out.taken ++ out.map.map Prod.snd).Perm (FileInfoHMap.map Prod.snd) ∧
      (SUCCESS out.status = true → out.map = []) := by
  have hweak : ∀ l : List FILE_INFO, l.Pairwise (drainBefore heap) →
      l.Pairwise (fun a b =>
        ¬ (b.FileType = ftDIRECTORY ∧ depthOfFileInfo heap a = depthOfFileInfo heap b + 1)) := by
    intro l hl
    refine hl.imp ?_
    intro a b hab hcon
    have := (hab hcon.1).2
    omega
  unfold SendAllFileInfoEventsToServer
  by_cases hM : MainDirFullPath = ""
  · simp [hM, SUCCESS]
  · by_cases hlen : FileInfoHMap.length ≤ 0
    · have hnil : FileInfoHMap = [] := by
        cases FileInfoHMap with
        | nil => rfl
        | cons a b => simp at hlen
      subst hnil
      simp [hM]
    · simp only [hM, hlen, if_false, PreprocessEventFileInfosBeforeSending, List.length_nil,
        ne_eq, not_true_eq_false, SUCCESS, if_true]
      obtain ⟨out, hout⟩ := drainLoop_terminates sock lstatSize MainDirFullPath heap
        (drainFuel FileInfoHMap) [] FileInfoHMap (collectDepths heap FileInfoHMap [])
        (drainFuel_enough heap FileInfoHMap)
      refine ⟨out, hout, ?_⟩
      have hord := drainLoop_order sock lstatSize MainDirFullPath heap _ _ _ _ out
        (collectDepths_pairwise heap FileInfoHMap [] List.Pairwise.nil)
        (by
          intro x hx hd
          rw [mem_collectDepths]
          exact Or.inr ⟨x, by simpa using hx, hd, rfl⟩)
        (by simp) hout
      have hperm := drainLoop_perm sock lstatSize MainDirFullPath heap _ _ _ _ out hout
      exact ⟨hord.1, hweak _ hord.1, by simpa using hperm.1, hperm.2⟩

/-- C2: for every File-Info record with a non-empty path (and a non-empty old path when it
was moved inside the tree), when the socket part of every send succeeds, the drain sends for
the record exactly the operations of the first matching rule of the priority
`DELETE > MOVED_FROM > MOVED_TO-only > MOVE (+MODIFY) > MODIFY > CREATE`, each for the
record's current relative path, `DELETE` and `MOVED_FROM` only when the file existed before
the events, and nothing when no flag is set. -/
theorem C2_drain_follows_priority (sock : SendCall → SDSTATUS) (crtFileFullPath : String)
    (crtFileSize : Nat) (fi : FILE_INFO)
    (hsock : ∀ c, SUCCESS (sock c) = true)
    (hpath : fi.RelativePath ≠ "") (hfull : crtFileFullPath ≠ "")
    (hold : fi.WasMovedFromAndTo = true → fi.OldRelativePath ≠ "") :
    (sendFileInfoEvent sock crtFileFullPath crtFileSize fi).1 = STATUS_SUCCESS ∧
    (sendFileInfoEvent sock crtFileFullPath crtFileSize fi).2.map SendCall.opType
      = specPriorityOps fi ∧
    ∀ c ∈ (sendFileInfoEvent sock crtFileFullPath crtFileSize fi).2,
      c.path = fi.RelativePath := by
  have hcreate : ∀ ot : OP_TYPE,
      SendCreateToServer sock { buildPacket fi with OperationType := ot } fi.RelativePath
        fi.RealRelativePath
      = sock (.Create { buildPacket fi with OperationType := ot } fi.RelativePath
          fi.RealRelativePath) := by
    intro ot
    unfold SendCreateToServer
    rw [if_neg hpath, if_neg]
    rintro ⟨h1, h2⟩
    apply h1
    simp [buildPacket, h2]
  unfold sendFileInfoEvent specPriorityOps
  cases hD : fi.WasDeleted <;> cases hE : fi.FileExistedBeforeEvents <;>
    cases hF : fi.WasMovedFromOnly <;> cases hT : fi.WasMovedToOnly <;>
    cases hFT : fi.WasMovedFromAndTo <;> cases hM : fi.WasModified <;>
    cases hC : fi.WasCreated <;>
    by_cases hdir : fi.FileType = ftDIRECTORY <;>
    simp_all [SendDeleteToServer, SendModifyToServer, SendMoveToServer,
      SendCall.opType, SendCall.path]

theorem C2_drain_follows_priority_witness :
    (sendFileInfoEvent (fun _ => STATUS_SUCCESS) "/main/f" 5 exampleModifiedFile).1
      = STATUS_SUCCESS ∧
    (sendFileInfoEvent (fun _ => STATUS_SUCCESS) "/main/f" 5 exampleModifiedFile).2.map
      SendCall.opType = specPriorityOps exampleModifiedFile ∧
    ∀ c ∈ (sendFileInfoEvent (fun _ => STATUS_SUCCESS) "/main/f" 5 exampleModifiedFile).2,
      c.path = exampleModifiedFile.RelativePath :=
  C2_drain_follows_priority (fun _ => STATUS_SUCCESS) "/main/f" 5 exampleModifiedFile
    (fun _ => rfl) (by decide) (by decide) (by decide)


/-! ### The File-Info map -/

theorem mapFind_nil (k : String) : mapFind [] k = none := rfl

theorem mapFind_cons (kv : String × FILE_INFO) (rest : FileInfoMap) (k : String) :
    mapFind (kv :: rest) k = if kv.1 = k then some kv.2 else mapFind rest k := by
  unfold mapFind
  by_cases h : kv.1 = k
  · simp [List.find?_cons, h]
  · have : (kv.1 == k) = false := by simpa using h
    simp [List.find?_cons, this, h]

theorem mapModify_cons (kv : String × FILE_INFO) (rest : FileInfoMap) (k : String)
    (f : FILE_INFO → FILE_INFO) :
    mapModify (kv :: rest) k f
      = (if kv.1 = k then (kv.1, f kv.2) else kv) :: mapModify rest k f := by
  simp [mapModify]

theorem mapErase_cons (kv : String × FILE_INFO) (rest : FileInfoMap) (k : String) :
    mapErase (kv :: rest) k = if kv.1 = k then mapErase rest k else kv :: mapErase rest k := by
  unfold mapErase
  by_cases h : kv.1 = k
  · simp [List.filter_cons, h]
  · simp [List.filter_cons, h]

theorem mapFind_append (m1 m2 : FileInfoMap) (k : String) :
    mapFind (m1 ++ m2) k = (mapFind m1 k).or (mapFind m2 k) := by
  induction m1 with
  | nil => simp [mapFind_nil]
  | cons kv rest ih =>
    rw [List.cons_append, mapFind_cons, mapFind_cons, ih]
    split <;> simp

theorem mapFind_insert_same (m : FileInfoMap) (k : String) (v : FILE_INFO)
    (h : mapFind m k = none) : mapFind (m ++ [(k, v)]) k = some v := by
  rw [mapFind_append, h, mapFind_cons]
  simp

theorem mapFind_insert_other (m : FileInfoMap) (k k2 : String) (v : FILE_INFO)
    (h : k2 ≠ k) : mapFind (m ++ [(k2, v)]) k = mapFind m k := by
  rw [mapFind_append, mapFind_cons, mapFind_nil]
  simp [h]

theorem mapFind_mapModify_same (m : FileInfoMap) (k : String) (f : FILE_INFO → FILE_INFO) :
    mapFind (mapModify m k f) k = (mapFind m k).map f := by
  induction m with
  | nil => simp [mapFind_nil, mapModify]
  | cons kv rest ih =>
    rw [mapModify_cons, mapFind_cons, mapFind_cons]
    by_cases h : kv.1 = k
    · simp [h]
    · simp [h, ih]

theorem mapErase_of_none (m : FileInfoMap) (k : String) (h : mapFind m k = none) :
    mapErase m k = m := by
  induction m with
  | nil => simp [mapErase]
  | cons kv rest ih =>
    rw [mapFind_cons] at h
    rw [mapErase_cons]
    by_cases hk : kv.1 = k
    · simp [hk] at h
    · simp only [hk, if_false] at h ⊢
      rw [ih h]

theorem mapFind_mapErase_same (m : FileInfoMap) (k : String) :
    mapFind (mapErase m k) k = none := by
  induction m with
  | nil => simp [mapFind_nil, mapErase]
  | cons kv rest ih =>
    rw [mapErase_cons]
    by_cases hk : kv.1 = k
    · simp [hk, ih]
    · simp [hk, ih, mapFind_cons]

theorem mapErase_mapModify_same (m : FileInfoMap) (k : String) (f : FILE_INFO → FILE_INFO) :
    mapErase (mapModify m k f) k = mapErase m k := by
  induction m with
  | nil => simp [mapErase, mapModify]
  | cons kv rest ih =>
    rw [mapModify_cons, mapErase_cons, mapErase_cons]
    by_cases hk : kv.1 = k
    · simp [hk, ih]
    · simp [hk, ih]

theorem mapErase_append (m1 m2 : FileInfoMap) (k : String) :
    mapErase (m1 ++ m2) k = mapErase m1 k ++ mapErase m2 k := by
  simp [mapErase]

theorem cookie_find_none (m : FileInfoMap) (c : Nat)
    (h : ∀ kv ∈ m, kv.2.MovementCookie ≠ c) :
    m.find? (fun kv => kv.2.MovementCookie == c) = none := by
  rw [List.find?_eq_none]
  intro kv hkv
  simpa using h kv hkv

theorem pathUnder_self (a : String) : pathUnder a a = false := by
  unfold pathUnder
  rw [Bool.eq_false_iff]
  intro h
  have hp := List.isPrefixOf_iff_prefix.1 h
  have hl := hp.length_le
  simp at hl

theorem joined_ne_empty (a b : String) : a ++ "/" ++ b ≠ "" := by
  intro h
  have := congrArg String.length h
  simp only [String.length_append] at this
  have h1 : "/".length = 1 := by decide
  have h2 : "".length = 0 := by decide
  omega


/-! ### The initialisation part of `ProcessOperationAndAggregate` -/

theorem mapModify_of_none (m : FileInfoMap) (k : String) (f : FILE_INFO → FILE_INFO)
    (h : mapFind m k = none) : mapModify m k f = m := by
  induction m with
  | nil => simp [mapModify]
  | cons kv rest ih =>
    rw [mapFind_cons] at h
    rw [mapModify_cons]
    by_cases hk : kv.1 = k
    · simp [hk] at h
    · simp only [hk, if_false] at h ⊢
      rw [ih h]

theorem mapModify_append (m1 m2 : FileInfoMap) (k : String) (f : FILE_INFO → FILE_INFO) :
    mapModify (m1 ++ m2) k f = mapModify m1 k f ++ mapModify m2 k f := by
  simp [mapModify]

theorem eventFields_kernel (e : InotifyEvent) (s : ClientState)
    (hcap : ¬ s.gWatchesArrayCapacity < s.NumberOfWatches) :
    eventFields (some e) none s
      = some (eventWatchIndexOf s e, decide (IN_ISDIR &&& e.mask ≠ 0), e.cookie,
          eventRelativePathOf s e, eventFullPathOf s e, e.name) := by
  simp [eventFields, eventWatchIndexOf, eventRelativePathOf, eventFullPathOf,
    GetDirWatchIndexByHandle, hcap, SUCCESS]

theorem IsSymbolicLinkValid_cases (env : SysEnv) (f m : String) :
    ((IsSymbolicLinkValid env f m).1 = STATUS_FAIL ∧ (IsSymbolicLinkValid env f m).2.1 = none) ∨
    ((IsSymbolicLinkValid env f m).1 = STATUS_SUCCESS ∧
      (IsSymbolicLinkValid env f m).2.1 = some true) ∨
    ((IsSymbolicLinkValid env f m).1 = STATUS_SUCCESS ∧
      (IsSymbolicLinkValid env f m).2.1 = some false) := by
  unfold IsSymbolicLinkValid
  by_cases h1 : f = ""
  · simp [h1]
  · by_cases h2 : m = ""
    · simp [h1, h2]
    · cases h3 : env.realpath f with
      | none => simp [h1, h2]
      | some r =>
        simp only [h1, h2, if_false]
        split <;> simp

theorem mapModify_id (m : FileInfoMap) (k : String) : mapModify m k (fun fi => fi) = m := by
  induction m with
  | nil => rfl
  | cons kv rest ih => rw [mapModify_cons, ih]; split <;> rfl

/-- What the initialisation part leaves for a kernel event that passes the symbolic link
check: the paths of the event, a record `newFileInfo` that is neutral but for its path,
name, parent, kind and real path, and a map in which at most the kind and the real path of
the record of the event path have changed. -/
theorem processInit_kernel (env : SysEnv) (e : InotifyEvent) (s : ClientState)
    (hcap : ¬ s.gWatchesArrayCapacity < s.NumberOfWatches)
    (hesc : passesLinkCheck env s e) :
    ∃ (ctx : EventContext) (g : FILE_INFO → FILE_INFO) (ft : FILE_TYPE) (rr : String),
      processInit env (some e) none s
        = .go ctx { s with FileInfoHMap := mapModify s.FileInfoHMap (eventRelativePathOf s e) g } ∧
      ctx.eventRelativePath = eventRelativePathOf s e ∧
      ctx.eventFullPath = eventFullPathOf s e ∧
      ctx.eventFileName = e.name ∧
      ctx.eventCookie = e.cookie ∧
      ctx.eventIsForDirectory = decide (IN_ISDIR &&& e.mask ≠ 0) ∧
      ctx.eventWatchIndex = eventWatchIndexOf s e ∧
      ctx.eventWatchNode = (watchAt s.Watches (eventWatchIndexOf s e)).TreeNode ∧
      ctx.fileInfoToAggregate
        = (if (mapFind s.FileInfoHMap (eventRelativePathOf s e)).isSome
           then some (eventRelativePathOf s e) else none) ∧
      SUCCESS ctx.status = true ∧
      ctx.newFileInfo =
        { InitFileInfo with
          RelativePath := eventRelativePathOf s e
          FileName := e.name
          WatchNodeOfParent := (watchAt s.Watches (eventWatchIndexOf s e)).TreeNode
          FileType := ft
          RealRelativePath := rr } ∧
      (∀ fi, g fi = { fi with FileType := (g fi).FileType,
                              RealRelativePath := (g fi).RealRelativePath }) := by
  unfold passesLinkCheck symLinkEscapes mainDirOf at hesc
  unfold processInit
  rw [eventFields_kernel e s hcap]
  simp only
  by_cases hl : env.lstat (eventFullPathOf s e) = some StatKind.link
  · rw [if_pos hl]
    simp only [hl, beq_self_eq_true, Bool.true_and, Bool.and_eq_false_imp, beq_iff_eq] at hesc
    rcases IsSymbolicLinkValid_cases env (eventFullPathOf s e) (watchAt s.Watches 0).DirFullPath
      with ⟨h1, h2⟩ | ⟨h1, h2⟩ | ⟨h1, h2⟩
    · simp only [h1, h2, SUCCESS, Bool.not_false, if_true, Option.getD_none,
        Bool.false_eq_true, false_and, if_false, reduceCtorEq]
      apply Exists.intro
      apply Exists.intro (fun fi => fi)
      apply Exists.intro
      apply Exists.intro
      rw [mapModify_id]
      exact ⟨rfl, rfl, rfl, rfl, rfl, rfl, rfl, rfl, rfl, rfl, rfl, fun fi => rfl⟩
    · simp only [h1, h2, SUCCESS, Bool.not_true, Bool.false_eq_true, if_false,
        Option.getD_some, and_self, if_true]
      cases hf : mapFind s.FileInfoHMap (eventRelativePathOf s e) with
      | none =>
        simp only [Option.isSome_none, Bool.false_eq_true, if_false]
        apply Exists.intro
        apply Exists.intro (fun fi => fi)
        apply Exists.intro
        apply Exists.intro
        rw [mapModify_id]
        exact ⟨rfl, rfl, rfl, rfl, rfl, rfl, rfl, rfl, rfl, rfl, rfl, fun fi => rfl⟩
      | some v =>
        simp only [Option.isSome_some, if_true]
        exact ⟨_, _, _, _, rfl, rfl, rfl, rfl, rfl, rfl, rfl, rfl, rfl, rfl, rfl,
          fun fi => rfl⟩
    · exact absurd h2 (by simpa using hesc h1)
  · rw [if_neg hl]
    apply Exists.intro
    apply Exists.intro (fun fi => fi)
    apply Exists.intro
    apply Exists.intro
    rw [mapModify_id]
    exact ⟨rfl, rfl, rfl, rfl, rfl, rfl, rfl, rfl, rfl, rfl, rfl, fun fi => rfl⟩

/-! ### One kernel event through `ProcessOperationAndAggregate` -/

theorem processInit_context (env : SysEnv) (e : InotifyEvent) (s : ClientState)
    (hcap : ¬ s.gWatchesArrayCapacity < s.NumberOfWatches)
    (hesc : passesLinkCheck env s e) :
    ∃ (st : SDSTATUS) (g : FILE_INFO → FILE_INFO) (ft : FILE_TYPE) (rr : String),
      SUCCESS st = true ∧
      (∀ fi, g fi = { fi with FileType := (g fi).FileType,
                              RealRelativePath := (g fi).RealRelativePath }) ∧
      processInit env (some e) none s
        = .go (kernelContext s e st ft rr)
            { s with FileInfoHMap := mapModify s.FileInfoHMap (eventRelativePathOf s e) g } := by
  obtain ⟨ctx, g, ft, rr, h0, h1, h2, h3, h4, h5, h6, h7, h8, h9, h10, hg⟩ :=
    processInit_kernel env e s hcap hesc
  refine ⟨ctx.status, g, ft, rr, h9, hg, ?_⟩
  rw [h0]
  congr
  cases ctx
  simp_all [kernelContext]

theorem process_movedFrom_go (env : SysEnv) (fuel : Nat) (op : OP_TYPE) (e : InotifyEvent)
    (s s1 : ClientState) (ctx : EventContext)
    (hcap : ¬ s.gWatchesArrayCapacity < s.NumberOfWatches)
    (hop : op = opFILMOVEDFROM ∨ op = opDIRMOVEDFROM)
    (h : processInit env (some e) none s = .go ctx s1) :
    ProcessOperationAndAggregate env (fuel + 1) op (some e) none s
      = some (aggregateMovedFrom ctx s1) := by
  rcases hop with rfl | rfl <;>
  · rw [ProcessOperationAndAggregate]
    simp [hcap, h]

theorem process_filMovedTo_go (env : SysEnv) (fuel : Nat) (e : InotifyEvent) (s s1 : ClientState)
    (ctx : EventContext) (hcap : ¬ s.gWatchesArrayCapacity < s.NumberOfWatches)
    (h : processInit env (some e) none s = .go ctx s1) :
    ProcessOperationAndAggregate env (fuel + 1) opFILMOVEDTO (some e) none s
      = (match (FindFileInfoByMovementCookie ctx.eventCookie s1.FileInfoHMap).2 with
         | none => some (aggregateModify none { ctx with status := STATUS_SUCCESS } s1)
         | some key => some (aggregateFileMove key ctx s1)) := by
  rw [ProcessOperationAndAggregate]
  simp [hcap, h, FindFileInfoByMovementCookie, SUCCESS]
  split <;> simp

theorem process_modify_go (env : SysEnv) (fuel : Nat) (e : InotifyEvent) (s s1 : ClientState)
    (ctx : EventContext) (hcap : ¬ s.gWatchesArrayCapacity < s.NumberOfWatches)
    (h : processInit env (some e) none s = .go ctx s1) :
    ProcessOperationAndAggregate env (fuel + 1) opMODIFY (some e) none s
      = some (aggregateModify none ctx s1) := by
  rw [ProcessOperationAndAggregate]
  simp [hcap, h]

theorem process_filCreate_go (env : SysEnv) (fuel : Nat) (e : InotifyEvent) (s s1 : ClientState)
    (ctx : EventContext) (hcap : ¬ s.gWatchesArrayCapacity < s.NumberOfWatches)
    (hdir : ctx.eventIsForDirectory = false)
    (h : processInit env (some e) none s = .go ctx s1) :
    ProcessOperationAndAggregate env (fuel + 1) opFILCREATE (some e) none s
      = some (if SUCCESS (aggregateCreate opFILCREATE ctx s1).1
          then (SUCCESS_KEEP_WARNING (aggregateCreate opFILCREATE ctx s1).1,
                (aggregateCreate opFILCREATE ctx s1).2)
          else (STATUS_FAIL, (aggregateCreate opFILCREATE ctx s1).2)) := by
  rw [ProcessOperationAndAggregate]
  simp [hcap, h, hdir]
  split <;> simp_all

theorem process_filDelete_go (env : SysEnv) (fuel : Nat) (e : InotifyEvent) (s s1 : ClientState)
    (ctx : EventContext) (hcap : ¬ s.gWatchesArrayCapacity < s.NumberOfWatches)
    (hdir : ctx.eventIsForDirectory = false)
    (h : processInit env (some e) none s = .go ctx s1) :
    ProcessOperationAndAggregate env (fuel + 1) opFILDELETE (some e) none s
      = some (if SUCCESS (aggregateDelete ctx s1).1
          then (SUCCESS_KEEP_WARNING (aggregateDelete ctx s1).1, (aggregateDelete ctx s1).2)
          else (STATUS_FAIL, (aggregateDelete ctx s1).2)) := by
  rw [ProcessOperationAndAggregate]
  simp [hcap, h, hdir]
  split <;> simp_all

theorem identifyOperation_file (mask : Nat)
    (h : identifyOperation mask = opFILCREATE ∨ identifyOperation mask = opFILDELETE ∨
      identifyOperation mask = opFILMOVEDFROM ∨ identifyOperation mask = opFILMOVEDTO) :
    decide (IN_ISDIR &&& mask ≠ 0) = false := by
  by_cases hd : IN_ISDIR &&& mask ≠ 0
  · exfalso
    unfold identifyOperation at h
    split_ifs at h <;> simp_all
  · simpa using hd

theorem identifyOperation_dir (mask : Nat)
    (h : identifyOperation mask = opDIRCREATE ∨ identifyOperation mask = opDIRDELETE ∨
      identifyOperation mask = opDIRMOVEDFROM ∨ identifyOperation mask = opDIRMOVEDTO) :
    decide (IN_ISDIR &&& mask ≠ 0) = true := by
  by_cases hd : IN_ISDIR &&& mask ≠ 0
  · simpa using hd
  · exfalso
    unfold identifyOperation at h
    split_ifs at h <;> simp_all

theorem readEvents_cons (fuel : Nat) (env : SysEnv) (e : InotifyEvent)
    (rest : List (SysEnv × InotifyEvent)) (s s2 : ClientState) (st : SDSTATUS)
    (hlen : 0 < e.len) (hop : identifyOperation e.mask ≠ opUNKNOWN)
    (hp : ProcessOperationAndAggregate env fuel (identifyOperation e.mask) (some e) none s
      = some (st, s2)) :
    ReadEventsAndIdentifyOperations fuel ((env, e) :: rest) s
      = if SUCCESS st then ReadEventsAndIdentifyOperations fuel rest s2
        else some (STATUS_FAIL, s2) := by
  rw [ReadEventsAndIdentifyOperations]
  simp only [hlen, if_true, hop, if_false, hp]
  cases st <;> simp [SUCCESS]

theorem mapModify_mapModify (m : FileInfoMap) (k : String) (f g : FILE_INFO → FILE_INFO) :
    mapModify (mapModify m k g) k f = mapModify m k (fun fi => f (g fi)) := by
  induction m with
  | nil => rfl
  | cons kv rest ih =>
    rw [mapModify_cons, mapModify_cons, mapModify_cons, ih]
    by_cases h : kv.1 = k <;> simp [h]

theorem mapModify_last (m : FileInfoMap) (k : String) (x : FILE_INFO)
    (f : FILE_INFO → FILE_INFO) (h : mapFind m k = none) :
    mapModify (m ++ [(k, x)]) k f = m ++ [(k, f x)] := by
  rw [mapModify_append, mapModify_of_none m k f h]
  simp [mapModify]

theorem movedFrom_fresh (env : SysEnv) (fuel : Nat) (e : InotifyEvent) (s : ClientState)
    (hcap : ¬ s.gWatchesArrayCapacity < s.NumberOfWatches)
    (hl : passesLinkCheck env s e)
    (hop : identifyOperation e.mask = opFILMOVEDFROM)
    (ha : mapFind s.FileInfoHMap (eventRelativePathOf s e) = none) :
    ∃ (st : SDSTATUS) (ft : FILE_TYPE) (rr : String), SUCCESS st = true ∧
      ProcessOperationAndAggregate env (fuel + 1) (identifyOperation e.mask) (some e) none s
        = some (st, { s with FileInfoHMap := s.FileInfoHMap ++
            [(eventRelativePathOf s e,
              { (kernelContext s e st ft rr).newFileInfo with
                FileExistedBeforeEvents := true, WasMovedFromOnly := true,
                MovementCookie := e.cookie })] }) := by
  obtain ⟨st, g, ft, rr, hst, hg, hinit⟩ := processInit_context env e s hcap hl
  have hdir := identifyOperation_file e.mask (Or.inr (Or.inr (Or.inl hop)))
  rw [hop, process_movedFrom_go env fuel _ e s _ _ hcap (Or.inl rfl) hinit]
  refine ⟨STATUS_SUCCESS, ft, rr, rfl, ?_⟩
  simp [aggregateMovedFrom, kernelContext, ha, mapModify_of_none, InsertNewFileInfo, hdir,
    SUCCESS, SUCCESS_KEEP_WARNING, InitFileInfo]

theorem modify_fresh (env : SysEnv) (fuel : Nat) (e : InotifyEvent) (s : ClientState)
    (hcap : ¬ s.gWatchesArrayCapacity < s.NumberOfWatches)
    (hl : passesLinkCheck env s e)
    (hop : identifyOperation e.mask = opMODIFY)
    (ha : mapFind s.FileInfoHMap (eventRelativePathOf s e) = none) :
    ∃ (st : SDSTATUS) (ft : FILE_TYPE) (rr : String), SUCCESS st = true ∧
      ProcessOperationAndAggregate env (fuel + 1) (identifyOperation e.mask) (some e) none s
        = some (st, { s with FileInfoHMap := s.FileInfoHMap ++
            [(eventRelativePathOf s e,
              { (kernelContext s e st ft rr).newFileInfo with
                FileExistedBeforeEvents := true, WasModified := true })] }) := by
  obtain ⟨st, g, ft, rr, hst, hg, hinit⟩ := processInit_context env e s hcap hl
  rw [hop, process_modify_go env fuel e s _ _ hcap hinit]
  refine ⟨STATUS_SUCCESS, ft, rr, rfl, ?_⟩
  simp [aggregateModify, kernelContext, ha, mapModify_of_none, InsertNewFileInfo,
    SUCCESS, SUCCESS_KEEP_WARNING, InitFileInfo]

theorem filCreate_fresh (env : SysEnv) (fuel : Nat) (e : InotifyEvent) (s : ClientState)
    (hcap : ¬ s.gWatchesArrayCapacity < s.NumberOfWatches)
    (hl : passesLinkCheck env s e)
    (hop : identifyOperation e.mask = opFILCREATE)
    (ha : mapFind s.FileInfoHMap (eventRelativePathOf s e) = none) :
    ∃ (st : SDSTATUS) (ft : FILE_TYPE) (rr : String), SUCCESS st = true ∧
      ProcessOperationAndAggregate env (fuel + 1) (identifyOperation e.mask) (some e) none s
        = some (st, { s with FileInfoHMap := s.FileInfoHMap ++
            [(eventRelativePathOf s e,
              { (kernelContext s e st ft rr).newFileInfo with
                FileExistedBeforeEvents := false, WasCreated := true })] }) := by
  obtain ⟨st, g, ft, rr, hst, hg, hinit⟩ := processInit_context env e s hcap hl
  have hdir := identifyOperation_file e.mask (Or.inl hop)
  rw [hop, process_filCreate_go env fuel e s _ _ hcap (by simpa [kernelContext] using hdir) hinit]
  refine ⟨STATUS_SUCCESS, ft, rr, rfl, ?_⟩
  simp [aggregateCreate, kernelContext, ha, mapModify_of_none, InsertNewFileInfo,
    SUCCESS, SUCCESS_KEEP_WARNING, InitFileInfo]

theorem filDelete_fresh (env : SysEnv) (fuel : Nat) (e : InotifyEvent) (s : ClientState)
    (hcap : ¬ s.gWatchesArrayCapacity < s.NumberOfWatches)
    (hl : passesLinkCheck env s e)
    (hop : identifyOperation e.mask = opFILDELETE)
    (ha : mapFind s.FileInfoHMap (eventRelativePathOf s e) = none) :
    ∃ (st : SDSTATUS) (ft : FILE_TYPE) (rr : String), SUCCESS st = true ∧
      ProcessOperationAndAggregate env (fuel + 1) (identifyOperation e.mask) (some e) none s
        = some (st, { s with FileInfoHMap := s.FileInfoHMap ++
            [(eventRelativePathOf s e,
              { (kernelContext s e st ft rr).newFileInfo with
                FileExistedBeforeEvents := true, WasDeleted := true })] }) := by
  obtain ⟨st, g, ft, rr, hst, hg, hinit⟩ := processInit_context env e s hcap hl
  have hdir := identifyOperation_file e.mask (Or.inr (Or.inl hop))
  rw [hop, process_filDelete_go env fuel e s _ _ hcap (by simpa [kernelContext] using hdir) hinit]
  refine ⟨STATUS_SUCCESS, ft, rr, rfl, ?_⟩
  simp [aggregateDelete, kernelContext, ha, mapModify_of_none, InsertNewFileInfo,
    SUCCESS, SUCCESS_KEEP_WARNING, InitFileInfo]

theorem movedFrom_existing (env : SysEnv) (fuel : Nat) (e : InotifyEvent) (s : ClientState)
    (hcap : ¬ s.gWatchesArrayCapacity < s.NumberOfWatches)
    (hl : passesLinkCheck env s e)
    (hop : identifyOperation e.mask = opFILMOVEDFROM)
    (ha : (mapFind s.FileInfoHMap (eventRelativePathOf s e)).isSome = true) :
    ∃ (st : SDSTATUS) (g : FILE_INFO → FILE_INFO), SUCCESS st = true ∧
      (∀ fi, g fi = { fi with FileType := (g fi).FileType,
                              RealRelativePath := (g fi).RealRelativePath }) ∧
      ProcessOperationAndAggregate env (fuel + 1) (identifyOperation e.mask) (some e) none s
        = some (st, { s with
            FileInfoHMap := mapModify s.FileInfoHMap (eventRelativePathOf s e) (fun fi =>
              { g fi with WasMovedFromOnly := true, WasDeleted := false,
                          WasMovedFromAndTo := false, MovementCookie := e.cookie }) }) := by
  obtain ⟨st, g, ft, rr, hst, hg, hinit⟩ := processInit_context env e s hcap hl
  have hdir := identifyOperation_file e.mask (Or.inr (Or.inr (Or.inl hop)))
  rw [hop, process_movedFrom_go env fuel _ e s _ _ hcap (Or.inl rfl) hinit]
  refine ⟨SUCCESS_KEEP_WARNING st, g, ?_, hg, ?_⟩
  · cases st <;> simp_all [SUCCESS, SUCCESS_KEEP_WARNING]
  · simp [aggregateMovedFrom, kernelContext, ha, hdir, hst, mapModify_mapModify]

theorem modify_existing (env : SysEnv) (fuel : Nat) (e : InotifyEvent) (s : ClientState)
    (hcap : ¬ s.gWatchesArrayCapacity < s.NumberOfWatches)
    (hl : passesLinkCheck env s e)
    (hop : identifyOperation e.mask = opMODIFY)
    (ha : (mapFind s.FileInfoHMap (eventRelativePathOf s e)).isSome = true) :
    ∃ (st : SDSTATUS) (g : FILE_INFO → FILE_INFO), SUCCESS st = true ∧
      (∀ fi, g fi = { fi with FileType := (g fi).FileType,
                              RealRelativePath := (g fi).RealRelativePath }) ∧
      ProcessOperationAndAggregate env (fuel + 1) (identifyOperation e.mask) (some e) none s
        = some (st, { s with
            FileInfoHMap := mapModify s.FileInfoHMap (eventRelativePathOf s e) (fun fi =>
              { g fi with WasModified := true, WasDeleted := false,
                          WasMovedFromOnly := false }) }) := by
  obtain ⟨st, g, ft, rr, hst, hg, hinit⟩ := processInit_context env e s hcap hl
  rw [hop, process_modify_go env fuel e s _ _ hcap hinit]
  refine ⟨SUCCESS_KEEP_WARNING st, g, ?_, hg, ?_⟩
  · cases st <;> simp_all [SUCCESS, SUCCESS_KEEP_WARNING]
  · simp [aggregateModify, kernelContext, ha, mapModify_mapModify]

theorem filCreate_existing (env : SysEnv) (fuel : Nat) (e : InotifyEvent) (s : ClientState)
    (hcap : ¬ s.gWatchesArrayCapacity < s.NumberOfWatches)
    (hl : passesLinkCheck env s e)
    (hop : identifyOperation e.mask = opFILCREATE)
    (ha : (mapFind s.FileInfoHMap (eventRelativePathOf s e)).isSome = true) :
    ∃ (st : SDSTATUS) (g : FILE_INFO → FILE_INFO), SUCCESS st = true ∧
      (∀ fi, g fi = { fi with FileType := (g fi).FileType,
                              RealRelativePath := (g fi).RealRelativePath }) ∧
      ProcessOperationAndAggregate env (fuel + 1) (identifyOperation e.mask) (some e) none s
        = some (st, { s with
            FileInfoHMap := mapModify s.FileInfoHMap (eventRelativePathOf s e) (fun fi =>
              { g fi with WasCreated := true, WasDeleted := false, WasMovedFromOnly := false,
                          WasMovedFromAndTo := false, WasModified := false }) }) := by
  obtain ⟨st, g, ft, rr, hst, hg, hinit⟩ := processInit_context env e s hcap hl
  have hdir := identifyOperation_file e.mask (Or.inl hop)
  rw [hop, process_filCreate_go env fuel e s _ _ hcap (by simpa [kernelContext] using hdir) hinit]
  refine ⟨SUCCESS_KEEP_WARNING st, g, ?_, hg, ?_⟩
  · cases st <;> simp_all [SUCCESS, SUCCESS_KEEP_WARNING]
  · simp [aggregateCreate, kernelContext, ha, hst, mapModify_mapModify]

theorem filDelete_existing (env : SysEnv) (fuel : Nat) (e : InotifyEvent) (s : ClientState)
    (hcap : ¬ s.gWatchesArrayCapacity < s.NumberOfWatches)
    (hl : passesLinkCheck env s e)
    (hop : identifyOperation e.mask = opFILDELETE)
    (ha : (mapFind s.FileInfoHMap (eventRelativePathOf s e)).isSome = true) :
    ∃ (st : SDSTATUS) (g : FILE_INFO → FILE_INFO), SUCCESS st = true ∧
      (∀ fi, g fi = { fi with FileType := (g fi).FileType,
                              RealRelativePath := (g fi).RealRelativePath }) ∧
      ProcessOperationAndAggregate env (fuel + 1) (identifyOperation e.mask) (some e) none s
        = some (st, { s with
            FileInfoHMap := mapModify s.FileInfoHMap (eventRelativePathOf s e) (fun fi =>
              { g fi with WasDeleted := true }) }) := by
  obtain ⟨st, g, ft, rr, hst, hg, hinit⟩ := processInit_context env e s hcap hl
  have hdir := identifyOperation_file e.mask (Or.inr (Or.inl hop))
  rw [hop, process_filDelete_go env fuel e s _ _ hcap (by simpa [kernelContext] using hdir) hinit]
  refine ⟨SUCCESS_KEEP_WARNING st, g, ?_, hg, ?_⟩
  · cases st <;> simp_all [SUCCESS, SUCCESS_KEEP_WARNING]
  · simp [aggregateDelete, kernelContext, ha, hst, mapModify_mapModify]

theorem cookie_find_last (m : FileInfoMap) (k : String) (x : FILE_INFO)
    (h : ∀ kv ∈ m, kv.2.MovementCookie ≠ x.MovementCookie) :
    (m ++ [(k, x)]).find? (fun kv => kv.2.MovementCookie == x.MovementCookie) = some (k, x) := by
  rw [List.find?_append, cookie_find_none m _ h]
  simp

theorem filMovedTo_matched (env : SysEnv) (fuel : Nat) (e : InotifyEvent) (s : ClientState)
    (m0 : FileInfoMap) (a : String) (x : FILE_INFO)
    (hcap : ¬ s.gWatchesArrayCapacity < s.NumberOfWatches)
    (hl : passesLinkCheck env s e)
    (hop : identifyOperation e.mask = opFILMOVEDTO)
    (hm : s.FileInfoHMap = m0 ++ [(a, x)])
    (hc : e.cookie ≠ 0) (hx : x.MovementCookie = e.cookie)
    (hfree : ∀ kv ∈ m0, kv.2.MovementCookie ≠ e.cookie)
    (ha : mapFind m0 a = none)
    (hb : mapFind m0 (eventRelativePathOf s e) = none)
    (hab : a ≠ eventRelativePathOf s e) :
    ∃ (st : SDSTATUS), SUCCESS st = true ∧
      ProcessOperationAndAggregate env (fuel + 1) (identifyOperation e.mask) (some e) none s
        = some (st, { s with
            FileInfoHMap := m0 ++ [(eventRelativePathOf s e,
              { x with
                WasMovedFromAndTo := true, WasDeleted := false, WasMovedFromOnly := false
                OldWatchNodeOfParent := x.WatchNodeOfParent
                OldFileName := x.FileName
                OldRelativePath := x.RelativePath
                WatchNodeOfParent := (watchAt s.Watches (eventWatchIndexOf s e)).TreeNode
                FileName := e.name
                RelativePath := eventRelativePathOf s e })] }) := by
  obtain ⟨st, g, ft, rr, hst, hg, hinit⟩ := processInit_context env e s hcap hl
  have hnone : mapFind s.FileInfoHMap (eventRelativePathOf s e) = none := by
    rw [hm, mapFind_insert_other _ _ _ _ hab, hb]
  rw [mapModify_of_none _ _ _ hnone] at hinit
  rw [hop, process_filMovedTo_go env fuel e s _ _ hcap hinit]
  have hfind : (FindFileInfoByMovementCookie (kernelContext s e st ft rr).eventCookie
      s.FileInfoHMap).2 = some a := by
    have := cookie_find_last m0 a x (by rw [hx]; exact hfree)
    rw [hx] at this
    simp [FindFileInfoByMovementCookie, kernelContext, hc, hm, this]
  rw [hfind]
  refine ⟨STATUS_SUCCESS, rfl, ?_⟩
  have hb2 : mapErase m0 (eventRelativePathOf s e) = m0 := mapErase_of_none _ _ hb
  have ha2 : mapErase m0 a = m0 := mapErase_of_none _ _ ha
  simp [aggregateFileMove, UpdateFileInfoPath, kernelContext, hm, mapModify_last _ _ _ _ ha,
    mapFind_insert_same _ _ _ ha, SUCCESS, SUCCESS_KEEP_WARNING, mapErase_append, ha2, hb2,
    mapErase_cons, hab]
  rfl

theorem drainState_singleton (sock : SendCall → SDSTATUS) (lstatSize : String → Option Nat)
    (M : String) (s : ClientState) (k : String) (r : FILE_INFO) (calls : List SendCall)
    (hM : M ≠ "") (hm : s.FileInfoHMap = [(k, r)])
    (hd : drainCalls sock lstatSize M r = (STATUS_SUCCESS, calls)) :
    drainState sock lstatSize M s
      = some (STATUS_SUCCESS, { s with FileInfoHMap := [] }, calls) := by
  unfold drainState SendAllFileInfoEventsToServer PreprocessEventFileInfosBeforeSending
  rw [hm]
  have hf : drainFuel [(k, r)] = 6 + 2 := rfl
  rw [hf]
  by_cases hdir : r.FileType = ftDIRECTORY
  · simp [hM, SUCCESS, collectDepths, hdir, setInsert, drainLoop, drainCursor, drainSkips, hd]
  · simp [hM, SUCCESS, collectDepths, hdir, drainLoop, drainCursor, drainSkips, hd]

theorem drainCalls_move (sock : SendCall → SDSTATUS) (lstatSize : String → Option Nat)
    (M : String) (r : FILE_INFO) (hsock : ∀ c, SUCCESS (sock c) = true)
    (h1 : r.WasDeleted = false) (h2 : r.WasMovedFromOnly = false)
    (h3 : r.WasMovedFromAndTo = true) (h4 : r.WasModified = false)
    (h5 : r.RelativePath ≠ "") (h6 : r.OldRelativePath ≠ "") :
    drainCalls sock lstatSize M r
      = (STATUS_SUCCESS,
          [.Move { buildPacket r with OperationType := opMOVE } r.RelativePath
            r.OldRelativePath]) := by
  simp [drainCalls, sendFileInfoEvent, h1, h2, h3, h4, SendMoveToServer, h5, h6, hsock]

theorem drainCalls_move_modify (sock : SendCall → SDSTATUS) (lstatSize : String → Option Nat)
    (M : String) (r : FILE_INFO) (hsock : ∀ c, SUCCESS (sock c) = true)
    (h1 : r.WasDeleted = false) (h2 : r.WasMovedFromOnly = false)
    (h3 : r.WasMovedFromAndTo = true) (h4 : r.WasModified = true)
    (h5 : r.RelativePath ≠ "") (h6 : r.OldRelativePath ≠ "") :
    drainCalls sock lstatSize M r
      = (STATUS_SUCCESS,
          [.Move { buildPacket r with OperationType := opFILMOVE } r.RelativePath
            r.OldRelativePath,
           .Modify { buildPacket r with OperationType := opMODIFY } r.RelativePath
            (M ++ "/" ++ r.RelativePath.drop 2)
            (((lstatSize (M ++ "/" ++ r.RelativePath.drop 2)).getD 0) % 2 ^ 32)]) := by
  have hne : M ++ "/" ++ r.RelativePath.drop 2 ≠ "" := joined_ne_empty _ _
  simp [drainCalls, sendFileInfoEvent, h1, h2, h3, h4, SendMoveToServer, SendModifyToServer,
    h5, h6, hsock, hne]

theorem eventRelativePathOf_ne_empty (s : ClientState) (e : InotifyEvent) :
    eventRelativePathOf s e ≠ "" := joined_ne_empty _ _

theorem keeps_fields (g : FILE_INFO → FILE_INFO)
    (hg : ∀ fi, g fi = { fi with FileType := (g fi).FileType,
                                 RealRelativePath := (g fi).RealRelativePath })
    (fi : FILE_INFO) :
    (g fi).FileExistedBeforeEvents = fi.FileExistedBeforeEvents ∧
    (g fi).RelativePath = fi.RelativePath ∧
    (g fi).OldRelativePath = fi.OldRelativePath ∧
    (g fi).WasCreated = fi.WasCreated ∧
    (g fi).WasDeleted = fi.WasDeleted ∧
    (g fi).WasModified = fi.WasModified ∧
    (g fi).WasMovedFromOnly = fi.WasMovedFromOnly ∧
    (g fi).WasMovedToOnly = fi.WasMovedToOnly ∧
    (g fi).WasMovedFromAndTo = fi.WasMovedFromAndTo ∧
    (g fi).MovementCookie = fi.MovementCookie := by
  refine ⟨?_, ?_, ?_, ?_, ?_, ?_, ?_, ?_, ?_, ?_⟩ <;> rw [hg fi]

theorem readEvents_nil (fuel : Nat) (s : ClientState) :
    ReadEventsAndIdentifyOperations fuel [] s = some (STATUS_SUCCESS, s) := by
  rw [ReadEventsAndIdentifyOperations]

theorem filMovedTo_closes (env : SysEnv) (fuel : Nat) (e : InotifyEvent) (s : ClientState)
    (m0 : FileInfoMap) (a : String) (x : FILE_INFO)
    (hcap : ¬ s.gWatchesArrayCapacity < s.NumberOfWatches)
    (hl : passesLinkCheck env s e)
    (hop : identifyOperation e.mask = opFILMOVEDTO)
    (hc : e.cookie ≠ 0) (hx : x.MovementCookie = e.cookie)
    (hfree : ∀ kv ∈ m0, kv.2.MovementCookie ≠ e.cookie)
    (ha : mapFind m0 a = none)
    (hb : mapFind m0 (eventRelativePathOf s e) = none)
    (hab : a ≠ eventRelativePathOf s e) :
    ∃ (st : SDSTATUS) (r : FILE_INFO), SUCCESS st = true ∧
      ProcessOperationAndAggregate env (fuel + 1) (identifyOperation e.mask) (some e) none
          { s with FileInfoHMap := m0 ++ [(a, x)] }
        = some (st, { s with FileInfoHMap := m0 ++ [(eventRelativePathOf s e, r)] }) ∧
      r.WasDeleted = false ∧ r.WasMovedFromOnly = false ∧ r.WasMovedFromAndTo = true ∧
      r.WasModified = x.WasModified ∧ r.RelativePath = eventRelativePathOf s e ∧
      r.OldRelativePath = x.RelativePath := by
  obtain ⟨st, hs, hp⟩ := filMovedTo_matched env fuel e
    { s with FileInfoHMap := m0 ++ [(a, x)] } m0 a x hcap hl hop rfl hc hx hfree ha hb hab
  exact ⟨st, _, hs, hp, rfl, rfl, rfl, rfl, rfl, rfl⟩

theorem modify_last (env : SysEnv) (fuel : Nat) (e : InotifyEvent) (s : ClientState)
    (m0 : FileInfoMap) (x : FILE_INFO)
    (hcap : ¬ s.gWatchesArrayCapacity < s.NumberOfWatches)
    (hl : passesLinkCheck env s e)
    (hop : identifyOperation e.mask = opMODIFY)
    (hb : mapFind m0 (eventRelativePathOf s e) = none) :
    ∃ (st : SDSTATUS) (r : FILE_INFO), SUCCESS st = true ∧
      ProcessOperationAndAggregate env (fuel + 1) (identifyOperation e.mask) (some e) none
          { s with FileInfoHMap := m0 ++ [(eventRelativePathOf s e, x)] }
        = some (st, { s with FileInfoHMap := m0 ++ [(eventRelativePathOf s e, r)] }) ∧
      r.WasDeleted = false ∧ r.WasMovedFromOnly = false ∧
      r.WasMovedFromAndTo = x.WasMovedFromAndTo ∧
      r.WasModified = true ∧ r.RelativePath = x.RelativePath ∧
      r.OldRelativePath = x.OldRelativePath := by
  obtain ⟨st, g, hs, hg, hp⟩ := modify_existing env fuel e
    { s with FileInfoHMap := m0 ++ [(eventRelativePathOf s e, x)] } hcap hl hop
    (by
      show (mapFind (m0 ++ [(eventRelativePathOf s e, x)]) (eventRelativePathOf s e)).isSome
        = true
      rw [mapFind_insert_same _ _ _ hb]; rfl)
  have hk := keeps_fields g hg x
  have hp2 : ProcessOperationAndAggregate env (fuel + 1) (identifyOperation e.mask) (some e)
      none { s with FileInfoHMap := m0 ++ [(eventRelativePathOf s e, x)] }
      = some (st, { s with
          FileInfoHMap := mapModify (m0 ++ [(eventRelativePathOf s e, x)])
            (eventRelativePathOf s e) (fun fi =>
              { g fi with WasModified := true, WasDeleted := false,
                          WasMovedFromOnly := false }) }) := hp
  rw [mapModify_last _ _ _ _ hb] at hp2
  exact ⟨st, _, hs, hp2, rfl, rfl, hk.2.2.2.2.2.2.2.2.1, rfl, hk.2.1, hk.2.2.1⟩

theorem movedFrom_last (env : SysEnv) (fuel : Nat) (e : InotifyEvent) (s : ClientState)
    (m0 : FileInfoMap) (x : FILE_INFO)
    (hcap : ¬ s.gWatchesArrayCapacity < s.NumberOfWatches)
    (hl : passesLinkCheck env s e)
    (hop : identifyOperation e.mask = opFILMOVEDFROM)
    (hb : mapFind m0 (eventRelativePathOf s e) = none) :
    ∃ (st : SDSTATUS) (r : FILE_INFO), SUCCESS st = true ∧
      ProcessOperationAndAggregate env (fuel + 1) (identifyOperation e.mask) (some e) none
          { s with FileInfoHMap := m0 ++ [(eventRelativePathOf s e, x)] }
        = some (st, { s with FileInfoHMap := m0 ++ [(eventRelativePathOf s e, r)] }) ∧
      r.MovementCookie = e.cookie ∧ r.WasModified = x.WasModified ∧
      r.RelativePath = x.RelativePath := by
  obtain ⟨st, g, hs, hg, hp⟩ := movedFrom_existing env fuel e
    { s with FileInfoHMap := m0 ++ [(eventRelativePathOf s e, x)] } hcap hl hop
    (by
      show (mapFind (m0 ++ [(eventRelativePathOf s e, x)]) (eventRelativePathOf s e)).isSome
        = true
      rw [mapFind_insert_same _ _ _ hb]; rfl)
  have hk := keeps_fields g hg x
  have hp2 : ProcessOperationAndAggregate env (fuel + 1) (identifyOperation e.mask) (some e)
      none { s with FileInfoHMap := m0 ++ [(eventRelativePathOf s e, x)] }
      = some (st, { s with
          FileInfoHMap := mapModify (m0 ++ [(eventRelativePathOf s e, x)])
            (eventRelativePathOf s e) (fun fi =>
              { g fi with WasMovedFromOnly := true, WasDeleted := false,
                          WasMovedFromAndTo := false, MovementCookie := e.cookie }) }) := hp
  rw [mapModify_last _ _ _ _ hb] at hp2
  exact ⟨st, _, hs, hp2, rfl, hk.2.2.2.2.2.1, hk.2.1⟩

/-! ### The pairing of `MOVED_FROM` and `MOVED_TO` by their cookie -/

/-- C3: from a map with no record for the paths `a` and `b`, a `FIL_MOVED_FROM` event for `a`
with a non-zero cookie followed by a `FIL_MOVED_TO` event for `b` with the same cookie leaves
one record more, keyed by `b`, and the drain sends for it one `MOVE` from `a` to `b` and
nothing else; with a `MODIFY` event for the file in the same window (for `b` after the pair,
or for `a` before it) the drain sends for the record one `FIL_MOVE` from `a` to `b` followed
by one `MODIFY` of `b`. -/
theorem C3_move_pair_emits_one_move (sock : SendCall → SDSTATUS)
    (lstatSize : String → Option Nat) (M : String) (fuel : Nat)
    (env0 env1 env2 env3 : SysEnv) (e0 e1 e2 e3 : InotifyEvent) (s : ClientState)
    (hM : M ≠ "")
    (hcap : ¬ s.gWatchesArrayCapacity < s.NumberOfWatches)
    (hlen0 : 0 < e0.len) (hlen1 : 0 < e1.len) (hlen2 : 0 < e2.len) (hlen3 : 0 < e3.len)
    (hop0 : identifyOperation e0.mask = opMODIFY)
    (hop1 : identifyOperation e1.mask = opFILMOVEDFROM)
    (hop2 : identifyOperation e2.mask = opFILMOVEDTO)
    (hop3 : identifyOperation e3.mask = opMODIFY)
    (hpath0 : eventRelativePathOf s e0 = eventRelativePathOf s e1)
    (hpath3 : eventRelativePathOf s e3 = eventRelativePathOf s e2)
    (hc : e1.cookie ≠ 0) (hcc : e2.cookie = e1.cookie)
    (hfree : ∀ kv ∈ s.FileInfoHMap, kv.2.MovementCookie ≠ e1.cookie)
    (ha : mapFind s.FileInfoHMap (eventRelativePathOf s e1) = none)
    (hb : mapFind s.FileInfoHMap (eventRelativePathOf s e2) = none)
    (hab : eventRelativePathOf s e1 ≠ eventRelativePathOf s e2)
    (hl0 : passesLinkCheck env0 s e0) (hl1 : passesLinkCheck env1 s e1)
    (hl2 : passesLinkCheck env2 s e2) (hl3 : passesLinkCheck env3 s e3)
    (hsock : ∀ c, SUCCESS (sock c) = true) :
    (∃ r : FILE_INFO,
      ReadEventsAndIdentifyOperations (fuel + 1) [(env1, e1), (env2, e2)] s
        = some (STATUS_SUCCESS,
            { s with FileInfoHMap := s.FileInfoHMap ++ [(eventRelativePathOf s e2, r)] }) ∧
      drainCalls sock lstatSize M r
        = (STATUS_SUCCESS,
            [.Move { buildPacket r with OperationType := opMOVE }
              (eventRelativePathOf s e2) (eventRelativePathOf s e1)]) ∧
      drainState sock lstatSize M { s with FileInfoHMap := [(eventRelativePathOf s e2, r)] }
        = some (STATUS_SUCCESS, { s with FileInfoHMap := [] },
            [.Move { buildPacket r with OperationType := opMOVE }
              (eventRelativePathOf s e2) (eventRelativePathOf s e1)])) ∧
    (∃ r : FILE_INFO,
      ReadEventsAndIdentifyOperations (fuel + 1) [(env1, e1), (env2, e2), (env3, e3)] s
        = some (STATUS_SUCCESS,
            { s with FileInfoHMap := s.FileInfoHMap ++ [(eventRelativePathOf s e2, r)] }) ∧
      drainCalls sock lstatSize M r
        = (STATUS_SUCCESS,
            [.Move { buildPacket r with OperationType := opFILMOVE }
              (eventRelativePathOf s e2) (eventRelativePathOf s e1),
             .Modify { buildPacket r with OperationType := opMODIFY }
              (eventRelativePathOf s e2) (M ++ "/" ++ (eventRelativePathOf s e2).drop 2)
              (((lstatSize (M ++ "/" ++ (eventRelativePathOf s e2).drop 2)).getD 0)
                % 2 ^ 32)]) ∧
      drainState sock lstatSize M { s with FileInfoHMap := [(eventRelativePathOf s e2, r)] }
        = some (STATUS_SUCCESS, { s with FileInfoHMap := [] },
            [.Move { buildPacket r with OperationType := opFILMOVE }
              (eventRelativePathOf s e2) (eventRelativePathOf s e1),
             .Modify { buildPacket r with OperationType := opMODIFY }
              (eventRelativePathOf s e2) (M ++ "/" ++ (eventRelativePathOf s e2).drop 2)
              (((lstatSize (M ++ "/" ++ (eventRelativePathOf s e2).drop 2)).getD 0)
                % 2 ^ 32)])) ∧
    (∃ r : FILE_INFO,
      ReadEventsAndIdentifyOperations (fuel + 1) [(env0, e0), (env1, e1), (env2, e2)] s
        = some (STATUS_SUCCESS,
            { s with FileInfoHMap := s.FileInfoHMap ++ [(eventRelativePathOf s e2, r)] }) ∧
      drainCalls sock lstatSize M r
        = (STATUS_SUCCESS,
            [.Move { buildPacket r with OperationType := opFILMOVE }
              (eventRelativePathOf s e2) (eventRelativePathOf s e1),
             .Modify { buildPacket r with OperationType := opMODIFY }
              (eventRelativePathOf s e2) (M ++ "/" ++ (eventRelativePathOf s e2).drop 2)
              (((lstatSize (M ++ "/" ++ (eventRelativePathOf s e2).drop 2)).getD 0)
                % 2 ^ 32)])) := by
  have hne0 : identifyOperation e0.mask ≠ opUNKNOWN := by rw [hop0]; decide
  have hne1 : identifyOperation e1.mask ≠ opUNKNOWN := by rw [hop1]; decide
  have hne2 : identifyOperation e2.mask ≠ opUNKNOWN := by rw [hop2]; decide
  have hne3 : identifyOperation e3.mask ≠ opUNKNOWN := by rw [hop3]; decide
  have hanz : eventRelativePathOf s e1 ≠ "" := eventRelativePathOf_ne_empty s e1
  have hbnz : eventRelativePathOf s e2 ≠ "" := eventRelativePathOf_ne_empty s e2
  -- the pair alone: `MOVED_FROM` on the fresh path, `MOVED_TO` with the same cookie
  obtain ⟨st1, x1, hs1, hp1, hx1c, hx1m, hx1p⟩ : ∃ (st1 : SDSTATUS) (x1 : FILE_INFO),
      SUCCESS st1 = true ∧
      ProcessOperationAndAggregate env1 (fuel + 1) (identifyOperation e1.mask) (some e1) none s
        = some (st1, { s with
            FileInfoHMap := s.FileInfoHMap ++ [(eventRelativePathOf s e1, x1)] }) ∧
      x1.MovementCookie = e1.cookie ∧ x1.WasModified = false ∧
      x1.RelativePath = eventRelativePathOf s e1 := by
    obtain ⟨st1, ft1, rr1, hs1, hp1⟩ := movedFrom_fresh env1 fuel e1 s hcap hl1 hop1 ha
    exact ⟨st1, _, hs1, hp1, rfl, rfl, rfl⟩
  obtain ⟨st2, r, hs2, hp2, hr1, hr2, hr3, hr4, hr5, hr6⟩ :=
    filMovedTo_closes env2 fuel e2 s s.FileInfoHMap (eventRelativePathOf s e1) x1 hcap hl2
      hop2 (hcc ▸ hc) (hx1c.trans hcc.symm) (hcc ▸ hfree) ha hb hab
  rw [hx1m] at hr4
  rw [hx1p] at hr6
  have hdrain := drainCalls_move sock lstatSize M r hsock hr1 hr2 hr3 hr4
    (hr5 ▸ hbnz) (hr6 ▸ hanz)
  rw [hr5, hr6] at hdrain
  -- a `MODIFY` of the new path after the pair
  obtain ⟨st3, r3, hs3, hp3, hq1, hq2, hq3, hq4, hq5, hq6⟩ :
      ∃ (st3 : SDSTATUS) (r3 : FILE_INFO), SUCCESS st3 = true ∧
      ProcessOperationAndAggregate env3 (fuel + 1) (identifyOperation e3.mask) (some e3) none
          { s with FileInfoHMap := s.FileInfoHMap ++ [(eventRelativePathOf s e2, r)] }
        = some (st3, { s with
            FileInfoHMap := s.FileInfoHMap ++ [(eventRelativePathOf s e2, r3)] }) ∧
      r3.WasDeleted = false ∧ r3.WasMovedFromOnly = false ∧
      r3.WasMovedFromAndTo = r.WasMovedFromAndTo ∧
      r3.WasModified = true ∧ r3.RelativePath = r.RelativePath ∧
      r3.OldRelativePath = r.OldRelativePath := by
    have h := modify_last env3 fuel e3 s s.FileInfoHMap r hcap hl3 hop3 (hpath3 ▸ hb)
    rw [hpath3] at h
    exact h
  rw [hr3] at hq3
  rw [hr5] at hq5
  rw [hr6] at hq6
  have hdrain3 := drainCalls_move_modify sock lstatSize M r3 hsock hq1 hq2 hq3 hq4
    (hq5 ▸ hbnz) (hq6 ▸ hanz)
  rw [hq5, hq6] at hdrain3
  -- a `MODIFY` of the old path before the pair
  obtain ⟨st4, x4, hs4, hp4, hx4m, hx4p⟩ : ∃ (st4 : SDSTATUS) (x4 : FILE_INFO),
      SUCCESS st4 = true ∧
      ProcessOperationAndAggregate env0 (fuel + 1) (identifyOperation e0.mask) (some e0) none s
        = some (st4, { s with
            FileInfoHMap := s.FileInfoHMap ++ [(eventRelativePathOf s e1, x4)] }) ∧
      x4.WasModified = true ∧ x4.RelativePath = eventRelativePathOf s e1 := by
    obtain ⟨st4, ft4, rr4, hs4, hp4⟩ :=
      modify_fresh env0 fuel e0 s hcap hl0 hop0 (hpath0 ▸ ha)
    rw [hpath0] at hp4
    exact ⟨st4, _, hs4, hp4, rfl, hpath0⟩
  obtain ⟨st5, x5, hs5, hp5, hx5c, hx5m, hx5p⟩ :=
    movedFrom_last env1 fuel e1 s s.FileInfoHMap x4 hcap hl1 hop1 ha
  rw [hx4m] at hx5m
  rw [hx4p] at hx5p
  obtain ⟨st6, r6, hs6, hp6, hw1, hw2, hw3, hw4, hw5, hw6⟩ :=
    filMovedTo_closes env2 fuel e2 s s.FileInfoHMap (eventRelativePathOf s e1) x5 hcap hl2
      hop2 (hcc ▸ hc) (hx5c.trans hcc.symm) (hcc ▸ hfree) ha hb hab
  rw [hx5m] at hw4
  rw [hx5p] at hw6
  have hdrain6 := drainCalls_move_modify sock lstatSize M r6 hsock hw1 hw2 hw3 hw4
    (hw5 ▸ hbnz) (hw6 ▸ hanz)
  rw [hw5, hw6] at hdrain6
  refine ⟨⟨r, ?_, hdrain, ?_⟩, ⟨r3, ?_, hdrain3, ?_⟩, ⟨r6, ?_, hdrain6⟩⟩
  · rw [readEvents_cons (fuel + 1) env1 e1 _ s _ st1 hlen1 hne1 hp1, if_pos hs1,
      readEvents_cons (fuel + 1) env2 e2 _ _ _ st2 hlen2 hne2 hp2, if_pos hs2, readEvents_nil]
  · exact drainState_singleton sock lstatSize M _ _ _ _ hM rfl hdrain
  · rw [readEvents_cons (fuel + 1) env1 e1 _ s _ st1 hlen1 hne1 hp1, if_pos hs1,
      readEvents_cons (fuel + 1) env2 e2 _ _ _ st2 hlen2 hne2 hp2, if_pos hs2,
      readEvents_cons (fuel + 1) env3 e3 _ _ _ st3 hlen3 hne3 hp3, if_pos hs3, readEvents_nil]
  · exact drainState_singleton sock lstatSize M _ _ _ _ hM rfl hdrain3
  · rw [readEvents_cons (fuel + 1) env0 e0 _ s _ st4 hlen0 hne0 hp4, if_pos hs4,
      readEvents_cons (fuel + 1) env1 e1 _ _ _ st5 hlen1 hne1 hp5, if_pos hs5,
      readEvents_cons (fuel + 1) env2 e2 _ _ _ st6 hlen2 hne2 hp6, if_pos hs6, readEvents_nil]
theorem C3_move_pair_emits_one_move_witness :
    ∃ r : FILE_INFO,
      ReadEventsAndIdentifyOperations 1
          [(exampleEnv, exampleEvent IN_MOVED_FROM 77 "p"),
           (exampleEnv, exampleEvent IN_MOVED_TO 77 "q")] exampleState
        = some (STATUS_SUCCESS, { exampleState with FileInfoHMap := [("./q", r)] }) ∧
      drainCalls (fun _ => STATUS_SUCCESS) (fun _ => none) "/m" r
        = (STATUS_SUCCESS,
            [.Move { buildPacket r with OperationType := opMOVE } "./q" "./p"]) :=
  have h := (C3_move_pair_emits_one_move (fun _ => STATUS_SUCCESS) (fun _ => none) "/m" 0
    exampleEnv exampleEnv exampleEnv exampleEnv
    (exampleEvent IN_MODIFY 0 "p") (exampleEvent IN_MOVED_FROM 77 "p")
    (exampleEvent IN_MOVED_TO 77 "q") (exampleEvent IN_MODIFY 0 "q") exampleState
    (by decide) (by decide) (by decide) (by decide) (by decide) (by decide)
    (by decide) (by decide) (by decide) (by decide) (by decide) (by decide)
    (by decide) (by decide) (by decide) (by decide) (by decide) (by decide)
    (by unfold passesLinkCheck; decide) (by unfold passesLinkCheck; decide)
    (by unfold passesLinkCheck; decide) (by unfold passesLinkCheck; decide)
    (fun _ => rfl)).1
  h.elim (fun r hr => ⟨r, hr.1, hr.2.1⟩)

/-! ### An unpaired `MOVED_FROM` -/

theorem mapFind_stamp (c : Nat) (d : String) (m : FileInfoMap) :
    mapFind (SetMovementCookiesForDirMovedFrom c d m).2 d = mapFind m d := by
  unfold SetMovementCookiesForDirMovedFrom
  induction m with
  | nil => rfl
  | cons kv rest ih =>
    simp only [List.map_cons] at ih ⊢
    rw [mapFind_cons, mapFind_cons, ih]
    by_cases hk : kv.1 = d
    · simp [hk, pathUnder_self]
    · by_cases hp : pathUnder d kv.1 = true <;> simp [hk, hp]

theorem movedFrom_stamp_status (c : Nat) (d : String) (m : FileInfoMap) :
    (SetMovementCookiesForDirMovedFrom c d m).1 = STATUS_SUCCESS := rfl

theorem drainCalls_movedFrom (sock : SendCall → SDSTATUS) (lstatSize : String → Option Nat)
    (M : String) (r : FILE_INFO) (hsock : ∀ c, SUCCESS (sock c) = true)
    (h1 : r.WasDeleted = false) (h2 : r.WasMovedFromOnly = true) (h3 : r.RelativePath ≠ "") :
    drainCalls sock lstatSize M r
      = (STATUS_SUCCESS,
          if r.FileExistedBeforeEvents = true then
            [.Delete { buildPacket r with OperationType := opMOVEDFROM } r.RelativePath]
          else []) := by
  by_cases hp : r.FileExistedBeforeEvents = true <;>
    simp [drainCalls, sendFileInfoEvent, h1, h2, h3, hp, SendDeleteToServer, hsock]

/-- C4 (amended): a `MOVED_FROM` event (file or directory) that no `MOVED_TO` matches before
the drain leaves for its path a record with `wasMovedFromOnly` set, for which the drain sends
exactly one operation, tagged `MOVED_FROM` and sent by `SendDeleteToServer`, when the record
has `preExisted` true (always so for a path without a record before the event), and no
operation at all when `preExisted` is false. -/
theorem C4_unpaired_moved_from_sends_moved_from (sock : SendCall → SDSTATUS)
    (lstatSize : String → Option Nat) (M : String) (fuel : Nat) (env : SysEnv)
    (e : InotifyEvent) (s : ClientState)
    (hcap : ¬ s.gWatchesArrayCapacity < s.NumberOfWatches)
    (hlen : 0 < e.len)
    (hop : identifyOperation e.mask = opFILMOVEDFROM ∨
      identifyOperation e.mask = opDIRMOVEDFROM)
    (hkey : ∀ x, mapFind s.FileInfoHMap (eventRelativePathOf s e) = some x →
      x.RelativePath = eventRelativePathOf s e)
    (hl : passesLinkCheck env s e)
    (hsock : ∀ c, SUCCESS (sock c) = true) :
    ∃ (s2 : ClientState) (r : FILE_INFO),
      ReadEventsAndIdentifyOperations (fuel + 1) [(env, e)] s = some (STATUS_SUCCESS, s2) ∧
      mapFind s2.FileInfoHMap (eventRelativePathOf s e) = some r ∧
      r.WasMovedFromOnly = true ∧ r.WasDeleted = false ∧
      r.FileExistedBeforeEvents
        = (match mapFind s.FileInfoHMap (eventRelativePathOf s e) with
           | none => true
           | some x => x.FileExistedBeforeEvents) ∧
      drainCalls sock lstatSize M r
        = (STATUS_SUCCESS,
            if r.FileExistedBeforeEvents = true then
              [.Delete { buildPacket r with OperationType := opMOVEDFROM }
                (eventRelativePathOf s e)]
            else []) := by
  have hne : identifyOperation e.mask ≠ opUNKNOWN := by
    rcases hop with h | h <;> rw [h] <;> decide
  obtain ⟨st, g, ft, rr, hst, hg, hinit⟩ := processInit_context env e s hcap hl
  have hproc := process_movedFrom_go env fuel _ e s _ _ hcap hop hinit
  have hanz : eventRelativePathOf s e ≠ "" := eventRelativePathOf_ne_empty s e
  -- the record and the state that the `MOVED_FROM` case leaves
  have hfacts : SUCCESS (aggregateMovedFrom (kernelContext s e st ft rr)
        { s with FileInfoHMap := mapModify s.FileInfoHMap (eventRelativePathOf s e) g }).1
        = true ∧
      ∃ r : FILE_INFO,
        mapFind (aggregateMovedFrom (kernelContext s e st ft rr)
          { s with FileInfoHMap := mapModify s.FileInfoHMap (eventRelativePathOf s e) g
            }).2.FileInfoHMap (eventRelativePathOf s e) = some r ∧
        r.WasMovedFromOnly = true ∧ r.WasDeleted = false ∧
        r.FileExistedBeforeEvents
          = (match mapFind s.FileInfoHMap (eventRelativePathOf s e) with
             | none => true
             | some x => x.FileExistedBeforeEvents) ∧
        r.RelativePath = eventRelativePathOf s e := by
    cases hf : mapFind s.FileInfoHMap (eventRelativePathOf s e) with
    | none =>
      by_cases hd : decide (IN_ISDIR &&& e.mask ≠ 0) = true
      · simp [aggregateMovedFrom, kernelContext, hf, mapModify_of_none, InsertNewFileInfo, hd,
          SUCCESS, SUCCESS_KEEP_WARNING, InitFileInfo, movedFrom_stamp_status, mapFind_stamp,
          mapFind_insert_same]
      · simp [aggregateMovedFrom, kernelContext, hf, mapModify_of_none, InsertNewFileInfo, hd,
          SUCCESS, SUCCESS_KEEP_WARNING, InitFileInfo, mapFind_insert_same]
    | some x =>
      obtain ⟨hk1, hk2, -⟩ := keeps_fields g hg x
      have hx := hkey x hf
      have hsome : (mapFind s.FileInfoHMap (eventRelativePathOf s e)).isSome = true := by
        rw [hf]; rfl
      by_cases hd : decide (IN_ISDIR &&& e.mask ≠ 0) = true
      · cases st
        · simp [SUCCESS] at hst
        all_goals
          simp [aggregateMovedFrom, kernelContext, SUCCESS, SUCCESS_KEEP_WARNING, hsome, hd,
            movedFrom_stamp_status, mapFind_stamp, mapFind_mapModify_same, hf, hk1, hk2, hx]
      · cases st
        · simp [SUCCESS] at hst
        all_goals
          simp [aggregateMovedFrom, kernelContext, SUCCESS, SUCCESS_KEEP_WARNING, hsome, hd,
            mapFind_mapModify_same, hf, hk1, hk2, hx]
  obtain ⟨hs2, r, hfind, hr1, hr2, hr3, hr4⟩ := hfacts
  refine ⟨_, r, ?_, hfind, hr1, hr2, hr3, ?_⟩
  · rw [readEvents_cons (fuel + 1) env e [] s _ _ hlen hne (by rw [hproc]), if_pos hs2,
      readEvents_nil]
  · have := drainCalls_movedFrom sock lstatSize M r hsock hr2 hr1 (hr4 ▸ hanz)
    rw [hr4] at this
    exact this
theorem C4_unpaired_moved_from_sends_moved_from_witness :
    ∃ (s2 : ClientState) (r : FILE_INFO),
      ReadEventsAndIdentifyOperations 1 [(exampleEnv, exampleEvent IN_MOVED_FROM 77 "p")]
        exampleState = some (STATUS_SUCCESS, s2) ∧
      mapFind s2.FileInfoHMap "./p" = some r ∧
      drainCalls (fun _ => STATUS_SUCCESS) (fun _ => none) "/m" r
        = (STATUS_SUCCESS,
            [.Delete { buildPacket r with OperationType := opMOVEDFROM } "./p"]) := by
  obtain ⟨s2, r, h1, h2, -, -, h5, h6⟩ :=
    C4_unpaired_moved_from_sends_moved_from (fun _ => STATUS_SUCCESS) (fun _ => none) "/m" 0
      exampleEnv (exampleEvent IN_MOVED_FROM 77 "p") exampleState (by decide) (by decide)
      (Or.inl (by decide))
      (fun x hx => Option.noConfusion (hx : (none : Option FILE_INFO) = some x))
      (by unfold passesLinkCheck; decide) (fun _ => rfl)
  have h5b : r.FileExistedBeforeEvents = true := h5
  rw [h5b] at h6
  exact ⟨s2, r, h1, h2, h6⟩

/-- C4 (as stated) fails: for the unpaired `MOVED_FROM` of the file `p` of the main directory
the one operation that the drain puts on the wire carries the tag `MOVED_FROM`, not the tag
`DELETE`. -/
theorem C4_moved_from_tag_is_not_delete :
    ((ReadEventsAndIdentifyOperations 1
        [(exampleEnv, exampleEvent IN_MOVED_FROM 77 "p")] exampleState).bind
      (fun p => (drainState (fun _ => STATUS_SUCCESS) (fun _ => none) "/m" p.2).map
        (fun d => (d.1, d.2.2.map SendCall.opType))))
      = some (STATUS_SUCCESS, [opMOVEDFROM]) ∧
    ((ReadEventsAndIdentifyOperations 1
        [(exampleEnv, exampleEvent IN_MOVED_FROM 77 "p")] exampleState).bind
      (fun p => (drainState (fun _ => STATUS_SUCCESS) (fun _ => none) "/m" p.2).map
        (fun d => (d.1, d.2.2.map SendCall.opType))))
      ≠ some (STATUS_SUCCESS, [opDELETE]) := by
  decide

/-! ### `CREATE` followed by `DELETE` -/

theorem filCreate_step (env : SysEnv) (fuel : Nat) (e : InotifyEvent) (s : ClientState)
    (hcap : ¬ s.gWatchesArrayCapacity < s.NumberOfWatches)
    (hl : passesLinkCheck env s e)
    (hop : identifyOperation e.mask = opFILCREATE)
    (hkey : ∀ x, mapFind s.FileInfoHMap (eventRelativePathOf s e) = some x →
      x.RelativePath = eventRelativePathOf s e) :
    ∃ (st : SDSTATUS) (m1 : FileInfoMap) (y : FILE_INFO), SUCCESS st = true ∧
      ProcessOperationAndAggregate env (fuel + 1) (identifyOperation e.mask) (some e) none s
        = some (st, { s with FileInfoHMap := m1 }) ∧
      mapFind m1 (eventRelativePathOf s e) = some y ∧
      y.FileExistedBeforeEvents
        = (match mapFind s.FileInfoHMap (eventRelativePathOf s e) with
           | none => false
           | some x => x.FileExistedBeforeEvents) ∧
      y.RelativePath = eventRelativePathOf s e := by
  cases hf : mapFind s.FileInfoHMap (eventRelativePathOf s e) with
  | none =>
    obtain ⟨st, ft, rr, hs, hp⟩ := filCreate_fresh env fuel e s hcap hl hop hf
    exact ⟨st, _, _, hs, hp, mapFind_insert_same _ _ _ hf, rfl, rfl⟩
  | some x =>
    obtain ⟨st, g, hs, hg, hp⟩ := filCreate_existing env fuel e s hcap hl hop
      (by rw [hf]; rfl)
    obtain ⟨hk1, hk2, -⟩ := keeps_fields g hg x
    refine ⟨st, _,
      { g x with WasCreated := true, WasDeleted := false, WasMovedFromOnly := false,
                 WasMovedFromAndTo := false, WasModified := false }, hs, hp, ?_, ?_, ?_⟩
    · rw [mapFind_mapModify_same, hf]; rfl
    · exact hk1
    · exact hk2.trans (hkey x hf)

theorem filDelete_step (env : SysEnv) (fuel : Nat) (e : InotifyEvent) (s : ClientState)
    (y : FILE_INFO)
    (hcap : ¬ s.gWatchesArrayCapacity < s.NumberOfWatches)
    (hl : passesLinkCheck env s e)
    (hop : identifyOperation e.mask = opFILDELETE)
    (hf : mapFind s.FileInfoHMap (eventRelativePathOf s e) = some y) :
    ∃ (st : SDSTATUS) (m2 : FileInfoMap) (r : FILE_INFO), SUCCESS st = true ∧
      ProcessOperationAndAggregate env (fuel + 1) (identifyOperation e.mask) (some e) none s
        = some (st, { s with FileInfoHMap := m2 }) ∧
      mapFind m2 (eventRelativePathOf s e) = some r ∧
      r.WasDeleted = true ∧
      r.FileExistedBeforeEvents = y.FileExistedBeforeEvents ∧
      r.RelativePath = y.RelativePath := by
  obtain ⟨st, g, hs, hg, hp⟩ := filDelete_existing env fuel e s hcap hl hop
    (by rw [hf]; rfl)
  obtain ⟨hk1, hk2, -⟩ := keeps_fields g hg y
  refine ⟨st, _, { g y with WasDeleted := true }, hs, hp, ?_, rfl, hk1, hk2⟩
  rw [mapFind_mapModify_same, hf]; rfl

theorem drainCalls_deleted (sock : SendCall → SDSTATUS) (lstatSize : String → Option Nat)
    (M : String) (r : FILE_INFO) (hsock : ∀ c, SUCCESS (sock c) = true)
    (h1 : r.WasDeleted = true) (h3 : r.RelativePath ≠ "") :
    drainCalls sock lstatSize M r
      = (STATUS_SUCCESS,
          if r.FileExistedBeforeEvents = true then
            [.Delete { buildPacket r with OperationType := opDELETE } r.RelativePath]
          else []) := by
  by_cases hp : r.FileExistedBeforeEvents = true <;>
    simp [drainCalls, sendFileInfoEvent, h1, h3, hp, SendDeleteToServer, hsock]

theorem create_then_delete (sock : SendCall → SDSTATUS) (lstatSize : String → Option Nat)
    (M : String) (fuel : Nat) (envc envd : SysEnv) (ec ed : InotifyEvent) (s : ClientState)
    (hcap : ¬ s.gWatchesArrayCapacity < s.NumberOfWatches)
    (hlenc : 0 < ec.len) (hlend : 0 < ed.len)
    (hopc : identifyOperation ec.mask = opFILCREATE)
    (hopd : identifyOperation ed.mask = opFILDELETE)
    (hpath : eventRelativePathOf s ed = eventRelativePathOf s ec)
    (hkey : ∀ x, mapFind s.FileInfoHMap (eventRelativePathOf s ec) = some x →
      x.RelativePath = eventRelativePathOf s ec)
    (hlc : passesLinkCheck envc s ec) (hld : passesLinkCheck envd s ed)
    (hsock : ∀ c, SUCCESS (sock c) = true) :
    ∃ (s2 : ClientState) (r : FILE_INFO),
      ReadEventsAndIdentifyOperations (fuel + 1) [(envc, ec), (envd, ed)] s
        = some (STATUS_SUCCESS, s2) ∧
      mapFind s2.FileInfoHMap (eventRelativePathOf s ec) = some r ∧
      r.WasDeleted = true ∧
      r.FileExistedBeforeEvents
        = (match mapFind s.FileInfoHMap (eventRelativePathOf s ec) with
           | none => false
           | some x => x.FileExistedBeforeEvents) ∧
      drainCalls sock lstatSize M r
        = (STATUS_SUCCESS,
            if r.FileExistedBeforeEvents = true then
              [.Delete { buildPacket r with OperationType := opDELETE }
                (eventRelativePathOf s ec)]
            else []) := by
  have hnec : identifyOperation ec.mask ≠ opUNKNOWN := by rw [hopc]; decide
  have hned : identifyOperation ed.mask ≠ opUNKNOWN := by rw [hopd]; decide
  obtain ⟨st1, m1, y, hs1, hp1, hy1, hy2, hy3⟩ := filCreate_step envc fuel ec s hcap hlc hopc hkey
  obtain ⟨st2, m2, r, hs2, hp2, hr1, hr2, hr3, hr4⟩ :=
    filDelete_step envd fuel ed { s with FileInfoHMap := m1 } y hcap hld hopd
      (show mapFind m1 (eventRelativePathOf s ed) = some y by rw [hpath]; exact hy1)
  refine ⟨{ s with FileInfoHMap := m2 }, r, ?_, ?_, hr2, hr3.trans hy2, ?_⟩
  · rw [readEvents_cons (fuel + 1) envc ec _ s _ st1 hlenc hnec hp1, if_pos hs1,
      readEvents_cons (fuel + 1) envd ed _ _ _ st2 hlend hned hp2, if_pos hs2, readEvents_nil]
  · have : mapFind m2 (eventRelativePathOf s ed) = some r := hr1
    rw [hpath] at this
    exact this
  · have hrp : r.RelativePath = eventRelativePathOf s ec := hr4.trans hy3
    have := drainCalls_deleted sock lstatSize M r hsock hr2
      (hrp ▸ eventRelativePathOf_ne_empty s ec)
    rw [hrp] at this
    exact this
theorem first_event_preExisted (env : SysEnv) (fuel : Nat) (e : InotifyEvent) (s : ClientState)
    (hcap : ¬ s.gWatchesArrayCapacity < s.NumberOfWatches)
    (hl : passesLinkCheck env s e)
    (hop : identifyOperation e.mask = opFILDELETE ∨ identifyOperation e.mask = opMODIFY ∨
      identifyOperation e.mask = opFILMOVEDFROM)
    (ha : mapFind s.FileInfoHMap (eventRelativePathOf s e) = none) :
    ∃ (st : SDSTATUS) (x : FILE_INFO), SUCCESS st = true ∧
      ProcessOperationAndAggregate env (fuel + 1) (identifyOperation e.mask) (some e) none s
        = some (st, { s with
            FileInfoHMap := s.FileInfoHMap ++ [(eventRelativePathOf s e, x)] }) ∧
      x.FileExistedBeforeEvents = true ∧ x.RelativePath = eventRelativePathOf s e := by
  rcases hop with h | h | h
  · obtain ⟨st, ft, rr, hs, hp⟩ := filDelete_fresh env fuel e s hcap hl h ha
    exact ⟨st, _, hs, hp, rfl, rfl⟩
  · obtain ⟨st, ft, rr, hs, hp⟩ := modify_fresh env fuel e s hcap hl h ha
    exact ⟨st, _, hs, hp, rfl, rfl⟩
  · obtain ⟨st, ft, rr, hs, hp⟩ := movedFrom_fresh env fuel e s hcap hl h ha
    exact ⟨st, _, hs, hp, rfl, rfl⟩

theorem aggregate_create_delete_fresh (sock : SendCall → SDSTATUS) (crtFileFullPath : String)
    (crtFileSize : Nat) (OperationType : OP_TYPE) (ctxc ctxd : EventContext) (s : ClientState)
    (hop : OperationType ≠ opDIRMOVEDTO)
    (hc : ctxc.fileInfoToAggregate = none)
    (hfree : mapFind s.FileInfoHMap ctxc.newFileInfo.RelativePath = none)
    (hd : ctxd.fileInfoToAggregate = some ctxc.newFileInfo.RelativePath) :
    ∃ r : FILE_INFO,
      mapFind (aggregateDelete ctxd (aggregateCreate OperationType ctxc s).2).2.FileInfoHMap
        ctxc.newFileInfo.RelativePath = some r ∧
      r.FileExistedBeforeEvents = false ∧ r.WasDeleted = true ∧
      sendFileInfoEvent sock crtFileFullPath crtFileSize r = (STATUS_SUCCESS, []) := by
  simp [aggregateCreate, aggregateDelete, hc, hd, InsertNewFileInfo, hfree, hop,
    mapFind_mapModify_same, mapFind_insert_same, sendFileInfoEvent]

theorem aggregate_create_delete_existing (sock : SendCall → SDSTATUS)
    (crtFileFullPath : String) (crtFileSize : Nat) (OperationType : OP_TYPE)
    (ctxc ctxd : EventContext) (s : ClientState) (key : String) (x : FILE_INFO)
    (hsock : ∀ c, SUCCESS (sock c) = true)
    (hc : ctxc.fileInfoToAggregate = some key)
    (hd : ctxd.fileInfoToAggregate = some key)
    (hx : mapFind s.FileInfoHMap key = some x)
    (hpre : x.FileExistedBeforeEvents = true) (hpath : x.RelativePath ≠ "") :
    ∃ r : FILE_INFO,
      mapFind (aggregateDelete ctxd (aggregateCreate OperationType ctxc s).2).2.FileInfoHMap
        key = some r ∧
      r.FileExistedBeforeEvents = true ∧ r.WasDeleted = true ∧
      sendFileInfoEvent sock crtFileFullPath crtFileSize r
        = (STATUS_SUCCESS,
            [.Delete { buildPacket r with OperationType := opDELETE } x.RelativePath]) := by
  simp [aggregateCreate, aggregateDelete, hc, hd, hx, hpre, hpath, hsock,
    mapFind_mapModify_same, sendFileInfoEvent, SendDeleteToServer]

/-- C5: for a path without a record, a `CREATE` event followed by a `DELETE` event leaves a
record with `preExisted` false and `wasDeleted` true, for which the drain sends nothing; for a
path whose record has `preExisted` true, as it has when the first event of the window for the
path was `DELETE`, `MODIFY` or `MOVED_FROM`, the two events leave a record for which the drain
sends exactly one `DELETE` of the path. The first three parts are for the kernel events of a
non-directory file; the last two are the flag updates of the `CREATE` and `DELETE` cases
composed directly, for a file of any kind, directories included. -/
theorem C5_create_then_delete_keeps_delete_if_preExisted (sock : SendCall → SDSTATUS)
    (lstatSize : String → Option Nat) (M : String) (fuel : Nat)
    (env0 envc envd : SysEnv) (e0 ec ed : InotifyEvent) (s : ClientState)
    (hcap : ¬ s.gWatchesArrayCapacity < s.NumberOfWatches)
    (hlen0 : 0 < e0.len) (hlenc : 0 < ec.len) (hlend : 0 < ed.len)
    (hop0 : identifyOperation e0.mask = opFILDELETE ∨ identifyOperation e0.mask = opMODIFY ∨
      identifyOperation e0.mask = opFILMOVEDFROM)
    (hopc : identifyOperation ec.mask = opFILCREATE)
    (hopd : identifyOperation ed.mask = opFILDELETE)
    (hpath0 : eventRelativePathOf s e0 = eventRelativePathOf s ec)
    (hpath : eventRelativePathOf s ed = eventRelativePathOf s ec)
    (hl0 : passesLinkCheck env0 s e0) (hlc : passesLinkCheck envc s ec)
    (hld : passesLinkCheck envd s ed)
    (hsock : ∀ c, SUCCESS (sock c) = true) :
    (mapFind s.FileInfoHMap (eventRelativePathOf s ec) = none →
      ∃ (s2 : ClientState) (r : FILE_INFO),
        ReadEventsAndIdentifyOperations (fuel + 1) [(envc, ec), (envd, ed)] s
          = some (STATUS_SUCCESS, s2) ∧
        mapFind s2.FileInfoHMap (eventRelativePathOf s ec) = some r ∧
        r.FileExistedBeforeEvents = false ∧ r.WasDeleted = true ∧
        drainCalls sock lstatSize M r = (STATUS_SUCCESS, [])) ∧
    (∀ x, mapFind s.FileInfoHMap (eventRelativePathOf s ec) = some x →
      x.RelativePath = eventRelativePathOf s ec → x.FileExistedBeforeEvents = true →
      ∃ (s2 : ClientState) (r : FILE_INFO),
        ReadEventsAndIdentifyOperations (fuel + 1) [(envc, ec), (envd, ed)] s
          = some (STATUS_SUCCESS, s2) ∧
        mapFind s2.FileInfoHMap (eventRelativePathOf s ec) = some r ∧
        r.FileExistedBeforeEvents = true ∧ r.WasDeleted = true ∧
        drainCalls sock lstatSize M r
          = (STATUS_SUCCESS,
              [.Delete { buildPacket r with OperationType := opDELETE }
                (eventRelativePathOf s ec)])) ∧
    (mapFind s.FileInfoHMap (eventRelativePathOf s ec) = none →
      ∃ (s2 : ClientState) (r : FILE_INFO),
        ReadEventsAndIdentifyOperations (fuel + 1) [(env0, e0), (envc, ec), (envd, ed)] s
          = some (STATUS_SUCCESS, s2) ∧
        mapFind s2.FileInfoHMap (eventRelativePathOf s ec) = some r ∧
        r.FileExistedBeforeEvents = true ∧ r.WasDeleted = true ∧
        drainCalls sock lstatSize M r
          = (STATUS_SUCCESS,
              [.Delete { buildPacket r with OperationType := opDELETE }
                (eventRelativePathOf s ec)])) ∧
    (∀ (crtFileFullPath : String) (crtFileSize : Nat) (OperationType : OP_TYPE)
        (ctxc ctxd : EventContext) (t : ClientState),
      OperationType ≠ opDIRMOVEDTO → ctxc.fileInfoToAggregate = none →
      mapFind t.FileInfoHMap ctxc.newFileInfo.RelativePath = none →
      ctxd.fileInfoToAggregate = some ctxc.newFileInfo.RelativePath →
      ∃ r : FILE_INFO,
        mapFind (aggregateDelete ctxd (aggregateCreate OperationType ctxc t).2).2.FileInfoHMap
          ctxc.newFileInfo.RelativePath = some r ∧
        r.FileExistedBeforeEvents = false ∧ r.WasDeleted = true ∧
        sendFileInfoEvent sock crtFileFullPath crtFileSize r = (STATUS_SUCCESS, [])) ∧
    (∀ (crtFileFullPath : String) (crtFileSize : Nat) (OperationType : OP_TYPE)
        (ctxc ctxd : EventContext) (t : ClientState) (key : String) (x : FILE_INFO),
      ctxc.fileInfoToAggregate = some key → ctxd.fileInfoToAggregate = some key →
      mapFind t.FileInfoHMap key = some x →
      x.FileExistedBeforeEvents = true → x.RelativePath ≠ "" →
      ∃ r : FILE_INFO,
        mapFind (aggregateDelete ctxd (aggregateCreate OperationType ctxc t).2).2.FileInfoHMap
          key = some r ∧
        r.FileExistedBeforeEvents = true ∧ r.WasDeleted = true ∧
        sendFileInfoEvent sock crtFileFullPath crtFileSize r
          = (STATUS_SUCCESS,
              [.Delete { buildPacket r with OperationType := opDELETE } x.RelativePath])) := by
  refine ⟨?_, ?_, ?_, ?_, ?_⟩
  rotate_left 3
  · intro crtFileFullPath crtFileSize OperationType ctxc ctxd t hop hc hfree hd
    exact aggregate_create_delete_fresh sock crtFileFullPath crtFileSize OperationType ctxc
      ctxd t hop hc hfree hd
  · intro crtFileFullPath crtFileSize OperationType ctxc ctxd t key x hc hd hx hpre hpath
    exact aggregate_create_delete_existing sock crtFileFullPath crtFileSize OperationType ctxc
      ctxd t key x hsock hc hd hx hpre hpath
  · intro hf
    obtain ⟨s2, r, h1, h2, h3, h4, h5⟩ := create_then_delete sock lstatSize M fuel envc envd
      ec ed s hcap hlenc hlend hopc hopd hpath (fun x hx => by rw [hf] at hx; cases hx) hlc hld
      hsock
    rw [hf] at h4
    have h4b : r.FileExistedBeforeEvents = false := h4
    rw [h4b] at h5
    exact ⟨s2, r, h1, h2, h4b, h3, by simpa using h5⟩
  · intro x hf hxp hxe
    obtain ⟨s2, r, h1, h2, h3, h4, h5⟩ := create_then_delete sock lstatSize M fuel envc envd
      ec ed s hcap hlenc hlend hopc hopd hpath
      (fun y hy => by rw [hf] at hy; cases hy; exact hxp) hlc hld hsock
    rw [hf] at h4
    have h4b : r.FileExistedBeforeEvents = true := h4.trans hxe
    rw [h4b] at h5
    exact ⟨s2, r, h1, h2, h4b, h3, by simpa using h5⟩
  · intro hf
    have hne0 : identifyOperation e0.mask ≠ opUNKNOWN := by
      rcases hop0 with h | h | h <;> rw [h] <;> decide
    obtain ⟨st0, x, hs0, hp0, hx1, hx2⟩ :=
      first_event_preExisted env0 fuel e0 s hcap hl0 hop0 (hpath0 ▸ hf)
    rw [hpath0] at hp0 hx2
    have hfx : mapFind (s.FileInfoHMap ++ [(eventRelativePathOf s ec, x)])
        (eventRelativePathOf s ec) = some x := mapFind_insert_same _ _ _ hf
    obtain ⟨s2, r, h1, h2, h3, h4, h5⟩ := create_then_delete sock lstatSize M fuel envc envd
      ec ed { s with FileInfoHMap := s.FileInfoHMap ++ [(eventRelativePathOf s ec, x)] }
      hcap hlenc hlend hopc hopd hpath
      (fun y hy => by
        have hy2 : mapFind (s.FileInfoHMap ++ [(eventRelativePathOf s ec, x)])
          (eventRelativePathOf s ec) = some y := hy
        rw [hfx] at hy2; cases hy2; exact hx2) hlc hld hsock
    have h4b : r.FileExistedBeforeEvents = true := by
      have h4c : r.FileExistedBeforeEvents
          = (match mapFind (s.FileInfoHMap ++ [(eventRelativePathOf s ec, x)])
              (eventRelativePathOf s ec) with
             | none => false
             | some x => x.FileExistedBeforeEvents) := h4
      rw [hfx] at h4c
      exact h4c.trans hx1
    rw [h4b] at h5
    refine ⟨s2, r, ?_, h2, h4b, h3, by simpa using h5⟩
    rw [readEvents_cons (fuel + 1) env0 e0 _ s _ st0 hlen0 hne0 hp0, if_pos hs0]
    exact h1
theorem C5_create_then_delete_keeps_delete_if_preExisted_witness :
    (∃ (s2 : ClientState) (r : FILE_INFO),
      ReadEventsAndIdentifyOperations 1
          [(exampleEnv, exampleEvent IN_CREATE 0 "p"), (exampleEnv, exampleEvent IN_DELETE 0 "p")]
          exampleState = some (STATUS_SUCCESS, s2) ∧
      mapFind s2.FileInfoHMap "./p" = some r ∧
      r.FileExistedBeforeEvents = false ∧ r.WasDeleted = true ∧
      drainCalls (fun _ => STATUS_SUCCESS) (fun _ => none) "/m" r = (STATUS_SUCCESS, [])) ∧
    (∃ (s2 : ClientState) (r : FILE_INFO),
      ReadEventsAndIdentifyOperations 1
          [(exampleEnv, exampleEvent IN_MODIFY 0 "p"), (exampleEnv, exampleEvent IN_CREATE 0 "p"),
           (exampleEnv, exampleEvent IN_DELETE 0 "p")]
          exampleState = some (STATUS_SUCCESS, s2) ∧
      mapFind s2.FileInfoHMap "./p" = some r ∧
      r.FileExistedBeforeEvents = true ∧ r.WasDeleted = true ∧
      drainCalls (fun _ => STATUS_SUCCESS) (fun _ => none) "/m" r
        = (STATUS_SUCCESS,
            [.Delete { buildPacket r with OperationType := opDELETE } "./p"])) :=
  have h := C5_create_then_delete_keeps_delete_if_preExisted (fun _ => STATUS_SUCCESS)
    (fun _ => none) "/m" 0 exampleEnv exampleEnv exampleEnv
    (exampleEvent IN_MODIFY 0 "p") (exampleEvent IN_CREATE 0 "p")
    (exampleEvent IN_DELETE 0 "p") exampleState
    (by decide) (by decide) (by decide) (by decide) (Or.inr (Or.inl (by decide)))
    (by decide) (by decide) (by decide) (by decide)
    (by unfold passesLinkCheck; decide) (by unfold passesLinkCheck; decide)
    (by unfold passesLinkCheck; decide) (fun _ => rfl)
  ⟨h.1 rfl, h.2.2.1 rfl⟩

/-! ### The transfer of a file body -/

theorem toInt32_small (x : Nat) (h : x < 2 ^ 31) : toInt32 x = (x : Int) := by
  unfold toInt32
  have h1 : x % 2 ^ 32 = x := Nat.mod_eq_of_lt (by omega)
  rw [h1, if_pos h]

theorem subInt32_small (a b : Nat) (ha : a < 2 ^ 31) (hb : b < 2 ^ 31) :
    subInt32 (a : Int) (b : Int) = (a : Int) - (b : Int) := by
  unfold subInt32
  have h1 : (0 : Int) ≤ (a : Int) - (b : Int) + 2 ^ 31 := by omega
  have h2 : (a : Int) - (b : Int) + 2 ^ 31 < 2 ^ 32 := by omega
  rw [Int.emod_eq_of_lt h1 h2]
  omega

theorem chunk_in_buffer (chunk rest : List Nat) (h : chunk.length ≤ 1024) :
    ((chunk ++ rest).take 1024).take chunk.length = chunk := by
  rw [List.take_take, Nat.min_eq_left h, List.take_append_of_le_length (le_refl _),
    List.take_length]

theorem recvChunks_cons (F : Nat) (p : PACKET_FILE) (rest : List PACKET_FILE)
    (written : List Nat) (total : Nat) (chunk : List Nat)
    (h1 : p.FileChunk.take p.ChunkSize = chunk) (h2 : p.ChunkSize = chunk.length) :
    recvChunks F (p :: rest) written total
      = if p.IsEOF = true then
          (STATUS_SUCCESS, written ++ chunk, (total + chunk.length) % 2 ^ 32)
        else recvChunks F rest (written ++ chunk) ((total + chunk.length) % 2 ^ 32) := by
  rw [recvChunks]
  simp only [h1]
  rw [h2]
  simp

/-- With the size left in host order (a big-endian host, where `htonl` changes nothing), the
packets that the send loop produces for the bytes still to read make the receive loop
write exactly these bytes and add their number to the count. -/
theorem sendChunks_received (n : Nat) (hn : n < 2 ^ 31) :
    ∀ (fuel : Nat) (stream buf : List Nat) (total : Nat),
      total + stream.length = n → stream.length / 1024 + 1 ≤ fuel →
      ∃ packets, sendChunks n fuel stream total buf = some packets ∧
        ∀ (F : Nat) (written : List Nat) (totalRecvBytes : Nat),
          recvChunks F packets written totalRecvBytes
            = (STATUS_SUCCESS, written ++ stream,
                (totalRecvBytes + stream.length) % 2 ^ 32) := by
  intro fuel
  induction fuel with
  | zero => intro stream buf total _ hf; omega
  | succ fuel ih =>
    intro stream buf total hsum hf
    have hchunk : (stream.take 1024).length = min 1024 stream.length := List.length_take _ _
    have hle : (stream.take 1024).length ≤ 1024 := by rw [hchunk]; exact Nat.min_le_left _ _
    have hback := chunk_in_buffer (stream.take 1024) (buf.drop (stream.take 1024).length) hle
    have hmod : (stream.take 1024).length % 2 ^ 32 = (stream.take 1024).length :=
      Nat.mod_eq_of_lt (by omega)
    have htot : (total + (stream.take 1024).length) % 2 ^ 32
        = total + (stream.take 1024).length := Nat.mod_eq_of_lt (by omega)
    have hcmp : subInt32 (toInt32 n) (toInt32 (total + (stream.take 1024).length))
        = (n : Int) - ((total + (stream.take 1024).length : Nat) : Int) := by
      rw [toInt32_small n hn, toInt32_small _ (by omega)]
      exact subInt32_small n _ hn (by omega)
    rw [sendChunks]
    simp only [SD_PACKET_DATA_SIZE, hmod, htot, hcmp]
    by_cases heof : (decide (0 = (stream.take 1024).length)
        || decide ((stream.take 1024).length < 1024)
        || decide ((n : Int) - ((total + (stream.take 1024).length : Nat) : Int) ≤ 0)) = true
    · -- the last packet: the whole rest of the stream is in it
      have hst : stream.take 1024 = stream := by
        apply List.take_of_length_le
        simp only [Bool.or_eq_true, decide_eq_true_eq] at heof
        omega
      rw [if_pos heof]
      refine ⟨_, rfl, ?_⟩
      intro F written totalRecvBytes
      rw [recvChunks_cons F _ [] written totalRecvBytes (stream.take 1024) hback rfl]
      simp only [heof, if_true]
      rw [hst]
    · -- more packets follow
      have hfull : (stream.take 1024).length = 1024 := by
        simp only [Bool.or_eq_true, decide_eq_true_eq, not_or, not_lt] at heof
        omega
      have hmore : 1024 < stream.length := by
        simp only [Bool.or_eq_true, decide_eq_true_eq, not_or, not_lt, not_le] at heof
        omega
      have hdrop : (stream.drop 1024).length = stream.length - 1024 := List.length_drop _ _
      rw [if_neg heof]
      obtain ⟨more, hsend, hrecv⟩ := ih (stream.drop 1024)
        ((stream.take 1024 ++ buf.drop (stream.take 1024).length).take 1024)
        (total + (stream.take 1024).length)
        (by rw [hdrop]; omega)
        (by
          rw [hdrop]
          have : stream.length / 1024 = (stream.length - 1024) / 1024 + 1 := by omega
          omega)
      rw [hsend]
      refine ⟨_, rfl, ?_⟩
      intro F written totalRecvBytes
      rw [recvChunks_cons F _ more written totalRecvBytes (stream.take 1024) hback rfl]
      have hne : ¬ ((decide (0 = (stream.take 1024).length)
        || decide ((stream.take 1024).length < 1024)
        || decide ((n : Int) - ((total + (stream.take 1024).length : Nat) : Int) ≤ 0)) = true) :=
        heof
      simp only [hne, if_false]
      rw [hrecv, List.append_assoc, List.take_append_drop, hdrop, hfull]
      have harith : ((totalRecvBytes + 1024) % 2 ^ 32 + (stream.length - 1024)) % 2 ^ 32
          = (totalRecvBytes + stream.length) % 2 ^ 32 := by omega
      rw [harith]
      simp

/-- On a big-endian host the transfer reproduces the file: for every content of fewer than
`2 ^ 31` bytes and every state of the packet buffer, the packets `SendFileToServer` sends
make `RecvFileFromClient` write the content and report its length. -/
theorem transfer_reproduces_file_in_host_order (content buf : List Nat)
    (sendPath recvPath : String)
    (hn : content.length < 2 ^ 31) (hs : sendPath ≠ "") (hr : recvPath ≠ "") :
    ∃ sizeBytes packets,
      SendFileToServer false content.length sendPath (some content) buf
        (content.length / 1024 + 1) = some (STATUS_SUCCESS, sizeBytes, packets) ∧
      RecvFileFromClient false recvPath true sizeBytes packets
        = (STATUS_SUCCESS, some content, some content.length) := by
  have hnet : htonl false content.length = content.length := by
    unfold htonl
    simp only [Bool.false_eq_true, if_false]
    exact Nat.mod_eq_of_lt (by omega)
  obtain ⟨packets, hsend, hrecv⟩ := sendChunks_received content.length hn
    (content.length / 1024 + 1) content (clearFirst buf) 0 (by omega) (le_refl _)
  refine ⟨memBytes false content.length, packets, ?_, ?_⟩
  · unfold SendFileToServer
    rw [if_neg hs, hnet]
    simp only [hsend]
    rfl
  · unfold RecvFileFromClient
    rw [if_neg hr]
    have hlen : (memBytes false content.length).length = 4 := by simp [memBytes]
    simp only [hlen, hrecv]
    have hmod : (0 + content.length) % 2 ^ 32 = content.length := by
      rw [Nat.zero_add]; exact Nat.mod_eq_of_lt (by omega)
    simp [hmod]
    omega

/-- C6 (failing input): on a little-endian host, for every file content of 1152 bytes,
`SendFileToServer` called with the size 1152 sends one packet only, the first 1024 bytes with
`IsEOF` set, because the end test of its loop reads `FileSize` after `htonl` has reversed
its bytes; `RecvFileFromClient` writes these 1024 bytes and reports the size 1024. -/
theorem C6_little_endian_transfer_truncates (content buf : List Nat)
    (h : content.length = 1152) :
    SendFileToServer true 1152 "/m/f" (some content) buf 1
      = some (STATUS_SUCCESS, [0, 0, 4, 128],
          [{ IsEOF := true, ChunkSize := 1024, FileChunk := content.take 1024 }]) ∧
    RecvFileFromClient true "/s/f" true [0, 0, 4, 128]
        [{ IsEOF := true, ChunkSize := 1024, FileChunk := content.take 1024 }]
      = (STATUS_SUCCESS, some (content.take 1024), some 1024) ∧
    content.take 1024 ≠ content := by
  have hlen : (content.take 1024).length = 1024 := by
    rw [List.length_take, h]; rfl
  have hnet : htonl true 1152 = 2147745792 := by decide
  have hbytes : memBytes true 2147745792 = [0, 0, 4, 128] := by decide
  have heof : decide (subInt32 (toInt32 2147745792) (toInt32 1024) ≤ 0) = true := by decide
  refine ⟨?_, ?_, ?_⟩
  · have hpath : ("/m/f" : String) ≠ "" := by decide
    unfold SendFileToServer
    rw [if_neg hpath, hnet]
    simp only [hbytes, sendChunks, SD_PACKET_DATA_SIZE, hlen]
    have htake : (List.take 1024 content ++ List.drop 1024 (clearFirst buf)).take 1024
        = List.take 1024 content := by
      rw [List.take_append_of_le_length (by rw [hlen])]
      rw [List.take_of_length_le (by rw [hlen])]
    rw [htake]
    have h1 : (1024 % 2 ^ 32 : Nat) = 1024 := by decide
    have h2 : ((0 + 1024) % 2 ^ 32 : Nat) = 1024 := by decide
    simp only [h1, h2, heof]
    simp
  · have hpath : ("/s/f" : String) ≠ "" := by decide
    unfold RecvFileFromClient
    rw [if_neg hpath]
    simp [recvChunks, hlen, List.take_take]
  · intro hc
    have := congrArg List.length hc
    rw [hlen, h] at this
    omega
theorem C6_little_endian_transfer_truncates_witness :
    SendFileToServer true 1152 "/m/f" (some (List.replicate 1152 7)) [] 1
      = some (STATUS_SUCCESS, [0, 0, 4, 128],
          [{ IsEOF := true, ChunkSize := 1024,
             FileChunk := (List.replicate 1152 7).take 1024 }]) ∧
    RecvFileFromClient true "/s/f" true [0, 0, 4, 128]
        [{ IsEOF := true, ChunkSize := 1024, FileChunk := (List.replicate 1152 7).take 1024 }]
      = (STATUS_SUCCESS, some ((List.replicate 1152 7).take 1024), some 1024) ∧
    (List.replicate 1152 7).take 1024 ≠ List.replicate 1152 7 :=
  C6_little_endian_transfer_truncates (List.replicate 1152 7) [] (List.length_replicate 1152 7)

/-! ### The server hash index -/

theorem hashFind_nil (k : String) : hashFind [] k = none := rfl

theorem hashFind_cons (kv : String × HASH_INFO) (rest : HashInfoMap) (k : String) :
    hashFind (kv :: rest) k = if kv.1 = k then some kv.2 else hashFind rest k := by
  unfold hashFind
  by_cases h : kv.1 = k
  · simp [List.find?_cons, h]
  · have : (kv.1 == k) = false := by simpa using h
    simp [List.find?_cons, this, h]

theorem hashFind_append (m1 m2 : HashInfoMap) (k : String) :
    hashFind (m1 ++ m2) k = (hashFind m1 k).or (hashFind m2 k) := by
  induction m1 with
  | nil => simp [hashFind_nil]
  | cons kv rest ih =>
    rw [List.cons_append, hashFind_cons, hashFind_cons, ih]
    split <;> simp

theorem hashFind_replace (m : HashInfoMap) (k k2 : String) (v : HASH_INFO) :
    hashFind (m.map (fun kv => if kv.1 == k then (kv.1, v) else kv)) k2
      = if k2 = k then (hashFind m k).map (fun _ => v) else hashFind m k2 := by
  induction m with
  | nil => simp [hashFind_nil]
  | cons kv rest ih =>
    rw [List.map_cons, hashFind_cons, hashFind_cons, hashFind_cons, ih]
    by_cases h1 : kv.1 = k
    · by_cases h2 : k2 = k
      · simp [h1, h2]
      · have h3 : ¬ k = k2 := fun h => h2 h.symm
        simp [h1, h2, h3]
    · by_cases h2 : k2 = k
      · simp [h1, h2]
      · simp [h1, h2]

theorem hashFind_assign (m : HashInfoMap) (k k2 : String) (v : HASH_INFO) :
    hashFind (hashAssign m k v) k2 = if k2 = k then some v else hashFind m k2 := by
  unfold hashAssign
  cases hf : hashFind m k with
  | none =>
    simp only [Option.isSome_none, Bool.false_eq_true, if_false]
    rw [hashFind_append, hashFind_cons, hashFind_nil]
    by_cases h2 : k2 = k
    · simp [h2, hf]
    · have h3 : ¬ k = k2 := fun h => h2 h.symm
      simp [h2, h3]
  | some x =>
    simp only [Option.isSome_some, if_true]
    rw [hashFind_replace, hf]
    simp

theorem hashFind_insert (p h : String) (n : Nat) (m : HashInfoMap) (k : String)
    (hp : p ≠ "") :
    hashFind (InsertHashInfoOfFile p h n m).2 k
      = if k = h ∨ k = p then some { HashCode := h, FileRelativePath := p, FileSize := n }
        else hashFind m k := by
  unfold InsertHashInfoOfFile
  rw [if_neg hp]
  simp only [hashFind_assign]
  by_cases h1 : k = h
  · simp [h1]
  · by_cases h2 : k = p <;> simp [h1, h2]

theorem insert_status (p h : String) (n : Nat) (m : HashInfoMap) (hp : p ≠ "") :
    (InsertHashInfoOfFile p h n m).1 = STATUS_SUCCESS := by
  unfold InsertHashInfoOfFile
  rw [if_neg hp]
  rfl
theorem serverModify_miss (M : String) (sys : ServerSys) (r : ReceivedOperation)
    (m : HashInfoMap) (hM : M ≠ "")
    (hop : r.opReceived.OperationType = opMODIFY ∨ r.opReceived.OperationType = opFILMOVEDTO)
    (hp : r.fileRelativePath ≠ "")
    (hmiss : hashFind m r.fileHashCode = none) :
    RecvAndExecuteOperationFromClient M sys r m
      = ⟨STATUS_SUCCESS,
          (InsertHashInfoOfFile r.fileRelativePath r.fileHashCode
            ((sys.RecvFileFromClient (M ++ "/" ++ r.fileRelativePath.drop 2)).2.getD 0) m).2,
          some "File Not On Server", some (M ++ "/" ++ r.fileRelativePath.drop 2), ""⟩ := by
  unfold RecvAndExecuteOperationFromClient
  rw [if_neg hM]
  rcases hop with h | h <;>
    simp [h, hmiss, insert_status _ _ _ _ hp, SUCCESS, executeOperation, SUCCESS_KEEP_WARNING]

theorem serverModify_hit (M : String) (sys : ServerSys) (r : ReceivedOperation)
    (m : HashInfoMap) (found : HASH_INFO) (hM : M ≠ "")
    (hop : r.opReceived.OperationType = opMODIFY ∨ r.opReceived.OperationType = opFILMOVEDTO)
    (hp : r.fileRelativePath ≠ "")
    (hhit : hashFind m r.fileHashCode = some found) :
    RecvAndExecuteOperationFromClient M sys r m
      = executeOperation sys ⟨STATUS_SUCCESS,
          (InsertHashInfoOfFile r.fileRelativePath r.fileHashCode 0 m).2,
          some "File On Server", none,
          "yes | /bin/cp " ++ quoted (M ++ "/" ++ found.FileRelativePath.drop 2) ++ " "
            ++ quoted (M ++ "/" ++ r.fileRelativePath.drop 2) ++ " "⟩ := by
  unfold RecvAndExecuteOperationFromClient
  rw [if_neg hM]
  rcases hop with h | h <;>
    simp [h, hhit, insert_status _ _ _ _ hp, SUCCESS]

theorem executeOperation_keeps (sys : ServerSys) (o : ServerOut) :
    (executeOperation sys o).map = o.map ∧ (executeOperation sys o).answer = o.answer ∧
    (executeOperation sys o).received = o.received ∧
    (executeOperation sys o).shellCommand = o.shellCommand := by
  simp only [executeOperation]
  split_ifs <;> simp

/-- C7: when the map has nothing under the hash code `h`, the server answers
`File Not On Server` to a `MODIFY` of the path `p1` with `h` and receives the file body, and
answers `File On Server` to a following `MODIFY` of the path `p2` with `h`, for which it
receives no body and forms a local copy from `p1`, a path recorded with `h`; afterwards the
records under `p1` and under `p2` both carry `h`. The client sends a file body on the first
answer and none on the second. -/
theorem C7_second_modify_of_same_digest_copies_locally (M : String) (sys : ServerSys)
    (r1 r2 : ReceivedOperation) (m : HashInfoMap)
    (hM : M ≠ "")
    (hop1 : r1.opReceived.OperationType = opMODIFY)
    (hop2 : r2.opReceived.OperationType = opMODIFY)
    (hp1 : r1.fileRelativePath ≠ "") (hp2 : r2.fileRelativePath ≠ "")
    (hh : r2.fileHashCode = r1.fileHashCode)
    (hmiss : hashFind m r1.fileHashCode = none) :
    (RecvAndExecuteOperationFromClient M sys r1 m).answer = some "File Not On Server" ∧
    (RecvAndExecuteOperationFromClient M sys r1 m).received
      = some (M ++ "/" ++ r1.fileRelativePath.drop 2) ∧
    (RecvAndExecuteOperationFromClient M sys r1 m).status = STATUS_SUCCESS ∧
    (hashFind (RecvAndExecuteOperationFromClient M sys r1 m).map r1.fileRelativePath).map
      HASH_INFO.HashCode = some r1.fileHashCode ∧
    (RecvAndExecuteOperationFromClient M sys r2
      (RecvAndExecuteOperationFromClient M sys r1 m).map).answer = some "File On Server" ∧
    (RecvAndExecuteOperationFromClient M sys r2
      (RecvAndExecuteOperationFromClient M sys r1 m).map).received = none ∧
    (RecvAndExecuteOperationFromClient M sys r2
      (RecvAndExecuteOperationFromClient M sys r1 m).map).shellCommand
      = "yes | /bin/cp " ++ quoted (M ++ "/" ++ r1.fileRelativePath.drop 2) ++ " "
          ++ quoted (M ++ "/" ++ r2.fileRelativePath.drop 2) ++ " " ∧
    (hashFind (RecvAndExecuteOperationFromClient M sys r2
      (RecvAndExecuteOperationFromClient M sys r1 m).map).map r1.fileRelativePath).map
      HASH_INFO.HashCode = some r1.fileHashCode ∧
    (hashFind (RecvAndExecuteOperationFromClient M sys r2
      (RecvAndExecuteOperationFromClient M sys r1 m).map).map r2.fileRelativePath).map
      HASH_INFO.HashCode = some r1.fileHashCode ∧
    (RecvAndExecuteOperationFromClient M sys r1 m).answer.map sendsFileOnAnswer = some true ∧
    (RecvAndExecuteOperationFromClient M sys r2
      (RecvAndExecuteOperationFromClient M sys r1 m).map).answer.map sendsFileOnAnswer
      = some false := by
  rw [serverModify_miss M sys r1 m hM (Or.inl hop1) hp1 hmiss]
  have hhit : hashFind (InsertHashInfoOfFile r1.fileRelativePath r1.fileHashCode
      ((sys.RecvFileFromClient (M ++ "/" ++ r1.fileRelativePath.drop 2)).2.getD 0) m).2
      r2.fileHashCode
      = some { HashCode := r1.fileHashCode, FileRelativePath := r1.fileRelativePath,
               FileSize := (sys.RecvFileFromClient
                 (M ++ "/" ++ r1.fileRelativePath.drop 2)).2.getD 0 } := by
    rw [hashFind_insert _ _ _ _ _ hp1, hh]
    simp
  simp only []
  rw [serverModify_hit M sys r2 _ _ hM (Or.inl hop2) hp2 hhit]
  obtain ⟨e1, e2, e3, e4⟩ := executeOperation_keeps sys ⟨STATUS_SUCCESS,
    (InsertHashInfoOfFile r2.fileRelativePath r2.fileHashCode 0
      (InsertHashInfoOfFile r1.fileRelativePath r1.fileHashCode
        ((sys.RecvFileFromClient (M ++ "/" ++ r1.fileRelativePath.drop 2)).2.getD 0) m).2).2,
    some "File On Server", none,
    "yes | /bin/cp " ++ quoted (M ++ "/" ++ r1.fileRelativePath.drop 2) ++ " "
      ++ quoted (M ++ "/" ++ r2.fileRelativePath.drop 2) ++ " "⟩
  rw [e1, e2, e3, e4]
  simp only [hashFind_insert _ _ _ _ _ hp1, hashFind_insert _ _ _ _ _ hp2, hh]
  have hyes : sendsFileOnAnswer "File Not On Server" = true := by decide
  have hno : sendsFileOnAnswer "File On Server" = false := by decide
  by_cases c : r1.fileRelativePath = r1.fileHashCode ∨
      r1.fileRelativePath = r2.fileRelativePath
  · simp [c, hyes, hno]
  · simp [c, hyes, hno]
theorem C7_second_modify_of_same_digest_copies_locally_witness :
    (RecvAndExecuteOperationFromClient "/srv" exampleServerSys
        (exampleModify "./a" "d41d8cd98f00b204e9800998ecf8427e") []).answer
      = some "File Not On Server" ∧
    (RecvAndExecuteOperationFromClient "/srv" exampleServerSys
        (exampleModify "./b" "d41d8cd98f00b204e9800998ecf8427e")
        (RecvAndExecuteOperationFromClient "/srv" exampleServerSys
          (exampleModify "./a" "d41d8cd98f00b204e9800998ecf8427e") []).map).answer
      = some "File On Server" ∧
    (RecvAndExecuteOperationFromClient "/srv" exampleServerSys
        (exampleModify "./b" "d41d8cd98f00b204e9800998ecf8427e")
        (RecvAndExecuteOperationFromClient "/srv" exampleServerSys
          (exampleModify "./a" "d41d8cd98f00b204e9800998ecf8427e") []).map).shellCommand
      = "yes | /bin/cp " ++ quoted "/srv/a" ++ " " ++ quoted "/srv/b" ++ " " :=
  have h := C7_second_modify_of_same_digest_copies_locally "/srv" exampleServerSys
    (exampleModify "./a" "d41d8cd98f00b204e9800998ecf8427e")
    (exampleModify "./b" "d41d8cd98f00b204e9800998ecf8427e") []
    (by decide) rfl rfl (by decide) (by decide) rfl rfl
  ⟨h.1, h.2.2.2.2.1, h.2.2.2.2.2.2.1⟩

/-- C9 (failing input): after `MODIFY` of `./a` with one hash code and `MODIFY` of `./a` with
another, the map still has the first hash code as a key, for the path `./a`, whose record
under the path carries the second hash code; a `MODIFY` of `./b` with the first hash code is
answered `File On Server` and is served by a local copy of `./a`. -/
theorem C9_stale_hash_key_serves_other_content :
    (hashFind
        (RecvAndExecuteOperationFromClient "/srv" exampleServerSys
          (exampleModify "./a" "0cc175b9c0f1b6a831c399e269772661")
          (RecvAndExecuteOperationFromClient "/srv" exampleServerSys
            (exampleModify "./a" "d41d8cd98f00b204e9800998ecf8427e") []).map).map
        "d41d8cd98f00b204e9800998ecf8427e").map HASH_INFO.FileRelativePath = some "./a" ∧
    (hashFind
        (RecvAndExecuteOperationFromClient "/srv" exampleServerSys
          (exampleModify "./a" "0cc175b9c0f1b6a831c399e269772661")
          (RecvAndExecuteOperationFromClient "/srv" exampleServerSys
            (exampleModify "./a" "d41d8cd98f00b204e9800998ecf8427e") []).map).map
        "./a").map HASH_INFO.HashCode = some "0cc175b9c0f1b6a831c399e269772661" ∧
    (RecvAndExecuteOperationFromClient "/srv" exampleServerSys
        (exampleModify "./b" "d41d8cd98f00b204e9800998ecf8427e")
        (RecvAndExecuteOperationFromClient "/srv" exampleServerSys
          (exampleModify "./a" "0cc175b9c0f1b6a831c399e269772661")
          (RecvAndExecuteOperationFromClient "/srv" exampleServerSys
            (exampleModify "./a" "d41d8cd98f00b204e9800998ecf8427e") []).map).map).answer
      = some "File On Server" ∧
    (RecvAndExecuteOperationFromClient "/srv" exampleServerSys
        (exampleModify "./b" "d41d8cd98f00b204e9800998ecf8427e")
        (RecvAndExecuteOperationFromClient "/srv" exampleServerSys
          (exampleModify "./a" "0cc175b9c0f1b6a831c399e269772661")
          (RecvAndExecuteOperationFromClient "/srv" exampleServerSys
            (exampleModify "./a" "d41d8cd98f00b204e9800998ecf8427e") []).map).map).shellCommand
      = "yes | /bin/cp " ++ quoted "/srv/a" ++ " " ++ quoted "/srv/b" ++ " " := by
  decide

/-! ### The watch registry after a deletion -/

/-- C8 (failing input): after the creation of the directories `a` and `b` in the main
directory every registry entry has the path of its node; after the deletion of `a`, which
succeeds, the entry 1 holds the path `./b` but still links to the node of `a`, which has been
freed, and the state is no longer consistent. -/
theorem C8_delete_leaves_entry_linked_to_freed_node :
    (ReadEventsAndIdentifyOperations 10
        [(exampleDirEnv ["/m/a", "/m/b"], exampleEvent (IN_CREATE ||| IN_ISDIR) 0 "a"),
         (exampleDirEnv ["/m/a", "/m/b"], exampleEvent (IN_CREATE ||| IN_ISDIR) 0 "b")]
        exampleState).map (fun p => (p.1, p.2.NumberOfWatches, watchPathsConsistent p.2))
      = some (STATUS_SUCCESS, 3, true) ∧
    (ReadEventsAndIdentifyOperations 10
        [(exampleDirEnv ["/m/a", "/m/b"], exampleEvent (IN_CREATE ||| IN_ISDIR) 0 "a"),
         (exampleDirEnv ["/m/a", "/m/b"], exampleEvent (IN_CREATE ||| IN_ISDIR) 0 "b"),
         (exampleDirEnv ["/m/b"], exampleEvent (IN_DELETE ||| IN_ISDIR) 0 "a")]
        exampleState).map (fun p => (p.1, p.2.NumberOfWatches, watchPathsConsistent p.2))
      = some (STATUS_SUCCESS, 2, false) ∧
    (ReadEventsAndIdentifyOperations 10
        [(exampleDirEnv ["/m/a", "/m/b"], exampleEvent (IN_CREATE ||| IN_ISDIR) 0 "a"),
         (exampleDirEnv ["/m/a", "/m/b"], exampleEvent (IN_CREATE ||| IN_ISDIR) 0 "b"),
         (exampleDirEnv ["/m/b"], exampleEvent (IN_DELETE ||| IN_ISDIR) 0 "a")]
        exampleState).map
      (fun p => ((watchAt p.2.Watches 1).DirRelativePath,
        (nodeAt p.2.heap (watchAt p.2.Watches 1).TreeNode).isSome))
      = some ("./b", false) := by
  decide!

/-! ### A failed event -/

theorem readEvents_append (fuel : Nat) (pre rest : List (SysEnv × InotifyEvent))
    (s s1 : ClientState)
    (hpre : ReadEventsAndIdentifyOperations fuel pre s = some (STATUS_SUCCESS, s1)) :
    ReadEventsAndIdentifyOperations fuel (pre ++ rest) s
      = ReadEventsAndIdentifyOperations fuel rest s1 := by
  induction pre generalizing s with
  | nil =>
    rw [readEvents_nil] at hpre
    cases hpre
    rfl
  | cons ev more ih =>
    obtain ⟨env, e⟩ := ev
    rw [List.cons_append]
    rw [ReadEventsAndIdentifyOperations] at hpre ⊢
    by_cases hlen : 0 < e.len
    · simp only [hlen, if_true] at hpre ⊢
      by_cases hop : identifyOperation e.mask = opUNKNOWN
      · simp [hop] at hpre
      · simp only [hop, if_false] at hpre ⊢
        cases hp : ProcessOperationAndAggregate env fuel (identifyOperation e.mask) (some e)
            none s with
        | none => simp [hp] at hpre
        | some p =>
          simp only [hp] at hpre ⊢
          by_cases hs : (!SUCCESS p.1) = true
          · simp [hs] at hpre
          · simp only [hs, if_false] at hpre ⊢
            exact ih p.2 hpre
    · simp only [hlen, if_false] at hpre ⊢
      exact ih s hpre

/-- C10 (amended): when `ProcessOperationAndAggregate` returns failure for one event,
`ReadEventsAndIdentifyOperations` ends at once with `STATUS_FAIL`, whatever events are left in
the buffer, and `WaitForEventsAndProcessChanges` ends with `STATUS_FAIL`, whatever batches
and wake-ups would follow, without a further transmission. -/
theorem C10_failure_of_one_event_ends_the_monitoring (fuel : Nat)
    (pre rest : List (SysEnv × InotifyEvent)) (env : SysEnv) (e : InotifyEvent)
    (s s1 : ClientState)
    (hlen : 0 < e.len) (hop : identifyOperation e.mask ≠ opUNKNOWN)
    (hpre : ReadEventsAndIdentifyOperations fuel pre s = some (STATUS_SUCCESS, s1))
    (hp : (ProcessOperationAndAggregate env fuel (identifyOperation e.mask) (some e) none
      s1).map Prod.fst = some STATUS_FAIL) :
    ∃ s2 : ClientState,
      ProcessOperationAndAggregate env fuel (identifyOperation e.mask) (some e) none s1
        = some (STATUS_FAIL, s2) ∧
      ReadEventsAndIdentifyOperations fuel (pre ++ (env, e) :: rest) s
        = some (STATUS_FAIL, s2) ∧
      (∀ (sock : SendCall → SDSTATUS) (lstatSize : String → Option Nat) (M : String)
          (batches : List (List (SysEnv × InotifyEvent)))
          (more : List (List (List (SysEnv × InotifyEvent)))),
        monitorLoop sock lstatSize M fuel (((pre ++ (env, e) :: rest) :: batches) :: more) s
          = some (STATUS_FAIL, s2, [])) ∧
      (∀ (sock : SendCall → SDSTATUS) (lstatSize : String → Option Nat) (M : String)
          (env0 : SysEnv) (s0 sb : ClientState) (stb std : SDSTATUS) (sent0 : List SendCall)
          (batches : List (List (SysEnv × InotifyEvent)))
          (more : List (List (List (SysEnv × InotifyEvent)))),
        ¬ s0.gWatchesArrayCapacity < s0.NumberOfWatches →
        BuildEventsForAllSubdirFiles env0 fuel 0 { s0 with FileInfoHMap := [] }
          = some (stb, sb) → SUCCESS stb = true →
        drainState sock lstatSize M sb = some (std, s, sent0) → SUCCESS std = true →
        WaitForEventsAndProcessChanges sock lstatSize M env0 fuel
            (((pre ++ (env, e) :: rest) :: batches) :: more) s0
          = some (STATUS_FAIL, s2, sent0)) := by
  cases hproc : ProcessOperationAndAggregate env fuel (identifyOperation e.mask) (some e)
      none s1 with
  | none => rw [hproc] at hp; simp at hp
  | some p =>
    obtain ⟨st, s2⟩ := p
    rw [hproc] at hp
    simp only [Option.map_some', Option.some.injEq] at hp
    subst hp
    have hread : ReadEventsAndIdentifyOperations fuel (pre ++ (env, e) :: rest) s
        = some (STATUS_FAIL, s2) := by
      rw [readEvents_append fuel pre _ s s1 hpre,
        readEvents_cons fuel env e rest s1 s2 STATUS_FAIL hlen hop hproc]
      rfl
    have hmon : ∀ (sock : SendCall → SDSTATUS) (lstatSize : String → Option Nat) (M : String)
        (batches : List (List (SysEnv × InotifyEvent)))
        (more : List (List (List (SysEnv × InotifyEvent)))),
        monitorLoop sock lstatSize M fuel (((pre ++ (env, e) :: rest) :: batches) :: more) s
          = some (STATUS_FAIL, s2, []) := by
      intro sock lstatSize M batches more
      simp [monitorLoop, processRound, hread, SUCCESS]
    refine ⟨s2, rfl, hread, hmon, ?_⟩
    intro sock lstatSize M env0 s0 sb stb std sent0 batches more hcap hb hsb hd hsd
    unfold WaitForEventsAndProcessChanges
    rw [if_neg hcap, hb]
    simp only [hsb, Bool.not_true, Bool.false_eq_true, if_false, hd, hsd, hmon]
    simp
theorem C10_failure_of_one_event_ends_the_monitoring_witness :
    (ReadEventsAndIdentifyOperations 10
        [(exampleGoneEnv, exampleEvent (IN_CREATE ||| IN_ISDIR) 0 "x"),
         (exampleEnv, exampleEvent IN_CREATE 0 "y")] exampleState).map Prod.fst
      = some STATUS_FAIL ∧
    (WaitForEventsAndProcessChanges (fun _ => STATUS_SUCCESS) (fun _ => none) "/m" exampleEnv 10
        [[[(exampleGoneEnv, exampleEvent (IN_CREATE ||| IN_ISDIR) 0 "x"),
           (exampleEnv, exampleEvent IN_CREATE 0 "y")]],
         [[(exampleEnv, exampleEvent IN_CREATE 0 "z")]]] exampleState).map Prod.fst
      = some STATUS_FAIL := by
  obtain ⟨s2, -, h2, -, h4⟩ := C10_failure_of_one_event_ends_the_monitoring 10 []
    [(exampleEnv, exampleEvent IN_CREATE 0 "y")] exampleGoneEnv
    (exampleEvent (IN_CREATE ||| IN_ISDIR) 0 "x") exampleState exampleState
    (by decide) (by decide) (readEvents_nil 10 exampleState) (by decide!)
  refine ⟨congrArg (Option.map Prod.fst) h2, ?_⟩
  exact congrArg (Option.map Prod.fst)
    (h4 (fun _ => STATUS_SUCCESS) (fun _ => none) "/m" exampleEnv exampleState exampleState
      STATUS_WARNING STATUS_SUCCESS [] [] [[[(exampleEnv, exampleEvent IN_CREATE 0 "z")]]]
      (by decide) (by decide!) rfl (by decide!) rfl)

/-- C10 (as stated) fails: the directory `x` is gone when its creation event is handled, so
the event fails; the event for the file `y` that follows in the buffer is then not
processed (alone it is), the routine that reads the events returns `STATUS_FAIL`, and
`WaitForEventsAndProcessChanges` returns `STATUS_FAIL` without handling the next wake-up
(the event for `z`) and without sending anything. -/
theorem C10_failed_event_stops_the_loop :
    (ReadEventsAndIdentifyOperations 10
        [(exampleGoneEnv, exampleEvent (IN_CREATE ||| IN_ISDIR) 0 "x"),
         (exampleEnv, exampleEvent IN_CREATE 0 "y")] exampleState).map
      (fun p => (p.1, (mapFind p.2.FileInfoHMap "./y").isSome))
      = some (STATUS_FAIL, false) ∧
    (ReadEventsAndIdentifyOperations 10
        [(exampleEnv, exampleEvent IN_CREATE 0 "y")] exampleState).map
      (fun p => (p.1, (mapFind p.2.FileInfoHMap "./y").isSome))
      = some (STATUS_SUCCESS, true) ∧
    (WaitForEventsAndProcessChanges (fun _ => STATUS_SUCCESS) (fun _ => none) "/m" exampleEnv 10
        [[[(exampleGoneEnv, exampleEvent (IN_CREATE ||| IN_ISDIR) 0 "x"),
           (exampleEnv, exampleEvent IN_CREATE 0 "y")]],
         [[(exampleEnv, exampleEvent IN_CREATE 0 "z")]]] exampleState).map
      (fun o => (o.1, o.2.2.map SendCall.path))
      = some (STATUS_FAIL, []) ∧
    (WaitForEventsAndProcessChanges (fun _ => STATUS_SUCCESS) (fun _ => none) "/m" exampleEnv 10
        [[[(exampleEnv, exampleEvent IN_CREATE 0 "y")]],
         [[(exampleEnv, exampleEvent IN_CREATE 0 "z")]]] exampleState).map
      (fun o => (o.1, o.2.2.map SendCall.path))
      = some (STATUS_SUCCESS, ["./y", "./z"]) := by
  decide!

/-! ### Symbolic links that leave the main directory -/

theorem drop_joined (M rest : String) : (M ++ "/" ++ rest).drop M.length = "/" ++ rest := by
  apply String.ext
  simp [String.drop_eq]

theorem joined_has_prefix (M rest : String) :
    M.toList.isPrefixOf (M ++ "/" ++ rest).toList = true := by
  rw [List.isPrefixOf_iff_prefix]
  simp [String.toList, String.data_append, List.append_assoc]

/-- C12: for every link whose real path `R` is found, `IsSymbolicLinkValid` reports the link
valid exactly when the characters of the main directory path `M` are the first characters
of `R`, and then outputs `.` followed by the rest of `R`. For `R` under `M` (`M`, a `/`, a
remainder) this is `./` and the remainder, as the claim says. It is not the test of the
claim: with `M = /home/user/main` the real path `/home/user/main2/file`, which is neither
`M` nor under `M`, is reported valid with the output `.2/file`; and for the example of the
claim, `M = /home/user/main/`, the output is `.subdir/file`, not `./subdir/file`. -/
theorem C12_link_validity_is_a_character_prefix_test (env : SysEnv) (F M R : String)
    (hF : F ≠ "") (hM : M ≠ "") (hR : env.realpath F = some R) :
    IsSymbolicLinkValid env F M
      = (STATUS_SUCCESS, some (M.toList.isPrefixOf R.toList),
          some (if M.toList.isPrefixOf R.toList then "." ++ R.drop M.length else R)) ∧
    (∀ rest, R = M ++ "/" ++ rest →
      IsSymbolicLinkValid env F M = (STATUS_SUCCESS, some true, some ("./" ++ rest))) ∧
    (M = "/home/user/main" → R = "/home/user/main2/file" →
      specInsideMainDir M R = false ∧
      IsSymbolicLinkValid env F M = (STATUS_SUCCESS, some true, some ".2/file")) ∧
    (M = "/home/user/main/" → R = "/home/user/main/subdir/file" →
      IsSymbolicLinkValid env F M = (STATUS_SUCCESS, some true, some ".subdir/file")) := by
  have hgen : IsSymbolicLinkValid env F M
      = (STATUS_SUCCESS, some (M.toList.isPrefixOf R.toList),
          some (if M.toList.isPrefixOf R.toList then "." ++ R.drop M.length else R)) := by
    unfold IsSymbolicLinkValid
    simp only [hF, hM, if_false, hR]
    cases h : M.toList.isPrefixOf R.toList <;> simp
  refine ⟨hgen, ?_, ?_, ?_⟩
  · intro rest hrest
    rw [hgen, hrest, joined_has_prefix, drop_joined]
    simp only [if_true]
    congr 3
  · intro h1 h2
    rw [hgen, h1, h2]
    exact ⟨by decide, by decide⟩
  · intro h1 h2
    rw [hgen, h1, h2]
    decide

theorem C12_link_validity_is_a_character_prefix_test_witness :
    IsSymbolicLinkValid (exampleLinkEnv "/home/user/main2/file") "/m/l" "/home/user/main"
      = (STATUS_SUCCESS, some true, some ".2/file") ∧
    specInsideMainDir "/home/user/main" "/home/user/main2/file" = false :=
  have h := C12_link_validity_is_a_character_prefix_test
    (exampleLinkEnv "/home/user/main2/file") "/m/l" "/home/user/main" "/home/user/main2/file"
    (by decide) (by decide) rfl
  ⟨(h.2.2.1 rfl rfl).2, (h.2.2.1 rfl rfl).1⟩

/-- C11: an event (of the kernel or built by the scan) whose file is a symbolic link with
the real path `R`, where the characters of the main directory path are not the first
characters of `R`, ends `ProcessOperationAndAggregate` with `STATUS_WARNING`, which
`SUCCESS` accepts, and with the File-Info map, the watch tree and the watch registry as they
were. A link that resolves outside the main directory into a path that begins with the
characters of the main directory path is not dropped: in the main directory `/m`, the
creation of the link `l` with the real path `/m2/x` returns `STATUS_SUCCESS` and leaves a
record of kind symbolic link for `./l` in the map. -/
theorem C11_escaping_link_is_dropped_unless_prefix_shared (env : SysEnv) (fuel : Nat)
    (OperationType : OP_TYPE) (Event : Option InotifyEvent) (DataOfEvent : Option EVENT_DATA)
    (s : ClientState) (wi : Nat) (isdir : Bool) (cookie : Nat) (rel full name R : String)
    (hop : OperationType ≠ opUNKNOWN)
    (hcap : ¬ s.gWatchesArrayCapacity < s.NumberOfWatches)
    (hfields : eventFields Event DataOfEvent s = some (wi, isdir, cookie, rel, full, name))
    (hfull : full ≠ "") (hmain : mainDirOf s ≠ "")
    (hlink : env.lstat full = some StatKind.link)
    (hreal : env.realpath full = some R)
    (hout : (mainDirOf s).toList.isPrefixOf R.toList = false) :
    (ProcessOperationAndAggregate env (fuel + 1) OperationType Event DataOfEvent s
        = some (STATUS_WARNING, s) ∧
      SUCCESS STATUS_WARNING = true) ∧
    (specInsideMainDir "/m" "/m2/x" = false ∧
      (ProcessOperationAndAggregate (exampleLinkEnv "/m2/x") 1 opFILCREATE
          (some (exampleEvent IN_CREATE 0 "l")) none exampleState).map
        (fun r => (r.1, r.2.FileInfoHMap.map (fun kv =>
          (kv.1, kv.2.FileType, kv.2.RealRelativePath, kv.2.WasCreated))))
        = some (STATUS_SUCCESS, [("./l", ftSYMLINK, ".2/x", true)])) := by
  constructor
  · have hne : ¬ (Event = none ∧ DataOfEvent = none) := by
      rintro ⟨h1, h2⟩
      subst h1 h2
      simp [eventFields] at hfields
    refine ⟨?_, rfl⟩
    rw [ProcessOperationAndAggregate]
    simp only [hop, hne, hcap, if_false]
    unfold mainDirOf at hmain hout
    have hv : IsSymbolicLinkValid env full (watchAt s.Watches 0).DirFullPath
        = (STATUS_SUCCESS, some false, some R) := by
      have hout2 : ¬ (watchAt s.Watches 0).DirFullPath.toList <+: R.toList := by
        rw [← List.isPrefixOf_iff_prefix, hout]
        simp
      unfold IsSymbolicLinkValid
      simp only [hfull, hmain, hreal, if_false, hout]
      simp
    simp [processInit, hfields, hlink, hv, SUCCESS]
  · exact ⟨by decide, by decide!⟩

theorem C11_escaping_link_is_dropped_unless_prefix_shared_witness :
    ProcessOperationAndAggregate (exampleLinkEnv "/etc/passwd") 1 opFILCREATE
        (some (exampleEvent IN_CREATE 0 "l")) none exampleState
      = some (STATUS_WARNING, exampleState) :=
  (C11_escaping_link_is_dropped_unless_prefix_shared (exampleLinkEnv "/etc/passwd") 0
    opFILCREATE (some (exampleEvent IN_CREATE 0 "l")) none exampleState
    0 false 0 "./l" "/m/l" "l" "/etc/passwd"
    (by decide) (by decide) (by decide) (by decide) (by decide) (by decide) (by decide)
    (by decide)).1.1

/-! ### A symbolic link found by the scan at startup -/

theorem exampleState_eq :
    exampleState =
      { Watches := [{ HWatch := 1, DirRelativePath := ".", DirFullPath := "/m",
                      TreeNode := some 0 }]
        NumberOfWatches := 1
        gWatchesArrayCapacity := 50
        heap := [(0, { DirWatchIndex := 0, Parent := none, Depth := 0, DirName := ".",
                       Subdirs := [] })]
        nextAddr := 1
        FileInfoHMap := [] } := by
  decide

theorem linkValid_under (env : SysEnv) (F M rest : String) (hF : F ≠ "") (hM : M ≠ "")
    (hR : env.realpath F = some (M ++ "/" ++ rest)) :
    IsSymbolicLinkValid env F M = (STATUS_SUCCESS, some true, some ("." ++ ("/" ++ rest))) := by
  unfold IsSymbolicLinkValid
  simp only [hF, hM, if_false, hR, joined_has_prefix, if_true, drop_joined]

theorem drop_two (name : String) : ("." ++ "/" ++ name).drop 2 = name := by
  apply String.ext
  simp [String.drop_eq]

/-- The record that the scan of the main directory `/m` leaves for a symbolic link `name`
whose real path is `/m/t`. -/
theorem scan_of_link (env : SysEnv) (name t : String)
    (hread : env.readdir "/m" = some [name])
    (hdot : name ≠ "." ∧ name ≠ "..")
    (hlink : env.lstat ("/m/" ++ name) = some StatKind.link)
    (hreal : env.realpath ("/m/" ++ name) = some ("/m/" ++ t)) :
    BuildEventsForAllSubdirFiles env 3 0 exampleState
      = some (STATUS_SUCCESS,
          { exampleState with
            FileInfoHMap := [("./" ++ name,
              { InitFileInfo with
                RelativePath := "./" ++ name, FileName := name,
                WatchNodeOfParent := some 0, FileType := ftSYMLINK,
                RealRelativePath := "./" ++ t, WasModified := true })] }) := by
  have e1 : "/m" ++ "/" ++ name = "/m/" ++ name := rfl
  have e2 : "/m" ++ "/" ++ t = "/m/" ++ t := rfl
  have hv := linkValid_under env ("/m" ++ "/" ++ name) "/m" t (joined_ne_empty _ _)
    (by decide) (by rw [e1, e2]; exact hreal)
  simp only [e1] at hv
  have e3 : "." ++ ("/" ++ t) = "./" ++ t := rfl
  rw [e3] at hv
  rw [exampleState_eq]
  rw [BuildEventsForAllSubdirFiles]
  simp only [watchAt, List.getD_cons_zero, hread]
  rw [buildEventsLoop]
  simp only [watchAt, List.getD_cons_zero, e1, hlink, hdot.1, hdot.2, or_self, if_false,
    InitEventData, reduceCtorEq]
  rw [ProcessOperationAndAggregate]
  simp [processInit, eventFields, watchAt, mapFind, hlink, hv, SUCCESS, aggregateModify,
    InsertNewFileInfo, InitFileInfo, SUCCESS_KEEP_WARNING, buildEventsLoop]

/-- C13: a symbolic link `name` that the scan at startup finds in the main directory `/m`,
with its real path `/m/t` inside the main directory, gets a record of kind symbolic link
with the real relative path `./t` and the flag `WasModified`, and the first drain sends
for it one `MODIFY` (the call of `SendModifyToServer`, which sends the digest and the file
body), not a `CREATE` with the real path. The same link created while the client monitors
(kernel event `IN_CREATE`) is sent as a `CREATE` of kind symbolic link with the real
relative path. -/
theorem C13_startup_link_is_sent_as_modify (sock : SendCall → SDSTATUS)
    (lstatSize : String → Option Nat) (env : SysEnv) (name t : String)
    (hsock : ∀ c, SUCCESS (sock c) = true)
    (hread : env.readdir "/m" = some [name])
    (hdot : name ≠ "." ∧ name ≠ "..")
    (hlink : env.lstat ("/m/" ++ name) = some StatKind.link)
    (hreal : env.realpath ("/m/" ++ name) = some ("/m/" ++ t)) :
    WaitForEventsAndProcessChanges sock lstatSize "/m" env 3 [] exampleState
      = some (STATUS_SUCCESS, exampleState,
          [.Modify
            { OperationType := opMODIFY, FileType := ftSYMLINK,
              RelativePathLength := ("./" ++ name).length % 2 ^ 16,
              RealRelativePathLength := ("./" ++ t).length % 2 ^ 16,
              OldRelativePathLength := 0 }
            ("./" ++ name) ("/m/" ++ name) ((lstatSize ("/m/" ++ name)).getD 0 % 2 ^ 32)]) ∧
    (ReadEventsAndIdentifyOperations 1
        [(exampleLinkEnv "/m/t", exampleEvent IN_CREATE 0 "l")] exampleState).bind
      (fun r => (drainState (fun _ => STATUS_SUCCESS) (fun _ => some 3) "/m" r.2).map
        (fun d => d.2.2))
      = some [.Create
          { OperationType := opCREATE, FileType := ftSYMLINK, RelativePathLength := 3,
            RealRelativePathLength := 3, OldRelativePathLength := 0 } "./l" "./t"] := by
  constructor
  · have hscan := scan_of_link env name t hread hdot hlink hreal
    have hmap : ({ exampleState with FileInfoHMap := [] } : ClientState) = exampleState := rfl
    have hdrop : ("./" ++ name).drop 2 = name := drop_two name
    have hfull : "/m" ++ "/" ++ name = "/m/" ++ name := rfl
    have hne : "/m/" ++ name ≠ "" := by rw [← hfull]; exact joined_ne_empty _ _
    have hne2 : "./" ++ name ≠ "" := by
      have : "." ++ "/" ++ name ≠ "" := joined_ne_empty _ _
      exact this
    have hd := drainState_singleton sock lstatSize "/m"
      { exampleState with
        FileInfoHMap := [("./" ++ name,
          { InitFileInfo with
            RelativePath := "./" ++ name, FileName := name,
            WatchNodeOfParent := some 0, FileType := ftSYMLINK,
            RealRelativePath := "./" ++ t, WasModified := true })] }
      ("./" ++ name) _
      [.Modify
        { OperationType := opMODIFY, FileType := ftSYMLINK,
          RelativePathLength := ("./" ++ name).length % 2 ^ 16,
          RealRelativePathLength := ("./" ++ t).length % 2 ^ 16,
          OldRelativePathLength := 0 }
        ("./" ++ name) ("/m/" ++ name) ((lstatSize ("/m/" ++ name)).getD 0 % 2 ^ 32)]
      (by decide) rfl
      (by
        simp only [drainCalls, hdrop, hfull]
        simp [sendFileInfoEvent, InitFileInfo, buildPacket, SendModifyToServer, hne, hne2,
          hsock])
    have hc : ¬ exampleState.gWatchesArrayCapacity < exampleState.NumberOfWatches := by
      decide
    unfold WaitForEventsAndProcessChanges
    rw [if_neg hc, hmap, hscan]
    simp only [hd]
    simp only [SUCCESS, monitorLoop, Bool.not_true, Bool.false_eq_true, if_false,
      Option.map_some', List.append_nil]
    rfl
  · decide!

theorem C13_startup_link_is_sent_as_modify_witness :
    WaitForEventsAndProcessChanges (fun _ => STATUS_SUCCESS) (fun _ => some 3) "/m"
        (exampleLinkEnv "/m/t") 3 [] exampleState
      = some (STATUS_SUCCESS, exampleState,
          [.Modify
            { OperationType := opMODIFY, FileType := ftSYMLINK,
              RelativePathLength := 3, RealRelativePathLength := 3,
              OldRelativePathLength := 0 } "./l" "/m/l" 3]) :=
  (C13_startup_link_is_sent_as_modify (fun _ => STATUS_SUCCESS) (fun _ => some 3)
    (exampleLinkEnv "/m/t") "l" "t" (fun _ => rfl) (by decide) (by decide) (by decide)
    (by decide)).1

/-! ### The operation on the wire -/

theorem memValue_memBytes (le : Bool) (v : Nat) (h : v < 2 ^ 32) :
    memValue le (memBytes le v) = v := by
  cases le <;> simp only [memBytes, memValue, Bool.false_eq_true, if_false, if_true] <;> omega

theorem wordValue_wordBytes (le : Bool) (v : Nat) (h : v < 2 ^ 16) :
    wordValue le (wordBytes le v) = v := by
  cases le <;> simp only [wordBytes, wordValue, Bool.false_eq_true, if_false, if_true] <;> omega

theorem memBytes_length (le : Bool) (v : Nat) : (memBytes le v).length = 4 := by
  cases le <;> rfl

theorem wordBytes_length (le : Bool) (v : Nat) : (wordBytes le v).length = 2 := by
  cases le <;> rfl

theorem opType_round (le : Bool) (t : OP_TYPE) :
    opTypeOfValue (memValue le (memBytes le (opTypeValue t))) = t := by
  rw [memValue_memBytes le _ (by cases t <;> decide)]
  cases t <;> rfl

theorem fileType_round (le : Bool) (t : FILE_TYPE) :
    fileTypeOfValue (memValue le (memBytes le (fileTypeValue t))) = t := by
  rw [memValue_memBytes le _ (by cases t <;> decide)]
  cases t <;> rfl

theorem packetOpBytes_length (le : Bool) (op : PACKET_OP) :
    (packetOpBytes le op).length = 16 := by
  simp [packetOpBytes, memBytes_length, wordBytes_length]

theorem packetOp_round (le : Bool) (op : PACKET_OP)
    (h1 : op.RelativePathLength < 2 ^ 16) (h2 : op.RealRelativePathLength < 2 ^ 16)
    (h3 : op.OldRelativePathLength < 2 ^ 16) :
    packetOpOfBytes le (packetOpBytes le op) = op := by
  have e1 : (packetOpBytes le op).take 4 = memBytes le (opTypeValue op.OperationType) := by
    cases le <;> rfl
  have e2 : ((packetOpBytes le op).drop 4).take 4
      = memBytes le (fileTypeValue op.FileType) := by
    cases le <;> rfl
  have e3 : ((packetOpBytes le op).drop 8).take 2 = wordBytes le op.RelativePathLength := by
    cases le <;> rfl
  have e4 : ((packetOpBytes le op).drop 10).take 2
      = wordBytes le op.RealRelativePathLength := by
    cases le <;> rfl
  have e5 : ((packetOpBytes le op).drop 12).take 2
      = wordBytes le op.OldRelativePathLength := by
    cases le <;> rfl
  unfold packetOpOfBytes
  rw [e1, e2, e3, e4, e5, opType_round, fileType_round, wordValue_wordBytes le _ h1,
    wordValue_wordBytes le _ h2, wordValue_wordBytes le _ h3]

theorem cBytes_exact (s : String) :
    cBytes s (s.length + 1) = s.toList.map Char.toNat ++ [0] := by
  unfold cBytes
  have hl : (s.toList.map Char.toNat).length = s.length := by
    rw [List.length_map]
    rfl
  rw [List.take_append_eq_append_take, hl, List.take_of_length_le (by omega)]
  have h1 : s.length + 1 - s.length = 1 := by omega
  rw [h1]
  rfl

theorem cBytes_length (s : String) (n : Nat) : (cBytes s n).length = n := by
  simp [cBytes]

theorem cString_round (s : String) (h : isCString s = true) :
    cString (s.toList.map Char.toNat ++ [0]) = s := by
  unfold cString
  unfold isCString at h
  have hw : (s.toList.map Char.toNat ++ [0]).takeWhile (fun x => x != 0)
      = s.toList.map Char.toNat := by
    generalize s.toList = l at h
    induction l with
    | nil => simp
    | cons c cs ih =>
      simp only [List.all_cons, Bool.and_eq_true] at h
      simp only [List.map_cons, List.cons_append]
      rw [List.takeWhile_cons, ih h.2]
      simp only [h.1, if_true]
  rw [hw]
  simp [List.map_map, Function.comp_def]

theorem recvExact_append (capacity n : Nat) (a rest : List Nat) (hn : a.length = n)
    (hc : n ≤ capacity) : recvExact capacity n (a ++ rest) = some (a, rest) := by
  unfold recvExact
  rw [if_neg (by omega), if_neg (by simp; omega)]
  simp [← hn]

theorem recvPacketOp_round (le : Bool) (op : PACKET_OP) (p : String) (rest : List Nat)
    (hlen : op.RelativePathLength = p.length) (hp : p.length ≤ 4095)
    (hc : isCString p = true)
    (h2 : op.RealRelativePathLength < 2 ^ 16) (h3 : op.OldRelativePathLength < 2 ^ 16) :
    RecvPacketOpAndFilePathFromClient le (sentPacketOpAndFilePath le op p ++ rest)
      = some (op, p, rest) := by
  unfold RecvPacketOpAndFilePathFromClient sentPacketOpAndFilePath SIZEOF_PACKET_OP
  rw [List.append_assoc, recvExact_append _ _ _ _ (packetOpBytes_length le op) (le_refl _)]
  simp only
  rw [packetOp_round le op (by omega) h2 h3, hlen, cBytes_exact,
    recvExact_append _ _ _ _ (by
      rw [List.length_append, List.length_map]
      rfl) (by unfold SD_MAX_PATH_LENGTH; omega)]
  simp only
  rw [cString_round p hc]

theorem recvTail_round (capacity n : Nat) (str : String) (rest : List Nat)
    (hn : n = str.length + 1) (hcap : n ≤ capacity) (hc : isCString str = true) :
    recvExact capacity n (str.toList.map Char.toNat ++ [0] ++ rest)
      = some (str.toList.map Char.toNat ++ [0], rest) ∧
    cString (str.toList.map Char.toNat ++ [0]) = str := by
  refine ⟨recvExact_append _ _ _ _ ?_ hcap, cString_round str hc⟩
  rw [List.length_append, List.length_map, hn]
  rfl

theorem emitted_cases (sock : SendCall → SDSTATUS) (full : String) (size : Nat)
    (fi : FILE_INFO) (c : SendCall) (hc : c ∈ (sendFileInfoEvent sock full size fi).2) :
    c = .Delete { buildPacket fi with OperationType := opDELETE } fi.RelativePath ∨
    c = .Delete { buildPacket fi with OperationType := opMOVEDFROM } fi.RelativePath ∨
    c = .Modify { buildPacket fi with OperationType := opFILMOVEDTO } fi.RelativePath full size ∨
    c = .Modify { buildPacket fi with OperationType := opMODIFY } fi.RelativePath full size ∨
    (fi.WasMovedFromAndTo = true ∧
      c = .Move { buildPacket fi with OperationType := opFILMOVE } fi.RelativePath
        fi.OldRelativePath) ∨
    (fi.WasMovedFromAndTo = true ∧
      c = .Move { buildPacket fi with OperationType := opMOVE } fi.RelativePath
        fi.OldRelativePath) ∨
    c = .Create { buildPacket fi with OperationType := opCREATE } fi.RelativePath
      fi.RealRelativePath := by
  unfold sendFileInfoEvent at hc
  simp only at hc
  split_ifs at hc <;> simp_all
  rcases hc with rfl | rfl <;> simp

/-- C14: for every File-Info record whose three paths are C strings of at most 4095 bytes,
on hosts of either byte order (the same for client and server): the packet the drain builds
carries the byte lengths of the current path, of the real path (symbolic link) and of the
old path (record moved inside the tree); every operation the drain sends for the record
carries that packet with its tag, and the bytes passed to `send` are the 16 bytes of the
packet, the current path with its terminator (length + 1 bytes), and then by the routine
the digest, the old path or the real path with its terminator; the server routines that
read these bytes consume exactly them (what follows on the connection is left) and hold
the same packet (tag, kind, lengths), the current path, the old path of a `MOVE` or
`FIL_MOVE` and the real path of a `CREATE` of a symbolic link. -/
theorem C14_operation_survives_the_wire (littleEndian : Bool) (md5Hash : String)
    (sock : SendCall → SDSTATUS) (crtFileFullPath : String) (crtFileSize : Nat)
    (fi : FILE_INFO) (rest : List Nat)
    (hp : fi.RelativePath.length ≤ 4095) (hr : fi.RealRelativePath.length ≤ 4095)
    (ho : fi.OldRelativePath.length ≤ 4095)
    (hcp : isCString fi.RelativePath = true) (hcr : isCString fi.RealRelativePath = true)
    (hco : isCString fi.OldRelativePath = true)
    (hmd5 : md5Hash.length = SD_HASH_CODE_LENGTH) (hcm : isCString md5Hash = true) :
    ((buildPacket fi).RelativePathLength = fi.RelativePath.length ∧
      (fi.FileType = ftSYMLINK →
        (buildPacket fi).RealRelativePathLength = fi.RealRelativePath.length) ∧
      (fi.WasMovedFromAndTo = true →
        (buildPacket fi).OldRelativePathLength = fi.OldRelativePath.length)) ∧
    ∀ c ∈ (sendFileInfoEvent sock crtFileFullPath crtFileSize fi).2,
      c.packet = { buildPacket fi with OperationType := c.opType } ∧
      c.path = fi.RelativePath ∧
      c.wire littleEndian md5Hash
        = packetOpBytes littleEndian c.packet ++ (c.path.toList.map Char.toNat ++ [0]) ++
          (match c with
           | .Delete _ _ => []
           | .Modify _ _ _ _ => md5Hash.toList.map Char.toNat ++ [0]
           | .Move _ _ old => old.toList.map Char.toNat ++ [0]
           | .Create op _ real =>
             if op.FileType = ftSYMLINK then real.toList.map Char.toNat ++ [0] else []) ∧
      recvOperation littleEndian (c.wire littleEndian md5Hash ++ rest)
        = some (specReceived md5Hash c, rest) := by
  have b1 : (buildPacket fi).RelativePathLength = fi.RelativePath.length := by
    simp only [buildPacket]
    omega
  have b2 : fi.FileType = ftSYMLINK →
      (buildPacket fi).RealRelativePathLength = fi.RealRelativePath.length := by
    intro h
    simp only [buildPacket, h, if_true]
    omega
  have b3 : fi.WasMovedFromAndTo = true →
      (buildPacket fi).OldRelativePathLength = fi.OldRelativePath.length := by
    intro h
    simp only [buildPacket, h, if_true]
    omega
  have b4 : (buildPacket fi).RealRelativePathLength < 2 ^ 16 := by
    simp only [buildPacket]
    split <;> omega
  have b5 : (buildPacket fi).OldRelativePathLength < 2 ^ 16 := by
    simp only [buildPacket]
    split <;> omega
  have hhead : ∀ (t : OP_TYPE) (more : List Nat),
      RecvPacketOpAndFilePathFromClient littleEndian
        (sentPacketOpAndFilePath littleEndian { buildPacket fi with OperationType := t }
          fi.RelativePath ++ more)
        = some ({ buildPacket fi with OperationType := t }, fi.RelativePath, more) :=
    fun t more => recvPacketOp_round littleEndian _ _ more b1 hp hcp b4 b5
  have hsent : ∀ (t : OP_TYPE),
      sentPacketOpAndFilePath littleEndian { buildPacket fi with OperationType := t }
          fi.RelativePath
        = packetOpBytes littleEndian { buildPacket fi with OperationType := t } ++
          (fi.RelativePath.toList.map Char.toNat ++ [0]) := by
    intro t
    unfold sentPacketOpAndFilePath
    have : ({ buildPacket fi with OperationType := t } : PACKET_OP).RelativePathLength
        = fi.RelativePath.length := b1
    rw [this, cBytes_exact]
  have hmd : cBytes md5Hash (SD_HASH_CODE_LENGTH + 1) = md5Hash.toList.map Char.toNat ++ [0] := by
    rw [← hmd5, cBytes_exact]
  have hlen1 : ∀ s : String, (s.toList.map Char.toNat ++ [0]).length = s.length + 1 := by
    intro s
    rw [List.length_append, List.length_map]
    rfl
  refine ⟨⟨b1, b2, b3⟩, ?_⟩
  have hmdt := recvTail_round (SD_HASH_CODE_LENGTH + 1) (SD_HASH_CODE_LENGTH + 1) md5Hash rest
    (by rw [hmd5]) (le_refl _) hcm
  intro c hc
  rcases emitted_cases sock crtFileFullPath crtFileSize fi c hc with
    h | h | h | h | ⟨hm, h⟩ | ⟨hm, h⟩ | h
  · subst h
    refine ⟨rfl, rfl, ?_, ?_⟩
    · simp only [SendCall.wire, SendCall.packet, SendCall.path, hsent, List.append_nil]
    · simp only [SendCall.wire, recvOperation, hhead, specReceived]
  · subst h
    refine ⟨rfl, rfl, ?_, ?_⟩
    · simp only [SendCall.wire, SendCall.packet, SendCall.path, hsent, List.append_nil]
    · simp only [SendCall.wire, recvOperation, hhead, specReceived]
  · subst h
    refine ⟨rfl, rfl, ?_, ?_⟩
    · simp only [SendCall.wire, SendCall.packet, SendCall.path, hsent, hmd]
    · simp only [SendCall.wire, hmd]
      rw [List.append_assoc]
      simp only [recvOperation, hhead, specReceived, hmdt.1, Option.map_some', hmdt.2]
  · subst h
    refine ⟨rfl, rfl, ?_, ?_⟩
    · simp only [SendCall.wire, SendCall.packet, SendCall.path, hsent, hmd]
    · simp only [SendCall.wire, hmd]
      rw [List.append_assoc]
      simp only [recvOperation, hhead, specReceived, hmdt.1, Option.map_some', hmdt.2]
  · subst h
    have hcb : cBytes fi.OldRelativePath ((buildPacket fi).OldRelativePathLength + 1)
        = fi.OldRelativePath.toList.map Char.toNat ++ [0] := by rw [b3 hm, cBytes_exact]
    have holdt := recvTail_round SD_MAX_PATH_LENGTH ((buildPacket fi).OldRelativePathLength + 1)
      fi.OldRelativePath rest (by rw [b3 hm]) (by rw [b3 hm]; unfold SD_MAX_PATH_LENGTH; omega)
      hco
    refine ⟨rfl, rfl, ?_, ?_⟩
    · simp only [SendCall.wire, SendCall.packet, SendCall.path, hsent, hcb]
    · simp only [SendCall.wire, hcb]
      rw [List.append_assoc]
      simp only [recvOperation, hhead, specReceived, holdt.1, Option.map_some', holdt.2]
  · subst h
    have hcb : cBytes fi.OldRelativePath ((buildPacket fi).OldRelativePathLength + 1)
        = fi.OldRelativePath.toList.map Char.toNat ++ [0] := by rw [b3 hm, cBytes_exact]
    have holdt := recvTail_round SD_MAX_PATH_LENGTH ((buildPacket fi).OldRelativePathLength + 1)
      fi.OldRelativePath rest (by rw [b3 hm]) (by rw [b3 hm]; unfold SD_MAX_PATH_LENGTH; omega)
      hco
    refine ⟨rfl, rfl, ?_, ?_⟩
    · simp only [SendCall.wire, SendCall.packet, SendCall.path, hsent, hcb]
    · simp only [SendCall.wire, hcb]
      rw [List.append_assoc]
      simp only [recvOperation, hhead, specReceived, holdt.1, Option.map_some', holdt.2]
  · subst h
    by_cases hs : fi.FileType = ftSYMLINK
    · have hft : (buildPacket fi).FileType = ftSYMLINK := hs
      have hcb : cBytes fi.RealRelativePath ((buildPacket fi).RealRelativePathLength + 1)
          = fi.RealRelativePath.toList.map Char.toNat ++ [0] := by rw [b2 hs, cBytes_exact]
      have hrealt := recvTail_round SD_MAX_PATH_LENGTH
        ((buildPacket fi).RealRelativePathLength + 1) fi.RealRelativePath rest
        (by rw [b2 hs]) (by rw [b2 hs]; unfold SD_MAX_PATH_LENGTH; omega) hcr
      refine ⟨rfl, rfl, ?_, ?_⟩
      · simp only [SendCall.wire, SendCall.packet, SendCall.path, hsent, if_pos hft, hcb]
      · simp only [SendCall.wire, if_pos hft, hcb]
        rw [List.append_assoc]
        simp only [recvOperation, hhead, specReceived, if_pos hft, hrealt.1,
          Option.map_some', hrealt.2]
    · have hft : ¬ (buildPacket fi).FileType = ftSYMLINK := hs
      refine ⟨rfl, rfl, ?_, ?_⟩
      · simp only [SendCall.wire, SendCall.packet, SendCall.path, hsent, if_neg hft]
      · simp only [SendCall.wire, if_neg hft, List.append_nil, recvOperation, hhead,
          specReceived]

theorem C14_operation_survives_the_wire_witness :
    recvOperation true
        ((SendCall.Create
            { OperationType := opCREATE, FileType := ftSYMLINK, RelativePathLength := 3,
              RealRelativePathLength := 3, OldRelativePathLength := 0 } "./l" "./t").wire true
          "d41d8cd98f00b204e9800998ecf8427e" ++ [7, 7])
      = some (specReceived "d41d8cd98f00b204e9800998ecf8427e"
          (SendCall.Create
            { OperationType := opCREATE, FileType := ftSYMLINK, RelativePathLength := 3,
              RealRelativePathLength := 3, OldRelativePathLength := 0 } "./l" "./t"),
          [7, 7]) :=
  ((C14_operation_survives_the_wire true "d41d8cd98f00b204e9800998ecf8427e"
    (fun _ => STATUS_SUCCESS) "/m/l" 3 exampleCreatedLink [7, 7]
    (by decide) (by decide) (by decide) (by decide) (by decide) (by decide) (by decide)
    (by decide)).2
    (SendCall.Create
      { OperationType := opCREATE, FileType := ftSYMLINK, RelativePathLength := 3,
        RealRelativePathLength := 3, OldRelativePathLength := 0 } "./l" "./t")
    (by decide)).2.2.2

/-! ### The move of a directory -/

/-- C15: for every File-Info record of kind directory with `WasMovedFromAndTo` set and
neither `WasDeleted` nor `WasMovedFromOnly`, with non-empty paths and a socket on which
every send succeeds: when `WasModified` is clear the drain sends exactly one `MOVE` with the
new and the old relative path and nothing else, as the claim says; when `WasModified` is set
the drain takes the branch written for non-directory files, which does not test the kind of
the record, and sends `FIL_MOVE` and then `MODIFY`. -/
theorem C15_directory_move_sends_one_move_unless_modified (sock : SendCall → SDSTATUS)
    (lstatSize : String → Option Nat) (MainDirFullPath : String) (fi : FILE_INFO)
    (hsock : ∀ c, SUCCESS (sock c) = true)
    (hdir : fi.FileType = ftDIRECTORY)
    (hdel : fi.WasDeleted = false) (hfrom : fi.WasMovedFromOnly = false)
    (hmoved : fi.WasMovedFromAndTo = true)
    (hpath : fi.RelativePath ≠ "") (hold : fi.OldRelativePath ≠ "") :
    (fi.WasModified = false →
      drainCalls sock lstatSize MainDirFullPath fi
        = (STATUS_SUCCESS,
            [.Move { OperationType := opMOVE, FileType := ftDIRECTORY,
                     RelativePathLength := fi.RelativePath.length % 2 ^ 16,
                     RealRelativePathLength := 0,
                     OldRelativePathLength := fi.OldRelativePath.length % 2 ^ 16 }
              fi.RelativePath fi.OldRelativePath])) ∧
    (fi.WasModified = true →
      (drainCalls sock lstatSize MainDirFullPath fi).1 = STATUS_SUCCESS ∧
      (drainCalls sock lstatSize MainDirFullPath fi).2.map SendCall.opType
        = [opFILMOVE, opMODIFY]) := by
  constructor
  · intro hmod
    rw [drainCalls_move sock lstatSize MainDirFullPath fi hsock hdel hfrom hmoved hmod hpath
      hold]
    simp [buildPacket, hdir, hmoved]
  · intro hmod
    rw [drainCalls_move_modify sock lstatSize MainDirFullPath fi hsock hdel hfrom hmoved hmod
      hpath hold]
    exact ⟨rfl, rfl⟩

theorem C15_directory_move_sends_one_move_unless_modified_witness :
    drainCalls (fun _ => STATUS_SUCCESS) (fun _ => none) "/m" exampleMovedDir
      = (STATUS_SUCCESS,
          [.Move { OperationType := opMOVE, FileType := ftDIRECTORY, RelativePathLength := 3,
                   RealRelativePathLength := 0, OldRelativePathLength := 3 } "./b" "./a"]) :=
  (C15_directory_move_sends_one_move_unless_modified (fun _ => STATUS_SUCCESS) (fun _ => none)
    "/m" exampleMovedDir (fun _ => rfl) rfl rfl rfl rfl (by decide) (by decide)).1 rfl

/-- The record `exampleModifiedMovedDir` arises from kernel events: after the events of
`exampleDirReplacedByFile` the File-Info map holds exactly this record, under the key
`./b`. -/
theorem modified_directory_record_arises :
    (ReadEventsAndIdentifyOperations 10 exampleDirReplacedByFile exampleState).map
        (fun r => (r.1, r.2.FileInfoHMap))
      = some (STATUS_SUCCESS, [("./b", exampleModifiedMovedDir)]) := by
  decide!

/-- The failing input of C15: the record `exampleModifiedMovedDir` is of kind directory, has
`WasMovedFromAndTo` set and neither `WasDeleted` nor `WasMovedFromOnly`; it has `WasModified`
set as well, and the drain of a map that holds this record alone sends `FIL_MOVE` and then
`MODIFY`, not one `MOVE`. -/
theorem modified_directory_record_sends_modify :
    (exampleModifiedMovedDir.FileType, exampleModifiedMovedDir.WasMovedFromAndTo,
        exampleModifiedMovedDir.WasDeleted, exampleModifiedMovedDir.WasMovedFromOnly)
      = (ftDIRECTORY, true, false, false) ∧
    drainCalls (fun _ => STATUS_SUCCESS) (fun _ => some 3) "/m" exampleModifiedMovedDir
      = (STATUS_SUCCESS,
          [.Move { OperationType := opFILMOVE, FileType := ftDIRECTORY,
                   RelativePathLength := 3, RealRelativePathLength := 0,
                   OldRelativePathLength := 3 } "./b" "./a",
           .Modify { OperationType := opMODIFY, FileType := ftDIRECTORY,
                     RelativePathLength := 3, RealRelativePathLength := 0,
                     OldRelativePathLength := 3 } "./b" "/m/b" 3]) ∧
    (drainState (fun _ => STATUS_SUCCESS) (fun _ => some 3) "/m"
        { exampleState with FileInfoHMap := [("./b", exampleModifiedMovedDir)] }).map
        (fun d => (d.1, d.2.2.map SendCall.opType))
      = some (STATUS_SUCCESS, [opFILMOVE, opMODIFY]) := by
  refine ⟨?_, ?_, ?_⟩ <;> decide!

/-! ### The cleanup before a directory is installed -/

theorem nodeAt_heapFree (heap : NodeHeap) (c a : Nat) :
    nodeAt (heapFree heap c) (some a) = if a = c then none else nodeAt heap (some a) := by
  induction heap with
  | nil => simp [heapFree, nodeAt]
  | cons e rest ih =>
    simp only [heapFree, nodeAt] at ih ⊢
    by_cases hec : e.1 = c
    · by_cases hac : a = c
      · simp only [List.filter_cons, hec, beq_self_eq_true, Bool.not_true, Bool.false_eq_true,
          if_false, hac]
        simp [hac]
      · have hea : ¬ e.1 = a := fun h => hac (h ▸ hec)
        simp only [List.filter_cons, hec, beq_self_eq_true, Bool.not_true, Bool.false_eq_true,
          if_false, hac, List.find?_cons]
        have : (c == a) = false := by simpa using fun h => hac h.symm
        simp only [this]
        simpa [hac] using ih
    · have hb : (e.1 == c) = false := by simpa using hec
      simp only [List.filter_cons, hb, Bool.not_false, if_true, List.find?_cons]
      by_cases hea : e.1 = a
      · have hac : ¬ a = c := fun h => hec (hea ▸ h)
        simp [hea, hac]
      · have hb2 : (e.1 == a) = false := by simpa using hea
        simp only [hb2]
        exact ih

theorem nodeAt_heapSet_isSome (heap : NodeHeap) (p a : Nat) (n : DIR_WATCH_NODE) :
    (nodeAt (heapSet heap p n) (some a)).isSome = (nodeAt heap (some a)).isSome := by
  induction heap with
  | nil => simp [heapSet, nodeAt]
  | cons e rest ih =>
    simp only [heapSet, nodeAt, List.map_cons, List.find?_cons] at ih ⊢
    by_cases hep : e.1 = p
    · by_cases hpa : p = a
      · simp [hep, hpa]
      · have hb : (p == a) = false := by simpa using hpa
        simp only [hep, beq_self_eq_true, if_true, hb]
        exact ih
    · have hb : (e.1 == p) = false := by simpa using hep
      simp only [hb, Bool.false_eq_true, if_false]
      by_cases hea : e.1 = a
      · simp [hea]
      · have hb2 : (e.1 == a) = false := by simpa using hea
        simp only [hb2]
        exact ih

theorem deleteDirWatch_success (env : SysEnv) (i : Nat) (s : ClientState)
    (h : SUCCESS (DeleteDirWatchByIndex env i s).1 = true) :
    (DeleteDirWatchByIndex env i s).2.heap = s.heap ∧
    (DeleteDirWatchByIndex env i s).2.FileInfoHMap = s.FileInfoHMap ∧
    (DeleteDirWatchByIndex env i s).2.NumberOfWatches + 1 = s.NumberOfWatches := by
  unfold DeleteDirWatchByIndex at h ⊢
  by_cases h1 : s.gWatchesArrayCapacity < s.NumberOfWatches
  · simp [h1, SUCCESS] at h
  · by_cases h2 : s.NumberOfWatches ≤ i
    · simp [h1, h2, SUCCESS] at h
    · simp only [h1, h2, if_false]
      split <;> exact ⟨rfl, rfl, by simp only; omega⟩

theorem deleteWatchAndNode_success (env : SysEnv) (child : Nat) (s : ClientState)
    (h : SUCCESS (DeleteWatchAndNodeOfDir env (some child) s).1 = true) :
    nodeAt (DeleteWatchAndNodeOfDir env (some child) s).2.heap (some child) = none ∧
    (∀ a, a ≠ child →
      (nodeAt (DeleteWatchAndNodeOfDir env (some child) s).2.heap (some a)).isSome
        = (nodeAt s.heap (some a)).isSome) ∧
    (DeleteWatchAndNodeOfDir env (some child) s).2.NumberOfWatches + 1 = s.NumberOfWatches ∧
    (DeleteWatchAndNodeOfDir env (some child) s).2.FileInfoHMap = s.FileInfoHMap := by
  unfold DeleteWatchAndNodeOfDir at h ⊢
  simp only at h ⊢
  cases hn : nodeAt s.heap (some child) with
  | none =>
    rw [hn] at h
    exact absurd h (by simp [SUCCESS])
  | some n =>
    simp only [hn] at h ⊢
    cases hd : SUCCESS (DeleteDirWatchByIndex env n.DirWatchIndex s).1 with
    | false =>
      simp only [hd, Bool.not_false, if_true] at h
      exact absurd h (by simp [SUCCESS])
    | true =>
      obtain ⟨e1, e2, e3⟩ := deleteDirWatch_success env n.DirWatchIndex s hd
      simp only [hd, Bool.not_true, Bool.false_eq_true, if_false] at h ⊢
      cases hp : n.Parent with
      | none =>
        rw [hp] at h
        exact absurd h (by simp [SUCCESS])
      | some p =>
        simp only [hp] at h ⊢
        cases hpn : nodeAt (DeleteDirWatchByIndex env n.DirWatchIndex s).2.heap (some p) with
        | none =>
          rw [hpn] at h
          exact absurd h (by simp [SUCCESS])
        | some pn =>
          simp only [hpn] at h ⊢
          by_cases hin : child ∈ pn.Subdirs
          · simp only [hin, if_true]
            refine ⟨?_, ?_, e3, e2⟩
            · rw [nodeAt_heapFree]
              simp
            · intro a ha
              rw [nodeAt_heapFree, if_neg ha, nodeAt_heapSet_isSome, e1]
          · simp only [hin, if_false] at h
            exact absurd h (by simp [SUCCESS])

/-- C16 (amended): when the parent watch node has a child with the name of the directory
that arrives and the cleanup `CheckWatchNodeExistenceForCleanup` succeeds, it has freed
that one child node, every other watch node (the nodes below the old child included) is
allocated as before, the number of registry entries has decreased by one, and the File-Info
map is as before. -/
theorem C16_cleanup_removes_the_child_node_alone (env : SysEnv) (DirName : String)
    (WatchNodeOfParentDir : Option Nat) (s : ClientState) (child : Nat)
    (hchild : GetChildWatchNodeByDirName s.heap WatchNodeOfParentDir DirName
      = (STATUS_SUCCESS, some child))
    (hok : SUCCESS (CheckWatchNodeExistenceForCleanup env DirName WatchNodeOfParentDir s).1
      = true) :
    nodeAt (CheckWatchNodeExistenceForCleanup env DirName WatchNodeOfParentDir s).2.heap
      (some child) = none ∧
    (∀ a, a ≠ child →
      (nodeAt (CheckWatchNodeExistenceForCleanup env DirName WatchNodeOfParentDir s).2.heap
        (some a)).isSome = (nodeAt s.heap (some a)).isSome) ∧
    (CheckWatchNodeExistenceForCleanup env DirName WatchNodeOfParentDir s).2.NumberOfWatches + 1
      = s.NumberOfWatches ∧
    (CheckWatchNodeExistenceForCleanup env DirName WatchNodeOfParentDir s).2.FileInfoHMap
      = s.FileInfoHMap := by
  unfold CheckWatchNodeExistenceForCleanup at hok ⊢
  by_cases h1 : DirName = ""
  · rw [if_pos h1] at hok
    exact absurd hok (by simp [SUCCESS])
  by_cases h2 : WatchNodeOfParentDir = none
  · rw [if_neg h1, if_pos h2] at hok
    exact absurd hok (by simp [SUCCESS])
  by_cases h3 : s.gWatchesArrayCapacity < s.NumberOfWatches
  · rw [if_neg h1, if_neg h2, if_pos h3] at hok
    exact absurd hok (by simp [SUCCESS])
  have hs : SUCCESS STATUS_SUCCESS = true := rfl
  simp only [h1, h2, h3, if_false, hchild, hs, Bool.not_true, Bool.false_eq_true] at hok ⊢
  cases hd : SUCCESS (DeleteWatchAndNodeOfDir env (some child) s).1 with
  | false =>
    simp only [hd, Bool.not_false, if_true] at hok
    exact absurd hok (by simp [SUCCESS])
  | true =>
    simp only [Bool.not_true, Bool.false_eq_true, if_false]
    exact deleteWatchAndNode_success env child s hd

theorem C16_cleanup_removes_the_child_node_alone_witness :
    GetChildWatchNodeByDirName exampleTreeState.heap (some 0) "a" = (STATUS_SUCCESS, some 1) ∧
    nodeAt (CheckWatchNodeExistenceForCleanup (exampleDirEnv ["/m/a"]) "a" (some 0)
      exampleTreeState).2.heap (some 1) = none ∧
    (nodeAt (CheckWatchNodeExistenceForCleanup (exampleDirEnv ["/m/a"]) "a" (some 0)
      exampleTreeState).2.heap (some 3)).isSome = (nodeAt exampleTreeState.heap (some 3)).isSome :=
  have h := C16_cleanup_removes_the_child_node_alone (exampleDirEnv ["/m/a"]) "a" (some 0)
    exampleTreeState 1 (by decide!) (by decide!)
  ⟨by decide!, h.1, h.2.1 3 (by decide)⟩

/-- The state `exampleTreeState` arises from a kernel event: it is the state after the
directory `a` with its subdirectory `c` and its file `f` appeared in the main directory. -/
theorem exampleTreeState_arises :
    ReadEventsAndIdentifyOperations 10 (exampleDirArrivesTwice.take 1) exampleState
      = some (STATUS_SUCCESS, exampleTreeState) := by
  decide!

/-- When a directory `a` arrives by `IN_MOVED_TO` after the directory `a` with its content
appeared, both events are processed with success, and afterwards the watch node of `./a/c`
(address 3) is still allocated, the registry still holds the entry of `./a/c` with its
kernel watch 3, and the map still holds the File-Infos of `./a/c` and `./a/f`. -/
theorem old_subtree_survives_the_event :
    (ReadEventsAndIdentifyOperations 10 exampleDirArrivesTwice exampleState).map
        (fun r => (r.1, (nodeAt r.2.heap (some 1)).isSome, (nodeAt r.2.heap (some 3)).isSome))
      = some (STATUS_SUCCESS, false, true) ∧
    (ReadEventsAndIdentifyOperations 10 exampleDirArrivesTwice exampleState).map
        (fun r => (r.2.NumberOfWatches,
          (r.2.Watches.take r.2.NumberOfWatches).map (fun w => (w.HWatch, w.DirRelativePath))))
      = some (3, [(1, "."), (3, "./a/c"), (2, "./a")]) ∧
    (ReadEventsAndIdentifyOperations 10 exampleDirArrivesTwice exampleState).map
        (fun r => r.2.FileInfoHMap.map (fun kv => kv.1))
      = some ["./a", "./a/c", "./a/f"] := by
  refine ⟨?_, ?_, ?_⟩ <;> decide!

/-- C16 (as stated) fails: in the state `exampleTreeState` the main directory (address 0)
has the child node `a` (address 1), which has the child node of `./a/c` (address 3). When
the empty directory `a` arrives, `CreateStructuresAndEventsForDirMovedToOnly` succeeds and
frees the node at address 1, and afterwards the watch node of `./a/c` is still allocated,
the registry still holds the entry of `./a/c` with its kernel watch 3 beside the new entry
of `./a`, and the map still holds the File-Infos of `./a/c` and `./a/f`. -/
theorem C16_subtree_survives_the_cleanup :
    (GetChildWatchNodeByDirName exampleTreeState.heap (some 0) "a").2 = some 1 ∧
    (nodeAt exampleTreeState.heap (some 1)).map (fun n => n.Subdirs) = some [3] ∧
    (CreateStructuresAndEventsForDirMovedToOnly (exampleDirEnv ["/m/a"]) 10 "./a" "/m/a" "a" 0
        exampleTreeState).map
        (fun r => (r.1, (nodeAt r.2.heap (some 1)).isSome, (nodeAt r.2.heap (some 3)).isSome))
      = some (STATUS_SUCCESS, false, true) ∧
    (CreateStructuresAndEventsForDirMovedToOnly (exampleDirEnv ["/m/a"]) 10 "./a" "/m/a" "a" 0
        exampleTreeState).map
        (fun r => (r.2.NumberOfWatches,
          (r.2.Watches.take r.2.NumberOfWatches).map (fun w => (w.HWatch, w.DirRelativePath))))
      = some (3, [(1, "."), (3, "./a/c"), (2, "./a")]) ∧
    (CreateStructuresAndEventsForDirMovedToOnly (exampleDirEnv ["/m/a"]) 10 "./a" "/m/a" "a" 0
        exampleTreeState).map
        (fun r => r.2.FileInfoHMap.map (fun kv => kv.1))
      = some ["./a", "./a/c", "./a/f"] := by
  refine ⟨?_, ?_, ?_, ?_, ?_⟩ <;> decide!

/-! ### A send that fails during the drain -/

theorem drainCursor_perm (passed rest passed1 more : FileInfoMap) (kv : String × FILE_INFO)
    (ds ds1 : List Nat) (hc : drainCursor passed rest ds = some (passed1, kv, more, ds1)) :
    (passed1 ++ kv :: more).Perm (passed ++ rest) := by
  cases rest with
  | nil =>
    cases passed with
    | nil => simp [drainCursor] at hc
    | cons p ps =>
      simp only [drainCursor, Option.some.injEq, Prod.mk.injEq] at hc
      obtain ⟨rfl, rfl, rfl, _⟩ := hc
      simp
  | cons r rs =>
    simp only [drainCursor, Option.some.injEq, Prod.mk.injEq] at hc
    obtain ⟨rfl, rfl, rfl, _⟩ := hc
    exact List.Perm.refl _

/-- When the drain loop ends with failure, the record whose send failed is the last one
taken out, and it has left the map: together with the pairs of the map that is returned it
is part of the pairs the loop started from. -/
theorem drainLoop_failure (sock : SendCall → SDSTATUS) (lstatSize : String → Option Nat)
    (M : String) (heap : NodeHeap) :
    ∀ (fuel : Nat) (passed rest : FileInfoMap) (ds : List Nat) (out : DrainOut),
      drainLoop sock lstatSize M heap fuel passed rest ds = some out →
      out.status = STATUS_FAIL →
      ∃ kv, (kv :: out.map).Subperm (passed ++ rest) ∧ out.taken.getLast? = some kv.2 ∧
        SUCCESS (drainCalls sock lstatSize M kv.2).1 = false := by
  intro fuel
  induction fuel with
  | zero => intro passed rest ds out h; simp [drainLoop] at h
  | succ n ih =>
    intro passed rest ds out h hfail
    rw [drainLoop] at h
    cases hc : drainCursor passed rest ds with
    | none =>
      rw [hc] at h
      simp only [Option.some.injEq] at h
      subst h
      simp at hfail
    | some q =>
      obtain ⟨passed1, kv, more, ds1⟩ := q
      rw [hc] at h
      simp only at h
      have hperm := drainCursor_perm passed rest passed1 more kv ds ds1 hc
      cases hsk : drainSkips heap ds1 kv.2 with
      | true =>
        rw [hsk] at h
        simp only [if_true] at h
        obtain ⟨x, hx1, hx2, hx3⟩ := ih _ _ _ _ h hfail
        refine ⟨x, hx1.trans (List.Perm.subperm ?_), hx2, hx3⟩
        refine List.Perm.trans ?_ hperm
        simp
      | false =>
        rw [hsk] at h
        simp only [Bool.false_eq_true, if_false] at h
        by_cases hs : SUCCESS (drainCalls sock lstatSize M kv.2).1 = true
        · rw [if_pos hs, Option.map_eq_some'] at h
          obtain ⟨o, ho, rfl⟩ := h
          obtain ⟨x, hx1, hx2, hx3⟩ := ih _ _ _ _ ho hfail
          refine ⟨x, ?_, ?_, hx3⟩
          · refine hx1.trans ?_
            refine List.Subperm.trans ?_ hperm.subperm
            exact ((List.sublist_cons_self kv more).append_left passed1).subperm
          · simp only
            cases ht : o.taken with
            | nil => rw [ht] at hx2; simp at hx2
            | cons t ts =>
              rw [ht] at hx2
              rw [List.getLast?_cons_cons]
              exact hx2
        · rw [if_neg hs] at h
          simp only [Option.some.injEq] at h
          subst h
          refine ⟨kv, List.Perm.subperm ?_, rfl, by simpa using hs⟩
          refine List.Perm.trans ?_ hperm
          exact List.perm_middle.symm

/-- C17 (amended): for every File-Info map with distinct keys and a non-empty path of the
main directory, `SendAllFileInfoEventsToServer` returns; when it returns failure, the send
of one record of the map has failed, that record is the last one taken out, its key is no
longer in the map that the routine leaves, and every pair left in that map is a pair of the
map at the start (a record not taken out yet). -/
theorem C17_failed_record_has_left_the_map (sock : SendCall → SDSTATUS)
    (lstatSize : String → Option Nat) (MainDirFullPath : String) (heap : NodeHeap)
    (FileInfoHMap : FileInfoMap)
    (hmain : MainDirFullPath ≠ "")
    (hkeys : (FileInfoHMap.map Prod.fst).Nodup) :
    ∃ out, SendAllFileInfoEventsToServer sock lstatSize MainDirFullPath heap
        (drainFuel FileInfoHMap) FileInfoHMap = some out ∧
      (out.status = STATUS_FAIL →
        ∃ kv ∈ FileInfoHMap,
          SUCCESS (drainCalls sock lstatSize MainDirFullPath kv.2).1 = false ∧
          out.taken.getLast? = some kv.2 ∧
          mapFind out.map kv.1 = none ∧
          ∀ x ∈ out.map, x ∈ FileInfoHMap) := by
  unfold SendAllFileInfoEventsToServer
  by_cases hlen : FileInfoHMap.length ≤ 0
  · refine ⟨_, by rw [if_neg hmain, if_pos hlen], ?_⟩
    intro h
    simp at h
  · simp only [hmain, hlen, if_false, PreprocessEventFileInfosBeforeSending, List.length_nil,
      ne_eq, not_true_eq_false, SUCCESS, if_true]
    obtain ⟨out, hout⟩ := drainLoop_terminates sock lstatSize MainDirFullPath heap
      (drainFuel FileInfoHMap) [] FileInfoHMap (collectDepths heap FileInfoHMap [])
      (drainFuel_enough heap FileInfoHMap)
    refine ⟨out, hout, ?_⟩
    intro hfail
    obtain ⟨kv, h1, h2, h3⟩ := drainLoop_failure sock lstatSize MainDirFullPath heap _ _ _ _
      out hout hfail
    simp only [List.nil_append] at h1
    have hsub : ∀ x ∈ kv :: out.map, x ∈ FileInfoHMap := fun x hx => h1.subset hx
    have hnd : ((kv :: out.map).map Prod.fst).Nodup := by
      obtain ⟨l, hl1, hl2⟩ := h1
      have hl3 : (l.map Prod.fst).Nodup := hkeys.sublist (hl2.map Prod.fst)
      exact ((hl1.map Prod.fst).nodup_iff).1 hl3
    refine ⟨kv, hsub kv (List.mem_cons_self _ _), h3, h2, ?_,
      fun x hx => hsub x (List.mem_cons_of_mem _ hx)⟩
    simp only [List.map_cons, List.nodup_cons, List.mem_map, not_exists, not_and] at hnd
    unfold mapFind
    rw [Option.map_eq_none', List.find?_eq_none]
    intro x hx
    simpa using hnd.1 x hx

theorem C17_failed_record_has_left_the_map_witness :
    ∃ out, SendAllFileInfoEventsToServer (fun _ => STATUS_FAIL) (fun _ => none) "/m" []
        (drainFuel [("./f", exampleModifiedFile)]) [("./f", exampleModifiedFile)] = some out ∧
      (out.status = STATUS_FAIL →
        ∃ kv ∈ [("./f", exampleModifiedFile)],
          SUCCESS (drainCalls (fun _ => STATUS_FAIL) (fun _ => none) "/m" kv.2).1 = false ∧
          out.taken.getLast? = some kv.2 ∧
          mapFind out.map kv.1 = none ∧
          ∀ x ∈ out.map, x ∈ [("./f", exampleModifiedFile)]) :=
  C17_failed_record_has_left_the_map (fun _ => STATUS_FAIL) (fun _ => none) "/m" []
    [("./f", exampleModifiedFile)] (by decide) (by decide)

/-- C17 (as stated) fails: the map holds the one record `./f` of a modified file and the
socket refuses every send; `SendAllFileInfoEventsToServer` returns `STATUS_FAIL`, nothing
was sent, and the map it leaves is empty: the record whose send failed is not in it. -/
theorem C17_record_is_erased_before_the_send :
    SendAllFileInfoEventsToServer (fun _ => STATUS_FAIL) (fun _ => none) "/m" []
        (drainFuel [("./f", exampleModifiedFile)]) [("./f", exampleModifiedFile)]
      = some ⟨STATUS_FAIL, [], [exampleModifiedFile], []⟩ ∧
    mapFind [("./f", exampleModifiedFile)] "./f" = some exampleModifiedFile ∧
    mapFind ([] : FileInfoMap) "./f" = none := by
  refine ⟨by decide, by decide, by decide⟩

/-! ### Insertion, deletion and update in the hash index -/

theorem hashFind_erase (m : HashInfoMap) (k k2 : String) :
    hashFind (hashErase m k) k2 = if k2 = k then none else hashFind m k2 := by
  induction m with
  | nil => simp [hashErase, hashFind_nil]
  | cons kv rest ih =>
    unfold hashErase at ih ⊢
    by_cases h1 : kv.1 = k
    · have hb : (kv.1 == k) = true := by simpa using h1
      rw [List.filter_cons, hb]
      simp only [Bool.not_true, Bool.false_eq_true, if_false]
      rw [ih, hashFind_cons]
      by_cases h2 : k2 = k
      · simp [h2]
      · have h3 : ¬ kv.1 = k2 := fun h => h2 (h ▸ h1)
        simp [h2, h3]
    · have hb : (kv.1 == k) = false := by simpa using h1
      rw [List.filter_cons, hb]
      simp only [Bool.not_false, if_true]
      rw [hashFind_cons, hashFind_cons, ih]
      by_cases h2 : k2 = k
      · have h3 : ¬ kv.1 = k2 := fun h => h1 (h.trans h2)
        simp [h2, h3, h1]
      · simp [h2]

theorem hashFind_length (m : HashInfoMap) (k : String) (v : HASH_INFO)
    (h : hashFind m k = some v) : m.length ≠ 0 := by
  cases m with
  | nil => simp [hashFind_nil] at h
  | cons a b => simp

/-- C18: for every hash index, non-empty path `p`, digest `h` and size `s`,
`InsertHashInfoOfFile(p, h, s)` succeeds, and afterwards the lookup by the path `p` and the
lookup by the digest `h` both give the record `(p, h, s)`, whatever was stored under either
key before, and the lookup of every other key gives what it gave before. -/
theorem C18_insert_sets_the_path_key_and_the_digest_key (HashInfoHMap : HashInfoMap)
    (p h : String) (s : Nat) (hp : p ≠ "") :
    (InsertHashInfoOfFile p h s HashInfoHMap).1 = STATUS_SUCCESS ∧
    hashFind (InsertHashInfoOfFile p h s HashInfoHMap).2 p
      = some { HashCode := h, FileRelativePath := p, FileSize := s } ∧
    hashFind (InsertHashInfoOfFile p h s HashInfoHMap).2 h
      = some { HashCode := h, FileRelativePath := p, FileSize := s } ∧
    ∀ k, k ≠ p → k ≠ h →
      hashFind (InsertHashInfoOfFile p h s HashInfoHMap).2 k = hashFind HashInfoHMap k := by
  refine ⟨insert_status p h s HashInfoHMap hp, ?_, ?_, ?_⟩
  · rw [hashFind_insert p h s HashInfoHMap p hp]
    simp
  · rw [hashFind_insert p h s HashInfoHMap h hp]
    simp
  · intro k hk1 hk2
    rw [hashFind_insert p h s HashInfoHMap k hp]
    simp [hk1, hk2]

theorem C18_insert_sets_the_path_key_and_the_digest_key_witness :
    hashFind (InsertHashInfoOfFile "./b" "0cc175b9c0f1b6a831c399e269772661" 1
        (InsertHashInfoOfFile "./a" "0cc175b9c0f1b6a831c399e269772661" 1 []).2).2
        "0cc175b9c0f1b6a831c399e269772661"
      = some { HashCode := "0cc175b9c0f1b6a831c399e269772661", FileRelativePath := "./b",
               FileSize := 1 } :=
  (C18_insert_sets_the_path_key_and_the_digest_key
    (InsertHashInfoOfFile "./a" "0cc175b9c0f1b6a831c399e269772661" 1 []).2 "./b"
    "0cc175b9c0f1b6a831c399e269772661" 1 (by decide)).2.2.1

theorem delete_found (m : HashInfoMap) (p h : String) (s : Nat) (hp : p ≠ "") (hph : p ≠ h)
    (hrec : hashFind m p = some { HashCode := h, FileRelativePath := p, FileSize := s }) :
    DeleteHashInfoOfFile p m
      = (STATUS_SUCCESS,
          hashErase
            (if (hashFind m h).map (fun x => x.FileRelativePath) = some p then hashErase m h
             else m) p) := by
  unfold DeleteHashInfoOfFile
  rw [if_neg hp, if_neg (hashFind_length m p _ hrec), hrec]
  simp only [ne_eq, not_true_eq_false, if_false]
  have hkeep : ∀ m1 : HashInfoMap, hashFind m1 p = hashFind m p →
      (if (hashFind m1 p).isNone = true then (STATUS_FAIL, m1)
        else (SUCCESS_KEEP_WARNING STATUS_SUCCESS, hashErase m1 p))
      = (STATUS_SUCCESS, hashErase m1 p) := by
    intro m1 h1
    rw [h1, hrec]
    rfl
  cases hh : hashFind m h with
  | none =>
    simp only [Option.map_none', reduceCtorEq, if_false]
    exact hkeep m rfl
  | some atHash =>
    simp only [Option.map_some', Option.some.injEq]
    by_cases hpath : atHash.FileRelativePath = p
    · have hne : ¬ p ≠ atHash.FileRelativePath := fun hc => hc hpath.symm
      rw [if_neg hne, if_pos hpath]
      exact hkeep _ (by rw [hashFind_erase, if_neg hph])
    · have hne : p ≠ atHash.FileRelativePath := fun hc => hpath hc.symm
      rw [if_pos hne, if_neg hpath]
      exact hkeep m rfl

/-- C19: for every hash index that holds under the path `p` the record of `p` with the
digest `h` (a path key is not a digest key: `p ≠ h`), `DeleteHashInfoOfFile(p)` succeeds,
afterwards the lookup by `p` misses, the lookup by `h` misses when the record under `h` was
of the path `p` and gives what it gave before otherwise, and the lookup of every other key
gives what it gave before. In particular, after `Insert(f1, h)`, `Insert(f2, h)`,
`Delete(f2)` for two different paths, the lookup by `h` misses and the lookup by `f1` gives
the record of `f1`. -/
theorem C19_delete_removes_the_path_key_and_its_own_digest_key (HashInfoHMap : HashInfoMap)
    (p h : String) (s : Nat) (hp : p ≠ "") (hph : p ≠ h)
    (hrec : hashFind HashInfoHMap p
      = some { HashCode := h, FileRelativePath := p, FileSize := s }) :
    (DeleteHashInfoOfFile p HashInfoHMap).1 = STATUS_SUCCESS ∧
    hashFind (DeleteHashInfoOfFile p HashInfoHMap).2 p = none ∧
    hashFind (DeleteHashInfoOfFile p HashInfoHMap).2 h
      = (if (hashFind HashInfoHMap h).map (fun x => x.FileRelativePath) = some p then none
         else hashFind HashInfoHMap h) ∧
    (∀ k, k ≠ p → k ≠ h →
      hashFind (DeleteHashInfoOfFile p HashInfoHMap).2 k = hashFind HashInfoHMap k) ∧
    (∀ (m0 : HashInfoMap) (f1 f2 : String) (s1 s2 : Nat),
      f1 ≠ "" → f2 ≠ "" → f1 ≠ f2 → f1 ≠ h → f2 ≠ h →
      hashFind (DeleteHashInfoOfFile f2
          (InsertHashInfoOfFile f2 h s2 (InsertHashInfoOfFile f1 h s1 m0).2).2).2 h = none ∧
      hashFind (DeleteHashInfoOfFile f2
          (InsertHashInfoOfFile f2 h s2 (InsertHashInfoOfFile f1 h s1 m0).2).2).2 f1
        = some { HashCode := h, FileRelativePath := f1, FileSize := s1 }) := by
  have hmain : ∀ (m : HashInfoMap) (p h : String) (s : Nat), p ≠ "" → p ≠ h →
      hashFind m p = some { HashCode := h, FileRelativePath := p, FileSize := s } →
      (DeleteHashInfoOfFile p m).1 = STATUS_SUCCESS ∧
      hashFind (DeleteHashInfoOfFile p m).2 p = none ∧
      hashFind (DeleteHashInfoOfFile p m).2 h
        = (if (hashFind m h).map (fun x => x.FileRelativePath) = some p then none
           else hashFind m h) ∧
      (∀ k, k ≠ p → k ≠ h → hashFind (DeleteHashInfoOfFile p m).2 k = hashFind m k) := by
    intro m p h s hp hph hrec
    rw [delete_found m p h s hp hph hrec]
    have hhp : ¬ h = p := fun hc => hph hc.symm
    refine ⟨rfl, ?_, ?_, ?_⟩
    · simp only [hashFind_erase, if_true]
    · simp only [hashFind_erase, if_neg hhp]
      split
      · rw [hashFind_erase, if_pos rfl]
      · rfl
    · intro k hk1 hk2
      simp only [hashFind_erase, if_neg hk1]
      split
      · rw [hashFind_erase, if_neg hk2]
      · rfl
  obtain ⟨a1, a2, a3, a4⟩ := hmain HashInfoHMap p h s hp hph hrec
  refine ⟨a1, a2, a3, a4, ?_⟩
  intro m0 f1 f2 s1 s2 hf1 hf2 hne h1 h2
  have hrec2 : hashFind (InsertHashInfoOfFile f2 h s2 (InsertHashInfoOfFile f1 h s1 m0).2).2 f2
      = some { HashCode := h, FileRelativePath := f2, FileSize := s2 } := by
    rw [hashFind_insert f2 h s2 _ f2 hf2]
    simp
  have hath : hashFind (InsertHashInfoOfFile f2 h s2 (InsertHashInfoOfFile f1 h s1 m0).2).2 h
      = some { HashCode := h, FileRelativePath := f2, FileSize := s2 } := by
    rw [hashFind_insert f2 h s2 _ h hf2]
    simp
  obtain ⟨_, _, b3, b4⟩ := hmain _ f2 h s2 hf2 h2 hrec2
  constructor
  · rw [b3, hath]
    simp
  · rw [b4 f1 hne h1, hashFind_insert f2 h s2 _ f1 hf2, if_neg (by
      rintro (hc | hc)
      · exact h1 hc
      · exact hne hc), hashFind_insert f1 h s1 m0 f1 hf1]
    simp

theorem C19_delete_removes_the_path_key_and_its_own_digest_key_witness :
    (DeleteHashInfoOfFile "./a"
        (InsertHashInfoOfFile "./a" "0cc175b9c0f1b6a831c399e269772661" 1 []).2).1
      = STATUS_SUCCESS ∧
    hashFind (DeleteHashInfoOfFile "./a"
        (InsertHashInfoOfFile "./a" "0cc175b9c0f1b6a831c399e269772661" 1 []).2).2 "./a"
      = none :=
  have h := C19_delete_removes_the_path_key_and_its_own_digest_key
    (InsertHashInfoOfFile "./a" "0cc175b9c0f1b6a831c399e269772661" 1 []).2 "./a"
    "0cc175b9c0f1b6a831c399e269772661" 1 (by decide) (by decide) (by decide)
  ⟨h.1, h.2.1⟩

/-- C20: for every hash index that holds under the path `old` the record `(old, h, s)` (a
path key is not a digest key: `old ≠ h`) and every non-empty path `new` different from
`old`, `UpdateHashInfoOfNondirFile(old, new)` succeeds, and afterwards the lookup by `new`
gives `(new, h, s)`, the lookup by `old` misses, the lookup by the digest `h` gives
`(new, h, s)`, and the lookup of every other key gives what it gave before. When the lookup
by `old` misses, the update fails and the index is as it was. -/
theorem C20_update_moves_the_record_to_the_new_path (HashInfoHMap : HashInfoMap)
    (old new h : String) (s : Nat)
    (hold : old ≠ "") (hnew : new ≠ "") (hne : new ≠ old) (hoh : old ≠ h)
    (hrec : hashFind HashInfoHMap old
      = some { HashCode := h, FileRelativePath := old, FileSize := s }) :
    (UpdateHashInfoOfNondirFile old new HashInfoHMap).1 = STATUS_SUCCESS ∧
    hashFind (UpdateHashInfoOfNondirFile old new HashInfoHMap).2 new
      = some { HashCode := h, FileRelativePath := new, FileSize := s } ∧
    hashFind (UpdateHashInfoOfNondirFile old new HashInfoHMap).2 old = none ∧
    hashFind (UpdateHashInfoOfNondirFile old new HashInfoHMap).2 h
      = some { HashCode := h, FileRelativePath := new, FileSize := s } ∧
    (∀ k, k ≠ old → k ≠ new → k ≠ h →
      hashFind (UpdateHashInfoOfNondirFile old new HashInfoHMap).2 k
        = hashFind HashInfoHMap k) ∧
    (∀ (m : HashInfoMap) (o n : String), hashFind m o = none →
      UpdateHashInfoOfNondirFile o n m = (STATUS_FAIL, m)) := by
  have hfail : ∀ (m : HashInfoMap) (o n : String), hashFind m o = none →
      UpdateHashInfoOfNondirFile o n m = (STATUS_FAIL, m) := by
    intro m o n hm
    unfold UpdateHashInfoOfNondirFile
    rw [hm]
    split_ifs <;> rfl
  have hins : ∀ k, hashFind (InsertHashInfoOfFile new h s HashInfoHMap).2 k
      = if k = h ∨ k = new then some { HashCode := h, FileRelativePath := new, FileSize := s }
        else hashFind HashInfoHMap k := fun k => hashFind_insert new h s HashInfoHMap k hnew
  have hold2 : hashFind (InsertHashInfoOfFile new h s HashInfoHMap).2 old
      = some { HashCode := h, FileRelativePath := old, FileSize := s } := by
    rw [hins, if_neg (by
      rintro (hc | hc)
      · exact hoh hc
      · exact hne hc.symm), hrec]
  have hath : hashFind (InsertHashInfoOfFile new h s HashInfoHMap).2 h
      = some { HashCode := h, FileRelativePath := new, FileSize := s } := by
    rw [hins]
    simp
  have hdel := delete_found (InsertHashInfoOfFile new h s HashInfoHMap).2 old h s hold hoh hold2
  have hcond : ¬ ((hashFind (InsertHashInfoOfFile new h s HashInfoHMap).2 h).map
      (fun x => x.FileRelativePath) = some old) := by
    rw [hath]
    simpa using hne
  rw [if_neg hcond] at hdel
  have hupd : UpdateHashInfoOfNondirFile old new HashInfoHMap
      = (STATUS_SUCCESS, hashErase (InsertHashInfoOfFile new h s HashInfoHMap).2 old) := by
    unfold UpdateHashInfoOfNondirFile
    rw [if_neg hold, if_neg hnew, if_neg (hashFind_length _ _ _ hrec), hrec]
    simp only [ne_eq, not_true_eq_false, if_false, insert_status new h s HashInfoHMap hnew,
      hold2, hdel]
    rfl
  rw [hupd]
  refine ⟨rfl, ?_, ?_, ?_, ?_, hfail⟩
  · simp only [hashFind_erase, if_neg hne, hins]
    simp
  · simp only [hashFind_erase, if_true]
  · have hho : ¬ h = old := fun hc => hoh hc.symm
    simp only [hashFind_erase, if_neg hho, hath]
  · intro k h1 h2 h3
    simp only [hashFind_erase, if_neg h1, hins]
    simp [h2, h3]

theorem C20_update_moves_the_record_to_the_new_path_witness :
    (UpdateHashInfoOfNondirFile "./a" "./b"
        (InsertHashInfoOfFile "./a" "0cc175b9c0f1b6a831c399e269772661" 1 []).2).1
      = STATUS_SUCCESS ∧
    hashFind (UpdateHashInfoOfNondirFile "./a" "./b"
        (InsertHashInfoOfFile "./a" "0cc175b9c0f1b6a831c399e269772661" 1 []).2).2 "./b"
      = some { HashCode := "0cc175b9c0f1b6a831c399e269772661", FileRelativePath := "./b",
               FileSize := 1 } :=
  have h := C20_update_moves_the_record_to_the_new_path
    (InsertHashInfoOfFile "./a" "0cc175b9c0f1b6a831c399e269772661" 1 []).2 "./a" "./b"
    "0cc175b9c0f1b6a831c399e269772661" 1 (by decide) (by decide) (by decide) (by decide)
    (by decide)
  ⟨h.1, h.2.1⟩

/-! ### The drain of a whole map -/

theorem drainLoop_success (sock : SendCall → SDSTATUS) (lstatSize : String → Option Nat)
    (M : String) (heap : NodeHeap) :
    ∀ (fuel : Nat) (passed rest : FileInfoMap) (ds : List Nat) (out : DrainOut),
      (∀ kv ∈ passed ++ rest, SUCCESS (drainCalls sock lstatSize M kv.2).1 = true) →
      drainLoop sock lstatSize M heap fuel passed rest ds = some out →
      out.status = STATUS_SUCCESS := by
  intro fuel
  induction fuel with
  | zero => intro passed rest ds out _ h; simp [drainLoop] at h
  | succ n ih =>
    intro passed rest ds out hall h
    rw [drainLoop] at h
    cases hc : drainCursor passed rest ds with
    | none =>
      rw [hc] at h
      simp only [Option.some.injEq] at h
      subst h
      rfl
    | some q =>
      obtain ⟨passed1, kv, more, ds1⟩ := q
      rw [hc] at h
      simp only at h
      have hperm := drainCursor_perm passed rest passed1 more kv ds ds1 hc
      have hall1 : ∀ x ∈ passed1 ++ kv :: more,
          SUCCESS (drainCalls sock lstatSize M x.2).1 = true :=
        fun x hx => hall x (hperm.mem_iff.1 hx)
      cases hsk : drainSkips heap ds1 kv.2 with
      | true =>
        rw [hsk] at h
        simp only [if_true] at h
        exact ih _ _ _ _ (fun x hx => hall1 x (by simpa using hx)) h
      | false =>
        rw [hsk] at h
        simp only [Bool.false_eq_true, if_false] at h
        rw [if_pos (hall1 kv (by simp))] at h
        rw [Option.map_eq_some'] at h
        obtain ⟨o, ho, rfl⟩ := h
        exact ih _ _ _ o (fun x hx => hall1 x (by
          rcases List.mem_append.1 hx with hx | hx
          · exact List.mem_append.2 (Or.inl hx)
          · exact List.mem_append.2 (Or.inr (List.mem_cons_of_mem _ hx)))) ho

/-- C28: for every File-Info map (in every iteration order) and every heap of watch nodes,
when the main directory path is not empty and every send of the drain succeeds,
`SendAllFileInfoEventsToServer` returns (with the fuel `drainFuel`) with the status
`STATUS_SUCCESS` and the map empty, and the records it took out for emission are the
records of the map, each exactly once. -/
theorem C28_successful_drain_empties_the_map (sock : SendCall → SDSTATUS)
    (lstatSize : String → Option Nat) (MainDirFullPath : String) (heap : NodeHeap)
    (FileInfoHMap : FileInfoMap)
    (hM : MainDirFullPath ≠ "")
    (hsend : ∀ kv ∈ FileInfoHMap,
      SUCCESS (drainCalls sock lstatSize MainDirFullPath kv.2).1 = true) :
    ∃ out, SendAllFileInfoEventsToServer sock lstatSize MainDirFullPath heap
        (drainFuel FileInfoHMap) FileInfoHMap = some out ∧
      out.status = STATUS_SUCCESS ∧
      out.map = [] ∧
      out.taken.Perm (FileInfoHMap.map Prod.snd) := by
  unfold SendAllFileInfoEventsToServer
  by_cases hlen : FileInfoHMap.length ≤ 0
  · have hnil : FileInfoHMap = [] := by
      cases FileInfoHMap with
      | nil => rfl
      | cons a b => simp at hlen
    subst hnil
    simp [hM]
  · simp only [hM, hlen, if_false, PreprocessEventFileInfosBeforeSending, List.length_nil,
      ne_eq, not_true_eq_false, SUCCESS, if_true]
    obtain ⟨out, hout⟩ := drainLoop_terminates sock lstatSize MainDirFullPath heap
      (drainFuel FileInfoHMap) [] FileInfoHMap (collectDepths heap FileInfoHMap [])
      (drainFuel_enough heap FileInfoHMap)
    have hst := drainLoop_success sock lstatSize MainDirFullPath heap _ _ _ _ out
      (by simpa using hsend) hout
    have hperm := drainLoop_perm sock lstatSize MainDirFullPath heap _ _ _ _ out hout
    have hmap : out.map = [] := hperm.2 (by rw [hst]; rfl)
    refine ⟨out, hout, hst, hmap, ?_⟩
    have := hperm.1
    rw [hmap] at this
    simpa using this

theorem C28_successful_drain_empties_the_map_witness :
    ∃ out, SendAllFileInfoEventsToServer (fun _ => STATUS_SUCCESS) (fun _ => some 3) "/m"
        exampleTreeState.heap (drainFuel exampleTreeState.FileInfoHMap)
        exampleTreeState.FileInfoHMap = some out ∧
      out.status = STATUS_SUCCESS ∧
      out.map = [] ∧
      out.taken.Perm (exampleTreeState.FileInfoHMap.map Prod.snd) :=
  C28_successful_drain_empties_the_map (fun _ => STATUS_SUCCESS) (fun _ => some 3) "/m"
    exampleTreeState.heap exampleTreeState.FileInfoHMap (by decide) (by decide)

/-! ### The search of the registry by descriptor -/

theorem find_range_none (p : Nat → Bool) (n : Nat) (h : ∀ j, j < n → p j = false) :
    (List.range n).find? p = none := by
  rw [List.find?_eq_none]
  intro x hx
  rw [List.mem_range] at hx
  simp [h x hx]

theorem find_range_first (p : Nat → Bool) (n i : Nat) (hi : i < n) (hp : p i = true)
    (hmin : ∀ j, j < i → p j = false) : (List.range n).find? p = some i := by
  induction n with
  | zero => omega
  | succ m ih =>
    rw [List.range_succ, List.find?_append]
    by_cases him : i < m
    · rw [ih him]; rfl
    · have : i = m := by omega
      subst this
      rw [find_range_none p i hmin]
      simp [hp]

/-- C26 (the part that holds, and the divergence): `GetDirWatchIndexByHandle` gives the
smallest index of a live entry with the descriptor when there is one; when no live entry
has the descriptor it returns `STATUS_SUCCESS` all the same and leaves the caller's index
as it was, so that `ProcessOperationAndAggregate`, whose index starts at 0, forms the paths
of the event from the entry 0, the main directory. The last part is the failing input: the
kernel event `IN_CREATE` for the name `x` with the descriptor 9, which no entry of the
registry has, is processed with success and leaves a record for `./x`, a path in the main
directory. -/
theorem C26_unknown_descriptor_is_reported_as_found (HWatchToFind : Int) (s : ClientState)
    (out : Nat) (hcap : ¬ s.gWatchesArrayCapacity < s.NumberOfWatches) :
    (∀ i, i < s.NumberOfWatches →
      (watchAt s.Watches i).HWatch % 2 ^ 32 = HWatchToFind % 2 ^ 32 →
      (∀ j, j < i → (watchAt s.Watches j).HWatch % 2 ^ 32 ≠ HWatchToFind % 2 ^ 32) →
      GetDirWatchIndexByHandle HWatchToFind s out = (STATUS_SUCCESS, i)) ∧
    ((∀ i, i < s.NumberOfWatches →
        (watchAt s.Watches i).HWatch % 2 ^ 32 ≠ HWatchToFind % 2 ^ 32) →
      GetDirWatchIndexByHandle HWatchToFind s out = (STATUS_SUCCESS, out) ∧
      ∀ e : InotifyEvent, e.wd = HWatchToFind →
        eventWatchIndexOf s e = 0 ∧
        eventRelativePathOf s e = (watchAt s.Watches 0).DirRelativePath ++ "/" ++ e.name ∧
        eventFields (some e) none s
          = some (0, decide (IN_ISDIR &&& e.mask ≠ 0), e.cookie,
              (watchAt s.Watches 0).DirRelativePath ++ "/" ++ e.name,
              (watchAt s.Watches 0).DirFullPath ++ "/" ++ e.name, e.name)) ∧
    (ReadEventsAndIdentifyOperations 10
        [(exampleEnv, { wd := 9, mask := IN_CREATE, cookie := 0, len := 16, name := "x" })]
        exampleState).map (fun r => (r.1, r.2.FileInfoHMap.map (fun kv => kv.1)))
      = some (STATUS_SUCCESS, ["./x"]) := by
  refine ⟨?_, ?_, by decide!⟩
  · intro i hi hp hmin
    unfold GetDirWatchIndexByHandle
    rw [if_neg hcap, find_range_first _ _ i hi (by simpa using hp)
      (fun j hj => by simpa using hmin j hj)]
  · intro hnone
    have hfind : (List.range s.NumberOfWatches).find?
        (fun i => (watchAt s.Watches i).HWatch % 2 ^ 32 == HWatchToFind % 2 ^ 32) = none :=
      find_range_none _ _ (fun j hj => by simpa using hnone j hj)
    have hg : ∀ o, GetDirWatchIndexByHandle HWatchToFind s o = (STATUS_SUCCESS, o) := by
      intro o
      unfold GetDirWatchIndexByHandle
      rw [if_neg hcap, hfind]
    refine ⟨hg out, ?_⟩
    intro e he
    subst he
    have h0 : eventWatchIndexOf s e = 0 := by
      unfold eventWatchIndexOf
      rw [hg 0]
    refine ⟨h0, ?_, ?_⟩
    · unfold eventRelativePathOf
      rw [h0]
    · rw [eventFields_kernel e s hcap]
      unfold eventRelativePathOf eventFullPathOf
      rw [h0]

theorem C26_unknown_descriptor_is_reported_as_found_witness :
    GetDirWatchIndexByHandle 9 exampleState 0 = (STATUS_SUCCESS, 0) ∧
    eventRelativePathOf exampleState
      { wd := 9, mask := IN_CREATE, cookie := 0, len := 16, name := "x" } = "./x" :=
  have h := (C26_unknown_descriptor_is_reported_as_found 9 exampleState 0 (by decide)).2.1
    (by decide)
  ⟨h.1, (h.2 { wd := 9, mask := IN_CREATE, cookie := 0, len := 16, name := "x" } rfl).2.1⟩

/-! ### The removal of a registry entry -/

theorem watchAt_setWatch (ws : List DIR_WATCH) (i j : Nat) (w : DIR_WATCH) :
    watchAt (setWatch ws i w) j = if j = i then w else watchAt ws j := by
  unfold watchAt setWatch
  by_cases hi : i < ws.length
  · rw [if_pos hi]
    by_cases hj : j = i
    · subst hj
      simp [List.getD_eq_getElem?_getD, hi]
    · rw [if_neg hj]
      simp [List.getD_eq_getElem?_getD, List.getElem?_set, Ne.symm hj]
  · rw [if_neg hi]
    have hle : ws.length ≤ i := Nat.le_of_not_lt hi
    by_cases hj : j = i
    · subst hj
      rw [if_pos rfl, List.getD_eq_getElem?_getD, List.getElem?_append_right (by simp; omega)]
      have h0 : j - (ws ++ List.replicate (j - ws.length) neutralDirWatch).length = 0 := by
        simp; omega
      rw [h0]
      rfl
    · rw [if_neg hj, List.getD_eq_getElem?_getD, List.getD_eq_getElem?_getD]
      by_cases hjl : j < ws.length
      · rw [List.append_assoc, List.getElem?_append_left hjl]
      · have hjl2 : ws.length ≤ j := Nat.le_of_not_lt hjl
        rw [List.getElem?_eq_none hjl2]
        by_cases hji : j < i
        · rw [List.getElem?_append_left (by simp; omega),
            List.getElem?_append_right hjl2]
          simp only [List.getElem?_replicate]
          split <;> rfl
        · rw [List.getElem?_eq_none (by simp; omega)]

/-- C25 (the part that holds, and the divergence): for a registry of `n` entries and an
index `i < n`, `DeleteDirWatchByIndex` succeeds, leaves `n - 1` entries and leaves every
entry below `n - 1` other than `i` as it was. When `i` is not the last index, the entry at
`i` takes the descriptor, the relative path and the absolute path of the last entry, but it
keeps the watch-node link of the entry that was deleted, and no watch node is changed: the
node of the entry that moved still names the index `n - 1`. -/
theorem C25_swap_remove_keeps_the_node_link_of_the_deleted_entry (env : SysEnv)
    (DelIndex : Nat) (s : ClientState)
    (hcap : ¬ s.gWatchesArrayCapacity < s.NumberOfWatches)
    (hi : DelIndex < s.NumberOfWatches) :
    SUCCESS (DeleteDirWatchByIndex env DelIndex s).1 = true ∧
    (DeleteDirWatchByIndex env DelIndex s).2.NumberOfWatches + 1 = s.NumberOfWatches ∧
    (∀ j, j ≠ DelIndex → j + 1 < s.NumberOfWatches →
      watchAt (DeleteDirWatchByIndex env DelIndex s).2.Watches j = watchAt s.Watches j) ∧
    (DeleteDirWatchByIndex env DelIndex s).2.heap = s.heap ∧
    (DelIndex + 1 < s.NumberOfWatches →
      watchAt (DeleteDirWatchByIndex env DelIndex s).2.Watches DelIndex
        = { HWatch := (watchAt s.Watches (s.NumberOfWatches - 1)).HWatch
            DirRelativePath := (watchAt s.Watches (s.NumberOfWatches - 1)).DirRelativePath
            DirFullPath := (watchAt s.Watches (s.NumberOfWatches - 1)).DirFullPath
            TreeNode := (watchAt s.Watches DelIndex).TreeNode }) := by
  unfold DeleteDirWatchByIndex
  rw [if_neg hcap, if_neg (by omega)]
  refine ⟨?_, ?_, ?_, ?_, ?_⟩
  · simp only
    split <;> rfl
  · simp only
    split <;> simp only <;> omega
  · intro j hj hjn
    simp only
    split <;>
    · simp only [watchAt_setWatch]
      rw [if_neg (by omega), if_neg hj]
  · simp only
    split <;> rfl
  · intro hlast
    simp only
    split <;>
    · simp only [watchAt_setWatch]
      rw [if_neg (by omega), if_pos trivial]

theorem C25_swap_remove_keeps_the_node_link_of_the_deleted_entry_witness :
    watchAt (DeleteDirWatchByIndex exampleEnv 1 exampleTreeState).2.Watches 1
      = { HWatch := 3, DirRelativePath := "./a/c", DirFullPath := "/m/a/c",
          TreeNode := some 1 } ∧
    (DeleteDirWatchByIndex exampleEnv 1 exampleTreeState).2.heap = exampleTreeState.heap :=
  have h := C25_swap_remove_keeps_the_node_link_of_the_deleted_entry exampleEnv 1
    exampleTreeState (by decide) (by decide)
  ⟨h.2.2.2.2 (by decide), h.2.2.2.1⟩

/-- The failing input of C25 evaluated: in the registry of `exampleTreeState` (entries `.`,
`./a`, `./a/c`, linked to the nodes at the addresses 0, 1, 3) the removal of the entry 1
leaves at the index 1 the descriptor and the paths of `./a/c` with the link to the node at
address 1, the node of `./a`, and the node of `./a/c` (address 3) still names the index 2. -/
theorem swap_remove_example :
    ((DeleteDirWatchByIndex exampleEnv 1 exampleTreeState).1,
      (DeleteDirWatchByIndex exampleEnv 1 exampleTreeState).2.NumberOfWatches,
      (watchAt (DeleteDirWatchByIndex exampleEnv 1 exampleTreeState).2.Watches 1).DirRelativePath,
      (watchAt (DeleteDirWatchByIndex exampleEnv 1 exampleTreeState).2.Watches 1).TreeNode)
      = (STATUS_SUCCESS, 2, "./a/c", some 1) ∧
    (watchAt exampleTreeState.Watches 2).TreeNode = some 3 ∧
    (nodeAt (DeleteDirWatchByIndex exampleEnv 1 exampleTreeState).2.heap (some 3)).map
      (fun n => n.DirWatchIndex) = some 2 ∧
    (nodeAt (DeleteDirWatchByIndex exampleEnv 1 exampleTreeState).2.heap (some 1)).map
      (fun n => n.DirName) = some "a" := by
  decide

/-! ### A file body that does not arrive whole -/

/-- C30 (the divergence): when the server handles a `MODIFY` or `FIL_MOVED_TO` whose hash
code is not in the map and `RecvFileFromClient` fails (whatever it stored as the size), the
routine still inserts the Hash Info under the path and under the hash code and returns
`STATUS_SUCCESS`; a following `MODIFY` or `FIL_MOVED_TO` with the same hash code is answered
`File On Server`, no body is received for it, and the copy command takes the file of the
first path as its source. -/
theorem C30_failed_reception_is_indexed_all_the_same (M : String) (sys : ServerSys)
    (size : Option Nat) (r1 r2 : ReceivedOperation) (m : HashInfoMap)
    (hM : M ≠ "")
    (hop1 : r1.opReceived.OperationType = opMODIFY ∨
      r1.opReceived.OperationType = opFILMOVEDTO)
    (hop2 : r2.opReceived.OperationType = opMODIFY ∨
      r2.opReceived.OperationType = opFILMOVEDTO)
    (hp1 : r1.fileRelativePath ≠ "") (hp2 : r2.fileRelativePath ≠ "")
    (hh : r2.fileHashCode = r1.fileHashCode)
    (hmiss : hashFind m r1.fileHashCode = none) :
    (RecvAndExecuteOperationFromClient M
      { sys with RecvFileFromClient := fun _ => (STATUS_FAIL, size) } r1 m).status
      = STATUS_SUCCESS ∧
    (RecvAndExecuteOperationFromClient M
      { sys with RecvFileFromClient := fun _ => (STATUS_FAIL, size) } r1 m).answer
      = some "File Not On Server" ∧
    hashFind (RecvAndExecuteOperationFromClient M
      { sys with RecvFileFromClient := fun _ => (STATUS_FAIL, size) } r1 m).map
        r1.fileHashCode
      = some { HashCode := r1.fileHashCode, FileRelativePath := r1.fileRelativePath,
               FileSize := size.getD 0 } ∧
    hashFind (RecvAndExecuteOperationFromClient M
      { sys with RecvFileFromClient := fun _ => (STATUS_FAIL, size) } r1 m).map
        r1.fileRelativePath
      = some { HashCode := r1.fileHashCode, FileRelativePath := r1.fileRelativePath,
               FileSize := size.getD 0 } ∧
    (RecvAndExecuteOperationFromClient M sys r2
      (RecvAndExecuteOperationFromClient M
        { sys with RecvFileFromClient := fun _ => (STATUS_FAIL, size) } r1 m).map).answer
      = some "File On Server" ∧
    (RecvAndExecuteOperationFromClient M sys r2
      (RecvAndExecuteOperationFromClient M
        { sys with RecvFileFromClient := fun _ => (STATUS_FAIL, size) } r1 m).map).received
      = none ∧
    (RecvAndExecuteOperationFromClient M sys r2
      (RecvAndExecuteOperationFromClient M
        { sys with RecvFileFromClient := fun _ => (STATUS_FAIL, size) } r1 m).map).shellCommand
      = "yes | /bin/cp " ++ quoted (M ++ "/" ++ r1.fileRelativePath.drop 2) ++ " "
          ++ quoted (M ++ "/" ++ r2.fileRelativePath.drop 2) ++ " " := by
  rw [serverModify_miss M _ r1 m hM hop1 hp1 hmiss]
  simp only []
  have hhit : hashFind (InsertHashInfoOfFile r1.fileRelativePath r1.fileHashCode
      (size.getD 0) m).2 r2.fileHashCode
      = some { HashCode := r1.fileHashCode, FileRelativePath := r1.fileRelativePath,
               FileSize := size.getD 0 } := by
    rw [hashFind_insert _ _ _ _ _ hp1, hh]
    simp
  rw [serverModify_hit M sys r2 _ _ hM hop2 hp2 hhit]
  obtain ⟨e1, e2, e3, e4⟩ := executeOperation_keeps sys ⟨STATUS_SUCCESS,
    (InsertHashInfoOfFile r2.fileRelativePath r2.fileHashCode 0
      (InsertHashInfoOfFile r1.fileRelativePath r1.fileHashCode (size.getD 0) m).2).2,
    some "File On Server", none,
    "yes | /bin/cp " ++ quoted (M ++ "/" ++ r1.fileRelativePath.drop 2) ++ " "
      ++ quoted (M ++ "/" ++ r2.fileRelativePath.drop 2) ++ " "⟩
  rw [e2, e3, e4]
  simp [hashFind_insert _ _ _ _ _ hp1]

theorem C30_failed_reception_is_indexed_all_the_same_witness :
    hashFind (RecvAndExecuteOperationFromClient "/srv"
      { exampleServerSys with RecvFileFromClient := fun _ => (STATUS_FAIL, some 0) }
      (exampleModify "./a" "d41d8cd98f00b204e9800998ecf8427e") []).map
        "d41d8cd98f00b204e9800998ecf8427e"
      = some { HashCode := "d41d8cd98f00b204e9800998ecf8427e", FileRelativePath := "./a",
               FileSize := 0 } ∧
    (RecvAndExecuteOperationFromClient "/srv" exampleServerSys
      (exampleModify "./b" "d41d8cd98f00b204e9800998ecf8427e")
      (RecvAndExecuteOperationFromClient "/srv"
        { exampleServerSys with RecvFileFromClient := fun _ => (STATUS_FAIL, some 0) }
        (exampleModify "./a" "d41d8cd98f00b204e9800998ecf8427e") []).map).answer
      = some "File On Server" :=
  have h := C30_failed_reception_is_indexed_all_the_same "/srv" exampleServerSys (some 0)
    (exampleModify "./a" "d41d8cd98f00b204e9800998ecf8427e")
    (exampleModify "./b" "d41d8cd98f00b204e9800998ecf8427e") []
    (by decide) (Or.inl rfl) (Or.inl rfl) (by decide) (by decide) rfl rfl
  ⟨h.2.2.1, h.2.2.2.2.1⟩

/-- A transfer that breaks off: of a file body announced with 8 bytes only a first packet of
4 bytes arrives, not marked as the last; `RecvFileFromClient` fails, and the file it created
holds the 4 bytes. -/
theorem interrupted_transfer_fails :
    RecvFileFromClient false "/srv/a" true [0, 0, 0, 8]
        [{ IsEOF := false, ChunkSize := 4, FileChunk := [1, 2, 3, 4] }]
      = (STATUS_FAIL, some [1, 2, 3, 4], some 8) := by
  decide

/-! ### A `MODIFY` for a path without a record -/

theorem processInit_built (env : SysEnv) (Event : Option InotifyEvent) (d : EVENT_DATA)
    (s : ClientState)
    (hesc : symLinkEscapes env (mainDirOf s) d.FullPath = false)
    (hfree : mapFind s.FileInfoHMap d.RelativePath = none) :
    ∃ (st : SDSTATUS) (ft : FILE_TYPE) (rr : String), SUCCESS st = true ∧
      processInit env Event (some d) s
        = .go
            { status := st, eventWatchIndex := d.WatchIndex, eventCookie := d.Cookie,
              eventIsForDirectory := d.IsDirectory, eventRelativePath := d.RelativePath,
              eventFullPath := d.FullPath, eventFileName := d.FileName,
              eventWatchNode := (watchAt s.Watches d.WatchIndex).TreeNode,
              fileInfoToAggregate := none,
              newFileInfo :=
                { InitFileInfo with
                  RelativePath := d.RelativePath
                  FileName := d.FileName
                  WatchNodeOfParent := (watchAt s.Watches d.WatchIndex).TreeNode
                  FileType := ft
                  RealRelativePath := rr } } s := by
  unfold symLinkEscapes mainDirOf at hesc
  unfold processInit
  have hf : eventFields Event (some d) s
      = some (d.WatchIndex, d.IsDirectory, d.Cookie, d.RelativePath, d.FullPath,
          d.FileName) := by
    cases Event <;> rfl
  rw [hf]
  simp only [hfree, Option.isSome_none, Bool.false_eq_true, if_false]
  by_cases hl : env.lstat d.FullPath = some StatKind.link
  · rw [if_pos hl]
    simp only [hl, beq_self_eq_true, Bool.true_and, Bool.and_eq_false_imp, beq_iff_eq] at hesc
    rcases IsSymbolicLinkValid_cases env d.FullPath (watchAt s.Watches 0).DirFullPath
      with ⟨h1, h2⟩ | ⟨h1, h2⟩ | ⟨h1, h2⟩
    · simp only [h1, h2, SUCCESS, Bool.not_false, if_true, Option.getD_none,
        Bool.false_eq_true, false_and, if_false, reduceCtorEq]
      exact ⟨STATUS_WARNING, _, _, rfl, rfl⟩
    · simp only [h1, h2, SUCCESS, Bool.not_true, Bool.false_eq_true, if_false,
        Option.getD_some, and_self, if_true]
      exact ⟨STATUS_SUCCESS, _, _, rfl, rfl⟩
    · exact absurd h2 (by simpa using hesc h1)
  · rw [if_neg hl]
    exact ⟨STATUS_SUCCESS, _, _, rfl, rfl⟩

theorem modify_built_fresh (env : SysEnv) (fuel : Nat) (Event : Option InotifyEvent)
    (d : EVENT_DATA) (s : ClientState)
    (hcap : ¬ s.gWatchesArrayCapacity < s.NumberOfWatches)
    (hesc : symLinkEscapes env (mainDirOf s) d.FullPath = false)
    (hfree : mapFind s.FileInfoHMap d.RelativePath = none) :
    ∃ (st : SDSTATUS) (r : FILE_INFO), SUCCESS st = true ∧
      ProcessOperationAndAggregate env (fuel + 1) opMODIFY Event (some d) s
        = some (st, { s with FileInfoHMap := s.FileInfoHMap ++ [(d.RelativePath, r)] }) ∧
      r.FileExistedBeforeEvents = d.FileExistedBeforeEvents ∧ r.WasModified = true ∧
      r.WasDeleted = false ∧ r.WasMovedFromOnly = false ∧ r.WasMovedFromAndTo = false ∧
      r.RelativePath = d.RelativePath := by
  obtain ⟨st, ft, rr, hst, hinit⟩ := processInit_built env Event d s hesc hfree
  rw [ProcessOperationAndAggregate]
  simp only [reduceCtorEq, if_false, hcap, hinit, and_false]
  refine ⟨STATUS_SUCCESS,
    { InitFileInfo with
      RelativePath := d.RelativePath, FileName := d.FileName,
      WatchNodeOfParent := (watchAt s.Watches d.WatchIndex).TreeNode, FileType := ft,
      RealRelativePath := rr, FileExistedBeforeEvents := d.FileExistedBeforeEvents,
      WasModified := true }, rfl, ?_, rfl, rfl, rfl, rfl, rfl, rfl⟩
  simp [aggregateModify, InsertNewFileInfo, hfree, SUCCESS, SUCCESS_KEEP_WARNING, InitFileInfo]

/-- The record that the scan of the main directory `/m` leaves for a file `name` that is
neither a directory nor a symbolic link. -/
theorem scan_of_file (env : SysEnv) (name : String)
    (hread : env.readdir "/m" = some [name])
    (hdot : name ≠ "." ∧ name ≠ "..")
    (hkind : env.lstat ("/m/" ++ name) = some StatKind.other) :
    BuildEventsForAllSubdirFiles env 3 0 exampleState
      = some (STATUS_SUCCESS,
          { exampleState with
            FileInfoHMap := [("./" ++ name,
              { InitFileInfo with
                RelativePath := "./" ++ name, FileName := name,
                WatchNodeOfParent := some 0, FileType := ftNONDIR,
                FileExistedBeforeEvents := false, WasModified := true })] }) := by
  have e1 : "/m" ++ "/" ++ name = "/m/" ++ name := rfl
  rw [exampleState_eq]
  rw [BuildEventsForAllSubdirFiles]
  simp only [watchAt, List.getD_cons_zero, hread]
  rw [buildEventsLoop]
  simp only [watchAt, List.getD_cons_zero, e1, hkind, hdot.1, hdot.2, or_self, if_false,
    InitEventData, reduceCtorEq]
  rw [ProcessOperationAndAggregate]
  simp [processInit, eventFields, watchAt, mapFind, hkind, SUCCESS, aggregateModify,
    InsertNewFileInfo, InitFileInfo, SUCCESS_KEEP_WARNING, buildEventsLoop]

/-- C23 (amended): a `MODIFY` event for a path without a record (and not dropped by the
symbolic link check) makes `ProcessOperationAndAggregate` insert a record with `WasModified`
set and `WasDeleted`, `WasMovedFromOnly`, `WasMovedFromAndTo` clear. `FileExistedBeforeEvents`
is true when the event comes from the kernel; for an event built by a caller it is the value
that the event data carries, and the scan `BuildEventsForAllSubdirFiles` builds its events
with the value false, so the record of a file found by the scan has it false. -/
theorem C23_modify_inserts_preExisted_as_the_event_data_says (env : SysEnv) (fuel : Nat)
    (s : ClientState) (hcap : ¬ s.gWatchesArrayCapacity < s.NumberOfWatches) :
    (∀ e : InotifyEvent, passesLinkCheck env s e → identifyOperation e.mask = opMODIFY →
      mapFind s.FileInfoHMap (eventRelativePathOf s e) = none →
      ∃ (st : SDSTATUS) (r : FILE_INFO), SUCCESS st = true ∧
        ProcessOperationAndAggregate env (fuel + 1) (identifyOperation e.mask) (some e) none s
          = some (st, { s with
              FileInfoHMap := s.FileInfoHMap ++ [(eventRelativePathOf s e, r)] }) ∧
        r.FileExistedBeforeEvents = true ∧ r.WasModified = true ∧
        r.WasDeleted = false ∧ r.WasMovedFromOnly = false ∧ r.WasMovedFromAndTo = false) ∧
    (∀ (Event : Option InotifyEvent) (d : EVENT_DATA),
      symLinkEscapes env (mainDirOf s) d.FullPath = false →
      mapFind s.FileInfoHMap d.RelativePath = none →
      ∃ (st : SDSTATUS) (r : FILE_INFO), SUCCESS st = true ∧
        ProcessOperationAndAggregate env (fuel + 1) opMODIFY Event (some d) s
          = some (st, { s with FileInfoHMap := s.FileInfoHMap ++ [(d.RelativePath, r)] }) ∧
        r.FileExistedBeforeEvents = d.FileExistedBeforeEvents ∧ r.WasModified = true ∧
        r.WasDeleted = false ∧ r.WasMovedFromOnly = false ∧ r.WasMovedFromAndTo = false) ∧
    (∀ name : String, env.readdir "/m" = some [name] → name ≠ "." ∧ name ≠ ".." →
      env.lstat ("/m/" ++ name) = some StatKind.other →
      ∃ r : FILE_INFO,
        BuildEventsForAllSubdirFiles env 3 0 exampleState
          = some (STATUS_SUCCESS,
              { exampleState with FileInfoHMap := [("./" ++ name, r)] }) ∧
        r.FileExistedBeforeEvents = false ∧ r.WasModified = true ∧
        r.WasDeleted = false ∧ r.WasMovedFromOnly = false ∧ r.WasMovedFromAndTo = false) := by
  refine ⟨?_, ?_, ?_⟩
  · intro e hl hop ha
    obtain ⟨st, ft, rr, hs, hp⟩ := modify_fresh env fuel e s hcap hl hop ha
    exact ⟨st, _, hs, hp, rfl, rfl, rfl, rfl, rfl⟩
  · intro Event d hesc hfree
    obtain ⟨st, r, hs, hp, h1, h2, h3, h4, h5, -⟩ :=
      modify_built_fresh env fuel Event d s hcap hesc hfree
    exact ⟨st, r, hs, hp, h1, h2, h3, h4, h5⟩
  · intro name hread hdot hkind
    exact ⟨_, scan_of_file env name hread hdot hkind, rfl, rfl, rfl, rfl, rfl⟩

theorem C23_modify_inserts_preExisted_as_the_event_data_says_witness :
    (∃ (st : SDSTATUS) (r : FILE_INFO), SUCCESS st = true ∧
      ProcessOperationAndAggregate exampleFileEnv 1 opMODIFY
          (some (exampleEvent IN_MODIFY 0 "f")) none exampleState
        = some (st, { exampleState with FileInfoHMap := [("./f", r)] }) ∧
      r.FileExistedBeforeEvents = true ∧ r.WasModified = true) ∧
    (∃ r : FILE_INFO,
      BuildEventsForAllSubdirFiles exampleFileEnv 3 0 exampleState
        = some (STATUS_SUCCESS, { exampleState with FileInfoHMap := [("./f", r)] }) ∧
      r.FileExistedBeforeEvents = false ∧ r.WasModified = true) :=
  have h := C23_modify_inserts_preExisted_as_the_event_data_says exampleFileEnv 0
    exampleState (by decide)
  ⟨(h.1 (exampleEvent IN_MODIFY 0 "f") (by unfold passesLinkCheck; decide) (by decide)
      (by decide)).elim
      (fun st hst => hst.elim (fun r hr => ⟨st, r, hr.1, hr.2.1, hr.2.2.1, hr.2.2.2.1⟩)),
   (h.2.2 "f" (by decide) (by decide) (by decide)).elim
      (fun r hr => ⟨r, hr.1, hr.2.1, hr.2.2.1⟩)⟩

/-- C23 (as stated) fails: the scan of the main directory `/m` that holds the regular file
`f` makes a `MODIFY` event for `./f`, a path without a record, and the record inserted has
`FileExistedBeforeEvents` false (with `WasModified` set). -/
theorem C23_scanned_file_is_recorded_as_not_preExisted :
    (BuildEventsForAllSubdirFiles exampleFileEnv 3 0 exampleState).map
        (fun r => (r.1, r.2.FileInfoHMap.map (fun kv =>
          (kv.1, kv.2.FileExistedBeforeEvents, kv.2.WasModified))))
      = some (STATUS_SUCCESS, [("./f", false, true)]) ∧
    (WaitForEventsAndProcessChanges (fun _ => STATUS_SUCCESS) (fun _ => some 3) "/m"
        exampleFileEnv 3 [] exampleState).map (fun r => (r.1, r.2.2.map SendCall.opType))
      = some (STATUS_SUCCESS, [opMODIFY]) := by
  constructor <;> decide!

/-! ### A `CREATE` for a path with a record -/

/-- C21 (amended): a `FIL_MOVED_TO` that closes a pair leaves the record with
`WasMovedFromAndTo` set and `WasDeleted` clear; a `DELETE` event for a path that has a
record sets `WasDeleted` and leaves `WasMovedFromAndTo` as it was, so the record of a file
that was moved and then deleted has both flags set. The second part is the whole of
`ProcessOperationAndAggregate` for the kernel event of a non-directory file; the third part
is the update of the `DELETE` case itself, for a file of any kind. -/
theorem C21_delete_leaves_the_move_flag (env : SysEnv) (fuel : Nat) (s : ClientState)
    (hcap : ¬ s.gWatchesArrayCapacity < s.NumberOfWatches) :
    (∀ (e : InotifyEvent) (m0 : FileInfoMap) (a : String) (x : FILE_INFO),
      passesLinkCheck env s e → identifyOperation e.mask = opFILMOVEDTO →
      e.cookie ≠ 0 → x.MovementCookie = e.cookie →
      (∀ kv ∈ m0, kv.2.MovementCookie ≠ e.cookie) →
      mapFind m0 a = none → mapFind m0 (eventRelativePathOf s e) = none →
      a ≠ eventRelativePathOf s e →
      ∃ (st : SDSTATUS) (r : FILE_INFO), SUCCESS st = true ∧
        ProcessOperationAndAggregate env (fuel + 1) (identifyOperation e.mask) (some e) none
            { s with FileInfoHMap := m0 ++ [(a, x)] }
          = some (st, { s with FileInfoHMap := m0 ++ [(eventRelativePathOf s e, r)] }) ∧
        r.WasMovedFromAndTo = true ∧ r.WasDeleted = false) ∧
    (∀ (e : InotifyEvent) (x : FILE_INFO), passesLinkCheck env s e →
      identifyOperation e.mask = opFILDELETE →
      mapFind s.FileInfoHMap (eventRelativePathOf s e) = some x →
      ∃ (st : SDSTATUS) (m1 : FileInfoMap) (r : FILE_INFO), SUCCESS st = true ∧
        ProcessOperationAndAggregate env (fuel + 1) (identifyOperation e.mask) (some e) none s
          = some (st, { s with FileInfoHMap := m1 }) ∧
        mapFind m1 (eventRelativePathOf s e) = some r ∧
        r.WasDeleted = true ∧ r.WasMovedFromAndTo = x.WasMovedFromAndTo) ∧
    (∀ (ctx : EventContext) (t : ClientState) (key : String) (x : FILE_INFO),
      ctx.fileInfoToAggregate = some key → mapFind t.FileInfoHMap key = some x →
      mapFind (aggregateDelete ctx t).2.FileInfoHMap key
        = some { x with WasDeleted := true }) := by
  refine ⟨?_, ?_, ?_⟩
  · intro e m0 a x hl hop hc hx hfree ha hb hab
    obtain ⟨st, r, hs, hp, h1, -, h3, -⟩ :=
      filMovedTo_closes env fuel e s m0 a x hcap hl hop hc hx hfree ha hb hab
    exact ⟨st, r, hs, hp, h3, h1⟩
  · intro e x hl hop hf
    obtain ⟨st, g, hs, hg, hp⟩ := filDelete_existing env fuel e s hcap hl hop
      (by rw [hf]; rfl)
    have hk := keeps_fields g hg x
    refine ⟨st, _, { g x with WasDeleted := true }, hs, hp, ?_, rfl, hk.2.2.2.2.2.2.2.2.1⟩
    rw [mapFind_mapModify_same, hf]; rfl
  · intro ctx t key x hc hx
    simp only [aggregateDelete, hc]
    rw [mapFind_mapModify_same, hx]; rfl

theorem C21_delete_leaves_the_move_flag_witness :
    ∃ (st : SDSTATUS) (m1 : FileInfoMap) (r : FILE_INFO), SUCCESS st = true ∧
      ProcessOperationAndAggregate exampleEnv 1 opFILDELETE
          (some (exampleEvent IN_DELETE 0 "b")) none
          { exampleState with FileInfoHMap := [("./b", exampleMovedDir)] }
        = some (st, { exampleState with FileInfoHMap := m1 }) ∧
      mapFind m1 "./b" = some r ∧ r.WasDeleted = true ∧ r.WasMovedFromAndTo = true := by
  obtain ⟨st, m1, r, h1, h2, h3, h4, h5⟩ :=
    (C21_delete_leaves_the_move_flag exampleEnv 0
      { exampleState with FileInfoHMap := [("./b", exampleMovedDir)] } (by decide)).2.1
      (exampleEvent IN_DELETE 0 "b") exampleMovedDir
      (by unfold passesLinkCheck; decide) (by decide) (by decide)
  exact ⟨st, m1, r, h1, h2, h3, h4, h5⟩

/-- C21 (as stated) fails: after the kernel events of `mv a b ; rm b` in the main directory
(`IN_MOVED_FROM` for `a` and `IN_MOVED_TO` for `b` with the cookie 7, then `IN_DELETE` for
`b`), all processed with success, the map holds one record, for `./b`, with `WasDeleted` and
`WasMovedFromAndTo` both set; the drain sends for it one `DELETE` of `./b`. -/
theorem C21_moved_then_deleted_record_has_both_flags :
    (ReadEventsAndIdentifyOperations 1
        [(exampleEnv, exampleEvent IN_MOVED_FROM 7 "a"),
         (exampleEnv, exampleEvent IN_MOVED_TO 7 "b"),
         (exampleEnv, exampleEvent IN_DELETE 0 "b")] exampleState).map
        (fun r => (r.1, r.2.FileInfoHMap.map (fun kv =>
          (kv.1, kv.2.WasDeleted, kv.2.WasMovedFromAndTo, kv.2.OldRelativePath))))
      = some (STATUS_SUCCESS, [("./b", true, true, "./a")]) ∧
    (ReadEventsAndIdentifyOperations 1
        [(exampleEnv, exampleEvent IN_MOVED_FROM 7 "a"),
         (exampleEnv, exampleEvent IN_MOVED_TO 7 "b"),
         (exampleEnv, exampleEvent IN_DELETE 0 "b")] exampleState).bind
        (fun r => (drainState (fun _ => STATUS_SUCCESS) (fun _ => none) "/m" r.2).map
          (fun d => (d.1, d.2.2.map (fun c => (c.opType, c.path)))))
      = some (STATUS_SUCCESS, [(opDELETE, "./b")]) := by
  constructor <;> decide!

/-! ### The movement cookie after the `MOVED_FROM` is superseded -/

/-- C22 (amended): a `FIL_MOVED_FROM` event for a path without a record inserts a record
with `WasMovedFromOnly` set and the cookie of the event; a `MODIFY` or a `CREATE` event for a
path that has a record clears `WasMovedFromOnly` and leaves the movement cookie as it was,
so a record can carry a non-zero cookie with `WasMovedFromOnly` clear. The first three parts
are the whole of `ProcessOperationAndAggregate` for the kernel events of a non-directory
file; the last part is the update of the `MODIFY` and `CREATE` cases themselves, for a file
of any kind. -/
theorem C22_modify_and_create_leave_the_cookie (env : SysEnv) (fuel : Nat) (s : ClientState)
    (hcap : ¬ s.gWatchesArrayCapacity < s.NumberOfWatches) :
    (∀ e : InotifyEvent, passesLinkCheck env s e →
      identifyOperation e.mask = opFILMOVEDFROM →
      mapFind s.FileInfoHMap (eventRelativePathOf s e) = none →
      ∃ (st : SDSTATUS) (r : FILE_INFO), SUCCESS st = true ∧
        ProcessOperationAndAggregate env (fuel + 1) (identifyOperation e.mask) (some e) none s
          = some (st, { s with
              FileInfoHMap := s.FileInfoHMap ++ [(eventRelativePathOf s e, r)] }) ∧
        r.WasMovedFromOnly = true ∧ r.MovementCookie = e.cookie) ∧
    (∀ (e : InotifyEvent) (x : FILE_INFO), passesLinkCheck env s e →
      identifyOperation e.mask = opMODIFY →
      mapFind s.FileInfoHMap (eventRelativePathOf s e) = some x →
      ∃ (st : SDSTATUS) (m1 : FileInfoMap) (r : FILE_INFO), SUCCESS st = true ∧
        ProcessOperationAndAggregate env (fuel + 1) (identifyOperation e.mask) (some e) none s
          = some (st, { s with FileInfoHMap := m1 }) ∧
        mapFind m1 (eventRelativePathOf s e) = some r ∧
        r.WasMovedFromOnly = false ∧ r.MovementCookie = x.MovementCookie) ∧
    (∀ (e : InotifyEvent) (x : FILE_INFO), passesLinkCheck env s e →
      identifyOperation e.mask = opFILCREATE →
      mapFind s.FileInfoHMap (eventRelativePathOf s e) = some x →
      ∃ (st : SDSTATUS) (m1 : FileInfoMap) (r : FILE_INFO), SUCCESS st = true ∧
        ProcessOperationAndAggregate env (fuel + 1) (identifyOperation e.mask) (some e) none s
          = some (st, { s with FileInfoHMap := m1 }) ∧
        mapFind m1 (eventRelativePathOf s e) = some r ∧
        r.WasMovedFromOnly = false ∧ r.MovementCookie = x.MovementCookie) ∧
    (∀ (OperationType : OP_TYPE) (DataOfEvent : Option EVENT_DATA) (ctx : EventContext)
        (t : ClientState) (key : String) (x : FILE_INFO),
      ctx.fileInfoToAggregate = some key → mapFind t.FileInfoHMap key = some x →
      mapFind (aggregateModify DataOfEvent ctx t).2.FileInfoHMap key
        = some { x with WasModified := true, WasDeleted := false,
                        WasMovedFromOnly := false } ∧
      mapFind (aggregateCreate OperationType ctx t).2.FileInfoHMap key
        = some { x with WasCreated := true, WasDeleted := false, WasMovedFromOnly := false,
                        WasMovedFromAndTo := false, WasModified := false }) := by
  refine ⟨?_, ?_, ?_, ?_⟩
  · intro e hl hop ha
    obtain ⟨st, ft, rr, hs, hp⟩ := movedFrom_fresh env fuel e s hcap hl hop ha
    exact ⟨st, _, hs, hp, rfl, rfl⟩
  · intro e x hl hop hf
    obtain ⟨st, g, hs, hg, hp⟩ := modify_existing env fuel e s hcap hl hop
      (by rw [hf]; rfl)
    have hk := keeps_fields g hg x
    refine ⟨st, _,
      { g x with WasModified := true, WasDeleted := false, WasMovedFromOnly := false },
      hs, hp, ?_, rfl, hk.2.2.2.2.2.2.2.2.2⟩
    rw [mapFind_mapModify_same, hf]; rfl
  · intro e x hl hop hf
    obtain ⟨st, g, hs, hg, hp⟩ := filCreate_existing env fuel e s hcap hl hop
      (by rw [hf]; rfl)
    have hk := keeps_fields g hg x
    refine ⟨st, _,
      { g x with WasCreated := true, WasDeleted := false, WasMovedFromOnly := false,
                 WasMovedFromAndTo := false, WasModified := false },
      hs, hp, ?_, rfl, hk.2.2.2.2.2.2.2.2.2⟩
    rw [mapFind_mapModify_same, hf]; rfl
  · intro OperationType DataOfEvent ctx t key x hc hx
    constructor
    · simp only [aggregateModify, hc]
      rw [mapFind_mapModify_same, hx]; rfl
    · simp only [aggregateCreate, hc]
      rw [mapFind_mapModify_same, hx]; rfl

theorem C22_modify_and_create_leave_the_cookie_witness :
    ∃ (st : SDSTATUS) (r : FILE_INFO), SUCCESS st = true ∧
      ProcessOperationAndAggregate exampleEnv 1 opFILMOVEDFROM
          (some (exampleEvent IN_MOVED_FROM 7 "a")) none exampleState
        = some (st, { exampleState with FileInfoHMap := [("./a", r)] }) ∧
      r.WasMovedFromOnly = true ∧ r.MovementCookie = 7 := by
  obtain ⟨st, r, h1, h2, h3, h4⟩ :=
    (C22_modify_and_create_leave_the_cookie exampleEnv 0 exampleState (by decide)).1
      (exampleEvent IN_MOVED_FROM 7 "a") (by unfold passesLinkCheck; decide) (by decide)
      (by decide)
  exact ⟨st, r, h1, h2, h3, h4⟩

/-- C22 (as stated) fails: after the kernel events of a file `a` moved out of the main
directory and a new file `a` created (`IN_MOVED_FROM` for `a` with the cookie 7, then
`IN_CREATE` for `a`), both processed with success, the record for `./a` carries the cookie
7 with `WasMovedFromOnly` clear; the same holds when the second event is `IN_MODIFY`. -/
theorem C22_cookie_outlives_the_moved_from_flag :
    (ReadEventsAndIdentifyOperations 1
        [(exampleEnv, exampleEvent IN_MOVED_FROM 7 "a"),
         (exampleEnv, exampleEvent IN_CREATE 0 "a")] exampleState).map
        (fun r => (r.1, r.2.FileInfoHMap.map (fun kv =>
          (kv.1, kv.2.MovementCookie, kv.2.WasMovedFromOnly))))
      = some (STATUS_SUCCESS, [("./a", 7, false)]) ∧
    (ReadEventsAndIdentifyOperations 1
        [(exampleEnv, exampleEvent IN_MOVED_FROM 7 "a"),
         (exampleEnv, exampleEvent IN_MODIFY 0 "a")] exampleState).map
        (fun r => (r.1, r.2.FileInfoHMap.map (fun kv =>
          (kv.1, kv.2.MovementCookie, kv.2.WasMovedFromOnly))))
      = some (STATUS_SUCCESS, [("./a", 7, false)]) := by
  constructor <;> decide!

/-! ### The kind of a record that exists already -/

theorem processInit_nolink (env : SysEnv) (e : InotifyEvent) (s : ClientState)
    (hcap : ¬ s.gWatchesArrayCapacity < s.NumberOfWatches)
    (hnl : env.lstat (eventFullPathOf s e) ≠ some StatKind.link) :
    processInit env (some e) none s
      = .go (kernelContext s e STATUS_SUCCESS
          (if decide (IN_ISDIR &&& e.mask ≠ 0) = true then ftDIRECTORY else ftNONDIR) "") s := by
  unfold processInit
  rw [eventFields_kernel e s hcap]
  simp only
  rw [if_neg hnl]
  rfl

/-- C29 (the divergence): when the file of a kernel event is not a symbolic link, the
event of a non-directory file (`FIL_CREATE`, `FIL_DELETE`, `MODIFY`, `FIL_MOVED_FROM`) for
a path that has a record leaves the kind of that record as it was, also when that kind is
directory. The last part is the example of the claim: after `IN_DELETE` for the file `x` and
`IN_CREATE` for the directory `x`, both processed with success, the record for `./x` is of
kind non-directory with `WasCreated` set, the drain sends for it a `CREATE` of kind
non-directory, and the command that the server forms for this operation is `touch`, not
`mkdir`. -/
theorem C29_existing_record_keeps_its_kind (env : SysEnv) (fuel : Nat) (e : InotifyEvent)
    (s : ClientState) (x : FILE_INFO)
    (hcap : ¬ s.gWatchesArrayCapacity < s.NumberOfWatches)
    (hnl : env.lstat (eventFullPathOf s e) ≠ some StatKind.link)
    (hop : identifyOperation e.mask = opFILCREATE ∨ identifyOperation e.mask = opFILDELETE ∨
      identifyOperation e.mask = opMODIFY ∨ identifyOperation e.mask = opFILMOVEDFROM)
    (hf : mapFind s.FileInfoHMap (eventRelativePathOf s e) = some x) :
    ∃ (st : SDSTATUS) (m1 : FileInfoMap) (r : FILE_INFO), SUCCESS st = true ∧
      ProcessOperationAndAggregate env (fuel + 1) (identifyOperation e.mask) (some e) none s
        = some (st, { s with FileInfoHMap := m1 }) ∧
      mapFind m1 (eventRelativePathOf s e) = some r ∧
      r.FileType = x.FileType ∧
      (ReadEventsAndIdentifyOperations 10
          [(exampleEnv, exampleEvent IN_DELETE 0 "x"),
           (exampleDirEnv ["/m/x"], exampleEvent (IN_CREATE ||| IN_ISDIR) 0 "x")]
          exampleState).map
          (fun r => (r.1, r.2.FileInfoHMap.map (fun kv =>
            (kv.1, kv.2.FileType, kv.2.WasCreated))))
        = some (STATUS_SUCCESS, [("./x", ftNONDIR, true)]) ∧
      (ReadEventsAndIdentifyOperations 10
          [(exampleEnv, exampleEvent IN_DELETE 0 "x"),
           (exampleDirEnv ["/m/x"], exampleEvent (IN_CREATE ||| IN_ISDIR) 0 "x")]
          exampleState).bind
          (fun r => (drainState (fun _ => STATUS_SUCCESS) (fun _ => none) "/m" r.2).map
            (fun d => (d.1, d.2.2)))
        = some (STATUS_SUCCESS,
            [.Create { OperationType := opCREATE, FileType := ftNONDIR,
                       RelativePathLength := 3, RealRelativePathLength := 0,
                       OldRelativePathLength := 0 } "./x" ""]) ∧
      (RecvAndExecuteOperationFromClient "/srv" exampleServerSys
          (specReceived ""
            (.Create { OperationType := opCREATE, FileType := ftNONDIR,
                       RelativePathLength := 3, RealRelativePathLength := 0,
                       OldRelativePathLength := 0 } "./x" "")) []).shellCommand
        = "rm " ++ quoted "/srv/x" ++ " ; touch " ++ quoted "/srv/x" ++ " " := by
  have hex : (ReadEventsAndIdentifyOperations 10
          [(exampleEnv, exampleEvent IN_DELETE 0 "x"),
           (exampleDirEnv ["/m/x"], exampleEvent (IN_CREATE ||| IN_ISDIR) 0 "x")]
          exampleState).map
          (fun r => (r.1, r.2.FileInfoHMap.map (fun kv =>
            (kv.1, kv.2.FileType, kv.2.WasCreated))))
        = some (STATUS_SUCCESS, [("./x", ftNONDIR, true)]) ∧
      (ReadEventsAndIdentifyOperations 10
          [(exampleEnv, exampleEvent IN_DELETE 0 "x"),
           (exampleDirEnv ["/m/x"], exampleEvent (IN_CREATE ||| IN_ISDIR) 0 "x")]
          exampleState).bind
          (fun r => (drainState (fun _ => STATUS_SUCCESS) (fun _ => none) "/m" r.2).map
            (fun d => (d.1, d.2.2)))
        = some (STATUS_SUCCESS,
            [.Create { OperationType := opCREATE, FileType := ftNONDIR,
                       RelativePathLength := 3, RealRelativePathLength := 0,
                       OldRelativePathLength := 0 } "./x" ""]) ∧
      (RecvAndExecuteOperationFromClient "/srv" exampleServerSys
          (specReceived ""
            (.Create { OperationType := opCREATE, FileType := ftNONDIR,
                       RelativePathLength := 3, RealRelativePathLength := 0,
                       OldRelativePathLength := 0 } "./x" "")) []).shellCommand
        = "rm " ++ quoted "/srv/x" ++ " ; touch " ++ quoted "/srv/x" ++ " " := by
    refine ⟨?_, ?_, ?_⟩ <;> decide!
  have hinit := processInit_nolink env e s hcap hnl
  have hsome : (mapFind s.FileInfoHMap (eventRelativePathOf s e)).isSome = true := by
    rw [hf]; rfl
  rcases hop with hop | hop | hop | hop
  · have hdir := identifyOperation_file e.mask (Or.inl hop)
    rw [hop, process_filCreate_go env fuel e s _ _ hcap (by simpa [kernelContext] using hdir)
      hinit]
    refine ⟨STATUS_SUCCESS,
      mapModify s.FileInfoHMap (eventRelativePathOf s e) (fun fi =>
        { fi with WasCreated := true, WasDeleted := false, WasMovedFromOnly := false,
                  WasMovedFromAndTo := false, WasModified := false }),
      { x with WasCreated := true, WasDeleted := false, WasMovedFromOnly := false,
               WasMovedFromAndTo := false, WasModified := false }, rfl, ?_, ?_, rfl, hex⟩
    · simp [aggregateCreate, kernelContext, hsome, SUCCESS, SUCCESS_KEEP_WARNING]
    · rw [mapFind_mapModify_same, hf]; rfl
  · have hdir := identifyOperation_file e.mask (Or.inr (Or.inl hop))
    rw [hop, process_filDelete_go env fuel e s _ _ hcap (by simpa [kernelContext] using hdir)
      hinit]
    refine ⟨STATUS_SUCCESS,
      mapModify s.FileInfoHMap (eventRelativePathOf s e) (fun fi =>
        { fi with WasDeleted := true }),
      { x with WasDeleted := true }, rfl, ?_, ?_, rfl, hex⟩
    · simp [aggregateDelete, kernelContext, hsome, SUCCESS, SUCCESS_KEEP_WARNING]
    · rw [mapFind_mapModify_same, hf]; rfl
  · rw [hop, process_modify_go env fuel e s _ _ hcap hinit]
    refine ⟨STATUS_SUCCESS,
      mapModify s.FileInfoHMap (eventRelativePathOf s e) (fun fi =>
        { fi with WasModified := true, WasDeleted := false, WasMovedFromOnly := false }),
      { x with WasModified := true, WasDeleted := false, WasMovedFromOnly := false },
      rfl, ?_, ?_, rfl, hex⟩
    · simp [aggregateModify, kernelContext, hsome, SUCCESS, SUCCESS_KEEP_WARNING]
    · rw [mapFind_mapModify_same, hf]; rfl
  · have hdir := identifyOperation_file e.mask (Or.inr (Or.inr (Or.inl hop)))
    rw [hop, process_movedFrom_go env fuel _ e s _ _ hcap (Or.inl rfl) hinit]
    refine ⟨STATUS_SUCCESS,
      mapModify s.FileInfoHMap (eventRelativePathOf s e) (fun fi =>
        { fi with WasMovedFromOnly := true, WasDeleted := false, WasMovedFromAndTo := false,
                  MovementCookie := e.cookie }),
      { x with WasMovedFromOnly := true, WasDeleted := false, WasMovedFromAndTo := false,
               MovementCookie := e.cookie }, rfl, ?_, ?_, rfl, hex⟩
    · simp [aggregateMovedFrom, kernelContext, hsome, hdir, SUCCESS, SUCCESS_KEEP_WARNING]
    · rw [mapFind_mapModify_same, hf]; rfl

theorem C29_existing_record_keeps_its_kind_witness :
    ∃ (st : SDSTATUS) (m1 : FileInfoMap) (r : FILE_INFO), SUCCESS st = true ∧
      ProcessOperationAndAggregate exampleEnv 1 opFILCREATE
          (some (exampleEvent IN_CREATE 0 "a")) none exampleTreeState
        = some (st, { exampleTreeState with FileInfoHMap := m1 }) ∧
      mapFind m1 "./a" = some r ∧ r.FileType = ftDIRECTORY := by
  obtain ⟨st, m1, r, h1, h2, h3, h4, -⟩ :=
    C29_existing_record_keeps_its_kind exampleEnv 0 (exampleEvent IN_CREATE 0 "a")
      exampleTreeState (exampleRecord ftDIRECTORY 0 "a" "./a" true false) (by decide)
      (by decide) (Or.inl (by decide)) (by decide)
  exact ⟨st, m1, r, h1, h2, h3, h4⟩

/-! ### The paths of a subtree after a move -/

theorem nodeAt_heapSet (heap : NodeHeap) (a b : Nat) (n : DIR_WATCH_NODE) :
    nodeAt (heapSet heap a n) (some b)
      = if b = a then (nodeAt heap (some a)).map (fun _ => n) else nodeAt heap (some b) := by
  induction heap with
  | nil => simp [heapSet, nodeAt]
  | cons e rest ih =>
    simp only [heapSet, nodeAt, List.map_cons, List.find?_cons] at ih ⊢
    by_cases hea : e.1 = a
    · by_cases hba : b = a
      · simp [hea, hba]
      · have hb : (a == b) = false := by simpa using (Ne.symm hba)
        simp only [hea, beq_self_eq_true, if_true, hb, if_neg hba]
        rw [ih, if_neg hba]
    · have hb : (e.1 == a) = false := by simpa using hea
      simp only [hb, Bool.false_eq_true, if_false]
      by_cases heb : e.1 = b
      · have hba : ¬ b = a := fun h => hea (heb.trans h)
        simp [heb, hba]
      · have hb2 : (e.1 == b) = false := by simpa using heb
        simp only [hb2]
        exact ih

theorem subtreeNodes_congr (heap heap2 : NodeHeap)
    (h : ∀ x, (nodeAt heap2 (some x)).map (fun n => n.Subdirs)
      = (nodeAt heap (some x)).map (fun n => n.Subdirs)) :
    ∀ (fuel : Nat) (queue : List Nat),
      subtreeNodes heap2 fuel queue = subtreeNodes heap fuel queue := by
  intro fuel
  induction fuel with
  | zero => intro queue; rfl
  | succ k ih =>
    intro queue
    cases queue with
    | nil => rfl
    | cons a qs =>
      rw [subtreeNodes, subtreeNodes]
      have ha := h a
      cases h1 : nodeAt heap (some a) with
      | none =>
        rw [h1] at ha
        cases h2 : nodeAt heap2 (some a) with
        | none => rfl
        | some n2 => rw [h2] at ha; simp at ha
      | some n =>
        rw [h1] at ha
        cases h2 : nodeAt heap2 (some a) with
        | none => rw [h2] at ha; simp at ha
        | some n2 =>
          rw [h2] at ha
          simp only [Option.map_some', Option.some.injEq] at ha
          simp only [ha, ih]

theorem subtreeNodes_live (heap : NodeHeap) :
    ∀ (fuel : Nat) (queue order : List Nat), subtreeNodes heap fuel queue = some order →
      ∀ x ∈ order, (nodeAt heap (some x)).isSome = true := by
  intro fuel
  induction fuel with
  | zero => intro queue order h; simp [subtreeNodes] at h
  | succ k ih =>
    intro queue order h
    cases queue with
    | nil =>
      simp only [subtreeNodes, Option.some.injEq] at h
      subst h
      simp
    | cons a qs =>
      rw [subtreeNodes] at h
      cases h1 : nodeAt heap (some a) with
      | none => rw [h1] at h; simp at h
      | some n =>
        rw [h1] at h
        simp only [Option.map_eq_some'] at h
        obtain ⟨rest, hrest, rfl⟩ := h
        intro x hx
        rcases List.mem_cons.1 hx with rfl | hx
        · rw [h1]; rfl
        · exact ih _ _ hrest x hx

theorem heapSet_depth_nodeAt (heap : NodeHeap) (a : Nat) (n : DIR_WATCH_NODE) (d : Nat)
    (h1 : nodeAt heap (some a) = some n) (x : Nat) :
    nodeAt (heapSet heap a { n with Depth := d }) (some x)
      = if x = a then some { n with Depth := d } else nodeAt heap (some x) := by
  rw [nodeAt_heapSet, h1]
  rfl

theorem heapSet_depth_index (heap : NodeHeap) (a : Nat) (n : DIR_WATCH_NODE) (d : Nat)
    (h1 : nodeAt heap (some a) = some n) (o : Option Nat) :
    nodeIndex (heapSet heap a { n with Depth := d }) o = nodeIndex heap o := by
  cases o with
  | none => rfl
  | some x =>
    unfold nodeIndex
    rw [heapSet_depth_nodeAt heap a n d h1 x]
    by_cases hx : x = a
    · subst hx
      rw [if_pos rfl, h1]
      rfl
    · rw [if_neg hx]

theorem heapSet_depth_parent (heap : NodeHeap) (a : Nat) (n : DIR_WATCH_NODE) (d : Nat)
    (h1 : nodeAt heap (some a) = some n) (o : Option Nat) :
    nodeParent (heapSet heap a { n with Depth := d }) o = nodeParent heap o := by
  cases o with
  | none => rfl
  | some x =>
    unfold nodeParent
    rw [heapSet_depth_nodeAt heap a n d h1 x]
    by_cases hx : x = a
    · subst hx
      rw [if_pos rfl, h1]
      rfl
    · rw [if_neg hx]

theorem heapSet_depth_subdirs (heap : NodeHeap) (a : Nat) (n : DIR_WATCH_NODE) (d : Nat)
    (h1 : nodeAt heap (some a) = some n) (x : Nat) :
    (nodeAt (heapSet heap a { n with Depth := d }) (some x)).map (fun m => m.Subdirs)
      = (nodeAt heap (some x)).map (fun m => m.Subdirs) := by
  rw [heapSet_depth_nodeAt heap a n d h1 x]
  by_cases hx : x = a
  · subst hx
    rw [if_pos rfl, h1]
    rfl
  · rw [if_neg hx]

/-- The loop of `UpdatePathsForSubTreeWatches` on a queue whose subtrees are listed by
`order`: it returns with success; a registry entry that no node of `order` names and a node
outside `order` are as before; every node of `order` has the depth of its parent plus 1 and
its registry entry has the paths of the entry of its parent followed by `/` and its name. -/
theorem updatePathsLoop_spec :
    ∀ (fuel : Nat) (queue order : List Nat) (s : ClientState),
      subtreeNodes s.heap fuel queue = some order →
      order.Nodup →
      (order.map (fun x => nodeIndex s.heap (some x))).Nodup →
      (∀ q ∈ queue,
        (nodeAt s.heap (nodeParent s.heap (some q))).isSome = true ∧
        (∀ p, nodeParent s.heap (some q) = some p → p ∉ order) ∧
        nodeIndex s.heap (nodeParent s.heap (some q))
          ∉ order.map (fun x => nodeIndex s.heap (some x))) →
      (∀ x ∈ order, ∀ n, nodeAt s.heap (some x) = some n →
        ∀ b ∈ n.Subdirs, nodeParent s.heap (some b) = some x) →
      ∃ s2, updatePathsLoop fuel queue s = some (STATUS_SUCCESS, s2) ∧
        s2.NumberOfWatches = s.NumberOfWatches ∧
        s2.FileInfoHMap = s.FileInfoHMap ∧
        (∀ j, j ∉ order.map (fun x => nodeIndex s.heap (some x)) →
          watchAt s2.Watches j = watchAt s.Watches j) ∧
        (∀ b, b ∉ order → nodeAt s2.heap (some b) = nodeAt s.heap (some b)) ∧
        (∀ x ∈ order, ∃ n, nodeAt s.heap (some x) = some n ∧
          nodeAt s2.heap (some x)
            = some { n with Depth := (nodeDepth s2.heap n.Parent + 1) % 2 ^ 32 } ∧
          watchAt s2.Watches n.DirWatchIndex
            = { watchAt s.Watches n.DirWatchIndex with
                DirRelativePath :=
                  (watchAt s2.Watches (nodeIndex s2.heap n.Parent)).DirRelativePath
                    ++ "/" ++ n.DirName
                DirFullPath :=
                  (watchAt s2.Watches (nodeIndex s2.heap n.Parent)).DirFullPath
                    ++ "/" ++ n.DirName }) := by
  intro fuel
  induction fuel with
  | zero => intro queue order s h; simp [subtreeNodes] at h
  | succ k ih =>
    intro queue order s hsub hnd hidx hq hkids
    cases queue with
    | nil =>
      simp only [subtreeNodes, Option.some.injEq] at hsub
      subst hsub
      exact ⟨s, rfl, rfl, rfl, fun _ _ => rfl, fun _ _ => rfl, by simp⟩
    | cons a qs =>
      rw [subtreeNodes] at hsub
      cases h1 : nodeAt s.heap (some a) with
      | none => rw [h1] at hsub; simp at hsub
      | some n =>
        rw [h1] at hsub
        simp only [Option.map_eq_some'] at hsub
        obtain ⟨rest, hrest, rfl⟩ := hsub
        have hpa : nodeParent s.heap (some a) = n.Parent := by
          unfold nodeParent; rw [h1]; rfl
        obtain ⟨hplive, hpout, hpidx⟩ := hq a (by simp)
        rw [hpa] at hplive hpout hpidx
        cases h2 : nodeAt s.heap n.Parent with
        | none => rw [h2] at hplive; simp at hplive
        | some pn =>
          have hia : nodeIndex s.heap (some a) = n.DirWatchIndex := by
            unfold nodeIndex; rw [h1]; rfl
          have hip : nodeIndex s.heap n.Parent = pn.DirWatchIndex := by
            unfold nodeIndex; rw [h2]; rfl
          rw [hip] at hpidx
          simp only [List.map_cons, List.mem_cons, not_or, hia] at hpidx
          simp only [List.map_cons, List.nodup_cons, hia] at hidx
          rw [List.nodup_cons] at hnd
          -- the state after the node `a` is handled
          let d := (pn.Depth + 1) % 2 ^ 32
          let ws1 := setWatch s.Watches n.DirWatchIndex
            { watchAt s.Watches n.DirWatchIndex with
              DirRelativePath :=
                (watchAt s.Watches pn.DirWatchIndex).DirRelativePath ++ "/" ++ n.DirName }
          let ws2 := setWatch ws1 n.DirWatchIndex
            { watchAt ws1 n.DirWatchIndex with
              DirFullPath := (watchAt ws1 pn.DirWatchIndex).DirFullPath ++ "/" ++ n.DirName }
          let s1 : ClientState :=
            { s with Watches := ws2, heap := heapSet s.heap a { n with Depth := d } }
          have hstep : updatePathsLoop (k + 1) (a :: qs) s
              = updatePathsLoop k (qs ++ n.Subdirs) s1 := by
            rw [updatePathsLoop]
            simp only [h1, h2]
          have hN : ∀ x, nodeAt s1.heap (some x)
              = if x = a then some { n with Depth := d } else nodeAt s.heap (some x) :=
            heapSet_depth_nodeAt s.heap a n d h1
          have hI : ∀ o, nodeIndex s1.heap o = nodeIndex s.heap o :=
            heapSet_depth_index s.heap a n d h1
          have hP : ∀ o, nodeParent s1.heap o = nodeParent s.heap o :=
            heapSet_depth_parent s.heap a n d h1
          have hsub1 : subtreeNodes s1.heap k (qs ++ n.Subdirs) = some rest := by
            rw [subtreeNodes_congr s.heap s1.heap (heapSet_depth_subdirs s.heap a n d h1)]
            exact hrest
          have hidx1 : (rest.map (fun x => nodeIndex s1.heap (some x))).Nodup := by
            simp only [hI]; exact hidx.2
          have hpne : ∀ p, n.Parent = some p → p ≠ a := by
            intro p hp hpa2
            exact hpout p hp (by rw [hpa2]; simp)
          have hq1 : ∀ q ∈ qs ++ n.Subdirs,
              (nodeAt s1.heap (nodeParent s1.heap (some q))).isSome = true ∧
              (∀ p, nodeParent s1.heap (some q) = some p → p ∉ rest) ∧
              nodeIndex s1.heap (nodeParent s1.heap (some q))
                ∉ rest.map (fun x => nodeIndex s1.heap (some x)) := by
            intro q hqm
            simp only [hP, hI]
            rcases List.mem_append.1 hqm with hqm | hqm
            · obtain ⟨c1, c2, c3⟩ := hq q (List.mem_cons_of_mem _ hqm)
              refine ⟨?_, ?_, ?_⟩
              · cases hpq : nodeParent s.heap (some q) with
                | none => rw [hpq] at c1; simp [nodeAt] at c1
                | some p =>
                  rw [hpq] at c1
                  rw [hN p]
                  split
                  · rfl
                  · exact c1
              · intro p hp hpr
                exact c2 p hp (List.mem_cons_of_mem _ hpr)
              · intro hmem
                apply c3
                simp only [List.map_cons, List.mem_cons]
                exact Or.inr hmem
            · have hb := hkids a (by simp) n h1 q hqm
              rw [hb]
              refine ⟨?_, ?_, ?_⟩
              · rw [hN a, if_pos rfl]; rfl
              · intro p hp
                cases hp
                exact hnd.1
              · rw [hia]
                exact hidx.1
          have hkids1 : ∀ x ∈ rest, ∀ m, nodeAt s1.heap (some x) = some m →
              ∀ b ∈ m.Subdirs, nodeParent s1.heap (some b) = some x := by
            intro x hx m hm b hb
            rw [hP]
            have hxa : x ≠ a := fun h => hnd.1 (h ▸ hx)
            rw [hN x, if_neg hxa] at hm
            exact hkids x (List.mem_cons_of_mem _ hx) m hm b hb
          obtain ⟨s2, hloop, hnw, hfi, hwf, hhf, hpost⟩ :=
            ih (qs ++ n.Subdirs) rest s1 hsub1 hnd.2 hidx1 hq1 hkids1
          simp only [hI] at hwf hpost
          -- the registry after the step
          have hws2 : ∀ j, watchAt ws2 j
              = if j = n.DirWatchIndex then
                  { watchAt s.Watches n.DirWatchIndex with
                    DirRelativePath :=
                      (watchAt s.Watches pn.DirWatchIndex).DirRelativePath ++ "/" ++ n.DirName
                    DirFullPath :=
                      (watchAt s.Watches pn.DirWatchIndex).DirFullPath ++ "/" ++ n.DirName }
                else watchAt s.Watches j := by
            intro j
            show watchAt (setWatch ws1 n.DirWatchIndex _) j = _
            rw [watchAt_setWatch]
            by_cases hj : j = n.DirWatchIndex
            · rw [if_pos hj, if_pos hj]
              show ({ watchAt (setWatch s.Watches n.DirWatchIndex _) n.DirWatchIndex with
                DirFullPath := (watchAt (setWatch s.Watches n.DirWatchIndex _)
                  pn.DirWatchIndex).DirFullPath ++ "/" ++ n.DirName } : DIR_WATCH) = _
              rw [watchAt_setWatch, watchAt_setWatch, if_pos rfl, if_neg hpidx.1]
            · rw [if_neg hj, if_neg hj]
              show watchAt (setWatch s.Watches n.DirWatchIndex _) j = _
              rw [watchAt_setWatch, if_neg hj]
          refine ⟨s2, hstep.trans hloop, hnw, hfi, ?_, ?_, ?_⟩
          · intro j hj
            simp only [List.map_cons, List.mem_cons, not_or, hia] at hj
            rw [hwf j hj.2]
            show watchAt ws2 j = _
            rw [hws2 j, if_neg hj.1]
          · intro b hb
            simp only [List.mem_cons, not_or] at hb
            rw [hhf b hb.2, hN b, if_neg hb.1]
          · intro x hx
            rcases List.mem_cons.1 hx with rfl | hx
            · refine ⟨n, h1, ?_, ?_⟩
              · rw [hhf x hnd.1, hN x, if_pos rfl]
                have hdp : nodeDepth s2.heap n.Parent = pn.Depth := by
                  cases hpp : n.Parent with
                  | none => rw [hpp] at h2; simp [nodeAt] at h2
                  | some p =>
                    unfold nodeDepth
                    rw [hhf p (fun h => hpout p hpp (List.mem_cons_of_mem _ h)), hN p,
                      if_neg (hpne p hpp), ← hpp, h2]
                    rfl
                rw [hdp]
              · have hip2 : nodeIndex s2.heap n.Parent = pn.DirWatchIndex := by
                  cases hpp : n.Parent with
                  | none => rw [hpp] at h2; simp [nodeAt] at h2
                  | some p =>
                    unfold nodeIndex
                    rw [hhf p (fun h => hpout p hpp (List.mem_cons_of_mem _ h)), hN p,
                      if_neg (hpne p hpp), ← hpp, h2]
                    rfl
                have hwp : watchAt s2.Watches pn.DirWatchIndex
                    = watchAt s.Watches pn.DirWatchIndex := by
                  rw [hwf _ hpidx.2]
                  show watchAt ws2 _ = _
                  rw [hws2, if_neg hpidx.1]
                rw [hip2, hwp, hwf _ hidx.1]
                show watchAt ws2 _ = _
                rw [hws2, if_pos rfl]
            · obtain ⟨m, hm1, hm2, hm3⟩ := hpost x hx
              have hxa : x ≠ a := fun h => hnd.1 (h ▸ hx)
              rw [hN x, if_neg hxa] at hm1
              refine ⟨m, hm1, hm2, ?_⟩
              rw [hm3]
              have hmi : m.DirWatchIndex ≠ n.DirWatchIndex := by
                intro h
                apply hidx.1
                rw [← h]
                exact List.mem_map.2 ⟨x, hx, by unfold nodeIndex; rw [hm1]; rfl⟩
              have : watchAt s1.Watches m.DirWatchIndex = watchAt s.Watches m.DirWatchIndex := by
                show watchAt ws2 _ = _
                rw [hws2, if_neg hmi]
              rw [this]

/-- C27: let the subtree of the watch node `a` be finite and a tree (its breadth-first
listing `order` exists and names no node twice), let `a` have a live parent outside the
subtree (the node is re-parented), let every child in the subtree point back to its parent,
and let the registry indices of the parent and of the nodes of the subtree differ from one
another. Then `UpdatePathsForSubTreeWatches` returns with success, and afterwards every node
of the subtree (`a` included) has the depth of its parent plus 1 (as a `DWORD`) and a
registry entry whose relative and absolute paths are those of the entry of its parent
followed by `/` and the name of the node, its descriptor and node link being as before;
no registry entry outside the subtree and no node outside the subtree is changed. -/
theorem C27_rederived_paths_follow_the_parent (fuel : Nat) (a : Nat) (s : ClientState)
    (order : List Nat)
    (hsub : subtreeNodes s.heap fuel [a] = some order)
    (hnd : order.Nodup)
    (hplive : (nodeAt s.heap (nodeParent s.heap (some a))).isSome = true)
    (hpout : ∀ p ∈ nodeParent s.heap (some a), p ∉ order)
    (hkids : ∀ x ∈ order, ∀ b ∈ nodeSubdirs s.heap (some x),
      nodeParent s.heap (some b) = some x)
    (hidx : (nodeIndex s.heap (nodeParent s.heap (some a))
      :: order.map (fun x => nodeIndex s.heap (some x))).Nodup) :
    ∃ s2, UpdatePathsForSubTreeWatches fuel (some a) s = some (STATUS_SUCCESS, s2) ∧
      s2.NumberOfWatches = s.NumberOfWatches ∧
      s2.FileInfoHMap = s.FileInfoHMap ∧
      (∀ j, j ∉ order.map (fun x => nodeIndex s.heap (some x)) →
        watchAt s2.Watches j = watchAt s.Watches j) ∧
      (∀ b, b ∉ order → nodeAt s2.heap (some b) = nodeAt s.heap (some b)) ∧
      (∀ x ∈ order, ∃ n, nodeAt s.heap (some x) = some n ∧
        nodeAt s2.heap (some x)
          = some { n with Depth := (nodeDepth s2.heap n.Parent + 1) % 2 ^ 32 } ∧
        watchAt s2.Watches n.DirWatchIndex
          = { watchAt s.Watches n.DirWatchIndex with
              DirRelativePath :=
                (watchAt s2.Watches (nodeIndex s2.heap n.Parent)).DirRelativePath
                  ++ "/" ++ n.DirName
              DirFullPath :=
                (watchAt s2.Watches (nodeIndex s2.heap n.Parent)).DirFullPath
                  ++ "/" ++ n.DirName }) := by
  rw [List.nodup_cons] at hidx
  unfold UpdatePathsForSubTreeWatches
  simp only
  apply updatePathsLoop_spec fuel [a] order s hsub hnd hidx.2
  · intro q hq
    have : q = a := by simpa using hq
    subst this
    exact ⟨hplive, fun p hp => hpout p (by rw [hp]; rfl), hidx.1⟩
  · intro x hx n hn b hb
    apply hkids x hx b
    unfold nodeSubdirs
    rw [hn]
    exact hb

theorem C27_rederived_paths_follow_the_parent_witness :
    ∃ s2, UpdatePathsForSubTreeWatches 3 (some 1) exampleRenamedState
        = some (STATUS_SUCCESS, s2) ∧
      s2.NumberOfWatches = exampleRenamedState.NumberOfWatches ∧
      s2.FileInfoHMap = exampleRenamedState.FileInfoHMap ∧
      (∀ j, j ∉ [1, 3].map (fun x => nodeIndex exampleRenamedState.heap (some x)) →
        watchAt s2.Watches j = watchAt exampleRenamedState.Watches j) ∧
      (∀ b, b ∉ [1, 3] →
        nodeAt s2.heap (some b) = nodeAt exampleRenamedState.heap (some b)) ∧
      (∀ x ∈ [1, 3], ∃ n, nodeAt exampleRenamedState.heap (some x) = some n ∧
        nodeAt s2.heap (some x)
          = some { n with Depth := (nodeDepth s2.heap n.Parent + 1) % 2 ^ 32 } ∧
        watchAt s2.Watches n.DirWatchIndex
          = { watchAt exampleRenamedState.Watches n.DirWatchIndex with
              DirRelativePath :=
                (watchAt s2.Watches (nodeIndex s2.heap n.Parent)).DirRelativePath
                  ++ "/" ++ n.DirName
              DirFullPath :=
                (watchAt s2.Watches (nodeIndex s2.heap n.Parent)).DirFullPath
                  ++ "/" ++ n.DirName }) :=
  C27_rederived_paths_follow_the_parent 3 1 exampleRenamedState [1, 3] (by decide)
    (by decide) (by decide) (by decide) (by decide) (by decide)

/-- The registry of the examples after the paths are rederived: the entries of the renamed
directory and of its subdirectory have the paths `./b`, `/m/b` and `./b/c`, `/m/b/c`. The
same registry results when the rename arrives as kernel events (`IN_MOVED_FROM` for `a` and
`IN_MOVED_TO` for `b`, for a directory, with the cookie 7). -/
theorem renamed_directory_example :
    (UpdatePathsForSubTreeWatches 3 (some 1) exampleRenamedState).map
        (fun r => (r.1, r.2.Watches.map (fun w => (w.DirRelativePath, w.DirFullPath))))
      = some (STATUS_SUCCESS, [(".", "/m"), ("./b", "/m/b"), ("./b/c", "/m/b/c")]) ∧
    (ReadEventsAndIdentifyOperations 10
        [(exampleTreeEnv, exampleEvent (IN_MOVED_FROM ||| IN_ISDIR) 7 "a"),
         (exampleTreeEnv, exampleEvent (IN_MOVED_TO ||| IN_ISDIR) 7 "b")]
        exampleTreeState).map
        (fun r => (r.1, r.2.Watches.map (fun w => (w.DirRelativePath, w.DirFullPath))))
      = some (STATUS_SUCCESS, [(".", "/m"), ("./b", "/m/b"), ("./b/c", "/m/b/c")]) := by
  constructor <;> decide!

end SyncDir
